import Mathlib

/-!
# Descent 3 game-state restore (`Descent3/loadstate.cpp`)

A shallow embedding of the restore pipeline: the sequential save-file cursor,
the translation-table builder `LGSXlateTables`, the mission activation
`LGSMission` and the orchestrator `LoadGameState`.

Conventions.
* C integers are `Int`; a conversion to a 16-bit variable is written `toShort`
  / `toUShort` where the source performs it.
* A run of a restorer is an `Except Fault _`: `Fault.shortRead` is the cursor's
  short-read signal (no restorer handles it, the run does not reach a `return`),
  `Fault.outOfRange` is a store or load outside an array (undefined behaviour in C).
* Debug-only statements (`Int3`, `ASSERT`, `mprintf`, `START_VERIFY_SAVEFILE`,
  `END_VERIFY_SAVEFILE`) have no effect on the restored state and are left out.
-/

namespace Descent3

/-! ## The binary cursor -/

/-- A C string as held in a `char` buffer: the bytes before the terminating NUL. -/
abbrev Name := List Nat

/-- The ways a run can leave the defined behaviour of the program. -/
inductive Fault where
  | shortRead
  | outOfRange
  deriving DecidableEq, Repr

/-- The save-file cursor `CFILE *`: the bytes not yet read, the number of bytes
consumed so far, and whether `cfclose` has been called on it. -/
structure CFILE where
  data : List Nat
  pos : Nat
  closed : Bool
  deriving DecidableEq, Repr

/-- Modelled from the spec: `cf_ReadBytes` of CFILE.H (not in the source tree),
"readBytes(n) -> bytes | ShortRead"; sequential, the cursor moves past the bytes. -/
def cf_ReadBytes (count : Nat) (fp : CFILE) : Except Fault (List Nat × CFILE) :=
  if count ≤ fp.data.length then
    .ok ((fp.data.take count).map (fun b => b % 256),
         { fp with data := fp.data.drop count, pos := fp.pos + count })
  else .error .shortRead

/-- Value of a little-endian byte sequence. -/
def leNat : List Nat → Nat
  | [] => 0
  | b :: bs => b + 256 * leNat bs

/-- Two's-complement reading of the low `bits` bits of `v`. -/
def toSigned (bits : Nat) (v : Nat) : Int :=
  if v % 2 ^ bits < 2 ^ (bits - 1) then Int.ofNat (v % 2 ^ bits)
  else Int.ofNat (v % 2 ^ bits) - Int.ofNat (2 ^ bits)

/-- Conversion of a C `int` to `short`. -/
def toShort (v : Int) : Int := (v + 32768) % 65536 - 32768

/-- Conversion of a C `int` to `ushort`. -/
def toUShort (v : Int) : Int := v % 65536

/-- Modelled from the spec: `cf_ReadByte` of CFILE.H, a fixed-width scalar read
(one byte, returned unsigned; the caller's variable type decides the reading). -/
def cf_ReadByte (fp : CFILE) : Except Fault (Nat × CFILE) :=
  match cf_ReadBytes 1 fp with
  | .ok (bs, fp1) => .ok (leNat bs, fp1)
  | .error e => .error e

/-- Modelled from the spec: `cf_ReadShort` of CFILE.H, a fixed-width scalar read
(two bytes, low byte first, signed). -/
def cf_ReadShort (fp : CFILE) : Except Fault (Int × CFILE) :=
  match cf_ReadBytes 2 fp with
  | .ok (bs, fp1) => .ok (toSigned 16 (leNat bs), fp1)
  | .error e => .error e

/-- Modelled from the spec: `cf_ReadInt` of CFILE.H, a fixed-width scalar read
(four bytes, low byte first, signed). -/
def cf_ReadInt (fp : CFILE) : Except Fault (Int × CFILE) :=
  match cf_ReadBytes 4 fp with
  | .ok (bs, fp1) => .ok (toSigned 32 (leNat bs), fp1)
  | .error e => .error e

/-- Modelled from the spec: `cf_ReadFloat` of CFILE.H, a fixed-width scalar read
(four bytes); the value is carried as its bit pattern. -/
def cf_ReadFloat (fp : CFILE) : Except Fault (Nat × CFILE) :=
  match cf_ReadBytes 4 fp with
  | .ok (bs, fp1) => .ok (leNat bs, fp1)
  | .error e => .error e

/-- The decoder behind `cf_ReadString` (CFILE.H, not in the source tree), taken as a
parameter: from the buffer size and the unread bytes it gives the C string placed in
the buffer and the number of bytes consumed, or nothing on a short read. -/
abbrev StringReader := Nat → List Nat → Option (Name × Nat)

/-- The call `cf_ReadString(buf, n, fp)` through a given decoder. -/
def cf_ReadString (rd : StringReader) (n : Nat) (fp : CFILE) : Except Fault (Name × CFILE) :=
  match rd n fp.data with
  | some (s, k) =>
    if k ≤ fp.data.length then
      .ok (s, { fp with data := fp.data.drop k, pos := fp.pos + k })
    else .error .shortRead
  | none => .error .shortRead

/-- Modelled from the spec: "readLengthPrefixedString(maxLen) -> string", one decoder
for `cf_ReadString`: a length byte `L`, then `L` bytes of which the buffer keeps what
precedes the first NUL, at most `maxLen - 1` characters. -/
def lengthPrefixedString : StringReader := fun maxLen bytes =>
  match bytes with
  | [] => none
  | len :: rest =>
    let l := len % 256
    if l ≤ rest.length then
      some ((((rest.take l).map (fun b => b % 256)).takeWhile (fun b => b != 0)).take (maxLen - 1), l + 1)
    else none

/-- The call `cfclose(fp)`. -/
def cfclose (fp : CFILE) : CFILE := { fp with closed := true }

/-! ## Translation tables (`LGSXlateTables`) -/

/-- Return codes `LGS_*` of gamesave.h (not in the source tree): distinct named codes. -/
inductive LGS where
  | OK
  | FILENOTFOUND
  | OUTDATEDVER
  | STARTLVLFAILED
  | MISSIONFAILED
  | OBJECTSCORRUPT
  | CORRUPTLEVEL
  deriving DecidableEq, Repr

/-- The store `_table[i] = v` into an array of `t.length` elements. -/
def tableWrite (t : List Int) (i : Int) (v : Int) : Except Fault (List Int) :=
  if 0 ≤ i ∧ i < t.length then .ok (t.set i.toNat v) else .error .outOfRange

/-- The load `_table[i]` from an array of `t.length` elements. -/
def tableRead (t : List Int) (i : Int) : Except Fault Int :=
  if 0 ≤ i ∧ i < t.length then .ok (t.getD i.toNat 0) else .error .outOfRange

/-- The value stored for a lookup result: `index = _fn(name)` into the `short index`,
then `(index == -1) ? 0 : index`. -/
def xlateValue (fn : Name → Int) (name : Name) : Int :=
  if toShort (fn name) = -1 then 0 else toShort (fn name)

/-- First loop of `BUILD_XLATE_TABLE`: `for (i = 0; i < num; i++)`, by recursion on
the number of iterations left; the body reads a name into `char name[64]`, looks it
up and stores the result in slot `i`. -/
def xlateLoop (rd : StringReader) (fn : Name → Int) :
    Nat → Int → List Int → CFILE → Except Fault (List Int × CFILE)
  | 0, _, t, fp => .ok (t, fp)
  | k + 1, i, t, fp =>
    match cf_ReadString rd 64 fp with
    | .error e => .error e
    | .ok (name, fp1) =>
      match tableWrite t i (xlateValue fn name) with
      | .error e => .error e
      | .ok t1 => xlateLoop rd fn k (i + 1) t1 fp1

/-- Second loop of `BUILD_XLATE_TABLE`: `for (; i < _maxtable; i++) _table[i] = 0`,
by recursion on the number of iterations left. -/
def zeroFill : Nat → Int → List Int → Except Fault (List Int)
  | 0, _, t => .ok t
  | k + 1, i, t =>
    match tableWrite t i 0 with
    | .error e => .error e
    | .ok t1 => zeroFill k (i + 1) t1

/-- The `BUILD_XLATE_TABLE(_table, _maxtable, _fn)` statement: read the declared count
into `short num`, fill slots `0 .. num-1` from the names, zero the slots up to
`_maxtable`. (`i` is a `short`: `_maxtable` is at most 32767 in every use.) -/
def BUILD_XLATE_TABLE (rd : StringReader) (table : List Int) (maxtable : Nat)
    (fn : Name → Int) (fp : CFILE) : Except Fault (List Int × CFILE) :=
  match cf_ReadShort fp with
  | .error e => .error e
  | .ok (num, fp1) =>
    match xlateLoop rd fn num.toNat 0 table fp1 with
    | .error e => .error e
    | .ok (t1, fp2) =>
      match zeroFill (maxtable - num.toNat) (Int.ofNat num.toNat) t1 with
      | .error e => .error e
      | .ok t2 => .ok (t2, fp2)

/-- The `do { ... } while(1)` loop of `BUILD_MINI_XLATE_TABLE`. Every iteration reads a
16-bit ordinal, so the loop body runs at most `data.length / 2` times before a read
runs short; `fuel` only makes the recursion structural. -/
def miniLoop (rd : StringReader) (fn : Name → Int) :
    Nat → List Int → CFILE → Except Fault (List Int × CFILE)
  | 0, _, _ => .error .shortRead
  | fuel + 1, t, fp =>
    match cf_ReadShort fp with
    | .error e => .error e
    | .ok (i, fp1) =>
      match cf_ReadString rd 64 fp1 with
      | .error e => .error e
      | .ok (name, fp2) =>
        if i = -1 ∧ name.headD 0 = 0 then .ok (t, fp2)
        else
          match tableWrite t i (xlateValue fn name) with
          | .error e => .error e
          | .ok t1 => miniLoop rd fn fuel t1 fp2

/-- The `BUILD_MINI_XLATE_TABLE(_table, _fn)` statement: `memset` the table to zero,
then read `(ordinal, name)` pairs until the sentinel. -/
def BUILD_MINI_XLATE_TABLE (rd : StringReader) (table : List Int)
    (fn : Name → Int) (fp : CFILE) : Except Fault (List Int × CFILE) :=
  miniLoop rd fn (fp.data.length / 2 + 1) (List.replicate table.length 0) fp

/-- The constant `MAX_SHIPS` of ship.h. -/
def MAX_SHIPS : Nat := 30

/-- What `LGSXlateTables` takes from outside loadstate.cpp: the string decoder, the
table sizes (the `MAX_*` constants other than `MAX_SHIPS` are not in the source tree)
and the "find index by name" lookup of each content kind, which returns -1 when the
name is not found. -/
structure Content where
  rd : StringReader
  MAX_OBJECT_IDS : Nat
  MAX_POLY_MODELS : Nat
  MAX_DOORS : Nat
  MAX_WEAPONS : Nat
  MAX_TEXTURES : Nat
  MAX_BITMAPS : Nat
  FindObjectIDName : Name → Int
  FindPolyModelName : Name → Int
  FindDoorName : Name → Int
  FindShipName : Name → Int
  FindWeaponName : Name → Int
  FindTextureName : Name → Int
  bm_FindBitmapName : Name → Int

/-- The scratch structure `gs_tables` (gamesave.h, not in the source tree): one array
per content kind. -/
structure gs_tables where
  obji_indices : List Int
  model_handles : List Int
  door_handles : List Int
  ship_handles : List Int
  wpn_handles : List Int
  tex_handles : List Int
  bm_handles : List Int
  deriving DecidableEq, Repr

/-- The restorer `LGSXlateTables(fp)`: the six dense tables in their fixed order, then the sparse
bitmap table; `retval` is never changed from `LGS_OK`. -/
def LGSXlateTables (c : Content) (gs : gs_tables) (fp : CFILE) :
    Except Fault (LGS × gs_tables × CFILE) :=
  let retval := LGS.OK
  match BUILD_XLATE_TABLE c.rd gs.obji_indices c.MAX_OBJECT_IDS c.FindObjectIDName fp with
  | .error e => .error e
  | .ok (t1, fp1) =>
  match BUILD_XLATE_TABLE c.rd gs.model_handles c.MAX_POLY_MODELS c.FindPolyModelName fp1 with
  | .error e => .error e
  | .ok (t2, fp2) =>
  match BUILD_XLATE_TABLE c.rd gs.door_handles c.MAX_DOORS c.FindDoorName fp2 with
  | .error e => .error e
  | .ok (t3, fp3) =>
  match BUILD_XLATE_TABLE c.rd gs.ship_handles MAX_SHIPS c.FindShipName fp3 with
  | .error e => .error e
  | .ok (t4, fp4) =>
  match BUILD_XLATE_TABLE c.rd gs.wpn_handles c.MAX_WEAPONS c.FindWeaponName fp4 with
  | .error e => .error e
  | .ok (t5, fp5) =>
  match BUILD_XLATE_TABLE c.rd gs.tex_handles c.MAX_TEXTURES c.FindTextureName fp5 with
  | .error e => .error e
  | .ok (t6, fp6) =>
  match BUILD_MINI_XLATE_TABLE c.rd gs.bm_handles c.bm_FindBitmapName fp6 with
  | .error e => .error e
  | .ok (t7, fp7) =>
    .ok (retval,
         { obji_indices := t1, model_handles := t2, door_handles := t3, ship_handles := t4,
           wpn_handles := t5, tex_handles := t6, bm_handles := t7 },
         fp7)

/-! ## The orchestrator (`LoadGameState`) and mission activation (`LGSMission`) -/

/-- The sections restored after the active-doorway list, in their fixed order. -/
inductive Section where
  | rooms
  | triggers
  | objects
  | players
  | matcens
  | viseffects
  | spew
  | osiris
  | levelgoals
  | gamemessages
  | hud
  deriving DecidableEq, Repr

/-- Position of a section in the fixed order. -/
def Section.rank : Section → Nat
  | .rooms => 0
  | .triggers => 1
  | .objects => 2
  | .players => 3
  | .matcens => 4
  | .viseffects => 5
  | .spew => 6
  | .osiris => 7
  | .levelgoals => 8
  | .gamemessages => 9
  | .hud => 10

/-- What a section's restorer handed back to `LoadGameState`: an `LGS_*` code, a
`bool`, or nothing (a `void` call or an ignored result). -/
inductive Outcome where
  | code (c : LGS)
  | flag (b : Bool)
  | void
  deriving DecidableEq, Repr

/-- The calls `LoadGameState` and `LGSMission` make, as recorded in the call log:
collaborators outside loadstate.cpp, and the section restorers with their outcome. -/
inductive Call where
  | bm_FreeBitmap (handle : Int)
  | FreeScriptsForLevel
  | Osiris_DisableCreateEvents
  | Osiris_EnableCreateEvents
  | LoadMission (msnname : Name) (ok : Bool)
  | SetCurrentLevel (level : Int)
  | mng_LoadAddonPages
  | InitPlayerNewShip
  | InitCameraViews
  | LoadAndStartCurrentLevel (ok : Bool)
  | D3MusicSetRegion (region : Int)
  | restore (s : Section) (o : Outcome)
  | PageInAllData
  | IncrementPilotRestoredGamesForMission
  deriving DecidableEq, Repr

/-- The globals `LoadGameState`, `LGSMission` and `IncreaseRestoreCount` assign
themselves. `countFiles` is the content written to the ".cnt" files. -/
structure Globals where
  IsRestoredGame : Bool
  gs_Xlates : Option gs_tables
  Times_game_restored : Int
  countFiles : List (Name × Int)
  Player_num : Int
  ship_index : Int
  game_state_flags : Int
  Gametime : Nat
  FrameCount : Int
  Current_waypoint : Int
  Weather : List Nat
  Num_active_doorways : Int
  Active_doorways : List Int
  deriving DecidableEq, Repr

/-- The process state `LoadGameState` works on: the globals it assigns itself, the log
of the calls it makes, and `ext`, the rest of the live world, which only the
collaborators and the section restorers touch. -/
structure World (σ : Type) where
  g : Globals
  log : List Call
  ext : σ

/-- A section restorer of loadstate.cpp as `LoadGameState` sees it: it reads the cursor
and the translation tables, changes the live world and returns an `LGS_*` code. -/
abbrev Restorer (σ : Type) := CFILE → gs_tables → σ → Except Fault (LGS × CFILE × σ)

/-- What `LoadGameState` takes from outside: the constants of gamesave.h and the other
headers, the file system, the collaborators, and the section restorers. Every theorem
about `LoadGameState` holds for all of them. -/
structure Env (σ : Type) extends Content where
  GAMESAVE_DESCLEN : Nat
  GAMESAVE_OLDVER : Int
  PSPATHNAME_LEN : Nat
  sizeof_Weather : Nat
  uninit : Int
  cfopen : Name → Option CFILE
  cfopen_wb : Name → Bool
  effect : Call → σ → σ
  bm_AllocLoadBitmap : CFILE → σ → Except Fault (Int × CFILE × σ)
  LoadMission : Name → σ → Bool
  LoadAndStartCurrentLevel : σ → Bool
  LGSRooms : Restorer σ
  LGSTriggers : Restorer σ
  LGSObjects : Int → Restorer σ
  LGSPlayers : Restorer σ
  LGSMatcens : Restorer σ
  LGSVisEffects : Restorer σ
  LGSSpew : Restorer σ
  Osiris_RestoreSystemState : CFILE → σ → Except Fault (Bool × CFILE × σ)
  LoadLevelGoalInfo : CFILE → σ → Except Fault (CFILE × σ)
  LGSGameMessages : CFILE → σ → Except Fault (CFILE × σ)
  LGSHudState : CFILE → σ → Except Fault (Bool × CFILE × σ)

/-- A call to a collaborator: it is logged and has the collaborator's effect on the
rest of the world. -/
def call {σ : Type} (env : Env σ) (c : Call) (w : World σ) : World σ :=
  { w with log := w.log ++ [c], ext := env.effect c w.ext }

/-- The freshly allocated `new gs_tables`: arrays of the declared sizes with
indeterminate content. -/
def gs_tables.alloc (c : Content) (junk : Int) : gs_tables :=
  { obji_indices := List.replicate c.MAX_OBJECT_IDS junk
    model_handles := List.replicate c.MAX_POLY_MODELS junk
    door_handles := List.replicate c.MAX_DOORS junk
    ship_handles := List.replicate MAX_SHIPS junk
    wpn_handles := List.replicate c.MAX_WEAPONS junk
    tex_handles := List.replicate c.MAX_TEXTURES junk
    bm_handles := List.replicate c.MAX_BITMAPS junk }

/-- The arrays of a `gs_tables` have their declared sizes. -/
def gs_tables.sized (c : Content) (gs : gs_tables) : Prop :=
  gs.obji_indices.length = c.MAX_OBJECT_IDS ∧ gs.model_handles.length = c.MAX_POLY_MODELS ∧
  gs.door_handles.length = c.MAX_DOORS ∧ gs.ship_handles.length = MAX_SHIPS ∧
  gs.wpn_handles.length = c.MAX_WEAPONS ∧ gs.tex_handles.length = c.MAX_TEXTURES ∧
  gs.bm_handles.length = c.MAX_BITMAPS

instance (c : Content) (gs : gs_tables) : Decidable (gs.sized c) := by
  unfold gs_tables.sized
  infer_instance

/-- The suffix `".cnt"`. -/
def dot_cnt : Name := [46, 99, 110, 116]

/-- The function `IncreaseRestoreCount(file)`: read the count from the sibling file when
it opens (0 otherwise), add one, write it back when the file opens for writing. -/
def IncreaseRestoreCount {σ : Type} (env : Env σ) (file : Name) (w : World σ) :
    Except Fault (World σ) :=
  let countpath := file ++ dot_cnt
  let readCount : Except Fault Int :=
    match env.cfopen countpath with
    | some cfp =>
      match cf_ReadInt cfp with
      | .ok (n, _) => .ok n
      | .error e => .error e
    | none => .ok 0
  match readCount with
  | .error e => .error e
  | .ok n =>
    let w1 := { w with g.Times_game_restored := n + 1 }
    if env.cfopen_wb countpath then
      .ok { w1 with g.countFiles := (countpath, n + 1) :: w1.g.countFiles }
    else .ok w1

/-- The function `LGSSnapshot(fp)`: the snapshot byte, then the preview bitmap when it is
set; returns the bitmap handle, -1 without a preview. -/
def LGSSnapshot {σ : Type} (env : Env σ) (fp : CFILE) (ext : σ) :
    Except Fault (Int × CFILE × σ) :=
  match cf_ReadByte fp with
  | .error e => .error e
  | .ok (valid_snapshot, fp1) =>
    if valid_snapshot ≠ 0 then env.bm_AllocLoadBitmap fp1 ext else .ok (-1, fp1, ext)

/-- The ship name `DEFAULT_SHIP`, "Pyro-GL" (ship.h). -/
def DEFAULT_SHIP : Name := [80, 121, 114, 111, 45, 71, 76]

/-- The function `LGSMission(msnname, level)`: free the level scripts, disable the
script create-events, load the mission and start the level, enable the create-events
again on each of the three ways out. -/
def LGSMission {σ : Type} (env : Env σ) (msnname : Name) (level : Int) (w : World σ) :
    LGS × World σ :=
  let w := call env .FreeScriptsForLevel w
  let w := call env .Osiris_DisableCreateEvents w
  let loaded := env.LoadMission msnname w.ext
  let w := call env (.LoadMission msnname loaded) w
  if loaded then
    let w := call env (.SetCurrentLevel level) w
    let w := { w with g.Player_num := 0 }
    let w := { w with g.ship_index := env.FindShipName DEFAULT_SHIP }
    let w := call env .mng_LoadAddonPages w
    let w := call env .InitPlayerNewShip w
    let w := call env .InitCameraViews w
    let started := env.LoadAndStartCurrentLevel w.ext
    let w := call env (.LoadAndStartCurrentLevel started) w
    if !started then
      let w := call env .Osiris_EnableCreateEvents w
      (LGS.STARTLVLFAILED, w)
    else
      let w := call env .Osiris_EnableCreateEvents w
      (LGS.OK, w)
  else
    let w := call env .Osiris_EnableCreateEvents w
    (LGS.MISSIONFAILED, w)

/-- ASCII `tolower` of the C runtime. -/
def tolower (ch : Nat) : Nat := if 65 ≤ ch ∧ ch ≤ 90 then ch + 32 else ch

/-- The `strcmpi` of the C runtime: comparison ignoring ASCII letter case; 0 exactly
when the two strings agree up to case. -/
def strcmpi : Name → Name → Int
  | [], [] => 0
  | [], _ :: _ => -1
  | _ :: _, [] => 1
  | a :: as, b :: bs =>
    if tolower a = tolower b then strcmpi as bs
    else Int.ofNat (tolower a) - Int.ofNat (tolower b)

/-- The file name "d3.mn3". -/
def d3_mn3 : Name := [100, 51, 46, 109, 110, 51]

/-- The file name "d3_2.mn3". -/
def d3_2_mn3 : Name := [100, 51, 95, 50, 46, 109, 110, 51]

/-- The mission path after
`if ((curlevel > 4) && (strcmpi(path,"d3.mn3")==0)) strcpy(path,"d3_2.mn3");`. -/
def missionPath (curlevel : Int) (path : Name) : Name :=
  if curlevel > 4 ∧ strcmpi path d3_mn3 = 0 then d3_2_mn3 else path

/-- The loop `for (d = 0; d < num_active_dw; d++) Active_doorways[d] = cf_ReadInt(fp)`,
by recursion on the number of iterations left. -/
def readActiveDoorways : Nat → Int → List Int → CFILE → Except Fault (List Int × CFILE)
  | 0, _, t, fp => .ok (t, fp)
  | k + 1, d, t, fp =>
    match cf_ReadInt fp with
    | .error e => .error e
    | .ok (v, fp1) =>
      match tableWrite t d v with
      | .error e => .error e
      | .ok t1 => readActiveDoorways k (d + 1) t1 fp1

/-- How far a stage of `LoadGameState` got: it fell through to the next statement with
its locals, or it reached `loadsg_error` with `retval` set (a `goto`, or the end of the
function body). -/
inductive Flow (α : Type) (σ : Type) where
  | next (locals : α) (fp : CFILE) (w : World σ)
  | exit (retval : LGS) (fp : CFILE) (w : World σ)

/-- The world a stage left behind. -/
def Flow.world {α σ : Type} : Flow α σ → World σ
  | .next _ _ w => w
  | .exit _ _ w => w

/-- First stage of `LoadGameState` (source lines 126-150): allocate the tables, read
the description and the version, the version gate, the preview, the translation
tables. The locals handed on are `version` and the tables. -/
def LoadGameState_header {σ : Type} (env : Env σ) (fp : CFILE) (w : World σ) :
    Except Fault (Flow (Int × gs_tables) σ) :=
  let gs := gs_tables.alloc env.toContent env.uninit
  let w := { w with g.gs_Xlates := some gs }
  match cf_ReadBytes (env.GAMESAVE_DESCLEN + 1) fp with
  | .error e => .error e
  | .ok (_, fp1) =>
  match cf_ReadShort fp1 with
  | .error e => .error e
  | .ok (v, fp2) =>
  let version := toUShort v
  if version < env.GAMESAVE_OLDVER then .ok (.exit LGS.OUTDATEDVER fp2 w)
  else
  match LGSSnapshot env fp2 w.ext with
  | .error e => .error e
  | .ok (bm, fp3, ext3) =>
  let w := { w with ext := ext3 }
  let w := if bm > 0 then call env (.bm_FreeBitmap bm) w else w
  match LGSXlateTables env.toContent gs fp3 with
  | .error e => .error e
  | .ok (retval, gs4, fp4) =>
  let w := { w with g.gs_Xlates := some gs4 }
  if retval ≠ LGS.OK then .ok (.exit retval fp4 w)
  else .ok (.next (version, gs4) fp4 w)

/-- Second stage of `LoadGameState` (source lines 153-198): the level selector with the
campaign rewrite, `LGSMission`, the scalar globals, the weather block and the active
doorways. -/
def LoadGameState_level {σ : Type} (env : Env σ) (pathname : Name) (fp : CFILE)
    (w : World σ) : Except Fault (Flow Unit σ) :=
  match cf_ReadShort fp with
  | .error e => .error e
  | .ok (cl, fp1) =>
  let curlevel := toUShort cl
  match cf_ReadString env.rd env.PSPATHNAME_LEN fp1 with
  | .error e => .error e
  | .ok (path0, fp2) =>
  let path := missionPath curlevel path0
  let mission := LGSMission env path curlevel w
  let retval := mission.1
  let w := mission.2
  if retval ≠ LGS.OK then .ok (.exit retval fp2 w)
  else
  match cf_ReadInt fp2 with
  | .error e => .error e
  | .ok (flags, fp3) =>
  let w := { w with g.game_state_flags := flags }
  match IncreaseRestoreCount env pathname w with
  | .error e => .error e
  | .ok w =>
  match cf_ReadFloat fp3 with
  | .error e => .error e
  | .ok (gametime, fp4) =>
  let w := { w with g.Gametime := gametime }
  match cf_ReadInt fp4 with
  | .error e => .error e
  | .ok (framecount, fp5) =>
  let w := { w with g.FrameCount := framecount }
  match cf_ReadInt fp5 with
  | .error e => .error e
  | .ok (waypoint, fp6) =>
  let w := { w with g.Current_waypoint := waypoint }
  match cf_ReadShort fp6 with
  | .error e => .error e
  | .ok (pending_music_region, fp7) =>
  let w := call env (.D3MusicSetRegion pending_music_region) w
  match cf_ReadInt fp7 with
  | .error e => .error e
  | .ok (weather_size, fp8) =>
  if weather_size ≠ Int.ofNat env.sizeof_Weather then .ok (.exit LGS.OUTDATEDVER fp8 w)
  else
  match cf_ReadBytes env.sizeof_Weather fp8 with
  | .error e => .error e
  | .ok (weather, fp9) =>
  let w := { w with g.Weather := weather }
  match cf_ReadInt fp9 with
  | .error e => .error e
  | .ok (num_active_dw, fp10) =>
  match cf_ReadInt fp10 with
  | .error e => .error e
  | .ok (n_active, fp11) =>
  let w := { w with g.Num_active_doorways := n_active }
  match readActiveDoorways num_active_dw.toNat 0 w.g.Active_doorways fp11 with
  | .error e => .error e
  | .ok (doorways, fp12) =>
  let w := { w with g.Active_doorways := doorways }
  .ok (.next () fp12 w)

/-- The call of a section restorer that returns an `LGS_*` code: the code goes into
`retval`, the call into the log. -/
def restoreSection {σ : Type} (s : Section) (r : Restorer σ) (gs : gs_tables)
    (fp : CFILE) (w : World σ) : Except Fault (LGS × CFILE × World σ) :=
  match r fp gs w.ext with
  | .error e => .error e
  | .ok (retval, fp1, ext1) =>
    .ok (retval, fp1, { w with ext := ext1, log := w.log ++ [Call.restore s (.code retval)] })

/-- Third stage of `LoadGameState` (source lines 200-246): the section restorers in
their fixed order, each followed by its `goto loadsg_error` test. The result is
`retval`, the cursor and the world on arrival at `loadsg_error`. -/
def LoadGameState_sections {σ : Type} (env : Env σ) (version : Int) (gs : gs_tables)
    (fp : CFILE) (w : World σ) : Except Fault (LGS × CFILE × World σ) :=
  match restoreSection .rooms env.LGSRooms gs fp w with
  | .error e => .error e
  | .ok (retval, fp, w) =>
  if retval ≠ LGS.OK then .ok (retval, fp, w)
  else
  match restoreSection .triggers env.LGSTriggers gs fp w with
  | .error e => .error e
  | .ok (retval, fp, w) =>
  if retval ≠ LGS.OK then .ok (retval, fp, w)
  else
  match restoreSection .objects (env.LGSObjects version) gs fp w with
  | .error e => .error e
  | .ok (retval, fp, w) =>
  if retval ≠ LGS.OK then .ok (retval, fp, w)
  else
  match restoreSection .players env.LGSPlayers gs fp w with
  | .error e => .error e
  | .ok (retval, fp, w) =>
  if retval ≠ LGS.OK then .ok (retval, fp, w)
  else
  match restoreSection .matcens env.LGSMatcens gs fp w with
  | .error e => .error e
  | .ok (retval, fp, w) =>
  if retval ≠ LGS.OK then .ok (retval, fp, w)
  else
  match restoreSection .viseffects env.LGSVisEffects gs fp w with
  | .error e => .error e
  | .ok (retval, fp, w) =>
  if retval ≠ LGS.OK then .ok (retval, fp, w)
  else
  match restoreSection .spew env.LGSSpew gs fp w with
  | .error e => .error e
  | .ok (retval, fp, w) =>
  if retval ≠ LGS.OK then .ok (retval, fp, w)
  else
  match env.Osiris_RestoreSystemState fp w.ext with
  | .error e => .error e
  | .ok (restored, fp, ext) =>
  let w := { w with ext := ext, log := w.log ++ [Call.restore .osiris (.flag restored)] }
  if !restored then .ok (retval, fp, w)
  else
  match env.LoadLevelGoalInfo fp w.ext with
  | .error e => .error e
  | .ok (fp, ext) =>
  let w := { w with ext := ext, log := w.log ++ [Call.restore .levelgoals .void] }
  match env.LGSGameMessages fp w.ext with
  | .error e => .error e
  | .ok (fp, ext) =>
  let w := { w with ext := ext, log := w.log ++ [Call.restore .gamemessages .void] }
  match env.LGSHudState fp w.ext with
  | .error e => .error e
  | .ok (hud, fp, ext) =>
  let w := { w with ext := ext, log := w.log ++ [Call.restore .hud (.flag hud)] }
  if !hud then .ok (LGS.OBJECTSCORRUPT, fp, w)
  else .ok (retval, fp, w)

/-- The statements from the label `loadsg_error` to `return retval` (source lines
248-261): free the tables, close the cursor, page everything in. -/
def loadsg_error {σ : Type} (env : Env σ) (retval : LGS) (fp : CFILE) (w : World σ) :
    LGS × Option CFILE × World σ :=
  let w := { w with g.gs_Xlates := none }
  let fp := cfclose fp
  let w := call env .PageInAllData w
  let w := call env .IncrementPilotRestoredGamesForMission w
  (retval, some fp, w)

/-- The body of `LoadGameState` between the successful `cfopen` and the label
`loadsg_error`: the three stages in sequence. -/
def LoadGameState_body {σ : Type} (env : Env σ) (pathname : Name) (fp : CFILE)
    (w : World σ) : Except Fault (LGS × CFILE × World σ) :=
  match LoadGameState_header env fp w with
  | .error e => .error e
  | .ok (.exit retval fp1 w1) => .ok (retval, fp1, w1)
  | .ok (.next (version, gs) fp1 w1) =>
    match LoadGameState_level env pathname fp1 w1 with
    | .error e => .error e
    | .ok (.exit retval fp2 w2) => .ok (retval, fp2, w2)
    | .ok (.next _ fp2 w2) => LoadGameState_sections env version gs fp2 w2

/-- The function `LoadGameState(pathname)`: the return code, the cursor if one was opened, and the
world on return. -/
def LoadGameState {σ : Type} (env : Env σ) (pathname : Name) (w : World σ) :
    Except Fault (LGS × Option CFILE × World σ) :=
  let w := { w with g.IsRestoredGame := true }
  match env.cfopen pathname with
  | none => .ok (LGS.FILENOTFOUND, none, w)
  | some fp =>
    match LoadGameState_body env pathname fp w with
    | .error e => .error e
    | .ok (retval, fp1, w1) => .ok (loadsg_error env retval fp1 w1)

/-! ## Reading the stream by sections (specification side)

The definitions below describe what a stream holds, independently of the restorers:
they are what the theorems compare the restorers with. -/

/-- The next `k` names of the stream. -/
def readNames (rd : StringReader) : Nat → CFILE → Except Fault (List Name × CFILE)
  | 0, fp => .ok ([], fp)
  | k + 1, fp =>
    match cf_ReadString rd 64 fp with
    | .error e => .error e
    | .ok (name, fp1) =>
      match readNames rd k fp1 with
      | .error e => .error e
      | .ok (names, fp2) => .ok (name :: names, fp2)

/-- One dense table section: the declared count, then that many names. -/
def readDense (rd : StringReader) (fp : CFILE) : Except Fault ((Int × List Name) × CFILE) :=
  match cf_ReadShort fp with
  | .error e => .error e
  | .ok (num, fp1) =>
    match readNames rd num.toNat fp1 with
    | .error e => .error e
    | .ok (names, fp2) => .ok ((num, names), fp2)

/-- The cursor after `n` dense table sections. -/
def skipDense (rd : StringReader) : Nat → CFILE → Except Fault CFILE
  | 0, fp => .ok fp
  | n + 1, fp =>
    match readDense rd fp with
    | .error e => .error e
    | .ok (_, fp1) => skipDense rd n fp1

/-- The content kinds with a dense table, in the order `LGSXlateTables` reads them. -/
inductive DenseKind where
  | obji
  | model
  | door
  | ship
  | wpn
  | tex
  deriving DecidableEq, Repr

/-- Number of dense sections that precede the section of a kind. -/
def DenseKind.rank : DenseKind → Nat
  | .obji => 0
  | .model => 1
  | .door => 2
  | .ship => 3
  | .wpn => 4
  | .tex => 5

/-- Maximum table size of a kind. -/
def DenseKind.maxtable (c : Content) : DenseKind → Nat
  | .obji => c.MAX_OBJECT_IDS
  | .model => c.MAX_POLY_MODELS
  | .door => c.MAX_DOORS
  | .ship => MAX_SHIPS
  | .wpn => c.MAX_WEAPONS
  | .tex => c.MAX_TEXTURES

/-- The lookup of a kind. -/
def DenseKind.find (c : Content) : DenseKind → Name → Int
  | .obji => c.FindObjectIDName
  | .model => c.FindPolyModelName
  | .door => c.FindDoorName
  | .ship => c.FindShipName
  | .wpn => c.FindWeaponName
  | .tex => c.FindTextureName

/-- The table of a kind. -/
def DenseKind.table (gs : gs_tables) : DenseKind → List Int
  | .obji => gs.obji_indices
  | .model => gs.model_handles
  | .door => gs.door_handles
  | .ship => gs.ship_handles
  | .wpn => gs.wpn_handles
  | .tex => gs.tex_handles

/-- The dense section of kind `k` in a translation-table block that starts at `fp`:
its declared count and its names. -/
def denseSection (rd : StringReader) (k : DenseKind) (fp : CFILE) :
    Except Fault (Int × List Name) :=
  match skipDense rd k.rank fp with
  | .error e => .error e
  | .ok fpk =>
    match readDense rd fpk with
    | .error e => .error e
    | .ok (x, _) => .ok x

/-- The declared count of the dense section of kind `k`, when the stream reaches it. -/
def declaredCount (rd : StringReader) (k : DenseKind) (fp : CFILE) : Option Int :=
  match skipDense rd k.rank fp with
  | .error _ => none
  | .ok fpk =>
    match cf_ReadShort fpk with
    | .error _ => none
    | .ok (num, _) => some num

/-- Every dense section the stream reaches declares at most its table's maximum size. -/
def countsInRange (c : Content) (fp : CFILE) : Bool :=
  [DenseKind.obji, .model, .door, .ship, .wpn, .tex].all fun k =>
    match declaredCount c.rd k fp with
    | some num => decide (num ≤ k.maxtable c)
    | none => true

/-- One `(ordinal, name)` pair of the sparse encoding. -/
def readPair (rd : StringReader) (fp : CFILE) : Except Fault ((Int × Name) × CFILE) :=
  match cf_ReadShort fp with
  | .error e => .error e
  | .ok (i, fp1) =>
    match cf_ReadString rd 64 fp1 with
    | .error e => .error e
    | .ok (name, fp2) => .ok ((i, name), fp2)

/-- The sentinel pair: ordinal -1 and an empty name. -/
def isSentinel (p : Int × Name) : Prop := p.1 = -1 ∧ p.2.headD 0 = 0

instance (p : Int × Name) : Decidable (isSentinel p) := by
  unfold isSentinel
  infer_instance

/-- The cursor after exactly the pairs `ps`, when that is what the stream holds at `fp`. -/
def skipPairs (rd : StringReader) : List (Int × Name) → CFILE → Option CFILE
  | [], fp => some fp
  | p :: ps, fp =>
    match readPair rd fp with
    | .ok (q, fp1) => if q = p then skipPairs rd ps fp1 else none
    | .error _ => none

/-- The stream at `fp` lists the pairs `ps`, none of them a sentinel, and then a sentinel
pair: the result is the cursor right after that first sentinel. -/
def pairsThenSentinel (rd : StringReader) (ps : List (Int × Name)) (fp : CFILE) :
    Option CFILE :=
  if ∀ p ∈ ps, ¬ isSentinel p then
    match skipPairs rd ps fp with
    | none => none
    | some fp1 =>
      match readPair rd fp1 with
      | .error _ => none
      | .ok (s, fp2) => if isSentinel s then some fp2 else none
  else none

/-- The sparse section of a translation-table block that starts at `fp` lists the pairs
`ps` before its sentinel: the result is the cursor after the block. -/
def sparseSection (rd : StringReader) (ps : List (Int × Name)) (fp : CFILE) : Option CFILE :=
  match skipDense rd 6 fp with
  | .error _ => none
  | .ok fp6 => pairsThenSentinel rd ps fp6

/-- The name listed last for ordinal `o`. -/
def lastListed : List (Int × Name) → Int → Option Name
  | [], _ => none
  | (i, nm) :: ps, o =>
    match lastListed ps o with
    | some n => some n
    | none => if i = o then some nm else none

/-- The table after the stores of the listed pairs, in order. -/
def applyPairs (fn : Name → Int) (ps : List (Int × Name)) (t : List Int) : List Int :=
  ps.foldl (fun acc p => acc.set p.1.toNat (xlateValue fn p.2)) t

/-- Every pair the stream lists at `fp` before the first sentinel (or before the stream
runs short) has an ordinal within `0 .. M-1`. At most `fuel` pairs are looked at. -/
def pairsInRange (rd : StringReader) (M : Nat) : Nat → CFILE → Bool
  | 0, _ => true
  | fuel + 1, fp =>
    match readPair rd fp with
    | .error _ => true
    | .ok (p, fp1) =>
      if isSentinel p then true
      else decide (0 ≤ p.1 ∧ p.1 < M) && pairsInRange rd M fuel fp1

/-- Every ordinal the sparse section lists is within the bitmap table. -/
def sparseInRange (c : Content) (fp : CFILE) : Bool :=
  match skipDense c.rd 6 fp with
  | .error _ => true
  | .ok fp6 => pairsInRange c.rd c.MAX_BITMAPS (fp6.data.length / 2 + 1) fp6

/-! ## Remapping a saved ordinal (`LGSRooms`, `LGSObjects`) -/

/-- The unguarded remap `gs_Xlates->table[index]` (entity id, face texture). -/
def xlateDirect (t : List Int) (index : Int) : Except Fault Int := tableRead t index

/-- The guarded remap `(index > -1) ? gs_Xlates->table[index] : -1` (fireball bitmap,
model, dying model, texture override, shard texture). -/
def xlateGuarded (t : List Int) (index : Int) : Except Fault Int :=
  if index > -1 then tableRead t index else .ok (-1)

/-! ## Observing a run -/

/-- The code a run returned, if it returned. -/
def returned {α : Type} (r : Except Fault (LGS × α)) : Option LGS :=
  match r with
  | .ok (c, _) => some c
  | .error _ => none

/-- The fault that ended a run, if one did. -/
def faultOf {α : Type} (r : Except Fault α) : Option Fault :=
  match r with
  | .ok _ => none
  | .error e => some e

/-- The calls a run of `LoadGameState` added to the log of the world `w` it started in. -/
def newCalls {σ : Type} (w : World σ) (r : Except Fault (LGS × Option CFILE × World σ)) :
    List Call :=
  match r with
  | .ok (_, _, w1) => w1.log.drop w.log.length
  | .error _ => []

/-- The cursor a run of `LoadGameState` left behind. -/
def finalCursor {σ : Type} (r : Except Fault (LGS × Option CFILE × World σ)) : Option CFILE :=
  match r with
  | .ok (_, fp, _) => fp
  | .error _ => none

/-- The cursor at the level selector of the save that `pathname` opens: where the
first stage of `LoadGameState` leaves the cursor when it falls through to the second. -/
def selectorCursor {σ : Type} (env : Env σ) (pathname : Name) (w : World σ) : Option CFILE :=
  match env.cfopen pathname with
  | none => none
  | some fp =>
    match LoadGameState_header env fp { w with g.IsRestoredGame := true } with
    | .ok (.next _ fpS _) => some fpS
    | _ => none

/-- The calls `LGSMission(msnname, level)` makes, given what `LoadMission` and
`LoadAndStartCurrentLevel` answer. -/
def LGSMission_calls (msnname : Name) (level : Int) (loaded started : Bool) : List Call :=
  [.FreeScriptsForLevel, .Osiris_DisableCreateEvents, .LoadMission msnname loaded] ++
    (if loaded then
      [.SetCurrentLevel level, .mng_LoadAddonPages, .InitPlayerNewShip, .InitCameraViews,
       .LoadAndStartCurrentLevel started, .Osiris_EnableCreateEvents]
     else [.Osiris_EnableCreateEvents])

/-- The log entries of the sections that precede rank `n` among the seven that return
an `LGS_*` code, when each returned `LGS_OK`. -/
def okSections (n : Nat) : List Call :=
  ([Section.rooms, .triggers, .objects, .players, .matcens, .viseffects, .spew].filter
    fun s => decide (s.rank < n)).map fun s => Call.restore s (.code LGS.OK)

/-- The tables after a run of `LGSXlateTables`. -/
def builtTables (r : Except Fault (LGS × gs_tables × CFILE)) : Option gs_tables :=
  match r with
  | .ok (_, gs, _) => some gs
  | .error _ => none

/-! ## A small world to run the restore in -/

/-- A section restorer that reads nothing and succeeds. -/
def okRestorer : Restorer Unit := fun fp _ u => .ok (LGS.OK, fp, u)

/-- A section restorer that reads nothing and fails with the given code. -/
def failRestorer (c : LGS) : Restorer Unit := fun fp _ u => .ok (c, fp, u)

/-- The name "A". -/
def nameA : Name := [65]

/-- The name "B". -/
def nameB : Name := [66]

/-- An environment with small tables in which the name "A" is ship 5 and bitmap 3, no
other name is known, no file opens and every collaborator succeeds. -/
def demoEnv : Env Unit :=
  { rd := lengthPrefixedString
    MAX_OBJECT_IDS := 2
    MAX_POLY_MODELS := 2
    MAX_DOORS := 2
    MAX_WEAPONS := 2
    MAX_TEXTURES := 2
    MAX_BITMAPS := 4
    FindObjectIDName := fun _ => -1
    FindPolyModelName := fun _ => -1
    FindDoorName := fun _ => -1
    FindShipName := fun n => if n = nameA then 5 else -1
    FindWeaponName := fun _ => -1
    FindTextureName := fun _ => -1
    bm_FindBitmapName := fun n => if n = nameA then 3 else -1
    GAMESAVE_DESCLEN := 3
    GAMESAVE_OLDVER := 1
    PSPATHNAME_LEN := 16
    sizeof_Weather := 2
    uninit := 77
    cfopen := fun _ => none
    cfopen_wb := fun _ => false
    effect := fun _ u => u
    bm_AllocLoadBitmap := fun fp u => .ok (-1, fp, u)
    LoadMission := fun _ _ => true
    LoadAndStartCurrentLevel := fun _ => true
    LGSRooms := okRestorer
    LGSTriggers := okRestorer
    LGSObjects := fun _ => okRestorer
    LGSPlayers := okRestorer
    LGSMatcens := okRestorer
    LGSVisEffects := okRestorer
    LGSSpew := okRestorer
    Osiris_RestoreSystemState := fun fp u => .ok (true, fp, u)
    LoadLevelGoalInfo := fun fp u => .ok (fp, u)
    LGSGameMessages := fun fp u => .ok (fp, u)
    LGSHudState := fun fp u => .ok (true, fp, u) }

/-- The translation-table block of the demo save: empty object, model and door tables,
a ship table listing "A" and "B", empty weapon and texture tables, and a sparse bitmap
table listing ordinal 1 as "A" and ordinal 2 as "B". -/
def demoTables : List Nat :=
  [0, 0, 0, 0, 0, 0, 2, 0, 1, 65, 1, 66, 0, 0, 0, 0,
   1, 0, 1, 65, 2, 0, 1, 66, 255, 255, 0]

/-- What follows the level selector in the demo save: flags, game time, frame count,
waypoint, music region, a two-byte weather block and an empty active-doorway list. -/
def demoRest : List Nat :=
  [0, 0, 0, 0, 0, 0, 0, 0, 0, 0, 0, 0, 0, 0, 0, 0, 0, 0, 2, 0, 0, 0, 7, 7,
   0, 0, 0, 0, 0, 0, 0, 0]

/-- A demo save: description, the given version, no preview, the demo tables, the level
selector with the given level and mission path (at most 255 bytes), the rest. -/
def demoSave (version level : Nat) (path : Name) : CFILE :=
  { data := [0, 0, 0, 0, version, 0, 0] ++ demoTables ++ [level, 0, path.length] ++ path
      ++ demoRest
    pos := 0
    closed := false }

/-- The cursor at the translation-table block of a demo save. -/
def demoTablesFile : CFILE := { data := demoTables, pos := 7, closed := false }

/-- The tables `LGSXlateTables` builds from the demo block. -/
def demoTablesBuilt : gs_tables :=
  { obji_indices := [0, 0]
    model_handles := [0, 0]
    door_handles := [0, 0]
    ship_handles := 5 :: List.replicate 29 0
    wpn_handles := [0, 0]
    tex_handles := [0, 0]
    bm_handles := [0, 3, 0, 0] }

/-- The cursor after the translation-table block of a demo save. -/
def demoTablesEnd : CFILE := { data := [], pos := 34, closed := false }

/-- The world before the restore. -/
def demoWorld : World Unit :=
  { g :=
      { IsRestoredGame := false
        gs_Xlates := none
        Times_game_restored := 0
        countFiles := []
        Player_num := 0
        ship_index := 0
        game_state_flags := 0
        Gametime := 0
        FrameCount := 0
        Current_waypoint := 0
        Weather := []
        Num_active_doorways := 0
        Active_doorways := [] }
    log := []
    ext := () }

/-- The demo environment with a save file that opens. -/
def demoEnvWith (save : CFILE) : Env Unit :=
  { demoEnv with cfopen := fun _ => some save }

/-- The save file opens, and the script host rejects its blob. -/
def demoEnvOsirisFails (save : CFILE) : Env Unit :=
  { demoEnv with
    cfopen := fun _ => some save
    Osiris_RestoreSystemState := fun fp u => .ok (false, fp, u) }

/-- The save file opens, and the object restorer reports corrupt objects. -/
def demoEnvObjectsFail (save : CFILE) : Env Unit :=
  { demoEnv with
    cfopen := fun _ => some save
    LGSObjects := fun _ => failRestorer LGS.OBJECTSCORRUPT }

/-- The file name "D3.MN3". -/
def D3_MN3_upper : Name := [68, 51, 46, 77, 78, 51]

/-- A translation-table block whose ship table declares 31 names, one more than
`MAX_SHIPS`, and holds them all. -/
def overfullTablesFile : CFILE :=
  { data :=
      [0, 0, 0, 0, 0, 0, 31, 0, 1, 65, 1, 65, 1, 65, 1, 65, 1, 65, 1, 65, 1, 65, 1, 65,
       1, 65, 1, 65, 1, 65, 1, 65, 1, 65, 1, 65, 1, 65, 1, 65, 1, 65, 1, 65, 1, 65, 1,
       65, 1, 65, 1, 65, 1, 65, 1, 65, 1, 65, 1, 65, 1, 65, 1, 65, 1, 65, 1, 65, 1, 65,
       0, 0, 0, 0, 255, 255, 0]
    pos := 7
    closed := false }

/-- A translation-table block with empty dense tables whose sparse section lists the
ordinal -2 with the name "A" before its sentinel. -/
def negativeOrdinalTablesFile : CFILE :=
  { data := [0, 0, 0, 0, 0, 0, 0, 0, 0, 0, 0, 0, 254, 255, 1, 65, 255, 255, 0]
    pos := 7
    closed := false }

/-! ## Statements of a restorer

The section restorers are sequences of reads from the cursor and stores into the live
world, left early by a `return` or a `goto`. A statement is run on the cursor and the
state; it falls through with a value, or leaves through a label, or the run faults. -/

/-- The 32-bit pattern of a C `int`. -/
def bits32 (v : Int) : Nat := (v % 4294967296).toNat

/-- The C expression `a & b` on `int`s. -/
def and32 (a b : Int) : Int := toSigned 32 (Nat.land (bits32 a) (bits32 b))

/-- The C expression `a | b` on `int`s. -/
def or32 (a b : Int) : Int := toSigned 32 (Nat.lor (bits32 a) (bits32 b))

/-- The C expression `~a` on an `int`. -/
def not32 (a : Int) : Int := toSigned 32 (4294967295 - bits32 a)

/-- Conversion of a byte to a C `sbyte`. -/
def toSByte (b : Nat) : Int := toSigned 8 b

/-- The labels a statement of `LGSObjects` can leave through: `goto lgsobjs_fail` and
`goto done`. -/
inductive Label where
  | lgsobjs_fail
  | done
  deriving DecidableEq, Repr

/-- How a statement ended: it fell through with a value, or it left through a label. -/
inductive Step (σ α : Type) where
  | next (a : α) (fp : CFILE) (s : σ)
  | exit (l : Label) (fp : CFILE) (s : σ)
  deriving DecidableEq

instance {ε α : Type} [DecidableEq ε] [DecidableEq α] : DecidableEq (Except ε α)
  | .ok a, .ok b =>
    if h : a = b then isTrue (by rw [h]) else isFalse (by intro h1; cases h1; exact h rfl)
  | .error a, .error b =>
    if h : a = b then isTrue (by rw [h]) else isFalse (by intro h1; cases h1; exact h rfl)
  | .ok _, .error _ => isFalse (by intro h; cases h)
  | .error _, .ok _ => isFalse (by intro h; cases h)

/-- A statement over the state `σ` that hands on a value of type `α`. -/
def Stmt (σ α : Type) := CFILE → σ → Except Fault (Step σ α)

/-- The empty statement handing on `a`. -/
def Stmt.pure {σ α : Type} (a : α) : Stmt σ α := fun fp s => .ok (.next a fp s)

/-- Sequencing: the second statement runs when the first falls through. -/
def Stmt.bind {σ α β : Type} (m : Stmt σ α) (f : α → Stmt σ β) : Stmt σ β := fun fp s =>
  match m fp s with
  | .error e => .error e
  | .ok (.exit l fp1 s1) => .ok (.exit l fp1 s1)
  | .ok (.next a fp1 s1) => f a fp1 s1

instance (σ : Type) : Monad (Stmt σ) where
  pure := Stmt.pure
  bind := Stmt.bind

/-- Leaving through a label (`continue`, `goto`). -/
def Stmt.exit {σ α : Type} (l : Label) : Stmt σ α := fun fp s => .ok (.exit l fp s)

/-- A fault: the run does not continue. -/
def Stmt.fault {σ α : Type} (e : Fault) : Stmt σ α := fun _ _ => .error e

/-- The current state. -/
def Stmt.get {σ : Type} : Stmt σ σ := fun fp s => .ok (.next s fp s)

/-- An assignment to the state. -/
def Stmt.modify {σ : Type} (f : σ → σ) : Stmt σ Unit := fun fp s => .ok (.next () fp (f s))

/-- A read from the cursor as a statement. -/
def Stmt.read {σ α : Type} (r : CFILE → Except Fault (α × CFILE)) : Stmt σ α := fun fp s =>
  match r fp with
  | .error e => .error e
  | .ok (v, fp1) => .ok (.next v fp1 s)

/-- A computation that may fault, as a statement. -/
def Stmt.lift {σ α : Type} (r : Except Fault α) : Stmt σ α := fun fp s =>
  match r with
  | .error e => .error e
  | .ok v => .ok (.next v fp s)

/-- The state a step ended in. -/
def Step.state {σ α : Type} : Step σ α → σ
  | .next _ _ s => s
  | .exit _ _ s => s

/-- A `vector`: three floats, carried as their bit patterns. -/
structure vector where
  x : Nat
  y : Nat
  z : Nat
  deriving DecidableEq, Repr

/-- A `matrix`: the three vectors `rvec`, `uvec`, `fvec`. -/
structure matrix where
  rvec : vector
  uvec : vector
  fvec : vector
  deriving DecidableEq, Repr

/-- Modelled from the spec: the macro `gs_ReadVector` of gamesave.h (not in the source
tree), three fixed-width float reads `x`, `y`, `z`. -/
def gs_ReadVector (fp : CFILE) : Except Fault (vector × CFILE) :=
  match cf_ReadFloat fp with
  | .error e => .error e
  | .ok (x, fp1) =>
    match cf_ReadFloat fp1 with
    | .error e => .error e
    | .ok (y, fp2) =>
      match cf_ReadFloat fp2 with
      | .error e => .error e
      | .ok (z, fp3) => .ok ({ x := x, y := y, z := z }, fp3)

/-- Modelled from the spec: the macro `gs_ReadMatrix` of gamesave.h (not in the source
tree), three vector reads `rvec`, `uvec`, `fvec`. -/
def gs_ReadMatrix (fp : CFILE) : Except Fault (matrix × CFILE) :=
  match gs_ReadVector fp with
  | .error e => .error e
  | .ok (r, fp1) =>
    match gs_ReadVector fp1 with
    | .error e => .error e
    | .ok (u, fp2) =>
      match gs_ReadVector fp2 with
      | .error e => .error e
      | .ok (f, fp3) => .ok ({ rvec := r, uvec := u, fvec := f }, fp3)

/-- The call `cf_ReadBytes(buf, count, fp)` with an `int` count; a negative count is
outside the defined behaviour. -/
def readCount (count : Int) (fp : CFILE) : Except Fault (List Nat × CFILE) :=
  if 0 ≤ count then cf_ReadBytes count.toNat fp else .error .outOfRange

/-- The element `a[i]` of an array of `a.length` elements, for an index that is not
negative. -/
def arrayRead {α : Type} (a : List α) (i : Nat) : Except Fault α :=
  match a[i]? with
  | some v => .ok v
  | none => .error .outOfRange

/-- The update `a[i].f = ...` of an element of an array of `a.length` elements, for an
index that is not negative. -/
def arrayModify {α : Type} (a : List α) (i : Nat) (f : α → α) : Except Fault (List α) :=
  match a[i]? with
  | some v => .ok (a.set i (f v))
  | none => .error .outOfRange

/-- An `int` used as an array index: a negative index is outside every array. -/
def arrayIndex (i : Int) : Except Fault Nat :=
  if 0 ≤ i then .ok i.toNat else .error .outOfRange

/-- The cursor moved past `n` bytes. -/
def CFILE.advance (fp : CFILE) (n : Nat) : CFILE :=
  { fp with data := fp.data.drop n, pos := fp.pos + n }

/-- The 16-bit value at offset `k` of a byte sequence. -/
def shortAt (data : List Nat) (k : Nat) : Int :=
  toSigned 16 (leNat (((data.drop k).take 2).map fun b => b % 256))

/-- The bit pattern of the float at offset `k` of a byte sequence. -/
def floatAt (data : List Nat) (k : Nat) : Nat :=
  leNat (((data.drop k).take 4).map fun b => b % 256)

/-- The 32-bit value at offset `k` of a byte sequence. -/
def intAt (data : List Nat) (k : Nat) : Int :=
  toSigned 32 (leNat (((data.drop k).take 4).map fun b => b % 256))

/-! ## Triggers (`LGSTriggers`) -/

/-- The members of a `trigger` (trigger.h, not in the source tree) that `LGSTriggers`
assigns, holding the 16-bit values as read. -/
structure trigger where
  flags : Int
  activator : Int
  deriving DecidableEq, Repr

/-- The calls `LGSTriggers` makes: `FreeTriggerScript(&Triggers[i])`, recorded with the
index and the trigger as it was when the call was made. -/
inductive TriggerCall where
  | FreeTriggerScript (i : Nat) (t : trigger)
  deriving DecidableEq, Repr

/-- The live state `LGSTriggers` works on. -/
structure TriggerState where
  Triggers : List trigger
  Num_triggers : Int
  log : List TriggerCall
  deriving DecidableEq, Repr

/-- The call `FreeTriggerScript(&Triggers[i])`. -/
def FreeTriggerScript (i : Nat) : Stmt TriggerState Unit := do
  let s ← Stmt.get
  let t ← Stmt.lift (arrayRead s.Triggers i)
  Stmt.modify fun s => { s with log := s.log ++ [TriggerCall.FreeTriggerScript i t] }

/-- An assignment to a member of `Triggers[i]`. -/
def setTrigger (i : Nat) (f : trigger → trigger) : Stmt TriggerState Unit := do
  let s ← Stmt.get
  let ts ← Stmt.lift (arrayModify s.Triggers i f)
  Stmt.modify fun s => { s with Triggers := ts }

/-- The loop `for (i = 0; i < n_trigs; i++)` of `LGSTriggers`, by recursion on the number
of iterations left. -/
def LGSTriggers_loop : Nat → Nat → Stmt TriggerState Unit
  | 0, _ => pure ()
  | k + 1, i => do
    FreeTriggerScript i
    let flags ← Stmt.read cf_ReadShort
    setTrigger i fun t => { t with flags := flags }
    let activator ← Stmt.read cf_ReadShort
    setTrigger i fun t => { t with activator := activator }
    LGSTriggers_loop k (i + 1)

/-- The restorer `LGSTriggers(fp)`. -/
def LGSTriggers : Stmt TriggerState LGS := do
  let n_trigs ← Stmt.read cf_ReadShort
  let s ← Stmt.get
  if n_trigs ≠ toShort s.Num_triggers then pure LGS.CORRUPTLEVEL
  else do
    LGSTriggers_loop n_trigs.toNat 0
    pure LGS.OK

/-! ## Rooms (`LGSRooms`) -/

/-- The members of a `face` (room.h, not in the source tree) that loadstate.cpp names. -/
structure face where
  tmap : Int
  flags : Int
  deriving DecidableEq, Repr

/-- The member of a `portal` that `LGSRooms` assigns. -/
structure portal where
  flags : Int
  deriving DecidableEq, Repr

/-- The members of a `doorway` (doorway.h, not in the source tree) that `LGSRooms`
assigns; bytes and floats are held as read. -/
structure doorway where
  state : Nat
  flags : Nat
  keys_needed : Nat
  position : Nat
  dest_pos : Nat
  sound_handle : Int
  activenum : Int
  doornum : Int
  deriving DecidableEq, Repr

/-- The members of a `room` (room.h, not in the source tree) that loadstate.cpp names. -/
structure room where
  used : Nat
  objects : Int
  vis_effects : Int
  flags : Int
  pulse_time : Nat
  pulse_offset : Nat
  wind : vector
  last_render_time : Nat
  fog_depth : Nat
  fog_r : Nat
  fog_g : Nat
  fog_b : Nat
  damage : Nat
  faces : List face
  num_portals : Int
  portals : List portal
  doorway_data : Option doorway
  deriving DecidableEq, Repr

/-- The flag constants `LGSRooms` uses (room.h, not in the source tree). -/
structure RoomConsts where
  FF_TEXTURE_CHANGED : Int
  RF_DOOR : Int

/-- The live state `LGSRooms` works on: the room array, the highest room index of the
loaded level and the automap visibility map. -/
structure RoomState where
  Rooms : List room
  Highest_room_index : Int
  AutomapVisMap : List Nat
  deriving DecidableEq, Repr

/-- An assignment to members of `Rooms[i]`. -/
def setRoom (i : Nat) (f : room → room) : Stmt RoomState Unit := do
  let s ← Stmt.get
  let rs ← Stmt.lift (arrayModify s.Rooms i f)
  Stmt.modify fun s => { s with Rooms := rs }

/-- The value of `Rooms[i]`. -/
def getRoom (i : Nat) : Stmt RoomState room := do
  let s ← Stmt.get
  Stmt.lift (arrayRead s.Rooms i)

/-- An assignment to members of `Rooms[i].faces[facenum]`. -/
def setFace (i : Nat) (facenum : Int) (f : face → face) : Stmt RoomState Unit := do
  let r ← getRoom i
  let n ← Stmt.lift (arrayIndex facenum)
  let fs ← Stmt.lift (arrayModify r.faces n f)
  setRoom i fun r => { r with faces := fs }

/-- The loop `for (i = 0; i < num_rooms; i++) gs_ReadByte(fp, AutomapVisMap[i])`, by
recursion on the number of iterations left. -/
def LGSRooms_automap : Nat → Nat → Stmt RoomState Unit
  | 0, _ => pure ()
  | k + 1, i => do
    let v ← Stmt.read cf_ReadByte
    let s ← Stmt.get
    let m ← Stmt.lift (arrayModify s.AutomapVisMap i fun _ => v)
    Stmt.modify fun s => { s with AutomapVisMap := m }
    LGSRooms_automap k (i + 1)

/-- The loop `for (int t = 0; t < num_changed; t++)` over the texture changes of room
`i`, by recursion on the number of iterations left. -/
def LGSRooms_textures (c : RoomConsts) (gs : gs_tables) (i : Nat) : Nat → Stmt RoomState Unit
  | 0 => pure ()
  | k + 1 => do
    let facenum ← Stmt.read cf_ReadShort
    let saved ← Stmt.read cf_ReadShort
    let tmap ← Stmt.lift (xlateDirect gs.tex_handles saved)
    setFace i facenum fun f => { f with tmap := tmap }
    setFace i facenum fun f => { f with flags := or32 f.flags c.FF_TEXTURE_CHANGED }
    LGSRooms_textures c gs i k

/-- The loop `for (p = 0; p < Rooms[i].num_portals; p++)`, by recursion on the number of
iterations left; `p` is a `short`, past 32767 it would turn negative. -/
def LGSRooms_portals (i : Nat) : Nat → Nat → Stmt RoomState Unit
  | 0, _ => pure ()
  | k + 1, p =>
    if 32768 ≤ p then Stmt.fault .outOfRange
    else do
      let flags ← Stmt.read cf_ReadInt
      let r ← getRoom i
      let ps ← Stmt.lift (arrayModify r.portals p fun q => { q with flags := flags })
      setRoom i fun r => { r with portals := ps }
      LGSRooms_portals i k (p + 1)

/-- The doorway block of room `i`: `dp = Rooms[i].doorway_data`, then the eight members
read through `dp`. -/
def LGSRooms_doorway (i : Nat) : Stmt RoomState Unit := do
  let r ← getRoom i
  match r.doorway_data with
  | none => Stmt.fault .outOfRange
  | some _ => do
    let state ← Stmt.read cf_ReadByte
    let flags ← Stmt.read cf_ReadByte
    let keys_needed ← Stmt.read cf_ReadByte
    let position ← Stmt.read cf_ReadFloat
    let dest_pos ← Stmt.read cf_ReadFloat
    let sound_handle ← Stmt.read cf_ReadInt
    let activenum ← Stmt.read cf_ReadInt
    let doornum ← Stmt.read cf_ReadInt
    setRoom i fun r =>
      { r with doorway_data := some (doorway.mk state flags keys_needed position dest_pos
                 sound_handle activenum doornum) }

/-- The body of the room loop of `LGSRooms` for the index `i`: the `used` byte and,
when it is set, the saved members of `Rooms[i]`. -/
def LGSRooms_room (c : RoomConsts) (gs : gs_tables) (i : Int) : Stmt RoomState Unit := do
  let used ← Stmt.read cf_ReadByte
  if used ≠ 0 then do
    let n ← Stmt.lift (arrayIndex i)
    setRoom n fun r => { r with objects := -1, vis_effects := -1 }
    let flags ← Stmt.read cf_ReadInt
    let pulse_time ← Stmt.read cf_ReadByte
    let pulse_offset ← Stmt.read cf_ReadByte
    let wind ← Stmt.read gs_ReadVector
    let last_render_time ← Stmt.read cf_ReadFloat
    let fog_depth ← Stmt.read cf_ReadFloat
    let fog_r ← Stmt.read cf_ReadFloat
    let fog_g ← Stmt.read cf_ReadFloat
    let fog_b ← Stmt.read cf_ReadFloat
    let damage ← Stmt.read cf_ReadFloat
    setRoom n fun r =>
      { r with flags := flags, pulse_time := pulse_time, pulse_offset := pulse_offset,
               wind := wind, last_render_time := last_render_time, fog_depth := fog_depth,
               fog_r := fog_r, fog_g := fog_g, fog_b := fog_b, damage := damage }
    let num_changed ← Stmt.read cf_ReadShort
    LGSRooms_textures c gs n num_changed.toNat
    let r ← getRoom n
    LGSRooms_portals n r.num_portals.toNat 0
    let r ← getRoom n
    if and32 r.flags c.RF_DOOR ≠ 0 then LGSRooms_doorway n else pure ()
  else pure ()

/-- The loop `for (i = 0; i <= highest_index; i++)` of `LGSRooms`. The index is a
`short`, so `i++` is taken modulo 2^16. Every iteration reads the `used` byte, so the
body runs at most `data.length` times before a read runs short; `fuel` only makes the
recursion structural. -/
def LGSRooms_loop (c : RoomConsts) (gs : gs_tables) (highest_index : Int) :
    Nat → Int → Stmt RoomState Unit
  | 0, _ => Stmt.fault .shortRead
  | fuel + 1, i =>
    if i ≤ highest_index then do
      LGSRooms_room c gs i
      LGSRooms_loop c gs highest_index fuel (toShort (i + 1))
    else pure ()

/-- The restorer `LGSRooms(fp)`. -/
def LGSRooms (c : RoomConsts) (gs : gs_tables) : Stmt RoomState LGS := do
  let highest_index ← Stmt.read cf_ReadShort
  let s ← Stmt.get
  if highest_index ≠ toShort s.Highest_room_index then pure LGS.CORRUPTLEVEL
  else do
    let num_rooms ← Stmt.read cf_ReadShort
    LGSRooms_automap num_rooms.toNat 0
    (fun fp s => LGSRooms_loop c gs highest_index (fp.data.length + 1) 0 fp s :
      Stmt RoomState Unit)
    pure LGS.OK

/-! ## Visual effects (`CopyVisStruct`) -/

/-- The structure `old_vis_attach_info`. -/
structure old_vis_attach_info where
  obj_handle : Int
  dest_objhandle : Int
  subnum : Nat
  subnum2 : Nat
  modelnum : Nat
  vertnum : Nat
  end_vertnum : Nat
  deriving DecidableEq, Repr

/-- Modelled from the spec: the structure `vis_attach_info` (viseffect.h, not in the
source tree), with the members `CopyVisStruct` names, each of the type that
`old_vis_attach_info` gives it. -/
structure vis_attach_info where
  obj_handle : Int
  dest_objhandle : Int
  subnum : Nat
  subnum2 : Nat
  modelnum : Nat
  vertnum : Nat
  end_vertnum : Nat
  deriving DecidableEq, Repr

/-- The structure `axis_billboard_info` (viseffect.h, not in the source tree), held as
its bytes. -/
abbrev axis_billboard_info := List Nat

/-- The structure `old_vis_effect`; floats are held as their bit patterns. -/
structure old_vis_effect where
  type : Nat
  id : Nat
  pos : vector
  velocity : vector
  mass : Nat
  drag : Nat
  size : Nat
  lifeleft : Nat
  lifetime : Nat
  creation_time : Nat
  roomnum : Int
  flags : Nat
  phys_flags : Int
  movement_type : Nat
  custom_handle : Int
  lighting_color : Nat
  attach_info : vis_attach_info
  billboard_info : axis_billboard_info
  end_pos : vector
  next : Int
  prev : Int
  deriving DecidableEq, Repr

/-- Modelled from the spec: the current layout `vis_effect` (viseffect.h, not in the
source tree), with the members loadstate.cpp names, each of the type that
`old_vis_effect` gives it. -/
structure vis_effect where
  type : Nat
  id : Nat
  pos : vector
  velocity : vector
  mass : Nat
  drag : Nat
  size : Nat
  lifeleft : Nat
  lifetime : Nat
  creation_time : Nat
  roomnum : Int
  flags : Nat
  phys_flags : Int
  movement_type : Nat
  custom_handle : Int
  lighting_color : Nat
  attach_info : vis_attach_info
  billboard_info : axis_billboard_info
  end_pos : vector
  next : Int
  prev : Int
  deriving DecidableEq, Repr

/-- The function `CopyVisStruct(vis, old_vis)`: the value of `*vis` afterwards. -/
def CopyVisStruct (vis : vis_effect) (old_vis : old_vis_effect) : vis_effect :=
  { vis with
    type := old_vis.type
    id := old_vis.id
    pos := old_vis.pos
    velocity := old_vis.velocity
    mass := old_vis.mass
    drag := old_vis.drag
    size := old_vis.size
    lifeleft := old_vis.lifeleft
    lifetime := old_vis.lifetime
    creation_time := old_vis.creation_time
    roomnum := old_vis.roomnum
    flags := old_vis.flags
    phys_flags := old_vis.phys_flags
    movement_type := old_vis.movement_type
    custom_handle := old_vis.custom_handle
    lighting_color := old_vis.lighting_color
    attach_info :=
      { vis.attach_info with
        obj_handle := old_vis.attach_info.obj_handle
        dest_objhandle := old_vis.attach_info.dest_objhandle
        subnum := old_vis.attach_info.subnum
        subnum2 := old_vis.attach_info.subnum2
        modelnum := old_vis.attach_info.modelnum
        vertnum := old_vis.attach_info.vertnum
        end_vertnum := old_vis.attach_info.end_vertnum }
    billboard_info := old_vis.billboard_info
    end_pos := old_vis.end_pos }

/-! ## Players (`LGSPlayers`) -/

/-- The calls `LGSPlayers` makes. -/
inductive PlayerCall where
  | inventory_Reset
  | counter_measures_Reset
  | inventory_ReadInventory
  | counter_measures_ReadInventory
  | FreeCockpit
  | CloseShipHUD
  | InitShipHUD (ship_index : Int)
  | InitCockpit (ship_index : Int)
  deriving DecidableEq, Repr

/-- What `LGSPlayers` takes from outside loadstate.cpp: the size and the layout of a
`player` record (player.h, not in the source tree), the handle mask, and the two
methods of the class `Inventory` (Inventory.h) as they act on the two members
`inventory` and `counter_measures` of a record: `Reset(false, INVRESET_ALL)` changes the
member, `ReadInventory(fp)` reads a sub-stream of the save into it. -/
structure PlayerEnv where
  sizeof_player : Nat
  HANDLE_OBJNUM_MASK : Int
  guided_obj_set : List Nat → Bool
  ship_index : List Nat → Int
  inventory_Reset : List Nat → List Nat
  counter_measures_Reset : List Nat → List Nat
  inventory_ReadInventory : List Nat → CFILE → Except Fault (List Nat × CFILE)
  counter_measures_ReadInventory : List Nat → CFILE → Except Fault (List Nat × CFILE)

/-- The live state `LGSPlayers` works on: the player records as bytes, the slot that
`Players[0].guided_obj` points to once it has been resolved, and the call log. -/
structure PlayerState where
  Players : List (List Nat)
  Player_num : Int
  guided_obj : Option Int
  log : List PlayerCall
  deriving DecidableEq, Repr

/-- A call to a collaborator of `LGSPlayers`. -/
def playerCall (c : PlayerCall) : Stmt PlayerState Unit :=
  Stmt.modify fun s => { s with log := s.log ++ [c] }

/-- A method of a member of `*plr`, `plr = &Players[0]`, that changes the record. -/
def playerMember (f : List Nat → List Nat) : Stmt PlayerState Unit := do
  let s ← Stmt.get
  let ps ← Stmt.lift (arrayModify s.Players 0 f)
  Stmt.modify fun s => { s with Players := ps }

/-- The call `plr->member.ReadInventory(fp)`: the member is read from the cursor. -/
def playerReadInventory (r : List Nat → CFILE → Except Fault (List Nat × CFILE)) :
    Stmt PlayerState Unit := do
  let s ← Stmt.get
  let plr ← Stmt.lift (arrayRead s.Players 0)
  let plr ← Stmt.read (r plr)
  playerMember fun _ => plr

/-- The `else` branch of the size test of `LGSPlayers`: the record is copied whole, the
guided object is resolved and the two inventories are read. -/
def LGSPlayers_record (env : PlayerEnv) : Stmt PlayerState Unit := do
  let bytes ← Stmt.read (cf_ReadBytes env.sizeof_player)
  playerMember fun _ => bytes
  (if env.guided_obj_set bytes then do
    let guided_handle ← Stmt.read cf_ReadInt
    Stmt.modify fun s => { s with guided_obj := some (and32 guided_handle env.HANDLE_OBJNUM_MASK) }
  else pure ())
  playerReadInventory env.inventory_ReadInventory
  playerCall .inventory_ReadInventory
  playerReadInventory env.counter_measures_ReadInventory
  playerCall .counter_measures_ReadInventory

/-- The restorer `LGSPlayers(fp)`: the two inventories of `Players[0]` are reset before
the declared size is read. -/
def LGSPlayers (env : PlayerEnv) : Stmt PlayerState LGS := do
  playerMember env.inventory_Reset
  playerCall .inventory_Reset
  playerMember env.counter_measures_Reset
  playerCall .counter_measures_Reset
  let size ← Stmt.read cf_ReadShort
  if size ≠ Int.ofNat env.sizeof_player then pure LGS.OUTDATEDVER
  else do
    LGSPlayers_record env
    let s ← Stmt.get
    let n ← Stmt.lift (arrayIndex s.Player_num)
    let plr ← Stmt.lift (arrayRead s.Players n)
    let ship_index := if env.ship_index plr < 0 then 0 else env.ship_index plr
    playerCall .FreeCockpit
    playerCall .CloseShipHUD
    playerCall (.InitShipHUD ship_index)
    playerCall (.InitCockpit ship_index)
    pure LGS.OK

/-! ## Objects (`LGSObjects`) -/

/-- A member of a union that the model holds as bytes: how the member is read from the
bytes and how a store to it changes them (the layouts are in object.h, not in the
source tree). -/
structure View (α : Type) where
  get : List Nat → α
  set : List Nat → α → List Nat

/-- The members of `multi_turret` that `LGSObjects` assigns; a pointer member holds the
number of elements allocated for it, `none` for a null pointer. -/
structure multi_turret where
  num_turrets : Int
  time : Nat
  keyframes : Option Int
  last_keyframes : Option Int
  flags : Int
  deriving DecidableEq, Repr

/-- The members of an `object` (object.h, not in the source tree) that loadstate.cpp
names. Bytes and floats are held as read, the three unions `mtype`, `ctype`, `rtype` as
their bytes, and a pointer member as the content it points to, `none` for a null
pointer. -/
structure object where
  type : Nat
  lighting_render_type : Nat
  lighting_info : Option (List Nat)
  handle : Int
  dummy_type : Nat
  roomnum : Int
  pos : vector
  last_pos : vector
  orient : matrix
  name : Option (List Nat)
  id : Int
  flags : Int
  control_type : Nat
  movement_type : Nat
  render_type : Nat
  renderframe : Int
  size : Nat
  shields : Nat
  contains_type : Nat
  contains_id : Nat
  contains_count : Nat
  creation_time : Nat
  lifeleft : Nat
  lifetime : Nat
  parent_handle : Int
  attach_ultimate_handle : Int
  attach_parent_handle : Int
  attach_children : Option (List Int)
  attach_type : Nat
  attach_index : Int
  attach_dist : Nat
  min_xyz : vector
  max_xyz : vector
  impact_size : Nat
  impact_time : Nat
  impact_player_damage : Nat
  impact_generic_damage : Nat
  impact_force : Nat
  custom_default_script_name : Option (List Nat)
  custom_default_module_name : Option (List Nat)
  position_counter : Int
  mtype : List Nat
  ctype : List Nat
  rtype : List Nat
  ai_info : Option (List Nat)
  effect_info : Option (List Nat)
  dynamic_wb : Option (List (List Nat))
  next : Int
  prev : Int

/-- An entry `AIDynamicPath[i]` (aipath.h, not in the source tree). -/
structure ai_dynamic_path where
  num_nodes : Int
  use_count : Int
  owner_handle : Int
  pos : List vector
  roomnum : List Int
  deriving DecidableEq, Repr

/-- The calls `LGSObjects` makes to its collaborators, with their arguments; an object
pointer is recorded as the slot it points to. -/
inductive ObjCall where
  | Osiris_DisableCreateEvents
  | Osiris_EnableCreateEvents
  | InitBigObjects
  | Osiris_DisableEvents (mask : Int)
  | Osiris_EnableEvents (mask : Int)
  | ObjDelete (i : Nat)
  | ObjUnlink (i : Nat)
  | FreeObjectScripts (i : Nat)
  | AIDestroyObj (i : Nat)
  | PageInVClip (handle : Int)
  | PageInPolymodel (model : Int)
  | ComputeDefaultSize (model : Int)
  | ComputeRoomBoundingSphere (id : Int)
  | ObjSetAnimUpdate (i : Nat) (anim : List Nat)
  | InitObjectScripts (i : Nat)
  | ObjLink (i : Nat) (roomnum : Int)
  | ObjSetOrient (i : Nat) (orient : matrix)
  | BigObjAdd (i : Nat)
  | ObjSetAABB (i : Nat)
  | ResetFreeObjects
  | ObjReInitPositionHistory
  deriving DecidableEq, Repr

/-- A weapon battery of a polygon model (`poly_wb_info` of polymodel.h), reduced to the
member `LGSObjects` reads. -/
structure poly_wb_info where
  num_turrets : Int
  deriving DecidableEq, Repr

/-- An entry of `Poly_models` (`poly_model` of polymodel.h), reduced to the members
`LGSObjects` reads; `poly_wb` points to the batteries of the model. -/
structure poly_model where
  flags : Int
  n_attach : Int
  num_wbs : Int
  poly_wb : List poly_wb_info
  deriving DecidableEq, Repr

/-- What `LGSObjects` takes from outside loadstate.cpp: the constants of the headers,
the sizes and layouts of the structures it copies whole, the array `Poly_models`, which
it indexes with a model number, and what it reads from the content arrays `Weapons`,
`Object_info` and `Ships` and gets back from its collaborators: the size the paging
calls give an object, whether `op->size >= TERRAIN_SIZE` holds, and the flags `ObjLink`
leaves on an object it links. -/
structure ObjEnv where
  MAX_OBJECTS : Nat
  MAX_ROOMS : Nat
  MAX_DYNAMIC_PATHS : Nat
  MAX_NODES : Nat
  MAX_MARKERS : Nat
  MAX_MARKER_MESSAGE_LENGTH : Nat
  TERRAIN_WIDTH : Nat
  TERRAIN_DEPTH : Nat
  HANDLE_OBJNUM_MASK : Int
  OBJ_NONE : Nat
  OBJ_DUMMY : Nat
  OBJ_ROBOT : Nat
  OBJ_POWERUP : Nat
  OBJ_BUILDING : Nat
  OBJ_CLUTTER : Nat
  OBJ_DOOR : Nat
  OBJ_WEAPON : Nat
  OBJ_PLAYER : Nat
  OBJ_FIREBALL : Nat
  OBJ_ROOM : Nat
  LRT_LIGHTMAPS : Nat
  RT_NONE : Nat
  RT_EDITOR_SPHERE : Nat
  RT_FIREBALL : Nat
  RT_LINE : Nat
  RT_PARTICLE : Nat
  RT_SPLINTER : Nat
  RT_ROOM : Nat
  RT_WEAPON : Nat
  RT_POLYOBJ : Nat
  RT_SHARD : Nat
  OF_SERVER_OBJECT : Int
  OF_POLYGON_OBJECT : Int
  OF_BIG_OBJECT : Int
  OEM_OBJECTS : Int
  OEM_TRIGGERS : Int
  OEM_LEVELS : Int
  sizeof_light_info : Nat
  sizeof_mtype : Nat
  sizeof_ctype : Nat
  sizeof_rtype : Nat
  sizeof_ai_frame : Nat
  sizeof_effect_info : Nat
  sizeof_dynamic_wb_info : Nat
  sizeof_custom_anim : Nat
  byteAsInt : Nat → Int
  uninit_matrix : matrix
  blast_bm_handle : View Int
  pobj_model_num : View Int
  pobj_dying_model_num : View Int
  pobj_tmap_override : View Int
  pobj_multi_turret_info : View multi_turret
  memset_multi_turret : List Nat → List Nat
  shard_tmap : View Int
  weapon_image_bitmap : Int → Bool
  weapon_fire_image_handle : Int → Int
  PMF_NOT_RESIDENT : Int
  Poly_models : List poly_model
  paged_size : Nat → Int → Int → Nat
  room_sphere : vector → Int → Nat
  size_is_big : Nat → Bool
  linked_flags : Int → Int → Int

/-- The mask `OEM_OBJECTS|OEM_TRIGGERS|OEM_LEVELS`. -/
def ObjEnv.OEM_mask (env : ObjEnv) : Int :=
  or32 (or32 env.OEM_OBJECTS env.OEM_TRIGGERS) env.OEM_LEVELS

/-- What one iteration of the record loop works on: `op = &Objects[i]`, the side-table
entry `objmat[i]`, `retval`, and the call log. -/
structure Slot where
  op : object
  objmat : matrix
  retval : LGS
  log : List ObjCall

/-- An assignment to members of `*op`. -/
def setOp (f : object → object) : Stmt Slot Unit :=
  Stmt.modify fun s => { s with op := f s.op }

/-- A call to a collaborator, recorded in the log. -/
def slotCall (c : ObjCall) : Stmt Slot Unit :=
  Stmt.modify fun s => { s with log := s.log ++ [c] }

/-- Modelled from the spec: the call `ObjDelete(i)` (object.cpp, not in the source tree),
"destroy any live entity currently occupying that slot": the slot becomes empty. -/
def ObjDelete (env : ObjEnv) (i : Nat) : Stmt Slot Unit := do
  slotCall (.ObjDelete i)
  setOp fun op => { op with type := env.OBJ_NONE }

/-- A length byte read into `int j`, then, when `j > 0`, the `j` bytes of a string
allocated for it; a null pointer otherwise. (How a byte converts to `int` depends on the
return type of `cf_ReadByte`; the conversion is taken from the environment.) -/
def readName (env : ObjEnv) : Stmt Slot (Option (List Nat)) := do
  let b ← Stmt.read cf_ReadByte
  let j := env.byteAsInt b
  if j > 0 then do
    let bytes ← Stmt.read (readCount j)
    pure (some bytes)
  else pure none

/-- The loop `for (j = 0; j < nattach; j++) gs_ReadInt(fp, op->attach_children[j])`, by
recursion on the number of iterations left. -/
def readInts : Nat → CFILE → Except Fault (List Int × CFILE)
  | 0, fp => .ok ([], fp)
  | k + 1, fp =>
    match cf_ReadInt fp with
    | .error e => .error e
    | .ok (v, fp1) =>
      match readInts k fp1 with
      | .error e => .error e
      | .ok (vs, fp2) => .ok (v :: vs, fp2)

/-- The function `LGSObjAI(fp, &op->ai_info)`. -/
def LGSObjAI (env : ObjEnv) : Stmt Slot LGS := do
  setOp fun op => { op with ai_info := none }
  let read_ai ← Stmt.read cf_ReadByte
  if read_ai = 0 then pure LGS.OK
  else do
    let size ← Stmt.read cf_ReadShort
    if size ≠ Int.ofNat env.sizeof_ai_frame then pure LGS.OUTDATEDVER
    else do
      let bytes ← Stmt.read (readCount size)
      setOp fun op => { op with ai_info := some bytes }
      pure LGS.OK

/-- The function `LGSObjEffects(fp, op)`. -/
def LGSObjEffects (env : ObjEnv) : Stmt Slot LGS := do
  setOp fun op => { op with effect_info := none }
  let do_read ← Stmt.read cf_ReadByte
  if do_read ≠ 0 then do
    let size ← Stmt.read cf_ReadShort
    if size ≠ Int.ofNat env.sizeof_effect_info then pure LGS.OUTDATEDVER
    else do
      let bytes ← Stmt.read (readCount size)
      setOp fun op => { op with effect_info := some bytes }
      pure LGS.OK
  else pure LGS.OK

/-- The loop `for (i = 0; i < num_wbs; i++)` of `LGSObjWB`, by recursion on the number of
iterations left: one `dynamic_wb_info` per iteration. -/
def readBatteries (env : ObjEnv) : Nat → CFILE → Except Fault (List (List Nat) × CFILE)
  | 0, fp => .ok ([], fp)
  | k + 1, fp =>
    match cf_ReadBytes env.sizeof_dynamic_wb_info fp with
    | .error e => .error e
    | .ok (v, fp1) =>
      match readBatteries env k fp1 with
      | .error e => .error e
      | .ok (vs, fp2) => .ok (v :: vs, fp2)

/-- The function `LGSObjWB(fp, op)`; `num_wbs` is an `sbyte`. -/
def LGSObjWB (env : ObjEnv) : Stmt Slot LGS := do
  let b ← Stmt.read cf_ReadByte
  let num_wbs := toSByte b
  if num_wbs = 0 then pure LGS.OK
  else do
    let dwba ← Stmt.read (readBatteries env num_wbs.toNat)
    setOp fun op => { op with dynamic_wb := some dwba }
    pure LGS.OK

/-- The function `LGSObjSpecial(fp, op)`. -/
def LGSObjSpecial : Stmt Slot LGS := pure LGS.OK

/-- The assignment `retval = ...`. -/
def setRetval (r : LGS) : Stmt Slot Unit :=
  Stmt.modify fun s => { s with retval := r }

/-- The branch of the record loop for a record whose kind tag is `OBJ_NONE` (source
lines 854-861), up to its `continue`. -/
def LGSObjects_empty (env : ObjEnv) (i : Nat) : Stmt Slot Unit := do
  slotCall (.Osiris_DisableEvents env.OEM_mask)
  let s ← Stmt.get
  (if s.op.type ≠ env.OBJ_NONE then ObjDelete env i else pure ())
  slotCall (.Osiris_EnableEvents env.OEM_mask)

/-- Source lines 865-897 of the record loop: the lightmap test, the lighting render
type, the lighting info, and the handle with its validation. Hands on `handle`. -/
def LGSObjects_head (env : ObjEnv) (i : Nat) (l_rend_type : Nat) : Stmt Slot Int := do
  let s ← Stmt.get
  (if s.op.type ≠ env.OBJ_NONE ∧ s.op.lighting_render_type = env.LRT_LIGHTMAPS
      ∧ l_rend_type ≠ env.LRT_LIGHTMAPS then do
    slotCall (.Osiris_DisableEvents env.OEM_mask)
    ObjDelete env i
    slotCall (.Osiris_EnableEvents env.OEM_mask)
  else pure ())
  setOp fun op => { op with lighting_render_type := l_rend_type }
  let has_lightinfo ← Stmt.read cf_ReadByte
  (if has_lightinfo ≠ 0 then do
    let bytes ← Stmt.read (cf_ReadBytes env.sizeof_light_info)
    setOp fun op => { op with lighting_info := some bytes }
  else pure ())
  let handle ← Stmt.read cf_ReadInt
  if and32 handle env.HANDLE_OBJNUM_MASK ≠ Int.ofNat i then do
    setRetval LGS.OBJECTSCORRUPT
    Stmt.exit .done
  else pure handle

/-- Source lines 926-954 of the record loop: when the slot holds a live object, its
scripts and its sub-records are released. -/
def LGSObjects_release (env : ObjEnv) (i : Nat) : Stmt Slot Unit := do
  let s ← Stmt.get
  if s.op.type ≠ env.OBJ_NONE then do
    (if s.op.lighting_render_type ≠ env.LRT_LIGHTMAPS then slotCall (.FreeObjectScripts i)
     else pure ())
    (if s.op.effect_info.isSome then setOp fun op => { op with effect_info := none }
     else pure ())
    (if s.op.ai_info.isSome then do
      slotCall (.AIDestroyObj i)
      setOp fun op => { op with ai_info := none }
     else pure ())
    (if s.op.dynamic_wb.isSome then setOp fun op => { op with dynamic_wb := none }
     else pure ())
    (if s.op.attach_children.isSome then setOp fun op => { op with attach_children := none }
     else pure ())
  else pure ()

/-- Source lines 899-961 of the record loop: the dummy type, the position (the
orientation goes to `objmat[i]`, not to the object), the name, the release of what the
slot held, and the stores of kind, handle, dummy type, room and position. Hands on the
local `roomnum`. -/
def LGSObjects_place (env : ObjEnv) (i : Nat) (type : Nat) (handle : Int) :
    Stmt Slot Int := do
  let dummy_type ← Stmt.read cf_ReadByte
  let roomnum ← Stmt.read cf_ReadInt
  let pos ← Stmt.read gs_ReadVector
  let last_pos ← Stmt.read gs_ReadVector
  let m ← Stmt.read gs_ReadMatrix
  Stmt.modify fun s => { s with objmat := m }
  let name ← readName env
  setOp fun op => { op with name := name }
  LGSObjects_release env i
  setOp fun op =>
    { op with type := type, handle := handle, dummy_type := dummy_type, roomnum := roomnum,
              pos := pos, last_pos := last_pos }
  pure roomnum

/-- The statement `switch (type)` of source lines 971-991 as a function of the kind,
the saved id and the tables: the value `op->id` holds after it. -/
def LGSObjects_xlateId (env : ObjEnv) (gs : gs_tables) (type : Nat) (id : Int) :
    Except Fault Int :=
  if type = env.OBJ_ROBOT ∨ type = env.OBJ_POWERUP ∨ type = env.OBJ_BUILDING
      ∨ type = env.OBJ_CLUTTER then xlateDirect gs.obji_indices id
  else if type = env.OBJ_DOOR then xlateDirect gs.door_handles id
  else if type = env.OBJ_WEAPON then xlateDirect gs.wpn_handles id
  else if type = env.OBJ_PLAYER then .ok id
  else .ok id

/-- Source lines 964-991 of the record loop: the saved id, the kind of a dummy taken
from its `dummy_type`, and the remap of the id. Hands on the local `type`. -/
def LGSObjects_id (env : ObjEnv) (gs : gs_tables) (type : Nat) : Stmt Slot Nat := do
  let id ← Stmt.read cf_ReadShort
  setOp fun op => { op with id := id }
  let s ← Stmt.get
  let type := if type = env.OBJ_DUMMY then s.op.dummy_type else type
  let id ← Stmt.lift (LGSObjects_xlateId env gs type s.op.id)
  setOp fun op => { op with id := id }
  pure type

/-- Source lines 1016-1033 of the record loop: the attachment children. -/
def LGSObjects_attach (version : Int) : Stmt Slot Unit := do
  let nattach ← Stmt.read cf_ReadInt
  if nattach ≠ 0 then do
    let f_allocated ← (if version ≥ 2 then Stmt.read cf_ReadInt else pure 1)
    if f_allocated ≠ 0 then do
      let children ← Stmt.read (readInts nattach.toNat)
      setOp fun op => { op with attach_children := some children }
    else pure ()
  else pure ()

/-- Source lines 993-1014 of the record loop: the data universal to all objects. -/
def LGSObjects_scalars (env : ObjEnv) : Stmt Slot Unit := do
  let flags ← Stmt.read cf_ReadInt
  let control_type ← Stmt.read cf_ReadByte
  let movement_type ← Stmt.read cf_ReadByte
  let render_type ← Stmt.read cf_ReadByte
  let renderframe ← Stmt.read cf_ReadShort
  let size ← Stmt.read cf_ReadFloat
  let shields ← Stmt.read cf_ReadFloat
  let contains_type ← Stmt.read cf_ReadByte
  let contains_id ← Stmt.read cf_ReadByte
  let contains_count ← Stmt.read cf_ReadByte
  let creation_time ← Stmt.read cf_ReadFloat
  let lifeleft ← Stmt.read cf_ReadFloat
  let lifetime ← Stmt.read cf_ReadFloat
  let parent_handle ← Stmt.read cf_ReadInt
  let attach_ultimate_handle ← Stmt.read cf_ReadInt
  let attach_parent_handle ← Stmt.read cf_ReadInt
  setOp fun op =>
    { op with flags := or32 flags env.OF_SERVER_OBJECT, control_type := control_type,
              movement_type := movement_type, render_type := render_type,
              renderframe := renderframe, size := size, shields := shields,
              contains_type := contains_type, contains_id := contains_id,
              contains_count := contains_count, creation_time := creation_time,
              lifeleft := lifeleft, lifetime := lifetime, parent_handle := parent_handle,
              attach_ultimate_handle := attach_ultimate_handle,
              attach_parent_handle := attach_parent_handle }

/-- Source lines 1037-1075 of the record loop: the attachment point, the bounding box,
the impact data, the two custom script names and the position counter. -/
def LGSObjects_extras (env : ObjEnv) : Stmt Slot Unit := do
  let attach_type ← Stmt.read cf_ReadByte
  let attach_index ← Stmt.read cf_ReadShort
  let attach_dist ← Stmt.read cf_ReadFloat
  let min_xyz ← Stmt.read gs_ReadVector
  let max_xyz ← Stmt.read gs_ReadVector
  let impact_size ← Stmt.read cf_ReadFloat
  let impact_time ← Stmt.read cf_ReadFloat
  let impact_player_damage ← Stmt.read cf_ReadFloat
  let impact_generic_damage ← Stmt.read cf_ReadFloat
  let impact_force ← Stmt.read cf_ReadFloat
  let script_name ← readName env
  let module_name ← readName env
  let position_counter ← Stmt.read cf_ReadShort
  setOp fun op =>
    { op with attach_type := attach_type, attach_index := attach_index,
              attach_dist := attach_dist, min_xyz := min_xyz, max_xyz := max_xyz,
              impact_size := impact_size, impact_time := impact_time,
              impact_player_damage := impact_player_damage,
              impact_generic_damage := impact_generic_damage, impact_force := impact_force,
              custom_default_script_name := script_name,
              custom_default_module_name := module_name,
              position_counter := position_counter }

/-- Source lines 1081-1088 of the record loop: the movement block behind its declared
size. -/
def LGSObjects_mtype (env : ObjEnv) : Stmt Slot Unit := do
  let size ← Stmt.read cf_ReadShort
  if size ≠ Int.ofNat env.sizeof_mtype then do
    setRetval LGS.OUTDATEDVER
    Stmt.exit .done
  else do
    let bytes ← Stmt.read (readCount size)
    setOp fun op => { op with mtype := bytes }

/-- Source lines 1092-1107 of the record loop: the control block behind its declared
size, and the remap of a fireball's bitmap handle. -/
def LGSObjects_ctype (env : ObjEnv) (gs : gs_tables) (type : Nat) : Stmt Slot Unit := do
  let size ← Stmt.read cf_ReadShort
  if size ≠ Int.ofNat env.sizeof_ctype then do
    setRetval LGS.OUTDATEDVER
    Stmt.exit .done
  else do
    let bytes ← Stmt.read (readCount size)
    setOp fun op => { op with ctype := bytes }
    if type = env.OBJ_FIREBALL then do
      let s ← Stmt.get
      let index := env.blast_bm_handle.get s.op.ctype
      let bm ← Stmt.lift (xlateGuarded gs.bm_handles index)
      setOp fun op => { op with ctype := env.blast_bm_handle.set op.ctype bm }
    else pure ()

/-- Source lines 1111-1113 of the record loop: the AI frame. -/
def LGSObjects_ai (env : ObjEnv) : Stmt Slot Unit := do
  let r ← LGSObjAI env
  setRetval r
  if r ≠ LGS.OK then Stmt.exit .lgsobjs_fail else pure ()

/-- Source lines 1120-1129 of the record loop: the render block behind its declared
size, and the size of the object. -/
def LGSObjects_rtype (env : ObjEnv) : Stmt Slot Unit := do
  let size ← Stmt.read cf_ReadShort
  if size ≠ Int.ofNat env.sizeof_rtype then do
    setRetval LGS.OUTDATEDVER
    Stmt.exit .done
  else do
    let bytes ← Stmt.read (readCount size)
    setOp fun op => { op with rtype := bytes }
    let size ← Stmt.read cf_ReadFloat
    setOp fun op => { op with size := size }

/-- The inner `switch (type)` of the polygon-object case (source lines 1159-1175): the
paging call for the new model and the size it gives the object. -/
def LGSObjects_pageModel (env : ObjEnv) (type : Nat) (new_model : Int) : Stmt Slot Unit := do
  let s ← Stmt.get
  if type = env.OBJ_DOOR then do
    slotCall (.PageInPolymodel new_model)
    slotCall (.ComputeDefaultSize new_model)
    setOp fun op => { op with size := env.paged_size type new_model s.op.id }
  else if type = env.OBJ_ROBOT ∨ type = env.OBJ_POWERUP ∨ type = env.OBJ_BUILDING
      ∨ type = env.OBJ_CLUTTER ∨ type = env.OBJ_WEAPON ∨ type = env.OBJ_PLAYER then do
    slotCall (.PageInPolymodel new_model)
    setOp fun op => { op with size := env.paged_size type new_model s.op.id }
  else if type = env.OBJ_ROOM then do
    slotCall (.ComputeRoomBoundingSphere s.op.id)
    setOp fun op => { op with size := env.room_sphere s.op.pos s.op.id }
  else slotCall (.PageInPolymodel new_model)

/-- The element `Poly_models[n]`: a model number below 0 or past the end of the array is
outside it. -/
def Poly_models_at (env : ObjEnv) (n : Int) : Except Fault poly_model := do
  let k ← arrayIndex n
  arrayRead env.Poly_models k

/-- The condition of source line 1157,
`(new_model != model_num) || (Poly_models[new_model].flags & PMF_NOT_RESIDENT)`: the
right operand, and with it the element of `Poly_models`, is read only when the left one
is false. -/
def LGSObjects_needsPaging (env : ObjEnv) (new_model model_num : Int) : Except Fault Bool :=
  if new_model ≠ model_num then pure true
  else do
    let pm ← Poly_models_at env new_model
    pure (decide (and32 pm.flags env.PMF_NOT_RESIDENT ≠ 0))

/-- The loop of source lines 1203-1207, `for (j = 0; j < num_wbs; j++) count +=
pm->poly_wb[j].num_turrets`, by recursion on the iterations left. -/
def LGSObjects_turrets (pm : poly_model) : Nat → Nat → Int → Except Fault Int
  | 0, _, count => pure count
  | n + 1, j, count => do
    let wb ← arrayRead pm.poly_wb j
    LGSObjects_turrets pm n (j + 1) (toSigned 32 (bits32 (count + wb.num_turrets)))

/-- The case `RT_POLYOBJ` of the render switch (source lines 1152-1226): the model, the
dying model and the texture override go through the translation tables, the turret
bookkeeping is reset from the entry of `Poly_models` for the new model number, and the
animation state is read. -/
def LGSObjects_polyobj (env : ObjEnv) (gs : gs_tables) (i : Nat) (type : Nat) :
    Stmt Slot Unit := do
  let s ← Stmt.get
  let model_num := env.pobj_model_num.get s.op.rtype
  let new_model ← Stmt.lift (xlateGuarded gs.model_handles (toShort model_num))
  let page ← Stmt.lift (LGSObjects_needsPaging env new_model model_num)
  (if page = true then LGSObjects_pageModel env type new_model else pure ())
  setOp fun op => { op with rtype := env.pobj_model_num.set op.rtype new_model }
  let s ← Stmt.get
  let dying_model_num := env.pobj_dying_model_num.get s.op.rtype
  let new_model ← Stmt.lift (xlateGuarded gs.model_handles (toShort dying_model_num))
  (if new_model ≠ dying_model_num ∧ type = env.OBJ_PLAYER then do
    slotCall (.PageInPolymodel new_model)
    setOp fun op => { op with size := env.paged_size type new_model s.op.id }
   else pure ())
  setOp fun op => { op with rtype := env.pobj_dying_model_num.set op.rtype new_model }
  let s ← Stmt.get
  let index := env.pobj_tmap_override.get s.op.rtype
  let tmap ← Stmt.lift (xlateGuarded gs.tex_handles index)
  setOp fun op => { op with rtype := env.pobj_tmap_override.set op.rtype tmap }
  setOp fun op => { op with rtype := env.memset_multi_turret op.rtype }
  let s ← Stmt.get
  let pm ← Stmt.lift (Poly_models_at env (env.pobj_model_num.get s.op.rtype))
  let count ← Stmt.lift (LGSObjects_turrets pm pm.num_wbs.toNat 0 0)
  let mt := env.pobj_multi_turret_info.get s.op.rtype
  let mt := { mt with num_turrets := count }
  let mt :=
    if count > 0 ∧ mt.keyframes = none then
      { mt with time := 0, keyframes := some count, last_keyframes := some count, flags := 0 }
    else mt
  setOp fun op => { op with rtype := env.pobj_multi_turret_info.set op.rtype mt }
  let multi_anim_info ← Stmt.read (cf_ReadBytes env.sizeof_custom_anim)
  slotCall (.ObjSetAnimUpdate i multi_anim_info)

/-- The statement `switch (op->render_type)` of source lines 1132-1235. -/
def LGSObjects_render (env : ObjEnv) (gs : gs_tables) (i : Nat) (type : Nat) :
    Stmt Slot Unit := do
  let s ← Stmt.get
  let rt := s.op.render_type
  if rt = env.RT_NONE ∨ rt = env.RT_EDITOR_SPHERE ∨ rt = env.RT_FIREBALL ∨ rt = env.RT_LINE
      ∨ rt = env.RT_PARTICLE ∨ rt = env.RT_SPLINTER ∨ rt = env.RT_ROOM then pure ()
  else if rt = env.RT_WEAPON then
    (if and32 s.op.flags env.OF_POLYGON_OBJECT = 0 ∧ ¬ env.weapon_image_bitmap s.op.id then
      slotCall (.PageInVClip (env.weapon_fire_image_handle s.op.id))
     else pure ())
  else if rt = env.RT_POLYOBJ then LGSObjects_polyobj env gs i type
  else if rt = env.RT_SHARD then do
    let sindex := toShort (env.shard_tmap.get s.op.rtype)
    let tmap ← Stmt.lift (xlateGuarded gs.tex_handles sindex)
    setOp fun op => { op with rtype := env.shard_tmap.set op.rtype tmap }
  else pure ()

/-- Source lines 1240-1242 of the record loop: the dynamic weapon batteries. -/
def LGSObjects_wb (env : ObjEnv) : Stmt Slot Unit := do
  let r ← LGSObjWB env
  setRetval r
  if r ≠ LGS.OK then Stmt.exit .lgsobjs_fail else pure ()

/-- Source lines 1247-1249 of the record loop: the effect info. -/
def LGSObjects_effects (env : ObjEnv) : Stmt Slot Unit := do
  let r ← LGSObjEffects env
  setRetval r
  if r ≠ LGS.OK then Stmt.exit .lgsobjs_fail else pure ()

/-- Source lines 1254-1270 of the record loop: the scripts, the special-case data, the
big-object flag and the room. -/
def LGSObjects_finish (env : ObjEnv) (i : Nat) (roomnum : Int) : Stmt Slot Unit := do
  let s ← Stmt.get
  (if s.op.lighting_render_type ≠ env.LRT_LIGHTMAPS then slotCall (.InitObjectScripts i)
   else pure ())
  let r ← LGSObjSpecial
  setRetval r
  if r ≠ LGS.OK then Stmt.exit .lgsobjs_fail
  else do
    setOp fun op =>
      if and32 op.flags env.OF_BIG_OBJECT ≠ 0 then
        { op with flags := and32 op.flags (not32 env.OF_BIG_OBJECT) }
      else op
    setOp fun op => { op with roomnum := roomnum }

/-- The record loop body for a record whose kind tag is not `OBJ_NONE`, from the
lightmap test to the movement block (source lines 865-1075). Hands on the locals
`roomnum` and `type`. -/
def LGSObjects_common (env : ObjEnv) (gs : gs_tables) (version : Int) (i : Nat)
    (type : Nat) (l_rend_type : Nat) : Stmt Slot (Int × Nat) := do
  let handle ← LGSObjects_head env i l_rend_type
  let roomnum ← LGSObjects_place env i type handle
  let type ← LGSObjects_id env gs type
  LGSObjects_scalars env
  LGSObjects_attach version
  LGSObjects_extras env
  pure (roomnum, type)

/-- The record up to the control block (source lines 865-1088). -/
def LGSObjects_toControl (env : ObjEnv) (gs : gs_tables) (version : Int) (i : Nat)
    (type : Nat) (l_rend_type : Nat) : Stmt Slot (Int × Nat) := do
  let r ← LGSObjects_common env gs version i type l_rend_type
  LGSObjects_mtype env
  pure r

/-- The record up to the AI frame (source lines 865-1107). -/
def LGSObjects_toAI (env : ObjEnv) (gs : gs_tables) (version : Int) (i : Nat)
    (type : Nat) (l_rend_type : Nat) : Stmt Slot (Int × Nat) := do
  let r ← LGSObjects_toControl env gs version i type l_rend_type
  LGSObjects_ctype env gs r.2
  pure r

/-- The record up to the render block (source lines 865-1113). -/
def LGSObjects_toRender (env : ObjEnv) (gs : gs_tables) (version : Int) (i : Nat)
    (type : Nat) (l_rend_type : Nat) : Stmt Slot (Int × Nat) := do
  let r ← LGSObjects_toAI env gs version i type l_rend_type
  LGSObjects_ai env
  pure r

/-- The record up to the effect info (source lines 865-1242). -/
def LGSObjects_toEffects (env : ObjEnv) (gs : gs_tables) (version : Int) (i : Nat)
    (type : Nat) (l_rend_type : Nat) : Stmt Slot (Int × Nat) := do
  let r ← LGSObjects_toRender env gs version i type l_rend_type
  LGSObjects_rtype env
  LGSObjects_render env gs i r.2
  LGSObjects_wb env
  pure r

/-- The record loop body for a record whose kind tag is not `OBJ_NONE`, from the
lightmap test on (source lines 865-1270). -/
def LGSObjects_record (env : ObjEnv) (gs : gs_tables) (version : Int) (i : Nat)
    (type : Nat) (l_rend_type : Nat) : Stmt Slot Unit := do
  let r ← LGSObjects_toEffects env gs version i type l_rend_type
  LGSObjects_effects env
  LGSObjects_finish env i r.1

/-- The globals other than `Objects` that `LGSObjects` assigns: the marker messages,
the physics link list, the AI paths, the highest object index, and the object lists of
the rooms and the terrain cells. -/
structure ObjGlobals where
  inreadobj : Int
  Marker_message : Int
  MarkerMessages : List (List Nat)
  Physics_NumLinked : Int
  PhysicsLinkList : List Int
  AIDynamicPath : List ai_dynamic_path
  AIAltPathNumNodes : Int
  AIAltPath : List Int
  Highest_object_index : Int
  room_objects : List Int
  terrain_objects : List Int
  deriving DecidableEq, Repr

/-- The state `LGSObjects` works on: the object array, its local side table `objmat`,
its local `retval`, the other globals and the call log. -/
structure ObjState where
  Objects : List object
  objmat : List matrix
  retval : LGS
  g : ObjGlobals
  log : List ObjCall

/-- The state after a statement that worked on slot `i` ended in `r`. -/
def ObjState.store (s : ObjState) (i : Nat) (r : Slot) : ObjState :=
  { s with Objects := s.Objects.set i r.op, objmat := s.objmat.set i r.objmat,
           retval := r.retval, log := r.log }

/-- What a statement on slot `i` starts from: `Objects[i]`, `objmat[i]`, `retval` and
the log; nothing when the slot is outside the arrays. -/
def ObjState.slot (s : ObjState) (i : Nat) : Option Slot :=
  match s.Objects[i]?, s.objmat[i]? with
  | some op, some mat => some { op := op, objmat := mat, retval := s.retval, log := s.log }
  | _, _ => none

/-- A statement on `op = &Objects[i]` and `objmat[i]`, run in the whole state; a slot
outside the arrays is outside the defined behaviour. -/
def atSlot {α : Type} (i : Nat) (m : Stmt Slot α) : Stmt ObjState α := fun fp s =>
  match s.slot i with
  | some sl =>
    match m fp sl with
    | .error e => .error e
    | .ok (.next a fp1 r) => .ok (.next a fp1 (s.store i r))
    | .ok (.exit l fp1 r) => .ok (.exit l fp1 (s.store i r))
  | none => .error .outOfRange

/-- A call to a collaborator, recorded in the log. -/
def objCall (c : ObjCall) : Stmt ObjState Unit :=
  Stmt.modify fun s => { s with log := s.log ++ [c] }

/-- An assignment to the globals. -/
def setGlobals (f : ObjGlobals → ObjGlobals) : Stmt ObjState Unit :=
  Stmt.modify fun s => { s with g := f s.g }

/-- One iteration of the record loop (source lines 830-1274): the sentinel (compared
only by an `ASSERT`), the kind tag, and the branch for an empty or a filled record. -/
def LGSObjects_slot (env : ObjEnv) (gs : gs_tables) (version : Int) (i : Nat) :
    Stmt ObjState Unit := do
  let _sig ← Stmt.read cf_ReadInt
  let type ← Stmt.read cf_ReadByte
  if type = env.OBJ_NONE then atSlot i (LGSObjects_empty env i)
  else do
    let l_rend_type ← Stmt.read cf_ReadByte
    atSlot i (LGSObjects_record env gs version i type l_rend_type)

/-- The record loop `for (i = 0; i <= highest_index; i++)`, by recursion on the number
of iterations left. -/
def LGSObjects_records (env : ObjEnv) (gs : gs_tables) (version : Int) :
    Nat → Nat → Stmt ObjState Unit
  | 0, _ => pure ()
  | k + 1, i => do
    LGSObjects_slot env gs version i
    LGSObjects_records env gs version k (i + 1)

/-- A statement on a part of the state, run in the whole state. -/
def Stmt.zoom {σ τ α : Type} (get : σ → τ) (set : σ → τ → σ) (m : Stmt τ α) : Stmt σ α :=
  fun fp s =>
    match m fp (get s) with
    | .error e => .error e
    | .ok (.next a fp1 t) => .ok (.next a fp1 (set s t))
    | .ok (.exit l fp1 t) => .ok (.exit l fp1 (set s t))

/-- The loop `for (i = 0; i < n; i++) a[i] = cf_ReadInt(fp)`, by recursion on the number
of iterations left. -/
def readIntsInto : Nat → Nat → List Int → CFILE → Except Fault (List Int × CFILE)
  | 0, _, a, fp => .ok (a, fp)
  | k + 1, i, a, fp =>
    match cf_ReadInt fp with
    | .error e => .error e
    | .ok (v, fp1) =>
      match arrayModify a i fun _ => v with
      | .error e => .error e
      | .ok a1 => readIntsInto k (i + 1) a1 fp1

/-- A loop that reads `n` integers and discards them. -/
def skipInts : Nat → CFILE → Except Fault (Unit × CFILE)
  | 0, fp => .ok ((), fp)
  | k + 1, fp =>
    match cf_ReadInt fp with
    | .error e => .error e
    | .ok (_, fp1) => skipInts k fp1

/-! ### The AI dynamic paths (source lines 733-789) -/

/-- An assignment to members of `AIDynamicPath[i]`. -/
def setPath (i : Nat) (f : ai_dynamic_path → ai_dynamic_path) :
    Stmt (List ai_dynamic_path) Unit := do
  let paths ← Stmt.get
  let paths1 ← Stmt.lift (arrayModify paths i f)
  Stmt.modify fun _ => paths1

/-- The loop `for (s = 0; s < num_n_to_read; s++)` that stores the nodes of path `i`, by
recursion on the number of iterations left. -/
def LGSObjects_pathNodes (i : Nat) : Nat → Nat → Stmt (List ai_dynamic_path) Unit
  | 0, _ => pure ()
  | k + 1, s => do
    let x ← Stmt.read cf_ReadFloat
    let y ← Stmt.read cf_ReadFloat
    let z ← Stmt.read cf_ReadFloat
    let r ← Stmt.read cf_ReadInt
    let paths ← Stmt.get
    let p ← Stmt.lift (arrayRead paths i)
    let pos ← Stmt.lift (arrayModify p.pos s fun _ => { x := x, y := y, z := z })
    let roomnum ← Stmt.lift (arrayModify p.roomnum s fun _ => r)
    setPath i fun p => { p with pos := pos, roomnum := roomnum }
    LGSObjects_pathNodes i k (s + 1)

/-- A loop that reads nodes (three floats and an integer each) and discards them, by
recursion on the number of iterations left. -/
def LGSObjects_skipNodes {σ : Type} : Nat → Stmt σ Unit
  | 0 => pure ()
  | k + 1 => do
    let _ ← Stmt.read cf_ReadFloat
    let _ ← Stmt.read cf_ReadFloat
    let _ ← Stmt.read cf_ReadFloat
    let _ ← Stmt.read cf_ReadInt
    LGSObjects_skipNodes k

/-- The loop `for (i = 0; i < num_dp_to_read; i++)`, by recursion on the number of
iterations left. -/
def LGSObjects_pathsRead (num_n_to_read num_n_to_skip : Nat) :
    Nat → Nat → Stmt (List ai_dynamic_path) Unit
  | 0, _ => pure ()
  | k + 1, i => do
    let num_nodes ← Stmt.read cf_ReadShort
    let use_count ← Stmt.read cf_ReadShort
    let owner_handle ← Stmt.read cf_ReadInt
    setPath i fun p =>
      { p with num_nodes := num_nodes, use_count := use_count, owner_handle := owner_handle }
    LGSObjects_pathNodes i num_n_to_read 0
    LGSObjects_skipNodes num_n_to_skip
    LGSObjects_pathsRead num_n_to_read num_n_to_skip k (i + 1)

/-- The loop `for (i = 0; i < num_dp_to_skip; i++)`, by recursion on the number of
iterations left. -/
def LGSObjects_pathsSkip {σ : Type} (num_n_to_read num_n_to_skip : Nat) : Nat → Stmt σ Unit
  | 0 => pure ()
  | k + 1 => do
    let _ ← Stmt.read cf_ReadShort
    let _ ← Stmt.read cf_ReadShort
    let _ ← Stmt.read cf_ReadInt
    LGSObjects_skipNodes num_n_to_read
    LGSObjects_skipNodes num_n_to_skip
    LGSObjects_pathsSkip num_n_to_read num_n_to_skip k

/-- The four loops of the AI dynamic-path section for the declared counts
`num_read_max_dynamic_paths` and `num_read_max_nodes` (source lines 738-789). -/
def LGSObjects_pathLoops (env : ObjEnv) (num_read_max_dynamic_paths num_read_max_nodes : Int) :
    Stmt (List ai_dynamic_path) Unit := do
  let num_dp_to_read := min (Int.ofNat env.MAX_DYNAMIC_PATHS) num_read_max_dynamic_paths
  let num_dp_to_skip :=
    if Int.ofNat env.MAX_DYNAMIC_PATHS < num_read_max_dynamic_paths then
      num_read_max_dynamic_paths - Int.ofNat env.MAX_DYNAMIC_PATHS
    else 0
  let num_n_to_read := min (Int.ofNat env.MAX_NODES) num_read_max_nodes
  let num_n_to_skip :=
    if Int.ofNat env.MAX_NODES < num_read_max_nodes then
      num_read_max_nodes - Int.ofNat env.MAX_NODES
    else 0
  LGSObjects_pathsRead num_n_to_read.toNat num_n_to_skip.toNat num_dp_to_read.toNat 0
  LGSObjects_pathsSkip num_n_to_read.toNat num_n_to_skip.toNat num_dp_to_skip.toNat

/-- The AI dynamic-path section of `LGSObjects` (source lines 735-789): the two declared
counts, then the loops. -/
def LGSObjects_paths (env : ObjEnv) : Stmt (List ai_dynamic_path) Unit := do
  let num_read_max_dynamic_paths ← Stmt.read cf_ReadInt
  let num_read_max_nodes ← Stmt.read cf_ReadInt
  LGSObjects_pathLoops env num_read_max_dynamic_paths num_read_max_nodes

/-! ### The function `LGSObjects` -/

/-- The loop over the marker messages (source lines 717-721), by recursion on the number
of iterations left; a message longer than its buffer is outside the defined behaviour. -/
def LGSObjects_markers (env : ObjEnv) : Nat → Nat → Stmt ObjState Unit
  | 0, _ => pure ()
  | k + 1, i => do
    let msg_len ← Stmt.read cf_ReadShort
    let bytes ← Stmt.read (readCount msg_len)
    let s ← Stmt.get
    let rows ← Stmt.lift
      (if bytes.length ≤ env.MAX_MARKER_MESSAGE_LENGTH then
        arrayModify s.g.MarkerMessages i fun row => bytes ++ row.drop bytes.length
       else .error .outOfRange)
    setGlobals fun g => { g with MarkerMessages := rows }
    LGSObjects_markers env k (i + 1)

/-- Source lines 715-731: the marker messages, the declared highest index and the
physics link list. Hands on `highest_index`. -/
def LGSObjects_prelude (env : ObjEnv) : Stmt ObjState Int := do
  let marker_message ← Stmt.read cf_ReadInt
  setGlobals fun g => { g with Marker_message := marker_message }
  let num_marker_msgs ← Stmt.read cf_ReadShort
  LGSObjects_markers env num_marker_msgs.toNat 0
  let highest_index ← Stmt.read cf_ReadShort
  let max_num_linked ← Stmt.read cf_ReadInt
  let numLinked ← Stmt.read cf_ReadInt
  setGlobals fun g => { g with Physics_NumLinked := numLinked }
  let s ← Stmt.get
  let links ← Stmt.read (readIntsInto max_num_linked.toNat 0 s.g.PhysicsLinkList)
  setGlobals fun g => { g with PhysicsLinkList := links }
  pure highest_index

/-- Source lines 791-804: the alternative AI path. -/
def LGSObjects_altPath (env : ObjEnv) : Stmt ObjState Unit := do
  let num_read_rooms ← Stmt.read cf_ReadInt
  let num_r_to_read := min (Int.ofNat env.MAX_ROOMS) num_read_rooms
  let num_r_to_skip :=
    if Int.ofNat env.MAX_ROOMS < num_read_rooms then num_read_rooms - Int.ofNat env.MAX_ROOMS
    else 0
  let numNodes ← Stmt.read cf_ReadInt
  setGlobals fun g => { g with AIAltPathNumNodes := numNodes }
  let s ← Stmt.get
  let path ← Stmt.read (readIntsInto num_r_to_read.toNat 0 s.g.AIAltPath)
  setGlobals fun g => { g with AIAltPath := path }
  Stmt.read (skipInts num_r_to_skip.toNat)

/-- The body of the loop of source lines 810-828 for slot `i`: an object without
lightmaps is deleted when it is live, an object with lightmaps is only unlinked. -/
def LGSObjects_clearSlot (env : ObjEnv) (i : Nat) : Stmt Slot Unit := do
  let s ← Stmt.get
  if s.op.lighting_render_type ≠ env.LRT_LIGHTMAPS then
    (if s.op.type ≠ env.OBJ_NONE then do
      setOp fun op => { op with next := -1, prev := -1 }
      ObjDelete env i
     else pure ())
  else do
    setOp fun op => { op with next := -1, prev := -1 }
    slotCall (.ObjUnlink i)

/-- The loop `for (i = 0; i < MAX_OBJECTS; i++)` of source lines 810-828, by recursion
on the number of iterations left. -/
def LGSObjects_clear (env : ObjEnv) : Nat → Nat → Stmt ObjState Unit
  | 0, _ => pure ()
  | k + 1, i => do
    atSlot i (LGSObjects_clearSlot env i)
    LGSObjects_clear env k (i + 1)

/-- The body of the loop of source lines 1275-1283 for slot `i`. -/
def LGSObjects_beyondSlot (env : ObjEnv) (i : Nat) : Stmt Slot Unit := do
  let s ← Stmt.get
  if s.op.type ≠ env.OBJ_NONE then do
    slotCall (.Osiris_DisableEvents env.OEM_mask)
    ObjDelete env i
    slotCall (.Osiris_EnableEvents env.OEM_mask)
  else pure ()

/-- The loop `for (; i < MAX_OBJECTS; i++)` of source lines 1275-1283, by recursion on
the number of iterations left. -/
def LGSObjects_beyond (env : ObjEnv) : Nat → Nat → Stmt ObjState Unit
  | 0, _ => pure ()
  | k + 1, i => do
    atSlot i (LGSObjects_beyondSlot env i)
    LGSObjects_beyond env k (i + 1)

/-- The loop `for (i = 0; i < MAX_OBJECTS; i++)` of source lines 1285-1289, by recursion
on the number of iterations left. -/
def LGSObjects_unlist : Nat → Nat → Stmt ObjState Unit
  | 0, _ => pure ()
  | k + 1, i => do
    atSlot i (setOp fun op => { op with next := -1, prev := -1 })
    LGSObjects_unlist k (i + 1)

/-- Modelled from the spec: the call `ObjLink(objnum, roomnum)` (object.cpp, not in the
source tree), "link it into its recorded room": the object is in that room afterwards;
the flags it leaves (it sets the big-object flag itself) come from the environment. -/
def ObjLink (env : ObjEnv) (i : Nat) (roomnum : Int) : Stmt Slot Unit := do
  slotCall (.ObjLink i roomnum)
  setOp fun op => { op with roomnum := roomnum, flags := env.linked_flags roomnum op.flags }

/-- Modelled from the spec: the call `ObjSetOrient(op, &m)` (object.cpp, not in the
source tree), "apply the deferred orientation". -/
def ObjSetOrient (i : Nat) (m : matrix) : Stmt Slot Unit := do
  slotCall (.ObjSetOrient i m)
  setOp fun op => { op with orient := m }

/-- The body of the link loop of source lines 1304-1338 for slot `i`. -/
def LGSObjects_linkSlot (env : ObjEnv) (i : Nat) : Stmt Slot Unit := do
  let s ← Stmt.get
  if s.op.type ≠ env.OBJ_NONE then do
    let newroom := s.op.roomnum
    setOp fun op => { op with roomnum := -1 }
    ObjLink env i newroom
    ObjSetOrient i s.objmat
    let s ← Stmt.get
    if s.op.type = env.OBJ_ROOM then do
      (if env.size_is_big s.op.size ∧ and32 s.op.flags env.OF_BIG_OBJECT = 0 then
        slotCall (.BigObjAdd i)
       else pure ())
      slotCall (.ObjSetAABB i)
    else pure ()
  else pure ()

/-- The loop `for (i = 0; i <= Highest_object_index; i++)` of source lines 1304-1338, by
recursion on the number of iterations left. -/
def LGSObjects_link (env : ObjEnv) : Nat → Nat → Stmt ObjState Unit
  | 0, _ => pure ()
  | k + 1, i => do
    atSlot i (LGSObjects_linkSlot env i)
    LGSObjects_link env k (i + 1)

/-- Source lines 701-829 of `LGSObjects`: the entry statements, the prelude, the AI
paths, and the loop that deletes or unlinks what is live. Hands on `highest_index`. -/
def LGSObjects_enter (env : ObjEnv) : Stmt ObjState Int := do
  setGlobals fun g => { g with inreadobj := 1 }
  Stmt.modify fun s =>
    { s with retval := LGS.OK, objmat := List.replicate env.MAX_OBJECTS env.uninit_matrix }
  objCall .Osiris_DisableCreateEvents
  objCall .InitBigObjects
  let highest_index ← LGSObjects_prelude env
  Stmt.zoom (fun s => s.g.AIDynamicPath) (fun s p => { s with g.AIDynamicPath := p })
    (LGSObjects_paths env)
  LGSObjects_altPath env
  objCall (.Osiris_DisableEvents env.OEM_mask)
  LGSObjects_clear env env.MAX_OBJECTS 0
  objCall (.Osiris_EnableEvents env.OEM_mask)
  pure highest_index

/-- Source lines 1275-1342 of `LGSObjects`, what follows the record loop: the objects
beyond the highest index are deleted, the lists are reset, every live object is linked
into its room and given its orientation. -/
def LGSObjects_leave (env : ObjEnv) (highest_index : Int) : Stmt ObjState Unit := do
  LGSObjects_beyond env (env.MAX_OBJECTS - (highest_index + 1).toNat) (highest_index + 1).toNat
  LGSObjects_unlist env.MAX_OBJECTS 0
  setGlobals fun g =>
    { g with room_objects := List.replicate env.MAX_ROOMS (-1),
             terrain_objects := List.replicate (env.TERRAIN_WIDTH * env.TERRAIN_DEPTH) (-1),
             inreadobj := 0,
             Highest_object_index := highest_index }
  LGSObjects_link env (highest_index + 1).toNat 0
  objCall .ResetFreeObjects
  objCall .ObjReInitPositionHistory

/-- The body of `LGSObjects` down to the label `lgsobjs_fail`. -/
def LGSObjects_body (env : ObjEnv) (gs : gs_tables) (version : Int) : Stmt ObjState Unit := do
  let highest_index ← LGSObjects_enter env
  LGSObjects_records env gs version (highest_index + 1).toNat 0
  LGSObjects_leave env highest_index

/-- The statements of a run of `LGSObjects` before the record of slot `i`: the entry and
the records of the slots below `i`. Hands on `highest_index`. -/
def LGSObjects_arrive (env : ObjEnv) (gs : gs_tables) (version : Int) (i : Nat) :
    Stmt ObjState Int := do
  let highest_index ← LGSObjects_enter env
  LGSObjects_records env gs version i 0
  pure highest_index

/-- The function `LGSObjects(fp, version)`: the body, then the statements from the label
it arrives at (`lgsobjs_fail`, also reached by falling through, or `done`) to
`return retval`. -/
def LGSObjects (env : ObjEnv) (gs : gs_tables) (version : Int) (fp : CFILE) (s : ObjState) :
    Except Fault (LGS × CFILE × ObjState) :=
  match LGSObjects_body env gs version fp s with
  | .error e => .error e
  | .ok (.next _ fp1 s1) =>
    .ok (s1.retval, fp1, { s1 with log := s1.log ++ [ObjCall.Osiris_EnableCreateEvents] })
  | .ok (.exit .lgsobjs_fail fp1 s1) =>
    .ok (s1.retval, fp1, { s1 with log := s1.log ++ [ObjCall.Osiris_EnableCreateEvents] })
  | .ok (.exit .done fp1 s1) => .ok (s1.retval, fp1, s1)

/-! ## A small world of objects to run the restore in -/

/-- The four bytes of an integer, low byte first. -/
def le32 (v : Nat) : List Nat := [v % 256, v / 256 % 256, v / 65536 % 256, v / 16777216 % 256]

/-- The two bytes of a 16-bit integer, low byte first. -/
def le16 (v : Nat) : List Nat := [v % 256, v / 256 % 256]

/-- The integer member at offset `k` of a block of bytes. -/
def intView (k : Nat) : View Int :=
  { get := fun b => intAt b k
    set := fun b v => b.take k ++ le32 (bits32 v) ++ b.drop (k + 4) }

/-- An environment for `LGSObjects` with three object slots, two paths of two nodes,
blocks of a few bytes, and the kind and render tags of object.h as Descent 3 numbers
them. -/
def demoObjEnv : ObjEnv :=
  { MAX_OBJECTS := 3
    MAX_ROOMS := 2
    MAX_DYNAMIC_PATHS := 2
    MAX_NODES := 2
    MAX_MARKERS := 2
    MAX_MARKER_MESSAGE_LENGTH := 4
    TERRAIN_WIDTH := 2
    TERRAIN_DEPTH := 2
    HANDLE_OBJNUM_MASK := 2047
    OBJ_NONE := 255
    OBJ_DUMMY := 21
    OBJ_ROBOT := 2
    OBJ_POWERUP := 7
    OBJ_BUILDING := 16
    OBJ_CLUTTER := 11
    OBJ_DOOR := 17
    OBJ_WEAPON := 5
    OBJ_PLAYER := 4
    OBJ_FIREBALL := 1
    OBJ_ROOM := 18
    LRT_LIGHTMAPS := 2
    RT_NONE := 0
    RT_EDITOR_SPHERE := 5
    RT_FIREBALL := 2
    RT_LINE := 6
    RT_PARTICLE := 7
    RT_SPLINTER := 8
    RT_ROOM := 9
    RT_WEAPON := 3
    RT_POLYOBJ := 1
    RT_SHARD := 4
    OF_SERVER_OBJECT := 1
    OF_POLYGON_OBJECT := 2
    OF_BIG_OBJECT := 4
    OEM_OBJECTS := 1
    OEM_TRIGGERS := 2
    OEM_LEVELS := 4
    sizeof_light_info := 1
    sizeof_mtype := 2
    sizeof_ctype := 4
    sizeof_rtype := 12
    sizeof_ai_frame := 2
    sizeof_effect_info := 2
    sizeof_dynamic_wb_info := 1
    sizeof_custom_anim := 1
    byteAsInt := toSByte
    uninit_matrix := ⟨⟨7, 7, 7⟩, ⟨7, 7, 7⟩, ⟨7, 7, 7⟩⟩
    blast_bm_handle := intView 0
    pobj_model_num := intView 0
    pobj_dying_model_num := intView 4
    pobj_tmap_override := intView 8
    pobj_multi_turret_info :=
      { get := fun _ => ⟨0, 0, none, none, 0⟩
        set := fun b _ => b }
    memset_multi_turret := fun b => b
    shard_tmap := intView 0
    weapon_image_bitmap := fun _ => false
    weapon_fire_image_handle := fun _ => 0
    PMF_NOT_RESIDENT := 1
    Poly_models := List.replicate 24 { flags := 0, n_attach := 0, num_wbs := 0, poly_wb := [] }
    paged_size := fun _ _ _ => 0
    room_sphere := fun _ _ => 0
    size_is_big := fun _ => false
    linked_flags := fun _ f => f }

/-- The sentinel 0xBADB0B that begins a saved record, low byte first. -/
def sentinelBytes : List Nat := [11, 219, 186, 0]

/-- The bytes of a saved record that is not empty, with no lighting info, no name, no
attachment, no AI frame, no weapon battery and no effect info: the sentinel found in the
file, the kind tag, the handle, the room number, the nine floats of the orientation all
equal to `orient`, the saved id, and the declared size of the movement block. -/
def demoRecord (sig : List Nat) (type handle roomnum orient id mtypeSize : Nat) : List Nat :=
  sig ++ [type, 0, 0] ++ le32 handle ++ [0] ++ le32 roomnum ++ List.replicate 24 0
    ++ (List.replicate 9 (le32 orient)).flatten ++ [0] ++ le16 id
    ++ List.replicate 48 0 ++ List.replicate 55 0
    ++ le16 mtypeSize ++ List.replicate 2 0 ++ [4, 0] ++ List.replicate 4 0 ++ [0]
    ++ [12, 0] ++ List.replicate 12 0 ++ List.replicate 4 0 ++ [0, 0]

/-- The bytes of a saved record with the empty kind tag. -/
def demoEmptyRecord : List Nat := sentinelBytes ++ [255]

/-- The bytes that precede the records: marker message 0, no marker messages, the
declared highest index, an empty physics link list, no dynamic paths, no alternative
path. -/
def demoPrelude (highest_index : Nat) : List Nat :=
  [0, 0, 0, 0, 0, 0] ++ le16 highest_index ++ List.replicate 8 0 ++ List.replicate 8 0
    ++ List.replicate 8 0

/-- An empty object slot. -/
def demoObject : object :=
  { type := 255, lighting_render_type := 0, lighting_info := none, handle := 0,
    dummy_type := 0, roomnum := -1, pos := ⟨0, 0, 0⟩, last_pos := ⟨0, 0, 0⟩,
    orient := ⟨⟨0, 0, 0⟩, ⟨0, 0, 0⟩, ⟨0, 0, 0⟩⟩, name := none, id := 0, flags := 0,
    control_type := 0, movement_type := 0, render_type := 0, renderframe := 0, size := 0,
    shields := 0, contains_type := 0, contains_id := 0, contains_count := 0,
    creation_time := 0, lifeleft := 0, lifetime := 0, parent_handle := 0,
    attach_ultimate_handle := 0, attach_parent_handle := 0, attach_children := none,
    attach_type := 0, attach_index := 0, attach_dist := 0, min_xyz := ⟨0, 0, 0⟩,
    max_xyz := ⟨0, 0, 0⟩, impact_size := 0, impact_time := 0, impact_player_damage := 0,
    impact_generic_damage := 0, impact_force := 0, custom_default_script_name := none,
    custom_default_module_name := none, position_counter := 0, mtype := [0, 0],
    ctype := [0, 0, 0, 0], rtype := List.replicate 12 0, ai_info := none,
    effect_info := none, dynamic_wb := none, next := -1, prev := -1 }

/-- The demo world of objects: slot 0 holds a live robot, the other two are empty. -/
def demoObjState : ObjState :=
  { Objects := [{ demoObject with type := 2, handle := 4096, roomnum := 1 }, demoObject,
      demoObject]
    objmat := []
    retval := LGS.OK
    g :=
      { inreadobj := 0
        Marker_message := 0
        MarkerMessages := [[0, 0, 0, 0], [0, 0, 0, 0]]
        Physics_NumLinked := 0
        PhysicsLinkList := [0, 0, 0]
        AIDynamicPath :=
          List.replicate 2
            { num_nodes := 0, use_count := 0, owner_handle := 0,
              pos := List.replicate 2 ⟨0, 0, 0⟩, roomnum := [0, 0] }
        AIAltPathNumNodes := 0
        AIAltPath := [0, 0]
        Highest_object_index := 0
        room_objects := [0, 0]
        terrain_objects := [0, 0, 0, 0] }
    log := [] }

/-- A cursor at the start of the given bytes. -/
def cursorOn (data : List Nat) : CFILE := { data := data, pos := 0, closed := false }

/-- The code a run of `LGSObjects` returned, if it returned. -/
def objReturned (r : Except Fault (LGS × CFILE × ObjState)) : Option LGS :=
  match r with
  | .ok (c, _, _) => some c
  | .error _ => none

/-- The kind tag, handle, room and id of every slot after a run of `LGSObjects`. -/
def objSlots (r : Except Fault (LGS × CFILE × ObjState)) : List (Nat × Int × Int × Int) :=
  match r with
  | .ok (_, _, s) => s.Objects.map fun o => (o.type, o.handle, o.roomnum, o.id)
  | .error _ => []

/-- The call log after a run of `LGSObjects`. -/
def objLog (r : Except Fault (LGS × CFILE × ObjState)) : List ObjCall :=
  match r with
  | .ok (_, _, s) => s.log
  | .error _ => []

/-- The demo save of objects: slot 0 holds a robot with handle 2048 in room 1, slot 1
is empty, slot 2 holds a powerup with handle 4098 in room 0. -/
def demoObjSave : CFILE :=
  cursorOn (demoPrelude 2 ++ demoRecord sentinelBytes 2 2048 1 5 0 2 ++ demoEmptyRecord
    ++ demoRecord sentinelBytes 7 4098 0 6 1 2)

/-- The answer of `LoadMission` in a run of `LGSMission`. -/
def LGSMission_loaded {σ : Type} (env : Env σ) (msnname : Name) (w : World σ) : Bool :=
  env.LoadMission msnname
    (call env .Osiris_DisableCreateEvents (call env .FreeScriptsForLevel w)).ext

/-- The answer of `LoadAndStartCurrentLevel` in a run of `LGSMission` in which the
mission has been loaded. -/
def LGSMission_started {σ : Type} (env : Env σ) (msnname : Name) (level : Int)
    (w : World σ) : Bool :=
  let w := call env .FreeScriptsForLevel w
  let w := call env .Osiris_DisableCreateEvents w
  let w := call env (.LoadMission msnname true) w
  let w := call env (.SetCurrentLevel level) w
  let w := { w with g.Player_num := 0 }
  let w := { w with g.ship_index := env.FindShipName DEFAULT_SHIP }
  let w := call env .mng_LoadAddonPages w
  let w := call env .InitPlayerNewShip w
  let w := call env .InitCameraViews w
  env.LoadAndStartCurrentLevel w.ext

/-- The demo environment with a mission that does not load. -/
def demoEnvNoMission : Env Unit := { demoEnv with LoadMission := fun _ _ => false }

/-- The flag constants of room.h as Descent 3 numbers them. -/
def demoRoomConsts : RoomConsts := { FF_TEXTURE_CHANGED := 16, RF_DOOR := 4 }

/-- An unused room without faces, portals or doorway. -/
def demoRoom : room :=
  { used := 0, objects := 3, vis_effects := 2, flags := 0, pulse_time := 0, pulse_offset := 0,
    wind := ⟨0, 0, 0⟩, last_render_time := 0, fog_depth := 0, fog_r := 0, fog_g := 0,
    fog_b := 0, damage := 0, faces := [⟨0, 0⟩], num_portals := 0, portals := [],
    doorway_data := none }

/-- A level of two rooms, highest room index 1. -/
def demoRoomState : RoomState :=
  { Rooms := [demoRoom, demoRoom], Highest_room_index := 1, AutomapVisMap := [0, 0] }

/-- A level with two triggers. -/
def demoTriggerState : TriggerState :=
  { Triggers := [⟨1, 2⟩, ⟨3, 4⟩], Num_triggers := 2, log := [] }

/-- The nodes of a path outside the index range `lo .. hi-1` are the same in `p1` as in
`p`, and so are the other members and the array sizes. -/
def sameOutside (lo hi : Nat) (p p1 : ai_dynamic_path) : Prop :=
  p1.num_nodes = p.num_nodes ∧ p1.use_count = p.use_count ∧
  p1.owner_handle = p.owner_handle ∧
  p1.pos.length = p.pos.length ∧ p1.roomnum.length = p.roomnum.length ∧
  ∀ t, t < lo ∨ hi ≤ t → p1.pos[t]? = p.pos[t]? ∧ p1.roomnum[t]? = p.roomnum[t]?

/-- The node arrays of `p1` have the sizes of those of `p` and the same entries from
index `n` on. -/
def nodesKeptFrom (n : Nat) (p p1 : ai_dynamic_path) : Prop :=
  p1.pos.length = p.pos.length ∧ p1.roomnum.length = p.roomnum.length ∧
  ∀ t, n ≤ t → p1.pos[t]? = p.pos[t]? ∧ p1.roomnum[t]? = p.roomnum[t]?

/-- The path array has `MAX_DYNAMIC_PATHS` entries of `MAX_NODES` nodes each. -/
def pathsSized (env : ObjEnv) (paths : List ai_dynamic_path) : Prop :=
  paths.length = env.MAX_DYNAMIC_PATHS ∧
  ∀ p ∈ paths, p.pos.length = env.MAX_NODES ∧ p.roomnum.length = env.MAX_NODES

instance (env : ObjEnv) (paths : List ai_dynamic_path) : Decidable (pathsSized env paths) := by
  unfold pathsSized
  infer_instance

/-- An AI dynamic-path section that declares three paths of three nodes, one more of each
than the demo build holds: the two counts, then for each path its header and its nodes,
every node with the room number 9. -/
def demoPathSection : CFILE :=
  cursorOn (le32 3 ++ le32 3 ++
    (List.replicate 3 ([1, 0, 2, 0] ++ le32 7 ++
      (List.replicate 3 (List.replicate 12 0 ++ le32 9)).flatten)).flatten)

/-- The path array of the demo world. -/
def demoPaths : List ai_dynamic_path :=
  List.replicate 2
    { num_nodes := 0, use_count := 0, owner_handle := 0,
      pos := List.replicate 2 ⟨5, 5, 5⟩, roomnum := [4, 4] }

/-! ## The records of the stream (specification side) -/

/-- The kind tag of the record at the cursor: the sentinel, then the tag. -/
def savedKind (fp : CFILE) : Except Fault (Nat × CFILE) :=
  match cf_ReadInt fp with
  | .error e => .error e
  | .ok (_, fp1) => cf_ReadByte fp1

/-- The lighting render type that follows the kind tag of a record that is not
empty. -/
def savedLighting (fp : CFILE) : Except Fault (Nat × CFILE) := cf_ReadByte fp

/-- What follows the lighting render type of a record, up to its handle: the
lighting-info flag, the lighting info when the flag is set, and the handle. -/
def savedHandle (env : ObjEnv) (fp : CFILE) : Except Fault (Int × CFILE) :=
  match cf_ReadByte fp with
  | .error e => .error e
  | .ok (has_lightinfo, fp2) =>
    match (if has_lightinfo ≠ 0 then cf_ReadBytes env.sizeof_light_info fp2
           else .ok ([], fp2)) with
    | .error e => .error e
    | .ok (_, fp3) => cf_ReadInt fp3

/-- What follows the handle of a record: the dummy type, the room number, the two
positions and the orientation. The result is the dummy type, the room number and the
orientation. -/
def savedPlacement (fp : CFILE) : Except Fault ((Nat × Int × matrix) × CFILE) :=
  match cf_ReadByte fp with
  | .error e => .error e
  | .ok (dummy_type, fp1) =>
    match cf_ReadInt fp1 with
    | .error e => .error e
    | .ok (roomnum, fp2) =>
      match gs_ReadVector fp2 with
      | .error e => .error e
      | .ok (_, fp3) =>
        match gs_ReadVector fp3 with
        | .error e => .error e
        | .ok (_, fp4) =>
          match gs_ReadMatrix fp4 with
          | .error e => .error e
          | .ok (m, fp5) => .ok ((dummy_type, roomnum, m), fp5)

/-- The name that follows the orientation of a record: a length byte and, when it is
positive, that many bytes. -/
def savedName (env : ObjEnv) (fp : CFILE) : Except Fault (Option (List Nat) × CFILE) :=
  match cf_ReadByte fp with
  | .error e => .error e
  | .ok (b, fp1) =>
    if env.byteAsInt b > 0 then
      match readCount (env.byteAsInt b) fp1 with
      | .error e => .error e
      | .ok (bytes, fp2) => .ok (some bytes, fp2)
    else .ok (none, fp1)

/-- The saved id of a record, from the cursor after its orientation: the 16-bit value
that follows the name. -/
def savedId (env : ObjEnv) (fp : CFILE) : Except Fault (Int × CFILE) :=
  match savedName env fp with
  | .error e => .error e
  | .ok (_, fp1) => cf_ReadShort fp1

/-- A call that links an object into a room or gives it its orientation. -/
def ObjCall.isLink : ObjCall → Bool
  | .ObjLink _ _ => true
  | .ObjSetOrient _ _ => true
  | _ => false

/-- The call that enables the script create-events again. -/
def ObjCall.isCreateEnable : ObjCall → Bool
  | .Osiris_EnableCreateEvents => true
  | _ => false

/-- A call that neither links an object or gives it its orientation nor enables the
script create-events. -/
def ObjCall.quiet (c : ObjCall) : Bool := !c.isLink && !c.isCreateEnable

/-! ## What a statement keeps -/

/-- The relation "the observation `f` of the state is the same afterwards". -/
def Keep {σ β : Type} (f : σ → β) : σ → σ → Prop := fun s s1 => f s1 = f s

/-- The kind, the handle, the dummy type of the object and the orientation in the side
table. -/
def Slot.core (s : Slot) : Nat × Int × Nat × matrix :=
  (s.op.type, s.op.handle, s.op.dummy_type, s.objmat)

/-- The kind, the handle, the dummy type, the orientation in the side table, the id and
the room of the object. -/
def Slot.restored (s : Slot) : (Nat × Int × Nat × matrix) × Int × Int :=
  (s.core, s.op.id, s.op.roomnum)

/-- The three blocks of the object that are copied whole. -/
def Slot.blocks (s : Slot) : List Nat × List Nat × List Nat :=
  (s.op.mtype, s.op.ctype, s.op.rtype)

/-- The relation "the log has grown by calls that all satisfy `P`". -/
def Slot.logged (P : ObjCall → Prop) : Slot → Slot → Prop :=
  fun s s1 => ∃ L, s1.log = s.log ++ L ∧ ∀ c ∈ L, P c

/-- The relation "the log has grown by calls that all satisfy `P`", on the whole state. -/
def ObjState.logged (P : ObjCall → Prop) : ObjState → ObjState → Prop :=
  fun s s1 => ∃ L, s1.log = s.log ++ L ∧ ∀ c ∈ L, P c

/-- The state in which a statement left `LGSObjects` has `retval` set to a failure. -/
def Slot.failed (s : Slot) : Prop := s.retval ≠ LGS.OK

/-! ## Properties of statements -/

/-- Every completed run of `m` relates the state it started in to the state it ended
in by `R`. -/
def Stmt.Rel {σ α : Type} (R : σ → σ → Prop) (m : Stmt σ α) : Prop :=
  ∀ fp s out, m fp s = .ok out → R s out.state

/-- Whenever `m` leaves through a label, the state it leaves in satisfies `E`. -/
def Stmt.ExitPost {σ α : Type} (E : σ → Prop) (m : Stmt σ α) : Prop :=
  ∀ fp s l fp1 s1, m fp s = .ok (.exit l fp1 s1) → E s1

/-- The statement neither reads the cursor nor faults nor leaves: it always falls
through with the cursor where it was. -/
def Stmt.Total {σ α : Type} (m : Stmt σ α) : Prop :=
  ∀ fp s, ∃ a s1, m fp s = .ok (.next a fp s1)

/-! ## Observing a run of a statement -/

/-- What a run hands on when it falls through: the value and the cursor. -/
def arrival {σ α : Type} (r : Except Fault (Step σ α)) : Option (α × CFILE) :=
  match r with
  | .ok (.next a fp _) => some (a, fp)
  | _ => none

/-- The state a run ended in; `d` for a run that faulted. -/
def endState {σ α : Type} (r : Except Fault (Step σ α)) (d : σ) : σ :=
  match r with
  | .ok out => out.state
  | .error _ => d

/-- What a statement on slot `i` starts from; `d` for a slot outside the arrays. -/
def ObjState.slotAt (s : ObjState) (i : Nat) (d : Slot) : Slot := (s.slot i).getD d

/-- The declared size of the weather block of a save, with the level number and the
mission path that precede it: what the stream holds from the level selector to the
size. -/
def savedWeatherSize (rd : StringReader) (len : Nat) (fp : CFILE) :
    Except Fault ((Int × Name × Int) × CFILE) :=
  match cf_ReadShort fp with
  | .error e => .error e
  | .ok (cl, fp1) =>
  match cf_ReadString rd len fp1 with
  | .error e => .error e
  | .ok (path0, fp2) =>
  match cf_ReadInt fp2 with
  | .error e => .error e
  | .ok (_, fp3) =>
  match cf_ReadFloat fp3 with
  | .error e => .error e
  | .ok (_, fp4) =>
  match cf_ReadInt fp4 with
  | .error e => .error e
  | .ok (_, fp5) =>
  match cf_ReadInt fp5 with
  | .error e => .error e
  | .ok (_, fp6) =>
  match cf_ReadShort fp6 with
  | .error e => .error e
  | .ok (_, fp7) =>
  match cf_ReadInt fp7 with
  | .error e => .error e
  | .ok (size, fp8) => .ok ((toUShort cl, missionPath (toUShort cl) path0, size), fp8)

/-! ## Demo saves that fail a check -/

/-- Translation tables with a different value in every slot. -/
def demoObjTables : gs_tables :=
  { obji_indices := [10, 11]
    model_handles := [20, 21]
    door_handles := [30, 31]
    ship_handles := List.replicate 30 0
    wpn_handles := [40, 41]
    tex_handles := [50, 51]
    bm_handles := [60, 61, 62, 63] }

/-- A slot to fall back on. -/
def demoSlot : Slot :=
  { op := demoObject, objmat := demoObjEnv.uninit_matrix, retval := LGS.OK, log := [] }

/-- The demo save of objects with the records of slot 1 and slot 2 exchanged: the record
at slot 1 holds the handle 4098, whose slot bits are 2. -/
def demoObjSaveMisplaced : CFILE :=
  cursorOn (demoPrelude 2 ++ demoRecord sentinelBytes 2 2048 1 5 0 2
    ++ demoRecord sentinelBytes 7 4098 0 6 1 2 ++ demoEmptyRecord)

/-- The demo save of objects with the bytes 1, 2, 3, 4 in the place of the sentinel of
the record of slot 0. -/
def demoObjSaveBadSentinel : CFILE :=
  cursorOn (demoPrelude 2 ++ demoRecord [1, 2, 3, 4] 2 2048 1 5 0 2 ++ demoEmptyRecord
    ++ demoRecord sentinelBytes 7 4098 0 6 1 2)

/-- The demo save of objects with a movement block of slot 2 that declares three bytes,
one more than the live block has. -/
def demoObjSaveOldMovement : CFILE :=
  cursorOn (demoPrelude 2 ++ demoRecord sentinelBytes 2 2048 1 5 0 2 ++ demoEmptyRecord
    ++ demoRecord sentinelBytes 7 4098 0 6 1 3)

/-- The demo save with a weather block that declares three bytes, one more than the
live block has. -/
def demoSaveOldWeather : CFILE :=
  { data := [0, 0, 0, 0, 1, 0, 0] ++ demoTables ++ [5, 0, 6] ++ d3_mn3
      ++ [0, 0, 0, 0, 0, 0, 0, 0, 0, 0, 0, 0, 0, 0, 0, 0, 0, 0, 3, 0, 0, 0, 7, 7, 7]
    pos := 0
    closed := false }

/-- A player environment with records of four bytes: the second byte stands for the
inventory and the third for the counter measures, and a reset empties them. -/
def demoPlayerEnv : PlayerEnv :=
  { sizeof_player := 4
    HANDLE_OBJNUM_MASK := 2047
    guided_obj_set := fun _ => false
    ship_index := fun _ => 0
    inventory_Reset := fun plr => plr.set 1 0
    counter_measures_Reset := fun plr => plr.set 2 0
    inventory_ReadInventory := fun plr fp => .ok (plr, fp)
    counter_measures_ReadInventory := fun plr fp => .ok (plr, fp) }

/-- A world with one player record. -/
def demoPlayerState : PlayerState :=
  { Players := [[1, 2, 3, 4]], Player_num := 0, guided_obj := none, log := [] }

/-- The bytes of a saved robot record up to its movement block: the sentinel, the kind
tag, the handle, the room number, the orientation, the saved id and what follows them
as zeros. -/
def demoRecordCommon (type handle roomnum orient id : Nat) : List Nat :=
  sentinelBytes ++ [type, 0, 0] ++ le32 handle ++ [0] ++ le32 roomnum ++ List.replicate 24 0
    ++ (List.replicate 9 (le32 orient)).flatten ++ [0] ++ le16 id
    ++ List.replicate 48 0 ++ List.replicate 55 0

/-- A save of objects with one record, of a robot at slot 0, that ends with the given
bytes after the position counter of the record. -/
def demoObjSaveCut (tail : List Nat) : CFILE :=
  cursorOn (demoPrelude 0 ++ demoRecordCommon 2 2048 1 5 0 ++ tail)

/-- The state in which the run on `demoObjSaveCut tail` arrives at the record. -/
def demoArrived (tail : List Nat) : ObjState :=
  endState (LGSObjects_arrive demoObjEnv demoObjTables 0 0 (demoObjSaveCut tail) demoObjState)
    demoObjState

/-- Slot 0 when the run on `demoObjSaveCut tail` arrives at the record. -/
def demoArrivedSlot (tail : List Nat) : Slot := (demoArrived tail).slotAt 0 demoSlot

/-- The world after the first stage of `LoadGameState` on a demo save. -/
def demoWorldAfterHeader : World Unit :=
  { demoWorld with g.IsRestoredGame := true, g.gs_Xlates := some demoTablesBuilt }

/-- The end of a record whose movement block declares three bytes, not two. -/
def demoOldMovement : List Nat := [3, 0]

/-- The end of a record whose control block declares five bytes, not four. -/
def demoOldControl : List Nat := [2, 0, 0, 0, 5, 0]

/-- The end of a record whose AI frame declares three bytes, not two. -/
def demoOldAI : List Nat := [2, 0, 0, 0, 4, 0, 0, 0, 0, 0, 1, 3, 0]

/-- The end of a record whose render block declares thirteen bytes, not twelve. -/
def demoOldRender : List Nat := [2, 0, 0, 0, 4, 0, 0, 0, 0, 0, 0, 13, 0]

/-- The end of a record whose effect info declares three bytes, not two. -/
def demoOldEffects : List Nat :=
  [2, 0, 0, 0, 4, 0, 0, 0, 0, 0, 0, 12, 0] ++ List.replicate 16 0 ++ [0, 1, 3, 0]

/-! ## Loops over the slots -/

/-- The common shape of the loops of `LGSObjects` that run a statement on the slots
`j`, `j+1`, .., `j+k-1` in turn, by recursion on the number of iterations left. -/
def forSlots (body : Nat → Stmt Slot Unit) : Nat → Nat → Stmt ObjState Unit
  | 0, _ => pure ()
  | k + 1, j => do
    atSlot j (body j)
    forSlots body k (j + 1)

/-- What the stream of a run of `LGSObjects` from `fp` in `s` holds for slot `i`: the
kind tag, the handle, the room number and the orientation of the record the run arrives
at after the records of the slots below `i`; nothing when the run does not arrive there
or the stream ends before the orientation. -/
def savedAt (env : ObjEnv) (gs : gs_tables) (version : Int) (i : Nat) (fp : CFILE)
    (s : ObjState) : Option (Nat × Int × Int × matrix) :=
  match arrival (LGSObjects_arrive env gs version i fp s) with
  | none => none
  | some (_, fpi) =>
    match savedKind fpi with
    | .error _ => none
    | .ok (type, fpK) =>
      match savedLighting fpK with
      | .error _ => none
      | .ok (_, fp3) =>
        match savedHandle env fp3 with
        | .error _ => none
        | .ok (handle, fpH) =>
          match savedPlacement fpH with
          | .error _ => none
          | .ok ((_, roomnum, m), _) => some (type, handle, roomnum, m)

/-- The cursor and the state a run of `LGSObjects` returned with; `d` for a run that
faulted. -/
def objEnd (r : Except Fault (LGS × CFILE × ObjState)) (d : CFILE × ObjState) :
    CFILE × ObjState :=
  match r with
  | .ok (_, fp, s) => (fp, s)
  | .error _ => d

/-- The cursor and the state the run on the demo save of objects returns with. -/
def demoRestored : CFILE × ObjState :=
  objEnd (LGSObjects demoObjEnv demoObjTables 0 demoObjSave demoObjState)
    (demoObjSave, demoObjState)

/-- The state in which the run on the demo save with exchanged records arrives at the
record of slot 1. -/
def demoMisplacedArrived : ObjState :=
  endState (LGSObjects_arrive demoObjEnv demoObjTables 0 1 demoObjSaveMisplaced demoObjState)
    demoObjState

/-! ## More demo data for `LGSObjects` -/

/-- The demo environment of a build whose `dynamic_wb_info` has three bytes, not one. -/
def demoObjEnvWide : ObjEnv := { demoObjEnv with sizeof_dynamic_wb_info := 3 }

/-- The end of a record that holds one weapon battery: the blocks, no AI frame, the
count 1 of the batteries and four more bytes. -/
def demoOneBattery : List Nat :=
  [2, 0, 0, 0, 4, 0, 0, 0, 0, 0, 0, 12, 0] ++ List.replicate 16 0 ++ [1, 9, 0, 0, 0]

/-- The demo world of objects with a live building of the lightmap kind in slot 1. -/
def demoObjStateLightmap : ObjState :=
  { demoObjState with
    Objects := [{ demoObject with type := 2, handle := 4096, roomnum := 1 },
      { demoObject with type := 16, lighting_render_type := 2, handle := 1, roomnum := 0 },
      demoObject] }

/-- A slot that holds a live building of the lightmap kind. -/
def demoLightmapSlot : Slot :=
  { demoSlot with
    op := { demoObject with type := 16, lighting_render_type := 2, handle := 1, roomnum := 0 } }

/-- The kind tag the stream of a run of `LGSObjects` from `fp` in `s` holds for slot `i`:
the tag of the record the run arrives at after the records of the slots below `i`;
nothing when the run does not arrive there. -/
def savedKindAt (env : ObjEnv) (gs : gs_tables) (version : Int) (i : Nat) (fp : CFILE)
    (s : ObjState) : Option Nat :=
  match arrival (LGSObjects_arrive env gs version i fp s) with
  | none => none
  | some (_, fpi) =>
    match savedKind fpi with
    | .error _ => none
    | .ok (type, _) => some type

/-! ## A room save whose count is not the count of the level -/

/-- A level of two rooms (highest room index 1) in arrays of four entries. -/
def demoRoomStateWide : RoomState :=
  { Rooms := [demoRoom, demoRoom, demoRoom, demoRoom], Highest_room_index := 1,
    AutomapVisMap := [0, 0, 0, 0] }

/-- The automap bytes a save of `count` rooms holds: 7, 8, 9, ... -/
def demoAutomapBytes (count : Nat) : List Nat := (List.range count).map fun i => i + 7

/-- A save of rooms: declared highest index 1, declared room count `count`, the automap
bytes, and the `used` byte 0 for the rooms 0 and 1. -/
def demoRoomSaveCount (count : Nat) : CFILE :=
  cursorOn (le16 1 ++ le16 count ++ demoAutomapBytes count ++ [0, 0])

/-- The value a read answers, when it answers. -/
def readValue {α : Type} (r : Except Fault (α × CFILE)) : Option α :=
  match r with
  | .ok (a, _) => some a
  | .error _ => none

/-! ## Objects with references to remap -/

/-- A control block behind its declared size, with the bitmap handle `bm` (32 bits). -/
def demoControlBlock (bm : Nat) : CFILE := cursorOn (le16 4 ++ le32 bm)

/-- A slot with a polygon object: model number 1, dying model number -1, texture
override 0. -/
def demoPolySlot : Slot :=
  { demoSlot with
    op := { demoObject with type := 2, render_type := 1,
                            rtype := le32 1 ++ le32 4294967295 ++ le32 0 } }

/-- A slot with a polygon object that has no model: model number -1, dying model number
-1, texture override 0. -/
def demoAbsentModelSlot : Slot :=
  { demoSlot with
    op := { demoObject with type := 2, render_type := 1,
                            rtype := le32 4294967295 ++ le32 4294967295 ++ le32 0 } }

/-- The bytes of a saved record of a robot drawn as a polygon object (render type 1) with
the model number `model` (32 bits), the dying model number -1 and the texture override
0, followed by one byte of animation state. -/
def demoPolyRecord (model : Nat) : List Nat :=
  sentinelBytes ++ [2, 0, 0] ++ le32 2048 ++ [0] ++ le32 1 ++ List.replicate 24 0
    ++ (List.replicate 9 (le32 5)).flatten ++ [0] ++ le16 0
    ++ List.replicate 6 0 ++ [1] ++ List.replicate 41 0 ++ List.replicate 55 0
    ++ le16 2 ++ List.replicate 2 0 ++ [4, 0] ++ List.replicate 4 0 ++ [0]
    ++ [12, 0] ++ le32 model ++ le32 4294967295 ++ le32 0 ++ List.replicate 4 0 ++ [9]
    ++ [0, 0]

/-- A save of objects with one record, of a polygon object at slot 0 with the model
number `model`. -/
def demoObjSavePoly (model : Nat) : CFILE := cursorOn (demoPrelude 0 ++ demoPolyRecord model)

/-- A slot with a shard whose texture is `tmap` (32 bits). -/
def demoShardSlot (tmap : Nat) : Slot :=
  { demoSlot with
    op := { demoObject with type := 2, render_type := 4,
                            rtype := le32 tmap ++ List.replicate 8 0 } }

/-! ## Visual effects (`LGSVisEffects`) -/

/-- The calls `LGSVisEffects` makes to the visual-effect pool (viseffect.cpp, not in the
source tree). -/
inductive VisCall where
  | VisEffectAllocate
  | VisEffectLink (v : Int) (roomnum : Int)
  deriving DecidableEq, Repr

/-- What `LGSVisEffects` takes from outside the source tree: the sizes of the two record
layouts, the tag `VIS_FIREBALL`, the macros `ROOMNUM_OUTSIDE` and `CELLNUM`, the members
of a record as the bytes of its layout give them, and the answer of `VisEffectAllocate`,
which depends on the calls made so far. -/
structure VisEnv where
  sizeof_vis_effect : Nat
  sizeof_old_vis_effect : Nat
  VIS_FIREBALL : Nat
  ROOMNUM_OUTSIDE : Int → Bool
  CELLNUM : Int → Int
  vis_of_bytes : List Nat → vis_effect
  old_vis_of_bytes : List Nat → old_vis_effect
  VisEffectAllocate : List VisCall → Int

/-- The live state `LGSVisEffects` works on: the room array and the highest room index of
the loaded level, the pool `VisEffects`, and the calls made so far. -/
structure VisState where
  Rooms : List room
  Highest_room_index : Int
  VisEffects : List vis_effect
  log : List VisCall
  deriving DecidableEq, Repr

/-- The test "check for old struct" of source line 608, with the short-circuit order of
`||` and `&&`: `Rooms[roomnum]` is looked at only for a room number that is not outside
and not above `Highest_room_index`. -/
def LGSVisEffects_old (env : VisEnv) (s : VisState) (vis : vis_effect) (roomnum : Int) :
    Except Fault Bool :=
  if vis.type ≠ env.VIS_FIREBALL then .ok true
  else if roomnum = -1 then .ok true
  else if env.ROOMNUM_OUTSIDE roomnum = false then
    if roomnum > s.Highest_room_index then .ok true
    else do
      let n ← arrayIndex roomnum
      let r ← arrayRead s.Rooms n
      .ok (decide (r.used = 0))
  else .ok (decide (env.CELLNUM roomnum > 65535))

/-- Source lines 623-630 of the loop body: the links of the record are reset, an effect
is allocated and, when there is one, the record is copied into it and linked into its
room. -/
def LGSVisEffects_store (env : VisEnv) (vis : vis_effect) (roomnum : Int) :
    Stmt VisState Unit := do
  let vis := { vis with roomnum := -1, prev := -1, next := -1 }
  let s ← Stmt.get
  let v := env.VisEffectAllocate s.log
  Stmt.modify fun s => { s with log := s.log ++ [VisCall.VisEffectAllocate] }
  if v ≥ 0 then do
    let n ← Stmt.lift (arrayIndex v)
    let s ← Stmt.get
    let vs ← Stmt.lift (arrayModify s.VisEffects n fun _ => vis)
    Stmt.modify fun s => { s with VisEffects := vs }
    Stmt.modify fun s => { s with log := s.log ++ [VisCall.VisEffectLink v roomnum] }
  else pure ()

/-- The body of the loop of `LGSVisEffects` (source lines 600-631). The record is read
in the current layout; when the test finds it to be of the old layout, the bytes read
are taken as the head of an `old_vis_effect`, the rest of which is read behind them (the
`memcpy` of line 612 also copies bytes from beyond `vis`, all of which the read of line
615 overwrites), and the members are copied over. -/
def LGSVisEffects_effect (env : VisEnv) : Stmt VisState Unit := do
  let bytes ← Stmt.read (cf_ReadBytes env.sizeof_vis_effect)
  let vis := env.vis_of_bytes bytes
  let roomnum := vis.roomnum
  let s ← Stmt.get
  let old ← Stmt.lift (LGSVisEffects_old env s vis roomnum)
  if old then do
    let extra ← Stmt.read
      (readCount (Int.ofNat env.sizeof_old_vis_effect - Int.ofNat env.sizeof_vis_effect))
    let old_vis := env.old_vis_of_bytes (bytes ++ extra)
    let vis := CopyVisStruct vis old_vis
    let roomnum := vis.roomnum
    LGSVisEffects_store env vis roomnum
  else LGSVisEffects_store env vis roomnum

/-- The loop `for (i = 0; i < count; i++)` of `LGSVisEffects`, by recursion on the number
of iterations left. -/
def LGSVisEffects_loop (env : VisEnv) : Nat → Stmt VisState Unit
  | 0 => pure ()
  | k + 1 => do
    LGSVisEffects_effect env
    LGSVisEffects_loop env k

/-- The restorer `LGSVisEffects(fp)`. -/
def LGSVisEffects (env : VisEnv) : Stmt VisState LGS := do
  let count ← Stmt.read cf_ReadShort
  LGSVisEffects_loop env count.toNat
  pure LGS.OK

namespace newrender

/-- The value of an `int` expression whose value in the integers is `v`. -/
def wrapInt (v : Int) : Int := toSigned 32 (bits32 v)

/-- The members of `roomUVL` (room.h, not in the source tree) that newrender.cpp names;
floats are held as their bit patterns. -/
structure roomUVL where
  u : Nat
  v : Nat
  u2 : Nat
  v2 : Nat
  deriving DecidableEq, Repr

/-- The members of a `face` (room.h, not in the source tree) that newrender.cpp names. -/
structure face where
  flags : Int
  portal_num : Int
  tmap : Int
  num_verts : Int
  face_verts : List Int
  face_uvls : List roomUVL
  normal : vector
  special_handle : Int
  lmi_handle : Int
  deriving DecidableEq, Repr

/-- The members of a `room` (room.h, not in the source tree) that newrender.cpp names. -/
structure room where
  used : Nat
  flags : Int
  num_faces : Int
  faces : List face
  verts : List vector
  mirror_face : Int
  deriving DecidableEq, Repr

/-- The members of an entry of `GameTextures` (gametexture.h, not in the source tree)
that newrender.cpp names. -/
structure texture where
  flags : Int
  alpha : Nat
  slide_u : Nat
  slide_v : Nat
  destroy_handle : Int
  deriving DecidableEq, Repr

/-- The members of a `RendVertex` (gl_mesh.h, not in the source tree) that newrender.cpp
assigns. -/
structure RendVertex where
  position : vector
  normal : vector
  r : Nat
  g : Nat
  b : Nat
  a : Nat
  u1 : Nat
  v1 : Nat
  u2 : Nat
  v2 : Nat
  uslide : Nat
  vslide : Nat
  deriving DecidableEq, Repr

/-- The structure `ElementRange` (gl_mesh.h, not in the source tree). -/
structure ElementRange where
  offset : Int
  count : Int
  deriving DecidableEq, Repr

/-- The structure `SortableElement` (newrender.h, not in the source tree), with the
members in the order of its initialisers. -/
structure SortableElement where
  element : Int
  texturehandle : Int
  lmhandle : Int
  deriving DecidableEq, Repr

/-- The structure `RoomDrawElement`. -/
structure RoomDrawElement where
  texturenum : Int
  lmhandle : Int
  range : ElementRange
  deriving DecidableEq, Repr

/-- The structure `SpecularDrawElement`; `special` holds the index into `SpecialFaces`
that the pointer is taken at. -/
structure SpecularDrawElement where
  texturenum : Int
  lmhandle : Int
  range : ElementRange
  special : Int
  deriving DecidableEq, Repr

/-- The structure `FacePrevState`. -/
structure FacePrevState where
  flags : Int
  tmap : Int
  deriving DecidableEq, Repr

/-- The members of `RoomMesh` that the mesh update assigns. -/
structure RoomMesh where
  roomnum : Int
  LitInteractions : List RoomDrawElement
  UnlitInteractions : List RoomDrawElement
  SpecInteractions : List SpecularDrawElement
  MirrorInteractions : List RoomDrawElement
  FacePrevStates : List FacePrevState
  deriving DecidableEq, Repr

/-- The calls newrender.cpp makes on a `MeshBuilder` that change it. -/
inductive MeshCall where
  | BeginVertices
  | BeginIndices
  | EndVertices
  | EndIndices
  | AddVertex (vert : RendVertex)
  | SetIndicies (count : Int) (indices : List Int)
  deriving DecidableEq, Repr

/-- The calls that open or close a batch of vertices and indices. -/
def MeshCall.isBatch : MeshCall → Bool
  | .BeginVertices => true
  | .BeginIndices => true
  | .EndVertices => true
  | .EndIndices => true
  | _ => false

/-- The calls that add a triangle. -/
def MeshCall.isTriangle : MeshCall → Bool
  | .SetIndicies _ _ => true
  | _ => false

/-- The calls that add a vertex. -/
def MeshCall.isVertex : MeshCall → Bool
  | .AddVertex _ => true
  | _ => false

/-- A `MeshBuilder`: the calls made on it, in order. -/
abbrev MeshBuilder := List MeshCall

/-- What newrender.cpp takes from outside the source tree: flag constants, the tables
`GameTextures`, `GameBitmaps` (the format of each bitmap), `LightmapInfo` (the
`lm_handle` of each entry) and `SpecialFaces` (the `vertnorms` of each entry), the float
operations on an alpha value, the answers of the mesh builder, `GetTextureBitmap`, and
the order `std::sort` puts a list of `SortableElement`s in. -/
structure RenderEnv where
  FF_FLOATING_TRIG : Int
  FF_DESTROYED : Int
  FF_LIGHTMAP : Int
  TF_SATURATE : Int
  TF_TMAP2 : Int
  TF_DESTROYABLE : Int
  TF_SPECULAR : Int
  TF_SMOOTH_SPECULAR : Int
  RF_EXTERNAL : Int
  BAD_SPECIAL_FACE_INDEX : Int
  AT_ALWAYS : Int
  AT_SATURATE_TEXTURE : Int
  ATF_CONSTANT : Int
  ATF_TEXTURE : Int
  BITMAP_FORMAT_4444 : Int
  GameTextures : List texture
  GameBitmaps : List Int
  LightmapInfo : List Int
  SpecialFaces : List (List vector)
  float_one : Nat
  alpha_below_one : Nat → Bool
  alpha_byte : Nat → Nat
  uninit_vertex : RendVertex
  NumVertices : MeshBuilder → Int
  EndIndices : MeshBuilder → ElementRange
  GetTextureBitmap : Int → Int → Int
  sort : List SortableElement → List SortableElement

/-- The element `a[i]` of an array, for an `int` index. -/
def elemAt {α : Type} (a : List α) (i : Int) : Except Fault α := do
  let n ← arrayIndex i
  arrayRead a n

/-- The function `FaceIsStatic(rp, fp)`. -/
def FaceIsStatic (env : RenderEnv) (fp : face) : Bool :=
  if and32 fp.flags env.FF_FLOATING_TRIG ≠ 0 then false
  else if fp.portal_num ≠ -1 then false
  else true

/-- The function `GetFaceAlpha(fp, bm_handle)`. -/
def GetFaceAlpha (env : RenderEnv) (fp : face) (bm_handle : Int) : Except Fault Int := do
  let t ← elemAt env.GameTextures fp.tmap
  if and32 t.flags env.TF_SATURATE ≠ 0 then pure env.AT_SATURATE_TEXTURE
  else do
    let ret := if env.alpha_below_one t.alpha then or32 env.AT_ALWAYS env.ATF_CONSTANT
      else env.AT_ALWAYS
    if bm_handle ≥ 0 then do
      let format ← elemAt env.GameBitmaps bm_handle
      if format ≠ env.BITMAP_FORMAT_4444 ∧ and32 t.flags env.TF_TMAP2 ≠ 0 then
        pure (or32 ret env.ATF_TEXTURE)
      else pure ret
    else pure ret

/-- The statements that close a batch: `mesh.EndVertices()`, `mesh.EndIndices()`, whose
range is moved by `firstIndex`. -/
def endBatch (env : RenderEnv) (firstIndex : Int) (mesh : MeshBuilder) :
    MeshBuilder × ElementRange :=
  let mesh := mesh ++ [MeshCall.EndVertices]
  let range := env.EndIndices mesh
  (mesh ++ [MeshCall.EndIndices], { range with offset := range.offset + firstIndex })

/-- The fan loop `for (int i = 2; i < fp.num_verts; i++)` of `AddFacesToBuffer` and
`AddSpecFacesToBuffer`, by recursion on the number of iterations left: one call of
`SetIndicies` with the three indices of the triangle. -/
def fanLoop (first_index : Int) : Nat → Int → MeshBuilder → MeshBuilder
  | 0, _, mesh => mesh
  | k + 1, i, mesh =>
    fanLoop first_index k (i + 1)
      (mesh ++ [MeshCall.SetIndicies 3
        [first_index, wrapInt (first_index + i - 1), wrapInt (first_index + i)]])

/-- The vertex loop `for (int i = 0; i < fp.num_verts; i++)` of `AddFacesToBuffer`, by
recursion on the number of iterations left. -/
def AddFacesToBuffer_vertices (env : RenderEnv) (rp : room) (fp : face) (alpha : Nat) :
    Nat → Nat → RendVertex × MeshBuilder → Except Fault (RendVertex × MeshBuilder)
  | 0, _, st => pure st
  | k + 1, i, (vert, mesh) => do
    let uvs ← arrayRead fp.face_uvls i
    let vi ← arrayRead fp.face_verts i
    let position ← elemAt rp.verts vi
    let vert := { vert with position := position, normal := fp.normal, r := 255, g := 255,
                            b := 255, a := env.alpha_byte alpha, u1 := uvs.u, v1 := uvs.v,
                            u2 := uvs.u2, v2 := uvs.v2 }
    AddFacesToBuffer_vertices env rp fp alpha k (i + 1) (vert, mesh ++ [MeshCall.AddVertex vert])

/-- The locals of `AddFacesToBuffer` that live across the iterations of its loop, with
the mesh and the list of interactions. -/
structure FaceBatch where
  lasttmap : Int
  lastlm : Int
  firsttime : Bool
  vert : RendVertex
  alpha : Nat
  mesh : MeshBuilder
  interactions : List RoomDrawElement
  deriving DecidableEq, Repr

/-- The body of the loop `for (SortableElement& element : elements)` of
`AddFacesToBuffer`. -/
def AddFacesToBuffer_element (env : RenderEnv) (rp : room) (indexOffset firstIndex : Int)
    (element : SortableElement) (b : FaceBatch) : Except Fault FaceBatch := do
  let b ←
    (if element.texturehandle ≠ b.lasttmap ∨ element.lmhandle ≠ b.lastlm then do
      let b :=
        if b.firsttime = false then
          let closed := endBatch env firstIndex b.mesh
          { b with mesh := closed.1,
                   interactions := b.interactions ++ [⟨b.lasttmap, b.lastlm, closed.2⟩] }
        else { b with firsttime := false }
      let mesh := b.mesh ++ [MeshCall.BeginVertices, MeshCall.BeginIndices]
      let t ← elemAt env.GameTextures element.texturehandle
      pure { b with mesh := mesh, lasttmap := element.texturehandle,
                    lastlm := element.lmhandle,
                    vert := { b.vert with uslide := t.slide_u, vslide := t.slide_v },
                    alpha := t.alpha }
    else pure b)
  let fp ← elemAt rp.faces element.element
  let first_index := wrapInt (env.NumVertices b.mesh + indexOffset)
  let st ← AddFacesToBuffer_vertices env rp fp b.alpha fp.num_verts.toNat 0 (b.vert, b.mesh)
  pure { b with vert := st.1, mesh := fanLoop first_index (fp.num_verts - 2).toNat 2 st.2 }

/-- The loop `for (SortableElement& element : elements)` of `AddFacesToBuffer`. -/
def AddFacesToBuffer_loop (env : RenderEnv) (rp : room) (indexOffset firstIndex : Int) :
    List SortableElement → FaceBatch → Except Fault FaceBatch
  | [], b => pure b
  | element :: rest, b => do
    let b ← AddFacesToBuffer_element env rp indexOffset firstIndex element b
    AddFacesToBuffer_loop env rp indexOffset firstIndex rest b

/-- The function `AddFacesToBuffer(mesh, elements, interactions, rp, indexOffset,
firstIndex)`: the mesh and the interactions afterwards. -/
def AddFacesToBuffer (env : RenderEnv) (mesh : MeshBuilder) (elements : List SortableElement)
    (interactions : List RoomDrawElement) (rp : room) (indexOffset firstIndex : Int) :
    Except Fault (MeshBuilder × List RoomDrawElement) :=
  if elements = [] then pure (mesh, interactions)
  else do
    let b ← AddFacesToBuffer_loop env rp indexOffset firstIndex elements
      { lasttmap := -1, lastlm := -1, firsttime := true, vert := env.uninit_vertex,
        alpha := env.float_one, mesh := mesh, interactions := interactions }
    let closed := endBatch env firstIndex b.mesh
    pure (closed.1, b.interactions ++ [⟨b.lasttmap, b.lastlm, closed.2⟩])

/-- The two vertex loops of `AddSpecFacesToBuffer`, by recursion on the number of
iterations left; `smooth` tells which of the two runs: the one that takes the normal of
every vertex from `SpecialFaces[fp.special_handle].vertnorms`, or the one that takes the
normal of the face. -/
def AddSpecFacesToBuffer_vertices (env : RenderEnv) (rp : room) (fp : face) (smooth : Bool) :
    Nat → Nat → RendVertex × MeshBuilder → Except Fault (RendVertex × MeshBuilder)
  | 0, _, st => pure st
  | k + 1, i, (vert, mesh) => do
    let uvs ← arrayRead fp.face_uvls i
    let vi ← arrayRead fp.face_verts i
    let position ← elemAt rp.verts vi
    let normal ←
      (if smooth then do
        let vertnorms ← elemAt env.SpecialFaces fp.special_handle
        arrayRead vertnorms i
      else pure fp.normal)
    let vert := { vert with position := position, normal := normal, r := 255, g := 255,
                            b := 255, a := 255, u1 := uvs.u, v1 := uvs.v, u2 := uvs.u2,
                            v2 := uvs.v2 }
    AddSpecFacesToBuffer_vertices env rp fp smooth k (i + 1)
      (vert, mesh ++ [MeshCall.AddVertex vert])

/-- The body of the loop `for (SortableElement& element : elements)` of
`AddSpecFacesToBuffer`: the vertex of work, the mesh and the interactions afterwards. -/
def AddSpecFacesToBuffer_element (env : RenderEnv) (rp : room) (indexOffset firstIndex : Int)
    (element : SortableElement)
    (st : RendVertex × MeshBuilder × List SpecularDrawElement) :
    Except Fault (RendVertex × MeshBuilder × List SpecularDrawElement) := do
  let mesh := st.2.1 ++ [MeshCall.BeginVertices, MeshCall.BeginIndices]
  let lasttmap := element.texturehandle
  let lastlm := element.lmhandle
  let t ← elemAt env.GameTextures lasttmap
  let vert := { st.1 with uslide := t.slide_u, vslide := t.slide_v }
  let fp ← elemAt rp.faces element.element
  let first_index := wrapInt (env.NumVertices mesh + indexOffset)
  let t ← elemAt env.GameTextures element.texturehandle
  let smooth := decide (and32 t.flags env.TF_SMOOTH_SPECULAR ≠ 0
    ∧ fp.special_handle ≠ env.BAD_SPECIAL_FACE_INDEX)
  let vm ← AddSpecFacesToBuffer_vertices env rp fp smooth fp.num_verts.toNat 0 (vert, mesh)
  let mesh := fanLoop first_index (fp.num_verts - 2).toNat 2 vm.2
  let closed := endBatch env firstIndex mesh
  pure (vm.1, closed.1, st.2.2 ++ [⟨lasttmap, lastlm, closed.2, fp.special_handle⟩])

/-- The loop `for (SortableElement& element : elements)` of `AddSpecFacesToBuffer`. -/
def AddSpecFacesToBuffer_loop (env : RenderEnv) (rp : room) (indexOffset firstIndex : Int) :
    List SortableElement → RendVertex × MeshBuilder × List SpecularDrawElement →
      Except Fault (RendVertex × MeshBuilder × List SpecularDrawElement)
  | [], st => pure st
  | element :: rest, st => do
    let st ← AddSpecFacesToBuffer_element env rp indexOffset firstIndex element st
    AddSpecFacesToBuffer_loop env rp indexOffset firstIndex rest st

/-- The function `AddSpecFacesToBuffer(mesh, elements, interactions, rp, indexOffset,
firstIndex)`: the mesh and the interactions afterwards. -/
def AddSpecFacesToBuffer (env : RenderEnv) (mesh : MeshBuilder)
    (elements : List SortableElement) (interactions : List SpecularDrawElement) (rp : room)
    (indexOffset firstIndex : Int) :
    Except Fault (MeshBuilder × List SpecularDrawElement) :=
  if elements = [] then pure (mesh, interactions)
  else do
    let st ← AddSpecFacesToBuffer_loop env rp indexOffset firstIndex elements
      (env.uninit_vertex, mesh, interactions)
    pure st.2

/-- The globals `Rooms`, `Room_meshes` and `Highest_room_index`, and the calls of
`GetTextureBitmap` made so far (the texture and the frame of each). -/
structure RenderState where
  Rooms : List room
  Room_meshes : List RoomMesh
  Highest_room_index : Int
  log : List (Int × Int)
  deriving DecidableEq, Repr

/-- The call `FacePrevStates.resize(n)` of a `std::vector`: a size that is negative as an
`int` is beyond every size a vector has. -/
def resizePrev (v : List FacePrevState) (n : Int) : Except Fault (List FacePrevState) :=
  if 0 ≤ n then pure (v.take n.toNat ++ List.replicate (n.toNat - v.length) ⟨0, 0⟩)
  else .error .outOfRange

/-- The locals of `UpdateRoomMesh` that its face loop fills, with `FacePrevStates` and
the calls of `GetTextureBitmap`. -/
structure FaceLists where
  faces_lit : List SortableElement
  faces_unlit : List SortableElement
  faces_spec : List SortableElement
  faces_mirror : List SortableElement
  faces_special : List Int
  FacePrevStates : List FacePrevState
  log : List (Int × Int)
  deriving DecidableEq, Repr

/-- The body of the loop `for (int i = 0; i < rp.num_faces; i++)` of `UpdateRoomMesh`:
the state of the face is recorded, and the face is put on one of the lists. -/
def UpdateRoomMesh_face (env : RenderEnv) (rp : room) (mirror_tex_hack : Nat) (i : Nat)
    (l : FaceLists) : Except Fault FaceLists := do
  let fp ← arrayRead rp.faces i
  let prev ← arrayModify l.FacePrevStates i fun p => { p with flags := fp.flags }
  let prev ← arrayModify prev i fun p => { p with tmap := fp.tmap }
  let l := { l with FacePrevStates := prev }
  if FaceIsStatic env fp = false then
    pure { l with faces_special := l.faces_special ++ [Int.ofNat i] }
  else do
    let l := { l with log := l.log ++ [(fp.tmap, 0)] }
    let _ ← GetFaceAlpha env fp (-1)
    let tmap ←
      (if and32 fp.flags env.FF_DESTROYED ≠ 0 then do
        let t ← elemAt env.GameTextures fp.tmap
        if and32 t.flags env.TF_DESTROYABLE ≠ 0 then pure t.destroy_handle else pure fp.tmap
      else pure fp.tmap)
    if rp.mirror_face ≠ -1 ∧ bits32 tmap = mirror_tex_hack then do
      let lm ← elemAt env.LightmapInfo fp.lmi_handle
      pure { l with faces_mirror := l.faces_mirror ++ [⟨Int.ofNat i, toUShort tmap, lm⟩] }
    else if and32 fp.flags env.FF_LIGHTMAP ≠ 0 then do
      let t ← elemAt env.GameTextures tmap
      if and32 t.flags env.TF_SPECULAR ≠ 0
          ∧ (fp.special_handle ≠ env.BAD_SPECIAL_FACE_INDEX
            ∨ and32 rp.flags env.RF_EXTERNAL ≠ 0) then do
        let lm ← elemAt env.LightmapInfo fp.lmi_handle
        pure { l with faces_spec := l.faces_spec ++ [⟨Int.ofNat i, toUShort tmap, lm⟩] }
      else do
        let lm ← elemAt env.LightmapInfo fp.lmi_handle
        pure { l with faces_lit := l.faces_lit ++ [⟨Int.ofNat i, toUShort tmap, lm⟩] }
    else pure { l with faces_unlit := l.faces_unlit ++ [⟨Int.ofNat i, toUShort tmap, 0⟩] }

/-- The loop `for (int i = 0; i < rp.num_faces; i++)` of `UpdateRoomMesh`, by recursion on
the number of iterations left. -/
def UpdateRoomMesh_faces (env : RenderEnv) (rp : room) (mirror_tex_hack : Nat) :
    Nat → Nat → FaceLists → Except Fault FaceLists
  | 0, _, l => pure l
  | k + 1, i, l => do
    let l ← UpdateRoomMesh_face env rp mirror_tex_hack i l
    UpdateRoomMesh_faces env rp mirror_tex_hack k (i + 1) l

/-- An assignment to members of `Room_meshes[roomnum]`. -/
def setMesh (s : RenderState) (roomnum : Int) (f : RoomMesh → RoomMesh) :
    Except Fault RenderState := do
  let n ← arrayIndex roomnum
  let ms ← arrayModify s.Room_meshes n f
  pure { s with Room_meshes := ms }

/-- The function `UpdateRoomMesh(mesh, roomnum, indexOffset, firstIndex)`: the mesh and
the globals afterwards. -/
def UpdateRoomMesh (env : RenderEnv) (mesh : MeshBuilder) (roomnum indexOffset firstIndex : Int)
    (s : RenderState) : Except Fault (MeshBuilder × RenderState) := do
  let rp ← elemAt s.Rooms roomnum
  if rp.used = 0 then pure (mesh, s)
  else do
    let roommesh ← elemAt s.Room_meshes roomnum
    let prev ←
      (if Int.ofNat roommesh.FacePrevStates.length ≠ rp.num_faces then
        resizePrev roommesh.FacePrevStates rp.num_faces
      else pure roommesh.FacePrevStates)
    let s ← setMesh s roomnum fun m =>
      { m with FacePrevStates := prev, roomnum := roomnum, LitInteractions := [],
               UnlitInteractions := [], SpecInteractions := [], MirrorInteractions := [] }
    let mirror_tex_hack ←
      (if rp.mirror_face ≠ -1 then do
        let mf ← elemAt rp.faces rp.mirror_face
        pure (bits32 mf.tmap)
      else pure 4294967295)
    let l ← UpdateRoomMesh_faces env rp mirror_tex_hack rp.num_faces.toNat 0
      { faces_lit := [], faces_unlit := [], faces_spec := [], faces_mirror := [],
        faces_special := [], FacePrevStates := prev, log := s.log }
    let s ← setMesh { s with log := l.log } roomnum fun m =>
      { m with FacePrevStates := l.FacePrevStates }
    let m ← elemAt s.Room_meshes roomnum
    let lit ← AddFacesToBuffer env mesh (env.sort l.faces_lit) m.LitInteractions rp indexOffset
      firstIndex
    let s ← setMesh s roomnum fun m => { m with LitInteractions := lit.2 }
    let m ← elemAt s.Room_meshes roomnum
    let unlit ← AddFacesToBuffer env lit.1 (env.sort l.faces_unlit) m.UnlitInteractions rp
      indexOffset firstIndex
    let s ← setMesh s roomnum fun m => { m with UnlitInteractions := unlit.2 }
    let m ← elemAt s.Room_meshes roomnum
    let mirror ← AddFacesToBuffer env unlit.1 (env.sort l.faces_mirror) m.MirrorInteractions rp
      indexOffset firstIndex
    let s ← setMesh s roomnum fun m => { m with MirrorInteractions := mirror.2 }
    let m ← elemAt s.Room_meshes roomnum
    let spec ← AddSpecFacesToBuffer env mirror.1 (env.sort l.faces_spec) m.SpecInteractions rp
      indexOffset firstIndex
    let s ← setMesh s roomnum fun m => { m with SpecInteractions := spec.2 }
    pure (spec.1, s)

/-- The loop of `RoomNeedRemesh`, by recursion on the number of iterations left: `true`
at the first face whose `FF_DESTROYED` bit or texture is not the recorded one. -/
def RoomNeedRemesh_loop (env : RenderEnv) (rp : room) (mesh : RoomMesh) :
    Nat → Nat → Except Fault Bool
  | 0, _ => pure false
  | k + 1, i => do
    let fp ← arrayRead rp.faces i
    let prev ← arrayRead mesh.FacePrevStates i
    if and32 fp.flags env.FF_DESTROYED ≠ and32 prev.flags env.FF_DESTROYED then pure true
    else if fp.tmap ≠ prev.tmap then pure true
    else RoomNeedRemesh_loop env rp mesh k (i + 1)

/-- The function `RoomNeedRemesh(roomnum)`. -/
def RoomNeedRemesh (env : RenderEnv) (s : RenderState) (roomnum : Int) : Except Fault Bool := do
  let rp ← elemAt s.Rooms roomnum
  let mesh ← elemAt s.Room_meshes roomnum
  RoomNeedRemesh_loop env rp mesh rp.num_faces.toNat 0

/-! ## The list of rooms to render (`RenderList`) -/

/-- The members of `RenderList` (newrender.h, not in the source tree) that newrender.cpp
names. -/
structure RenderList where
  RoomChecked : List Bool
  VisibleRoomNums : List Int
  CurrentCheck : Int
  deriving DecidableEq, Repr

/-- The methods `PendingRooms` and `PopRoom` of `RenderList` are declared in newrender.h
and defined outside the source tree: what they answer, and what `PopRoom` leaves of the
list, is taken from the environment. -/
structure ListEnv where
  PendingRooms : RenderList → Bool
  PopRoom : RenderList → Int × RenderList

/-- The method `RenderList::AddRoom(roomnum, frustum)`. -/
def AddRoom (l : RenderList) (roomnum : Int) : Except Fault RenderList := do
  let n ← arrayIndex roomnum
  let checked ← arrayModify l.RoomChecked n fun _ => true
  pure { l with RoomChecked := checked, VisibleRoomNums := l.VisibleRoomNums ++ [roomnum] }

/-- The call `RoomChecked.resize(n)` on the cleared vector: a size that is negative as an
`int` is beyond every size a vector has. -/
def resizeChecked (n : Int) : Except Fault (List Bool) :=
  if 0 ≤ n then pure (List.replicate n.toNat false) else .error .outOfRange

/-- The loop `while (PendingRooms())` of `GatherVisible`; `fuel` bounds the number of
iterations, and a run that needs more faults. -/
def GatherVisible_loop (env : ListEnv) : Nat → RenderList → Except Fault RenderList
  | 0, l => if env.PendingRooms l then .error .shortRead else pure l
  | fuel + 1, l =>
    if env.PendingRooms l then do
      let popped := env.PopRoom l
      let l ← AddRoom popped.2 popped.1
      GatherVisible_loop env fuel l
    else pure l

/-- The method `RenderList::GatherVisible(eye_pos, viewroomnum)`. -/
def GatherVisible (env : ListEnv) (Highest_room_index : Int) (fuel : Nat) (l : RenderList)
    (viewroomnum : Int) : Except Fault RenderList := do
  let checked ← resizeChecked Highest_room_index
  let l := { l with RoomChecked := checked, VisibleRoomNums := [], CurrentCheck := 0 }
  let l ← (if viewroomnum ≥ 0 then AddRoom l viewroomnum else pure l)
  GatherVisible_loop env fuel l

end newrender

/-! ## A small level to mesh -/

namespace newrender

/-- What a computation answered; `d` when it faulted. -/
def answered {α : Type} (r : Except Fault α) (d : α) : α :=
  match r with
  | .ok a => a
  | .error _ => d

/-- A demo environment for the mesh update: two textures, one lightmap, a mesh builder
that counts the vertices added and answers the number of indices set as the count of a
range; sorting leaves a list as it is. -/
def demoRenderEnv : RenderEnv :=
  { FF_FLOATING_TRIG := 64
    FF_DESTROYED := 1024
    FF_LIGHTMAP := 1
    TF_SATURATE := 8
    TF_TMAP2 := 16
    TF_DESTROYABLE := 32
    TF_SPECULAR := 128
    TF_SMOOTH_SPECULAR := 256
    RF_EXTERNAL := 2
    BAD_SPECIAL_FACE_INDEX := -1
    AT_ALWAYS := 0
    AT_SATURATE_TEXTURE := 11
    ATF_CONSTANT := 1
    ATF_TEXTURE := 2
    BITMAP_FORMAT_4444 := 1
    GameTextures := [⟨0, 1065353216, 0, 0, 1⟩, ⟨32, 1065353216, 3, 4, 0⟩]
    GameBitmaps := [0]
    LightmapInfo := [5]
    SpecialFaces := []
    float_one := 1065353216
    alpha_below_one := fun a => decide (a < 1065353216)
    alpha_byte := fun _ => 255
    uninit_vertex := ⟨⟨0, 0, 0⟩, ⟨0, 0, 0⟩, 0, 0, 0, 0, 0, 0, 0, 0, 0, 0⟩
    NumVertices := fun mesh =>
      Int.ofNat (mesh.filter fun c => match c with
        | .AddVertex _ => true
        | _ => false).length
    EndIndices := fun mesh =>
      ⟨0, 3 * Int.ofNat (mesh.filter fun c => match c with
        | .SetIndicies _ _ => true
        | _ => false).length⟩
    GetTextureBitmap := fun _ _ => 0
    sort := fun l => l }

/-- A face of four vertices with a lightmap and the texture 0. -/
def demoQuad : face :=
  { flags := 1, portal_num := -1, tmap := 0, num_verts := 4, face_verts := [0, 1, 2, 3],
    face_uvls := [⟨0, 0, 0, 0⟩, ⟨1, 0, 1, 0⟩, ⟨1, 1, 1, 1⟩, ⟨0, 1, 0, 1⟩],
    normal := ⟨0, 0, 1⟩, special_handle := -1, lmi_handle := 0 }

/-- A face of three vertices without a lightmap, with the texture 1. -/
def demoTriangle : face :=
  { flags := 0, portal_num := -1, tmap := 1, num_verts := 3, face_verts := [0, 2, 3],
    face_uvls := [⟨0, 0, 0, 0⟩, ⟨1, 1, 1, 1⟩, ⟨0, 1, 0, 1⟩],
    normal := ⟨0, 0, 2⟩, special_handle := -1, lmi_handle := 0 }

/-- A room in use with the two demo faces. -/
def demoRenderRoom : room :=
  { used := 1, flags := 0, num_faces := 2, faces := [demoQuad, demoTriangle],
    verts := [⟨0, 0, 0⟩, ⟨1, 0, 0⟩, ⟨1, 1, 0⟩, ⟨0, 1, 0⟩], mirror_face := -1 }

/-- The locals of `AddFacesToBuffer` before the first element, on an empty mesh. -/
def demoBatch : FaceBatch :=
  { lasttmap := -1, lastlm := -1, firsttime := true, vert := demoRenderEnv.uninit_vertex,
    alpha := demoRenderEnv.float_one, mesh := [], interactions := [] }

/-- The locals of `AddFacesToBuffer` after the element of the demo quad, with index offset
10. -/
def demoBatchAfter : FaceBatch :=
  answered (AddFacesToBuffer_element demoRenderEnv demoRenderRoom 10 0 ⟨0, 0, 5⟩ demoBatch)
    demoBatch

/-- The state of `AddSpecFacesToBuffer` after the element of the demo quad, with index
offset 10, on an empty mesh. -/
def demoSpecAfter : RendVertex × MeshBuilder × List SpecularDrawElement :=
  answered (AddSpecFacesToBuffer_element demoRenderEnv demoRenderRoom 10 0 ⟨0, 0, 5⟩
    (demoRenderEnv.uninit_vertex, [], [])) (demoRenderEnv.uninit_vertex, [], [])

/-- The elements of the two faces of the demo room: the quad with the texture 0 and the
lightmap 5, the triangle with the texture 1 and no lightmap. -/
def demoElements : List SortableElement := [⟨0, 0, 5⟩, ⟨1, 1, -1⟩]

/-- The mesh and the interactions after `AddFacesToBuffer` of the demo elements, with index
offset 10, on an empty mesh. -/
def demoBufferAfter : MeshBuilder × List RoomDrawElement :=
  answered (AddFacesToBuffer demoRenderEnv [] demoElements [] demoRenderRoom 10 0) ([], [])

/-- The mesh and the interactions after `AddSpecFacesToBuffer` of the demo elements, with
index offset 10, on an empty mesh. -/
def demoSpecBufferAfter : MeshBuilder × List SpecularDrawElement :=
  answered (AddSpecFacesToBuffer demoRenderEnv [] demoElements [] demoRenderRoom 10 0) ([], [])

/-- A level of one room, the demo room, whose mesh has not been built: no face state is
recorded. -/
def demoRenderState : RenderState :=
  { Rooms := [demoRenderRoom], Room_meshes := [⟨0, [], [], [], [], []⟩],
    Highest_room_index := 0, log := [] }

/-- The mesh and the globals after `UpdateRoomMesh` of room 0 of the demo level. -/
def demoMeshed : MeshBuilder × RenderState :=
  answered (UpdateRoomMesh demoRenderEnv [] 0 0 0 demoRenderState) ([], demoRenderState)

/-- The demo level after its mesh was built and the texture of the triangle changed. -/
def demoRetextured : RenderState :=
  { demoMeshed.2 with
    Rooms := [{ demoRenderRoom with faces := [demoQuad, { demoTriangle with tmap := 0 }] }] }

end newrender

set_option linter.unusedTactic false
set_option linter.unreachableTactic false

/-! ## Theorems -/

/-! ### The dense and the sparse table builders against the sections of the stream -/

theorem take_succ_set (t : List Int) (a : Nat) (v : Int) (h : a < t.length) :
    (t.set a v).take (a + 1) = t.take a ++ [v] := by
  induction t generalizing a with
  | nil => simp at h
  | cons x xs ih =>
    cases a with
    | zero => simp
    | succ a => simp at h; simp [ih a h]

theorem drop_succ_set (t : List Int) (a k : Nat) (v : Int) :
    (t.set a v).drop (a + 1 + k) = t.drop (a + 1 + k) := by
  apply List.drop_set_of_lt; omega

theorem tableWrite_ok (t : List Int) (a : Nat) (v : Int) (h : a < t.length) :
    tableWrite t (Int.ofNat a) v = .ok (t.set a v) := by
  simp [tableWrite, h]

theorem xlateLoop_spec (rd : StringReader) (fn : Name → Int) :
    ∀ (k a : Nat) (t : List Int) (fp fp2 : CFILE) (names : List Name),
      a + k ≤ t.length → readNames rd k fp = .ok (names, fp2) →
      xlateLoop rd fn k (Int.ofNat a) t fp
        = .ok (t.take a ++ names.map (xlateValue fn) ++ t.drop (a + k), fp2) := by
  intro k
  induction k with
  | zero =>
    intro a t fp fp2 names _ hr
    simp [readNames] at hr
    obtain ⟨rfl, rfl⟩ := hr
    simp [xlateLoop]
  | succ k ih =>
    intro a t fp fp2 names hlen hr
    simp only [readNames] at hr
    cases hs : cf_ReadString rd 64 fp with
    | error e => simp [hs] at hr
    | ok p =>
      obtain ⟨name, fp1⟩ := p
      simp only [hs] at hr
      cases hn : readNames rd k fp1 with
      | error e => simp [hn] at hr
      | ok q =>
        obtain ⟨rest, fp3⟩ := q
        simp only [hn, Except.ok.injEq, Prod.mk.injEq] at hr
        obtain ⟨rfl, rfl⟩ := hr
        have ha : a < t.length := by omega
        have hstep := ih (a + 1) (t.set a (xlateValue fn name)) fp1 fp3 rest
          (by simp; omega) hn
        simp only [xlateLoop, hs, tableWrite_ok t a _ ha]
        have e1 : (Int.ofNat a + 1) = Int.ofNat (a + 1) := by simp
        rw [e1, hstep, take_succ_set t a _ ha]
        have e2 : a + 1 + k = a + (k + 1) := by omega
        rw [drop_succ_set, e2]
        simp

theorem zeroFill_spec : ∀ (k a : Nat) (t : List Int), a + k ≤ t.length →
    zeroFill k (Int.ofNat a) t = .ok (t.take a ++ List.replicate k 0 ++ t.drop (a + k)) := by
  intro k
  induction k with
  | zero => intro a t _; simp [zeroFill]
  | succ k ih =>
    intro a t hlen
    have ha : a < t.length := by omega
    have hstep := ih (a + 1) (t.set a 0) (by simp; omega)
    simp only [zeroFill, tableWrite_ok t a _ ha]
    have e1 : (Int.ofNat a + 1) = Int.ofNat (a + 1) := by simp
    rw [e1, hstep, take_succ_set t a _ ha]
    have e2 : a + 1 + k = a + (k + 1) := by omega
    rw [drop_succ_set, e2]
    simp [List.replicate_succ]


theorem readNames_length (rd : StringReader) :
    ∀ (k : Nat) (fp fp2 : CFILE) (names : List Name),
      readNames rd k fp = .ok (names, fp2) → names.length = k := by
  intro k
  induction k with
  | zero => intro fp fp2 names h; simp [readNames] at h; simp [h.1]
  | succ k ih =>
    intro fp fp2 names h
    simp only [readNames] at h
    cases hs : cf_ReadString rd 64 fp with
    | error e => simp [hs] at h
    | ok p =>
      obtain ⟨name, fp1⟩ := p
      simp only [hs] at h
      cases hn : readNames rd k fp1 with
      | error e => simp [hn] at h
      | ok q =>
        obtain ⟨rest, fp3⟩ := q
        simp only [hn, Except.ok.injEq, Prod.mk.injEq] at h
        obtain ⟨rfl, rfl⟩ := h
        simp [ih fp1 fp3 rest hn]

theorem BUILD_XLATE_TABLE_spec (rd : StringReader) (fn : Name → Int) (table : List Int)
    (M : Nat) (fp fp1 fp2 : CFILE) (num : Int) (names : List Name)
    (hlen : table.length = M) (hnum : cf_ReadShort fp = .ok (num, fp1)) (hle : num ≤ M)
    (hnames : readNames rd num.toNat fp1 = .ok (names, fp2)) :
    BUILD_XLATE_TABLE rd table M fn fp
      = .ok (names.map (xlateValue fn) ++ List.replicate (M - num.toNat) 0, fp2) := by
  have hn : num.toNat ≤ M := by omega
  have h1 := xlateLoop_spec rd fn num.toNat 0 table fp1 fp2 names (by omega) hnames
  have hl := readNames_length rd _ _ _ _ hnames
  simp only [BUILD_XLATE_TABLE, hnum]
  have e0 : (0 : Int) = Int.ofNat 0 := rfl
  rw [e0, h1]
  simp only [List.take_zero, List.nil_append, Nat.zero_add]
  have h2 := zeroFill_spec (M - num.toNat) num.toNat
    (names.map (xlateValue fn) ++ table.drop num.toNat) (by simp [hl]; omega)
  rw [h2]
  have e3 : num.toNat + (M - num.toNat) = M := by omega
  simp [hl, e3, ← hlen]

theorem cf_ReadBytes_length (n : Nat) (fp fp1 : CFILE) (bs : List Nat)
    (h : cf_ReadBytes n fp = .ok (bs, fp1)) : fp1.data.length + n = fp.data.length := by
  unfold cf_ReadBytes at h
  split at h
  · simp only [Except.ok.injEq, Prod.mk.injEq] at h
    obtain ⟨_, rfl⟩ := h
    simp; omega
  · simp at h

theorem cf_ReadShort_length (fp fp1 : CFILE) (v : Int)
    (h : cf_ReadShort fp = .ok (v, fp1)) : fp1.data.length + 2 = fp.data.length := by
  unfold cf_ReadShort at h
  cases hb : cf_ReadBytes 2 fp with
  | error e => simp [hb] at h
  | ok p =>
    obtain ⟨bs, fp2⟩ := p
    simp only [hb, Except.ok.injEq, Prod.mk.injEq] at h
    obtain ⟨_, rfl⟩ := h
    exact cf_ReadBytes_length 2 fp fp2 bs hb

theorem cf_ReadString_length (rd : StringReader) (n : Nat) (fp fp1 : CFILE) (s : Name)
    (h : cf_ReadString rd n fp = .ok (s, fp1)) : fp1.data.length ≤ fp.data.length := by
  unfold cf_ReadString at h
  split at h
  · split at h
    · simp only [Except.ok.injEq, Prod.mk.injEq] at h
      obtain ⟨_, rfl⟩ := h
      simp
    · simp at h
  · simp at h

theorem readPair_length (rd : StringReader) (fp fp1 : CFILE) (p : Int × Name)
    (h : readPair rd fp = .ok (p, fp1)) : fp1.data.length + 2 ≤ fp.data.length := by
  unfold readPair at h
  cases hs : cf_ReadShort fp with
  | error e => simp [hs] at h
  | ok a =>
    obtain ⟨i, fpa⟩ := a
    simp only [hs] at h
    cases hn : cf_ReadString rd 64 fpa with
    | error e => simp [hn] at h
    | ok b =>
      obtain ⟨nm, fpb⟩ := b
      simp only [hn, Except.ok.injEq, Prod.mk.injEq] at h
      obtain ⟨_, rfl⟩ := h
      have := cf_ReadShort_length _ _ _ hs
      have := cf_ReadString_length _ _ _ _ _ hn
      omega

theorem skipPairs_length (rd : StringReader) :
    ∀ (ps : List (Int × Name)) (fp fp1 : CFILE), skipPairs rd ps fp = some fp1 →
      fp1.data.length + 2 * ps.length ≤ fp.data.length := by
  intro ps
  induction ps with
  | nil => intro fp fp1 h; simp [skipPairs] at h; subst h; simp
  | cons p ps ih =>
    intro fp fp1 h
    simp only [skipPairs] at h
    cases hp : readPair rd fp with
    | error e => simp [hp] at h
    | ok a =>
      obtain ⟨q, fpa⟩ := a
      simp only [hp] at h
      split at h
      · have := ih fpa fp1 h
        have := readPair_length rd _ _ _ hp
        simp only [List.length_cons]; omega
      · simp at h

theorem miniLoop_step (rd : StringReader) (fn : Name → Int) (fuel : Nat) (t : List Int)
    (fp fp1 : CFILE) (p : Int × Name) (h : readPair rd fp = .ok (p, fp1)) :
    miniLoop rd fn (fuel + 1) t fp =
      if p.1 = -1 ∧ p.2.headD 0 = 0 then .ok (t, fp1)
      else match tableWrite t p.1 (xlateValue fn p.2) with
        | .error e => .error e
        | .ok t1 => miniLoop rd fn fuel t1 fp1 := by
  unfold readPair at h
  cases hs : cf_ReadShort fp with
  | error e => simp [hs] at h
  | ok a =>
    obtain ⟨i, fpa⟩ := a
    simp only [hs] at h
    cases hn : cf_ReadString rd 64 fpa with
    | error e => simp [hn] at h
    | ok b =>
      obtain ⟨nm, fpb⟩ := b
      simp only [hn, Except.ok.injEq, Prod.mk.injEq] at h
      obtain ⟨rfl, rfl⟩ := h
      simp only [miniLoop, hs, hn]
      try rfl

theorem miniLoop_spec (rd : StringReader) (fn : Name → Int) :
    ∀ (ps : List (Int × Name)) (fuel : Nat) (t : List Int) (fp fp1 fp2 : CFILE) (s : Int × Name),
      skipPairs rd ps fp = some fp1 → readPair rd fp1 = .ok (s, fp2) → isSentinel s →
      (∀ p ∈ ps, ¬ isSentinel p) → (∀ p ∈ ps, 0 ≤ p.1 ∧ p.1 < t.length) →
      ps.length < fuel →
      miniLoop rd fn fuel t fp = .ok (applyPairs fn ps t, fp2) := by
  intro ps
  induction ps with
  | nil =>
    intro fuel t fp fp1 fp2 s hsk hs hsent _ _ hf
    simp [skipPairs] at hsk
    subst hsk
    obtain ⟨f, rfl⟩ : ∃ f, fuel = f + 1 := ⟨fuel - 1, by simp at hf; omega⟩
    rw [miniLoop_step rd fn f t fp fp2 s hs]
    have : s.1 = -1 ∧ s.2.headD 0 = 0 := hsent
    rw [if_pos this]
    simp [applyPairs]
  | cons p ps ih =>
    intro fuel t fp fp1 fp2 s hsk hs hsent hns hrange hf
    simp only [skipPairs] at hsk
    cases hp : readPair rd fp with
    | error e => simp [hp] at hsk
    | ok a =>
      obtain ⟨q, fpa⟩ := a
      simp only [hp] at hsk
      split at hsk
      · rename_i hq
        subst hq
        obtain ⟨f, rfl⟩ : ∃ f, fuel = f + 1 := ⟨fuel - 1, by simp at hf; omega⟩
        rw [miniLoop_step rd fn f t fp fpa q hp]
        have hnq : ¬ (q.1 = -1 ∧ q.2.headD 0 = 0) := hns q (by simp)
        have hr := hrange q (by simp)
        have hw : tableWrite t q.1 (xlateValue fn q.2)
            = .ok (t.set q.1.toNat (xlateValue fn q.2)) := by
          simp [tableWrite, hr]
        simp only [hnq, if_false, hw]
        rw [ih f (t.set q.1.toNat (xlateValue fn q.2)) fpa fp1 fp2 s hsk hs hsent
          (fun p hp => hns p (by simp [hp])) (fun p hp => by simpa using hrange p (by simp [hp]))
          (by simp at hf; omega)]
        simp [applyPairs]
      · simp at hsk

theorem applyPairs_get (fn : Name → Int) :
    ∀ (ps : List (Int × Name)) (t : List Int) (o : Nat),
      (∀ p ∈ ps, 0 ≤ p.1 ∧ p.1 < t.length) → o < t.length →
      (applyPairs fn ps t)[o]? =
        match lastListed ps (Int.ofNat o) with
        | some nm => some (xlateValue fn nm)
        | none => t[o]? := by
  intro ps
  induction ps with
  | nil => intro t o _ _; simp [applyPairs, lastListed]
  | cons p ps ih =>
    intro t o hr ho
    obtain ⟨i, nm⟩ := p
    have hi := hr (i, nm) (by simp)
    simp only [applyPairs, List.foldl_cons]
    have := ih (t.set i.toNat (xlateValue fn nm)) o
      (fun p hp => by simpa using hr p (by simp [hp])) (by simpa using ho)
    simp only [applyPairs] at this
    rw [this]
    simp only [lastListed]
    cases hl : lastListed ps (Int.ofNat o) with
    | some n => simp
    | none =>
      simp only [List.getElem?_set]
      by_cases hio : i = Int.ofNat o
      · subst hio; simp [ho]
      · have : i.toNat ≠ o := by
          intro h; apply hio; simp at hi ⊢; omega
        have hio2 : ¬ i = (o : Int) := hio
        simp [hio2, this]

theorem miniLoop_fuel (rd : StringReader) (fn : Name → Int) :
    ∀ (f1 f2 : Nat) (t : List Int) (fp : CFILE),
      fp.data.length / 2 < f1 → fp.data.length / 2 < f2 →
      miniLoop rd fn f1 t fp = miniLoop rd fn f2 t fp := by
  intro f1
  induction f1 with
  | zero => intro f2 t fp h; omega
  | succ f1 ih =>
    intro f2 t fp h1 h2
    obtain ⟨g, rfl⟩ : ∃ g, f2 = g + 1 := ⟨f2 - 1, by omega⟩
    cases hp : readPair rd fp with
    | ok a =>
      obtain ⟨p, fpa⟩ := a
      rw [miniLoop_step rd fn f1 t fp fpa p hp, miniLoop_step rd fn g t fp fpa p hp]
      have hl := readPair_length rd _ _ _ hp
      split
      · rfl
      · cases tableWrite t p.1 (xlateValue fn p.2) with
        | error e => rfl
        | ok t1 => exact ih g t1 fpa (by omega) (by omega)
    | error e =>
      unfold readPair at hp
      simp only [miniLoop]
      cases hs : cf_ReadShort fp with
      | error e => rfl
      | ok a =>
        obtain ⟨i, fpa⟩ := a
        simp only [hs] at hp ⊢
        cases hn : cf_ReadString rd 64 fpa with
        | error e => rfl
        | ok b => simp [hn] at hp



theorem tableWrite_inv (t t1 : List Int) (i v : Int) (h : tableWrite t i v = .ok t1) :
    0 ≤ i ∧ i < t.length ∧ t1 = t.set i.toNat v := by
  unfold tableWrite at h
  split at h
  · rename_i hr
    simp only [Except.ok.injEq] at h
    exact ⟨hr.1, hr.2, h.symm⟩
  · simp at h

theorem xlateLoop_ok (rd : StringReader) (fn : Name → Int) :
    ∀ (k a : Nat) (t t1 : List Int) (fp fp1 : CFILE),
      xlateLoop rd fn k (Int.ofNat a) t fp = .ok (t1, fp1) →
      (∃ names, readNames rd k fp = .ok (names, fp1)) ∧ (k = 0 ∨ a + k ≤ t.length) := by
  intro k
  induction k with
  | zero =>
    intro a t t1 fp fp1 h
    simp only [xlateLoop, Except.ok.injEq, Prod.mk.injEq] at h
    obtain ⟨_, rfl⟩ := h
    exact ⟨⟨[], by simp [readNames]⟩, Or.inl rfl⟩
  | succ k ih =>
    intro a t t1 fp fp1 h
    simp only [xlateLoop] at h
    cases hs : cf_ReadString rd 64 fp with
    | error e => simp [hs] at h
    | ok p =>
      obtain ⟨name, fpa⟩ := p
      simp only [hs] at h
      cases hw : tableWrite t (Int.ofNat a) (xlateValue fn name) with
      | error e => simp only [hw] at h; simp at h
      | ok t2 =>
        simp only [hw] at h
        obtain ⟨_, hlt, rfl⟩ := tableWrite_inv _ _ _ _ hw
        have e1 : (Int.ofNat a + 1) = Int.ofNat (a + 1) := by simp
        rw [e1] at h
        obtain ⟨⟨names, hn⟩, hb⟩ := ih (a + 1) _ _ _ _ h
        refine ⟨⟨name :: names, by simp [readNames, hs, hn]⟩, Or.inr ?_⟩
        have hlt2 : a < t.length := by
          have : (Int.ofNat a) < (t.length : Int) := hlt
          simpa using this
        rcases hb with rfl | hb
        · omega
        · simp at hb; omega

theorem BUILD_XLATE_TABLE_ok (rd : StringReader) (fn : Name → Int) (table t : List Int)
    (M : Nat) (fp fp2 : CFILE) (hlen : table.length = M)
    (h : BUILD_XLATE_TABLE rd table M fn fp = .ok (t, fp2)) :
    ∃ num names, readDense rd fp = .ok ((num, names), fp2) ∧ num ≤ M ∧
      t = names.map (xlateValue fn) ++ List.replicate (M - num.toNat) 0 := by
  have h0 := h
  unfold BUILD_XLATE_TABLE at h
  cases hs : cf_ReadShort fp with
  | error e => simp [hs] at h
  | ok p =>
    obtain ⟨num, fp1⟩ := p
    simp only [hs] at h
    cases hx : xlateLoop rd fn num.toNat 0 table fp1 with
    | error e => simp [hx] at h
    | ok q =>
      obtain ⟨t1, fpb⟩ := q
      have e0 : (0 : Int) = Int.ofNat 0 := rfl
      have hx2 := hx
      rw [e0] at hx2
      obtain ⟨⟨names, hn⟩, hb⟩ := xlateLoop_ok rd fn _ _ _ _ _ _ hx2
      have hle : num ≤ M := by
        rcases hb with hb | hb
        · omega
        · omega
      have hspec := BUILD_XLATE_TABLE_spec rd fn table M fp fp1 fpb num names hlen hs hle hn
      rw [hspec] at h0
      simp only [Except.ok.injEq, Prod.mk.injEq] at h0
      obtain ⟨rfl, rfl⟩ := h0
      exact ⟨num, names, by simp [readDense, hs, hn], hle, rfl⟩

theorem miniLoop_inRange (rd : StringReader) (fn : Name → Int) :
    ∀ (ps : List (Int × Name)) (fuel : Nat) (t t1 : List Int) (fp fp1 fp2 : CFILE),
      skipPairs rd ps fp = some fp1 → (∀ p ∈ ps, ¬ isSentinel p) →
      miniLoop rd fn fuel t fp = .ok (t1, fp2) →
      ∀ p ∈ ps, 0 ≤ p.1 ∧ p.1 < t.length := by
  intro ps
  induction ps with
  | nil => intro _ _ _ _ _ _ _ _ _ p hp; simp at hp
  | cons q ps ih =>
    intro fuel t t1 fp fp1 fp2 hsk hns hrun
    simp only [skipPairs] at hsk
    cases hp : readPair rd fp with
    | error e => simp [hp] at hsk
    | ok a =>
      obtain ⟨q2, fpa⟩ := a
      simp only [hp] at hsk
      split at hsk
      · rename_i hq
        subst hq
        cases fuel with
        | zero => simp [miniLoop] at hrun
        | succ f =>
          rw [miniLoop_step rd fn f t fp fpa q2 hp] at hrun
          have hnq : ¬ (q2.1 = -1 ∧ q2.2.headD 0 = 0) := hns q2 (by simp)
          simp only [hnq, if_false] at hrun
          cases hw : tableWrite t q2.1 (xlateValue fn q2.2) with
          | error e => simp only [hw] at hrun; simp at hrun
          | ok t2 =>
            simp only [hw] at hrun
            obtain ⟨h0, hlt, rfl⟩ := tableWrite_inv _ _ _ _ hw
            have hrest := ih f _ t1 fpa fp1 fp2 hsk (fun p hp => hns p (by simp [hp])) hrun
            intro p hp
            simp only [List.mem_cons] at hp
            rcases hp with rfl | hp
            · exact ⟨h0, hlt⟩
            · simpa using hrest p hp
      · simp at hsk

theorem BUILD_MINI_XLATE_TABLE_ok (rd : StringReader) (fn : Name → Int) (table t : List Int)
    (ps : List (Int × Name)) (fp fpEnd fp2 : CFILE)
    (hps : pairsThenSentinel rd ps fp = some fpEnd)
    (h : BUILD_MINI_XLATE_TABLE rd table fn fp = .ok (t, fp2)) :
    fp2 = fpEnd ∧ (∀ p ∈ ps, 0 ≤ p.1 ∧ p.1 < table.length) ∧
      t = applyPairs fn ps (List.replicate table.length 0) := by
  unfold pairsThenSentinel at hps
  split at hps
  · rename_i hns
    cases hsk : skipPairs rd ps fp with
    | none => simp [hsk] at hps
    | some fp1 =>
      simp only [hsk] at hps
      cases hs : readPair rd fp1 with
      | error e => simp [hs] at hps
      | ok a =>
        obtain ⟨s, fpa⟩ := a
        simp only [hs] at hps
        split at hps
        · rename_i hsent
          simp only [Option.some.injEq] at hps
          subst hps
          unfold BUILD_MINI_XLATE_TABLE at h
          have hr := miniLoop_inRange rd fn ps _ _ _ _ _ _ hsk hns h
          have hlen := skipPairs_length rd ps fp fp1 hsk
          have hlen2 := readPair_length rd _ _ _ hs
          have hspec := miniLoop_spec rd fn ps (fp.data.length / 2 + 1)
            (List.replicate table.length 0) fp fp1 fpa s hsk hs hsent hns hr (by omega)
          rw [hspec] at h
          simp only [Except.ok.injEq, Prod.mk.injEq] at h
          obtain ⟨rfl, rfl⟩ := h
          exact ⟨rfl, by simpa using hr, rfl⟩
        · simp at hps
  · simp at hps

theorem skipDense_succ (rd : StringReader) :
    ∀ (n : Nat) (fp fpn fpm : CFILE) (x : Int × List Name),
      skipDense rd n fp = .ok fpn → readDense rd fpn = .ok (x, fpm) →
      skipDense rd (n + 1) fp = .ok fpm := by
  intro n
  induction n with
  | zero =>
    intro fp fpn fpm x h1 h2
    simp only [skipDense, Except.ok.injEq] at h1
    subst h1
    simp [skipDense, h2]
  | succ n ih =>
    intro fp fpn fpm x h1 h2
    rw [skipDense] at h1 ⊢
    cases hd : readDense rd fp with
    | error e => simp [hd] at h1
    | ok a =>
      obtain ⟨y, fpa⟩ := a
      simp only [hd] at h1 ⊢
      exact ih fpa fpn fpm x h1 h2

/-- What a completed run of `LGSXlateTables` has done: it returns `LGS_OK`, every dense
section was readable, declared at most its table's size and gave the table the values
of its names followed by zeros, and the sparse table is the one built at the cursor
after the six dense sections. -/
theorem LGSXlateTables_ok (c : Content) (gs gs1 : gs_tables) (fp fp1 : CFILE) (r : LGS)
    (hsize : gs.sized c) (hrun : LGSXlateTables c gs fp = .ok (r, gs1, fp1)) :
    r = LGS.OK ∧
    (∀ k : DenseKind, ∃ num names, denseSection c.rd k fp = .ok (num, names) ∧
      num ≤ k.maxtable c ∧
      k.table gs1 = names.map (xlateValue (k.find c))
        ++ List.replicate (k.maxtable c - num.toNat) 0) ∧
    (∃ fp6, skipDense c.rd 6 fp = .ok fp6 ∧
      BUILD_MINI_XLATE_TABLE c.rd gs.bm_handles c.bm_FindBitmapName fp6
        = .ok (gs1.bm_handles, fp1)) := by
  obtain ⟨s1, s2, s3, s4, s5, s6, _⟩ := hsize
  unfold LGSXlateTables at hrun
  split at hrun
  · simp at hrun
  · rename_i t1 f1 h1
    split at hrun
    · simp at hrun
    · rename_i t2 f2 h2
      split at hrun
      · simp at hrun
      · rename_i t3 f3 h3
        split at hrun
        · simp at hrun
        · rename_i t4 f4 h4
          split at hrun
          · simp at hrun
          · rename_i t5 f5 h5
            split at hrun
            · simp at hrun
            · rename_i t6 f6 h6
              split at hrun
              · simp at hrun
              · rename_i t7 f7 h7
                simp only [Except.ok.injEq, Prod.mk.injEq] at hrun
                obtain ⟨rfl, rfl, rfl⟩ := hrun
                obtain ⟨n1, nm1, d1, l1, e1⟩ := BUILD_XLATE_TABLE_ok _ _ _ _ _ _ _ s1 h1
                obtain ⟨n2, nm2, d2, l2, e2⟩ := BUILD_XLATE_TABLE_ok _ _ _ _ _ _ _ s2 h2
                obtain ⟨n3, nm3, d3, l3, e3⟩ := BUILD_XLATE_TABLE_ok _ _ _ _ _ _ _ s3 h3
                obtain ⟨n4, nm4, d4, l4, e4⟩ := BUILD_XLATE_TABLE_ok _ _ _ _ _ _ _ s4 h4
                obtain ⟨n5, nm5, d5, l5, e5⟩ := BUILD_XLATE_TABLE_ok _ _ _ _ _ _ _ s5 h5
                obtain ⟨n6, nm6, d6, l6, e6⟩ := BUILD_XLATE_TABLE_ok _ _ _ _ _ _ _ s6 h6
                have k0 : skipDense c.rd 0 fp = .ok fp := rfl
                have k1 := skipDense_succ c.rd 0 fp fp f1 _ k0 d1
                have k2 := skipDense_succ c.rd 1 fp f1 f2 _ k1 d2
                have k3 := skipDense_succ c.rd 2 fp f2 f3 _ k2 d3
                have k4 := skipDense_succ c.rd 3 fp f3 f4 _ k3 d4
                have k5 := skipDense_succ c.rd 4 fp f4 f5 _ k4 d5
                have k6 := skipDense_succ c.rd 5 fp f5 f6 _ k5 d6
                refine ⟨rfl, ?_, ⟨f6, k6, h7⟩⟩
                intro k
                cases k
                · exact ⟨n1, nm1, by simp [denseSection, DenseKind.rank, k0, d1], l1, e1⟩
                · exact ⟨n2, nm2, by simp [denseSection, DenseKind.rank, k1, d2], l2, e2⟩
                · exact ⟨n3, nm3, by simp [denseSection, DenseKind.rank, k2, d3], l3, e3⟩
                · exact ⟨n4, nm4, by simp [denseSection, DenseKind.rank, k3, d4], l4, e4⟩
                · exact ⟨n5, nm5, by simp [denseSection, DenseKind.rank, k4, d5], l5, e5⟩
                · exact ⟨n6, nm6, by simp [denseSection, DenseKind.rank, k5, d6], l6, e6⟩

theorem denseSection_length (rd : StringReader) (k : DenseKind) (fp : CFILE) (num : Int)
    (names : List Name) (h : denseSection rd k fp = .ok (num, names)) :
    names.length = num.toNat := by
  unfold denseSection at h
  split at h
  · simp at h
  · rename_i fpk hk
    unfold readDense at h
    cases hs : cf_ReadShort fpk with
    | error e => simp [hs] at h
    | ok a =>
      obtain ⟨n, fpa⟩ := a
      simp only [hs] at h
      cases hn : readNames rd n.toNat fpa with
      | error e => simp [hn] at h
      | ok b =>
        obtain ⟨nms, fpb⟩ := b
        simp only [hn, Except.ok.injEq, Prod.mk.injEq] at h
        obtain ⟨rfl, rfl⟩ := h
        exact readNames_length rd _ _ _ _ hn

theorem xlateValue_found (fn : Name → Int) (name : Name) (j : Int) (h : fn name = j)
    (h0 : 0 ≤ j) (h1 : j ≤ 32767) : xlateValue fn name = j := by
  unfold xlateValue toShort
  rw [h]
  have e : (j + 32768) % 65536 = j + 32768 := Int.emod_eq_of_lt (by omega) (by omega)
  rw [e]
  have e2 : j + 32768 - 32768 = j := by omega
  rw [e2]
  have : ¬ (j = -1) := by omega
  simp [this]

theorem xlateValue_missing (fn : Name → Int) (name : Name) (h : fn name = -1) :
    xlateValue fn name = 0 := by
  unfold xlateValue toShort
  rw [h]
  decide

theorem readDense_inv (rd : StringReader) (fp fp2 : CFILE) (num : Int) (names : List Name)
    (h : readDense rd fp = .ok ((num, names), fp2)) :
    ∃ fp1, cf_ReadShort fp = .ok (num, fp1) ∧ readNames rd num.toNat fp1 = .ok (names, fp2) := by
  unfold readDense at h
  cases hs : cf_ReadShort fp with
  | error e => simp [hs] at h
  | ok a =>
    obtain ⟨n, fpa⟩ := a
    simp only [hs] at h
    cases hn : readNames rd n.toNat fpa with
    | error e => simp [hn] at h
    | ok b =>
      obtain ⟨nms, fpb⟩ := b
      simp only [hn, Except.ok.injEq, Prod.mk.injEq] at h
      obtain ⟨⟨rfl, rfl⟩, rfl⟩ := h
      exact ⟨fpa, rfl, hn⟩

theorem denseSection_inv (rd : StringReader) (k : DenseKind) (fp : CFILE) (x : Int × List Name)
    (h : denseSection rd k fp = .ok x) :
    ∃ fpk fpn, skipDense rd k.rank fp = .ok fpk ∧ readDense rd fpk = .ok (x, fpn) := by
  unfold denseSection at h
  cases hk : skipDense rd k.rank fp with
  | error e => simp [hk] at h
  | ok fpk =>
    simp only [hk] at h
    cases hd : readDense rd fpk with
    | error e => simp [hd] at h
    | ok a =>
      obtain ⟨y, fpn⟩ := a
      simp only [hd, Except.ok.injEq] at h
      subst h
      exact ⟨fpk, fpn, rfl, hd⟩

theorem BUILD_XLATE_TABLE_of_readDense (rd : StringReader) (fn : Name → Int)
    (table : List Int) (M : Nat) (fp fp2 : CFILE) (x : Int × List Name)
    (hlen : table.length = M) (hd : readDense rd fp = .ok (x, fp2)) (hle : x.1 ≤ M) :
    BUILD_XLATE_TABLE rd table M fn fp
      = .ok (x.2.map (xlateValue fn) ++ List.replicate (M - x.1.toNat) 0, fp2) := by
  obtain ⟨num, names⟩ := x
  obtain ⟨fp1, hs, hn⟩ := readDense_inv rd fp fp2 num names hd
  exact BUILD_XLATE_TABLE_spec rd fn table M fp fp1 fp2 num names hlen hs hle hn

/-- A translation-table block that holds six readable dense sections, each declaring at
most its table's size, and a sparse section with in-range ordinals and a sentinel, is
restored: `LGSXlateTables` returns `LGS_OK`. -/
theorem LGSXlateTables_returns (c : Content) (gs : gs_tables) (fp fpEnd : CFILE)
    (secs : DenseKind → Int × List Name) (ps : List (Int × Name))
    (hsize : gs.sized c)
    (hdense : ∀ k, denseSection c.rd k fp = .ok (secs k) ∧ (secs k).1 ≤ k.maxtable c)
    (hps : sparseSection c.rd ps fp = some fpEnd)
    (hrange : ∀ p ∈ ps, 0 ≤ p.1 ∧ p.1 < c.MAX_BITMAPS) :
    ∃ gs1, LGSXlateTables c gs fp = .ok (LGS.OK, gs1, fpEnd) := by
  obtain ⟨s1, s2, s3, s4, s5, s6, s7⟩ := hsize
  obtain ⟨a0, f1, k0, d1⟩ := denseSection_inv _ _ _ _ (hdense .obji).1
  simp only [DenseKind.rank, skipDense, Except.ok.injEq] at k0
  subst k0
  have b1 := BUILD_XLATE_TABLE_of_readDense c.rd c.FindObjectIDName _ _ _ _ _ s1 d1 (hdense .obji).2
  obtain ⟨a1, f2, k1, d2⟩ := denseSection_inv _ _ _ _ (hdense .model).1
  simp only [DenseKind.rank, skipDense, d1, Except.ok.injEq] at k1
  subst k1
  have b2 := BUILD_XLATE_TABLE_of_readDense c.rd c.FindPolyModelName _ _ _ _ _ s2 d2 (hdense .model).2
  obtain ⟨a2, f3, k2, d3⟩ := denseSection_inv _ _ _ _ (hdense .door).1
  simp only [DenseKind.rank, skipDense, d1, d2, Except.ok.injEq] at k2
  subst k2
  have b3 := BUILD_XLATE_TABLE_of_readDense c.rd c.FindDoorName _ _ _ _ _ s3 d3 (hdense .door).2
  obtain ⟨a3, f4, k3, d4⟩ := denseSection_inv _ _ _ _ (hdense .ship).1
  simp only [DenseKind.rank, skipDense, d1, d2, d3, Except.ok.injEq] at k3
  subst k3
  have b4 := BUILD_XLATE_TABLE_of_readDense c.rd c.FindShipName _ _ _ _ _ s4 d4 (hdense .ship).2
  obtain ⟨a4, f5, k4, d5⟩ := denseSection_inv _ _ _ _ (hdense .wpn).1
  simp only [DenseKind.rank, skipDense, d1, d2, d3, d4, Except.ok.injEq] at k4
  subst k4
  have b5 := BUILD_XLATE_TABLE_of_readDense c.rd c.FindWeaponName _ _ _ _ _ s5 d5 (hdense .wpn).2
  obtain ⟨a5, f6, k5, d6⟩ := denseSection_inv _ _ _ _ (hdense .tex).1
  simp only [DenseKind.rank, skipDense, d1, d2, d3, d4, d5, Except.ok.injEq] at k5
  subst k5
  have b6 := BUILD_XLATE_TABLE_of_readDense c.rd c.FindTextureName _ _ _ _ _ s6 d6 (hdense .tex).2
  have k6 : skipDense c.rd 6 fp = .ok f6 := by simp [skipDense, d1, d2, d3, d4, d5, d6]
  unfold sparseSection at hps
  simp only [k6] at hps
  unfold pairsThenSentinel at hps
  split at hps
  · rename_i hns
    cases hsk : skipPairs c.rd ps f6 with
    | none => simp [hsk] at hps
    | some fpa =>
      simp only [hsk] at hps
      cases hs : readPair c.rd fpa with
      | error e => simp [hs] at hps
      | ok a =>
        obtain ⟨s, fpb⟩ := a
        simp only [hs] at hps
        split at hps
        · rename_i hsent
          simp only [Option.some.injEq] at hps
          subst hps
          have hlen := skipPairs_length c.rd ps f6 fpa hsk
          have hlen2 := readPair_length c.rd _ _ _ hs
          have b7 := miniLoop_spec c.rd c.bm_FindBitmapName ps (f6.data.length / 2 + 1)
            (List.replicate gs.bm_handles.length 0) f6 fpa fpb s hsk hs hsent hns
            (by simpa [s7] using hrange) (by omega)
          simp only [DenseKind.maxtable] at b1 b2 b3 b4 b5 b6
          simp only [LGSXlateTables, b1, b2, b3, b4, b5, b6, BUILD_MINI_XLATE_TABLE, b7]
          exact ⟨_, rfl⟩
        · simp at hps
  · simp at hps

/-! ### Faults of the table builders -/

theorem cf_ReadBytes_fault (n : Nat) (fp : CFILE) (e : Fault)
    (h : cf_ReadBytes n fp = .error e) : e = .shortRead := by
  unfold cf_ReadBytes at h
  split at h
  · simp at h
  · simp only [Except.error.injEq] at h
    exact h.symm

theorem cf_ReadShort_fault (fp : CFILE) (e : Fault)
    (h : cf_ReadShort fp = .error e) : e = .shortRead := by
  unfold cf_ReadShort at h
  cases hb : cf_ReadBytes 2 fp with
  | error e1 =>
    simp only [hb, Except.error.injEq] at h
    subst h
    exact cf_ReadBytes_fault _ _ _ hb
  | ok p => simp [hb] at h

theorem cf_ReadString_fault (rd : StringReader) (n : Nat) (fp : CFILE) (e : Fault)
    (h : cf_ReadString rd n fp = .error e) : e = .shortRead := by
  unfold cf_ReadString at h
  split at h
  · split at h
    · simp at h
    · simp only [Except.error.injEq] at h
      exact h.symm
  · simp only [Except.error.injEq] at h
    exact h.symm

theorem readPair_fault (rd : StringReader) (fp : CFILE) (e : Fault)
    (h : readPair rd fp = .error e) : e = .shortRead := by
  unfold readPair at h
  cases hs : cf_ReadShort fp with
  | error e1 =>
    simp only [hs, Except.error.injEq] at h
    subst h
    exact cf_ReadShort_fault _ _ hs
  | ok a =>
    obtain ⟨i, fpa⟩ := a
    simp only [hs] at h
    cases hn : cf_ReadString rd 64 fpa with
    | error e1 =>
      simp only [hn, Except.error.injEq] at h
      subst h
      exact cf_ReadString_fault _ _ _ _ hn
    | ok b => simp [hn] at h

theorem miniLoop_readPair_error (rd : StringReader) (fn : Name → Int) (fuel : Nat)
    (t : List Int) (fp : CFILE) (e : Fault) (h : readPair rd fp = .error e) :
    miniLoop rd fn (fuel + 1) t fp = .error .shortRead := by
  have he := readPair_fault rd fp e h
  subst he
  unfold readPair at h
  simp only [miniLoop]
  cases hs : cf_ReadShort fp with
  | error e1 => rw [cf_ReadShort_fault _ _ hs]
  | ok a =>
    obtain ⟨i, fpa⟩ := a
    simp only [hs] at h ⊢
    cases hn : cf_ReadString rd 64 fpa with
    | error e1 => rw [cf_ReadString_fault _ _ _ _ hn]
    | ok b => simp [hn] at h

theorem xlateLoop_fault (rd : StringReader) (fn : Name → Int) :
    ∀ (k a : Nat) (t : List Int) (fp : CFILE) (e : Fault), a + k ≤ t.length →
      xlateLoop rd fn k (Int.ofNat a) t fp = .error e → e = .shortRead := by
  intro k
  induction k with
  | zero => intro a t fp e _ h; simp [xlateLoop] at h
  | succ k ih =>
    intro a t fp e hlen h
    simp only [xlateLoop] at h
    cases hs : cf_ReadString rd 64 fp with
    | error e1 =>
      simp only [hs, Except.error.injEq] at h
      subst h
      exact cf_ReadString_fault _ _ _ _ hs
    | ok p =>
      obtain ⟨name, fpa⟩ := p
      have ha : a < t.length := by omega
      simp only [hs, tableWrite_ok t a _ ha] at h
      have e1 : (Int.ofNat a + 1) = Int.ofNat (a + 1) := by simp
      rw [e1] at h
      exact ih (a + 1) _ fpa e (by simp; omega) h

theorem BUILD_XLATE_TABLE_fault (rd : StringReader) (fn : Name → Int) (table : List Int)
    (M : Nat) (fp : CFILE) (e : Fault) (hlen : table.length = M)
    (hcount : ∀ num fp1, cf_ReadShort fp = .ok (num, fp1) → num ≤ M)
    (h : BUILD_XLATE_TABLE rd table M fn fp = .error e) : e = .shortRead := by
  have h0 := h
  unfold BUILD_XLATE_TABLE at h
  cases hs : cf_ReadShort fp with
  | error e1 =>
    simp only [hs, Except.error.injEq] at h
    subst h
    exact cf_ReadShort_fault _ _ hs
  | ok p =>
    obtain ⟨num, fp1⟩ := p
    have hle := hcount num fp1 hs
    simp only [hs] at h
    cases hx : xlateLoop rd fn num.toNat 0 table fp1 with
    | error e1 =>
      simp only [hx, Except.error.injEq] at h
      subst h
      have e0 : (0 : Int) = Int.ofNat 0 := rfl
      rw [e0] at hx
      exact xlateLoop_fault rd fn _ 0 _ _ _ (by omega) hx
    | ok q =>
      obtain ⟨t1, fpb⟩ := q
      have e0 : (0 : Int) = Int.ofNat 0 := rfl
      rw [e0] at hx
      obtain ⟨⟨names, hn⟩, _⟩ := xlateLoop_ok rd fn _ _ _ _ _ _ hx
      rw [BUILD_XLATE_TABLE_spec rd fn table M fp fp1 fpb num names hlen hs hle hn] at h0
      simp at h0

theorem miniLoop_fault (rd : StringReader) (fn : Name → Int) :
    ∀ (fuel : Nat) (t : List Int) (fp : CFILE) (e : Fault),
      pairsInRange rd t.length fuel fp = true →
      miniLoop rd fn fuel t fp = .error e → e = .shortRead := by
  intro fuel
  induction fuel with
  | zero =>
    intro t fp e _ h
    simp only [miniLoop, Except.error.injEq] at h
    exact h.symm
  | succ f ih =>
    intro t fp e hin h
    cases hp : readPair rd fp with
    | error e1 =>
      rw [miniLoop_readPair_error rd fn f t fp e1 hp] at h
      simp only [Except.error.injEq] at h
      exact h.symm
    | ok a =>
      obtain ⟨p, fpa⟩ := a
      rw [miniLoop_step rd fn f t fp fpa p hp] at h
      simp only [pairsInRange, hp] at hin
      by_cases hsent : isSentinel p
      · have : p.1 = -1 ∧ p.2.headD 0 = 0 := hsent
        rw [if_pos this] at h
        simp at h
      · have hns : ¬ (p.1 = -1 ∧ p.2.headD 0 = 0) := hsent
        rw [if_neg hns] at h
        rw [if_neg hsent] at hin
        simp only [Bool.and_eq_true, decide_eq_true_eq] at hin
        obtain ⟨hr, hrest⟩ := hin
        have hw : tableWrite t p.1 (xlateValue fn p.2)
            = .ok (t.set p.1.toNat (xlateValue fn p.2)) := by
          simp [tableWrite, hr]
        simp only [hw] at h
        exact ih _ fpa e (by simpa using hrest) h

theorem declaredCount_le (c : Content) (fp fpk fp1 : CFILE) (k : DenseKind) (num : Int)
    (hc : countsInRange c fp = true) (hk : skipDense c.rd k.rank fp = .ok fpk)
    (hs : cf_ReadShort fpk = .ok (num, fp1)) : num ≤ k.maxtable c := by
  have hd : declaredCount c.rd k fp = some num := by simp [declaredCount, hk, hs]
  unfold countsInRange at hc
  simp only [List.all_cons, List.all_nil, Bool.and_true, Bool.and_eq_true] at hc
  obtain ⟨h1, h2, h3, h4, h5, h6⟩ := hc
  cases k
  · simpa [hd] using h1
  · simpa [hd] using h2
  · simpa [hd] using h3
  · simpa [hd] using h4
  · simpa [hd] using h5
  · simpa [hd] using h6

/-- With declared counts within the table sizes and sparse ordinals within the bitmap
table, the only fault `LGSXlateTables` can end in is a short read. -/
theorem LGSXlateTables_fault (c : Content) (gs : gs_tables) (fp : CFILE) (e : Fault)
    (hsize : gs.sized c) (hc : countsInRange c fp = true) (hsp : sparseInRange c fp = true)
    (h : LGSXlateTables c gs fp = .error e) : e = .shortRead := by
  obtain ⟨s1, s2, s3, s4, s5, s6, s7⟩ := hsize
  have k0 : skipDense c.rd 0 fp = .ok fp := rfl
  unfold LGSXlateTables at h
  split at h
  · rename_i e1 h1
    simp only [Except.error.injEq] at h
    subst h
    exact BUILD_XLATE_TABLE_fault _ _ _ _ _ _ s1
      (fun num fp1 hs => declaredCount_le c fp _ fp1 .obji num hc k0 hs) h1
  · rename_i t1 f1 h1
    obtain ⟨n1, nm1, d1, _, _⟩ := BUILD_XLATE_TABLE_ok _ _ _ _ _ _ _ s1 h1
    have k1 := skipDense_succ c.rd 0 fp fp f1 _ k0 d1
    split at h
    · rename_i e1 h2
      simp only [Except.error.injEq] at h
      subst h
      exact BUILD_XLATE_TABLE_fault _ _ _ _ _ _ s2
        (fun num fp1 hs => declaredCount_le c fp _ fp1 .model num hc k1 hs) h2
    · rename_i t2 f2 h2
      obtain ⟨n2, nm2, d2, _, _⟩ := BUILD_XLATE_TABLE_ok _ _ _ _ _ _ _ s2 h2
      have k2 := skipDense_succ c.rd 1 fp f1 f2 _ k1 d2
      split at h
      · rename_i e1 h3
        simp only [Except.error.injEq] at h
        subst h
        exact BUILD_XLATE_TABLE_fault _ _ _ _ _ _ s3
          (fun num fp1 hs => declaredCount_le c fp _ fp1 .door num hc k2 hs) h3
      · rename_i t3 f3 h3
        obtain ⟨n3, nm3, d3, _, _⟩ := BUILD_XLATE_TABLE_ok _ _ _ _ _ _ _ s3 h3
        have k3 := skipDense_succ c.rd 2 fp f2 f3 _ k2 d3
        split at h
        · rename_i e1 h4
          simp only [Except.error.injEq] at h
          subst h
          exact BUILD_XLATE_TABLE_fault _ _ _ _ _ _ s4
            (fun num fp1 hs => declaredCount_le c fp _ fp1 .ship num hc k3 hs) h4
        · rename_i t4 f4 h4
          obtain ⟨n4, nm4, d4, _, _⟩ := BUILD_XLATE_TABLE_ok _ _ _ _ _ _ _ s4 h4
          have k4 := skipDense_succ c.rd 3 fp f3 f4 _ k3 d4
          split at h
          · rename_i e1 h5
            simp only [Except.error.injEq] at h
            subst h
            exact BUILD_XLATE_TABLE_fault _ _ _ _ _ _ s5
              (fun num fp1 hs => declaredCount_le c fp _ fp1 .wpn num hc k4 hs) h5
          · rename_i t5 f5 h5
            obtain ⟨n5, nm5, d5, _, _⟩ := BUILD_XLATE_TABLE_ok _ _ _ _ _ _ _ s5 h5
            have k5 := skipDense_succ c.rd 4 fp f4 f5 _ k4 d5
            split at h
            · rename_i e1 h6
              simp only [Except.error.injEq] at h
              subst h
              exact BUILD_XLATE_TABLE_fault _ _ _ _ _ _ s6
                (fun num fp1 hs => declaredCount_le c fp _ fp1 .tex num hc k5 hs) h6
            · rename_i t6 f6 h6
              obtain ⟨n6, nm6, d6, _, _⟩ := BUILD_XLATE_TABLE_ok _ _ _ _ _ _ _ s6 h6
              have k6 := skipDense_succ c.rd 5 fp f5 f6 _ k5 d6
              split at h
              · rename_i e1 h7
                simp only [Except.error.injEq] at h
                subst h
                unfold sparseInRange at hsp
                simp only [k6] at hsp
                unfold BUILD_MINI_XLATE_TABLE at h7
                exact miniLoop_fault _ _ _ _ _ _ (by simpa [s7] using hsp) h7
              · simp at h

/-- C8, as amended. For every translation-table block whose dense sections declare at
most their table's maximum size and whose sparse pairs have ordinals within the bitmap
table, no store made while `LGSXlateTables` builds the tables is out of range; a remap
of a saved ordinal `s` with `0 <= s <` the table's size is in range, and the guarded
remap of a negative `s` gives -1 without touching the table. -/
theorem xlate_access_in_range (c : Content) (gs : gs_tables) (fp : CFILE)
    (hsize : gs.sized c) (hc : countsInRange c fp = true) (hsp : sparseInRange c fp = true) :
    faultOf (LGSXlateTables c gs fp) ≠ some Fault.outOfRange ∧
    (∀ (t : List Int) (s : Int), 0 ≤ s → s < t.length →
      xlateDirect t s = .ok (t.getD s.toNat 0) ∧ xlateGuarded t s = .ok (t.getD s.toNat 0)) ∧
    (∀ (t : List Int) (s : Int), s < 0 → xlateGuarded t s = .ok (-1)) := by
  refine ⟨?_, ?_, ?_⟩
  · intro hf
    cases hr : LGSXlateTables c gs fp with
    | ok a => simp [hr, faultOf] at hf
    | error e =>
      have := LGSXlateTables_fault c gs fp e hsize hc hsp hr
      subst this
      simp [hr, faultOf] at hf
  · intro t s h0 h1
    have hg : s > -1 := by omega
    simp [xlateDirect, xlateGuarded, tableRead, h0, h1, hg]
  · intro t s hs
    have hg : ¬ s > -1 := by omega
    simp [xlateGuarded, hg]

/-- Witness of the amended C8 at the demo block. -/
theorem xlate_access_in_range_witness :
    faultOf (LGSXlateTables demoEnv.toContent (gs_tables.alloc demoEnv.toContent 77)
      demoTablesFile) ≠ some Fault.outOfRange :=
  (xlate_access_in_range demoEnv.toContent (gs_tables.alloc demoEnv.toContent 77)
    demoTablesFile (by decide) (by decide) (by decide)).1

/-- Counterexample to C8 as stated: a block whose ship table declares 31 names for the
30 entries of `MAX_SHIPS` makes `LGSXlateTables` store at index 30, outside the table;
and a block whose sparse section lists the ordinal -2 makes it store at index -2. -/
theorem xlate_access_out_of_range :
    MAX_SHIPS = 30 ∧
    declaredCount demoEnv.rd .ship overfullTablesFile = some 31 ∧
    faultOf (LGSXlateTables demoEnv.toContent (gs_tables.alloc demoEnv.toContent 77)
      overfullTablesFile) = some Fault.outOfRange ∧
    sparseSection demoEnv.rd [(-2, nameA)] negativeOrdinalTablesFile
      = some { data := [], pos := 26, closed := false } ∧
    faultOf (LGSXlateTables demoEnv.toContent (gs_tables.alloc demoEnv.toContent 77)
      negativeOrdinalTablesFile) = some Fault.outOfRange := by
  decide

/-! ### The translation tables after `LGSXlateTables` -/

theorem lastListed_mem :
    ∀ (ps : List (Int × Name)) (o : Int) (nm : Name), lastListed ps o = some nm →
      ∃ p ∈ ps, p.1 = o := by
  intro ps
  induction ps with
  | nil => intro o nm h; simp [lastListed] at h
  | cons q ps ih =>
    intro o nm h
    obtain ⟨i, n⟩ := q
    simp only [lastListed] at h
    cases hl : lastListed ps o with
    | some m =>
      obtain ⟨p, hp, hpo⟩ := ih o m hl
      exact ⟨p, by simp [hp], hpo⟩
    | none =>
      simp only [hl] at h
      split at h
      · rename_i hio
        exact ⟨(i, n), by simp, hio⟩
      · simp at h

theorem sparse_table_slots (c : Content) (gs gs1 : gs_tables) (fp fp1 fpEnd : CFILE) (r : LGS)
    (ps : List (Int × Name)) (hsize : gs.sized c)
    (hrun : LGSXlateTables c gs fp = .ok (r, gs1, fp1))
    (hps : sparseSection c.rd ps fp = some fpEnd) :
    fp1 = fpEnd ∧ (∀ p ∈ ps, 0 ≤ p.1 ∧ p.1 < c.MAX_BITMAPS) ∧
    ∀ o : Nat, o < c.MAX_BITMAPS →
      gs1.bm_handles[o]? =
        match lastListed ps (Int.ofNat o) with
        | some nm => some (xlateValue c.bm_FindBitmapName nm)
        | none => some 0 := by
  obtain ⟨_, _, ⟨fp6, hk6, hmini⟩⟩ := LGSXlateTables_ok c gs gs1 fp fp1 r hsize hrun
  have hb : gs.bm_handles.length = c.MAX_BITMAPS := hsize.2.2.2.2.2.2
  unfold sparseSection at hps
  simp only [hk6] at hps
  obtain ⟨e1, hr, et⟩ := BUILD_MINI_XLATE_TABLE_ok _ _ _ _ ps fp6 fpEnd fp1 hps hmini
  rw [hb] at hr et
  refine ⟨e1, fun p hp => by simpa using hr p hp, ?_⟩
  intro o ho
  rw [et, applyPairs_get c.bm_FindBitmapName ps _ o (by simpa using hr) (by simpa using ho)]
  cases lastListed ps (Int.ofNat o) with
  | some nm => rfl
  | none => simp [ho]

theorem dense_table_slot (c : Content) (gs gs1 : gs_tables) (fp fp1 : CFILE) (r : LGS)
    (k : DenseKind) (num : Int) (names : List Name) (hsize : gs.sized c)
    (hrun : LGSXlateTables c gs fp = .ok (r, gs1, fp1))
    (hsec : denseSection c.rd k fp = .ok (num, names)) :
    num ≤ k.maxtable c ∧ names.length = num.toNat ∧
    k.table gs1 = names.map (xlateValue (k.find c))
      ++ List.replicate (k.maxtable c - num.toNat) 0 := by
  obtain ⟨_, hd, _⟩ := LGSXlateTables_ok c gs gs1 fp fp1 r hsize hrun
  obtain ⟨num1, names1, h1, hle, ht⟩ := hd k
  rw [hsec] at h1
  simp only [Except.ok.injEq, Prod.mk.injEq] at h1
  obtain ⟨rfl, rfl⟩ := h1
  exact ⟨hle, denseSection_length c.rd k fp _ _ hsec, ht⟩

/-- C5. Translation stability: in a completed run of `LGSXlateTables`, whenever the
name saved at ordinal `ord` of a dense section (`ord` below the declared count) is found
by that kind's lookup at the current index `j`, slot `ord` of that kind's table holds
`j`, whatever `j` is (any index the 16-bit `index` variable can hold). -/
theorem xlate_translation_stability (c : Content) (gs gs1 : gs_tables) (fp fp1 : CFILE)
    (r : LGS) (k : DenseKind) (num : Int) (names : List Name) (ord : Nat) (j : Int)
    (hsize : gs.sized c)
    (hrun : LGSXlateTables c gs fp = .ok (r, gs1, fp1))
    (hsec : denseSection c.rd k fp = .ok (num, names))
    (hord : (ord : Int) < num)
    (hfound : k.find c (names.getD ord []) = j) (hj : 0 ≤ j ∧ j ≤ 32767) :
    (k.table gs1)[ord]? = some j := by
  obtain ⟨_, hlen, ht⟩ := dense_table_slot c gs gs1 fp fp1 r k num names hsize hrun hsec
  have ho : ord < names.length := by omega
  rw [ht, List.getElem?_append_left (by simpa using ho)]
  simp only [List.getElem?_map, List.getElem?_eq_getElem ho, Option.map_some']
  have e : names.getD ord [] = names[ord] := by simp [List.getD, List.getElem?_eq_getElem ho]
  rw [e] at hfound
  rw [xlateValue_found _ _ j hfound hj.1 hj.2]

/-- Witness of C5 at the demo block: "A", saved as ship ordinal 0, is ship 5 now, and
slot 0 of the ship table holds 5. -/
theorem xlate_translation_stability_witness :
    demoEnv.FindShipName nameA = 5 ∧ (DenseKind.ship.table demoTablesBuilt)[0]? = some 5 :=
  ⟨by decide,
   xlate_translation_stability demoEnv.toContent (gs_tables.alloc demoEnv.toContent 77)
    demoTablesBuilt demoTablesFile demoTablesEnd LGS.OK .ship 2 [nameA, nameB] 0 5
    (by decide) (by rfl) (by rfl) (by decide) (by decide) (by decide)⟩

/-- C6. Missing-content default: for every input, a run of `LGSXlateTables` that
completes returns `LGS_OK`; a dense slot whose saved name the lookup does not find (-1)
holds 0, and so does the sparse slot of an ordinal whose last listed name is not found.
And the run does complete with `LGS_OK` on every block that holds the sections, whether
or not their names are found. -/
theorem xlate_missing_default (c : Content) (gs : gs_tables) (fp : CFILE)
    (hsize : gs.sized c) :
    (∀ (r : LGS) (gs1 : gs_tables) (fp1 : CFILE),
      LGSXlateTables c gs fp = .ok (r, gs1, fp1) →
      r = LGS.OK ∧
      (∀ (k : DenseKind) (num : Int) (names : List Name) (ord : Nat),
        denseSection c.rd k fp = .ok (num, names) → (ord : Int) < num →
        k.find c (names.getD ord []) = -1 → (k.table gs1)[ord]? = some 0) ∧
      (∀ (ps : List (Int × Name)) (fpEnd : CFILE) (o : Nat) (nm : Name),
        sparseSection c.rd ps fp = some fpEnd → lastListed ps (Int.ofNat o) = some nm →
        c.bm_FindBitmapName nm = -1 → gs1.bm_handles[o]? = some 0)) ∧
    (∀ (secs : DenseKind → Int × List Name) (ps : List (Int × Name)) (fpEnd : CFILE),
      (∀ k, denseSection c.rd k fp = .ok (secs k) ∧ (secs k).1 ≤ k.maxtable c) →
      sparseSection c.rd ps fp = some fpEnd →
      (∀ p ∈ ps, 0 ≤ p.1 ∧ p.1 < c.MAX_BITMAPS) →
      returned (LGSXlateTables c gs fp) = some LGS.OK) := by
  constructor
  · intro r gs1 fp1 hrun
    refine ⟨(LGSXlateTables_ok c gs gs1 fp fp1 r hsize hrun).1, ?_, ?_⟩
    · intro k num names ord hsec hord hmiss
      obtain ⟨_, hlen, ht⟩ := dense_table_slot c gs gs1 fp fp1 r k num names hsize hrun hsec
      have ho : ord < names.length := by omega
      rw [ht, List.getElem?_append_left (by simpa using ho)]
      simp only [List.getElem?_map, List.getElem?_eq_getElem ho, Option.map_some']
      have e : names.getD ord [] = names[ord] := by
        simp [List.getD, List.getElem?_eq_getElem ho]
      rw [e] at hmiss
      rw [xlateValue_missing _ _ hmiss]
    · intro ps fpEnd o nm hps hl hmiss
      obtain ⟨_, hr, hs⟩ := sparse_table_slots c gs gs1 fp fp1 fpEnd r ps hsize hrun hps
      obtain ⟨p, hp, hpo⟩ := lastListed_mem ps _ nm hl
      have ho : o < c.MAX_BITMAPS := by
        have := (hr p hp).2
        rw [hpo] at this
        simpa using this
      rw [hs o ho, hl]
      show some (xlateValue c.bm_FindBitmapName nm) = some 0
      rw [xlateValue_missing _ _ hmiss]
  · intro secs ps fpEnd hdense hps hrange
    obtain ⟨gs1, hrun⟩ := LGSXlateTables_returns c gs fp fpEnd secs ps hsize hdense hps hrange
    simp [hrun, returned]

/-- Witness of C6 at the demo block: "B" is no ship and no bitmap; the run returns
`LGS_OK`, ship slot 1 and bitmap slot 2 hold 0. -/
theorem xlate_missing_default_witness :
    returned (LGSXlateTables demoEnv.toContent (gs_tables.alloc demoEnv.toContent 77)
      demoTablesFile) = some LGS.OK ∧
    (DenseKind.ship.table demoTablesBuilt)[1]? = some 0 ∧
    demoTablesBuilt.bm_handles[2]? = some 0 :=
  have h := (xlate_missing_default demoEnv.toContent (gs_tables.alloc demoEnv.toContent 77)
    demoTablesFile (by decide)).1 LGS.OK demoTablesBuilt demoTablesEnd (by rfl)
  ⟨by decide,
   h.2.1 .ship 2 [nameA, nameB] 1 (by rfl) (by decide) (by decide),
   h.2.2 [(1, nameA), (2, nameB)] demoTablesEnd 2 nameB (by rfl) (by rfl) (by decide)⟩

/-- C7. Zero fill: in a completed run of `LGSXlateTables`, every slot of a dense table
from the declared count up to the table's maximum size holds 0. -/
theorem xlate_zero_fill (c : Content) (gs gs1 : gs_tables) (fp fp1 : CFILE) (r : LGS)
    (k : DenseKind) (num : Int) (names : List Name) (slot : Nat)
    (hsize : gs.sized c)
    (hrun : LGSXlateTables c gs fp = .ok (r, gs1, fp1))
    (hsec : denseSection c.rd k fp = .ok (num, names))
    (hlo : num ≤ (slot : Int)) (hhi : slot < k.maxtable c) :
    num ≤ k.maxtable c ∧ (k.table gs1)[slot]? = some 0 := by
  obtain ⟨hle, hlen, ht⟩ := dense_table_slot c gs gs1 fp fp1 r k num names hsize hrun hsec
  refine ⟨hle, ?_⟩
  have ho : names.length ≤ slot := by omega
  rw [ht, List.getElem?_append_right (by simpa using ho)]
  simp only [List.length_map, List.getElem?_replicate]
  have : slot - names.length < k.maxtable c - num.toNat := by omega
  simp [this]

/-- Witness of C7 at the demo block: the ship table declares 2 names, slot 29 holds 0. -/
theorem xlate_zero_fill_witness :
    (2 : Int) ≤ DenseKind.ship.maxtable demoEnv.toContent ∧
    (DenseKind.ship.table demoTablesBuilt)[29]? = some 0 :=
  xlate_zero_fill demoEnv.toContent (gs_tables.alloc demoEnv.toContent 77)
    demoTablesBuilt demoTablesFile demoTablesEnd LGS.OK .ship 2 [nameA, nameB] 29
    (by decide) (by rfl) (by rfl) (by decide) (by decide)

/-- C9. The sparse bitmap table: when the sparse section lists the pairs `ps` (none of
them a sentinel) and then a sentinel pair, a completed run of `LGSXlateTables` stops
reading right after that first sentinel; every listed ordinal is a slot of the table and
holds what its last listed name resolves to (the index found, 0 if not found), and
every slot not listed holds 0. -/
theorem sparse_bitmap_table (c : Content) (gs gs1 : gs_tables) (fp fp1 fpEnd : CFILE)
    (r : LGS) (ps : List (Int × Name))
    (hsize : gs.sized c)
    (hrun : LGSXlateTables c gs fp = .ok (r, gs1, fp1))
    (hps : sparseSection c.rd ps fp = some fpEnd) :
    fp1 = fpEnd ∧
    (∀ (o : Nat) (nm : Name) (j : Int), lastListed ps (Int.ofNat o) = some nm →
      c.bm_FindBitmapName nm = j → 0 ≤ j ∧ j ≤ 32767 → gs1.bm_handles[o]? = some j) ∧
    (∀ (o : Nat) (nm : Name), lastListed ps (Int.ofNat o) = some nm →
      c.bm_FindBitmapName nm = -1 → gs1.bm_handles[o]? = some 0) ∧
    (∀ o : Nat, o < c.MAX_BITMAPS → lastListed ps (Int.ofNat o) = none →
      gs1.bm_handles[o]? = some 0) := by
  obtain ⟨he, hr, hs⟩ := sparse_table_slots c gs gs1 fp fp1 fpEnd r ps hsize hrun hps
  have hlisted : ∀ (o : Nat) (nm : Name), lastListed ps (Int.ofNat o) = some nm →
      o < c.MAX_BITMAPS := by
    intro o nm hl
    obtain ⟨p, hp, hpo⟩ := lastListed_mem ps _ nm hl
    have := (hr p hp).2
    rw [hpo] at this
    simpa using this
  refine ⟨he, ?_, ?_, ?_⟩
  · intro o nm j hl hf hj
    rw [hs o (hlisted o nm hl), hl]
    show some (xlateValue c.bm_FindBitmapName nm) = some j
    rw [xlateValue_found _ _ j hf hj.1 hj.2]
  · intro o nm hl hf
    rw [hs o (hlisted o nm hl), hl]
    show some (xlateValue c.bm_FindBitmapName nm) = some 0
    rw [xlateValue_missing _ _ hf]
  · intro o ho hl
    rw [hs o ho, hl]

/-- Witness of C9 at the demo block: the pairs (1, "A") and (2, "B") precede the
sentinel; the run ends at the end of the block, slot 1 holds bitmap 3 and slot 0,
which is not listed, holds 0. -/
theorem sparse_bitmap_table_witness :
    sparseSection demoEnv.rd [(1, nameA), (2, nameB)] demoTablesFile = some demoTablesEnd ∧
    demoTablesBuilt.bm_handles[1]? = some 3 ∧ demoTablesBuilt.bm_handles[0]? = some 0 :=
  have h := sparse_bitmap_table demoEnv.toContent (gs_tables.alloc demoEnv.toContent 77)
    demoTablesBuilt demoTablesFile demoTablesEnd demoTablesEnd LGS.OK [(1, nameA), (2, nameB)]
    (by decide) (by rfl) (by rfl)
  ⟨by rfl, h.2.1 1 nameA 3 (by rfl) (by decide) (by decide), h.2.2.2 0 (by decide) (by rfl)⟩

/-! ### The calls of the stages of `LoadGameState` -/

@[simp] theorem call_log {σ : Type} (env : Env σ) (c : Call) (w : World σ) :
    (call env c w).log = w.log ++ [c] := rfl

@[simp] theorem call_g {σ : Type} (env : Env σ) (c : Call) (w : World σ) :
    (call env c w).g = w.g := rfl

theorem LGSMission_log {σ : Type} (env : Env σ) (msnname : Name) (level : Int) (w : World σ) :
    ∃ loaded started, (LGSMission env msnname level w).2.log
        = w.log ++ LGSMission_calls msnname level loaded started ∧
      (LGSMission env msnname level w).2.g.gs_Xlates = w.g.gs_Xlates := by
  unfold LGSMission
  dsimp only
  generalize env.LoadMission msnname _ = loaded
  generalize env.LoadAndStartCurrentLevel _ = started
  cases loaded <;> cases started
  · exact ⟨false, false, by simp [LGSMission_calls], rfl⟩
  · exact ⟨false, false, by simp [LGSMission_calls], rfl⟩
  · exact ⟨true, false, by simp [LGSMission_calls], rfl⟩
  · exact ⟨true, true, by simp [LGSMission_calls], rfl⟩

theorem IncreaseRestoreCount_log {σ : Type} (env : Env σ) (file : Name) (w w1 : World σ)
    (h : IncreaseRestoreCount env file w = .ok w1) :
    w1.log = w.log ∧ w1.g.gs_Xlates = w.g.gs_Xlates := by
  unfold IncreaseRestoreCount at h
  dsimp only at h
  split at h
  · simp at h
  · split at h
    · simp only [Except.ok.injEq] at h
      subst h
      exact ⟨rfl, rfl⟩
    · simp only [Except.ok.injEq] at h
      subst h
      exact ⟨rfl, rfl⟩

theorem header_log {σ : Type} (env : Env σ) (fp : CFILE) (w : World σ)
    (flow : Flow (Int × gs_tables) σ) (h : LoadGameState_header env fp w = .ok flow) :
    ∃ tr, flow.world.log = w.log ++ tr ∧ (∀ e ∈ tr, ∃ handle, e = Call.bm_FreeBitmap handle) := by
  unfold LoadGameState_header at h
  dsimp only at h
  split at h
  · simp at h
  · split at h
    · simp at h
    · split at h
      · simp only [Except.ok.injEq] at h
        subst h
        exact ⟨[], by simp [Flow.world], by simp⟩
      · split at h
        · simp at h
        · rename_i bm fp3 ext3 hsnap
          split at h
          · simp at h
          · split at h
            · simp only [Except.ok.injEq] at h
              subst h
              by_cases hb : bm > 0
              · exact ⟨[Call.bm_FreeBitmap bm], by simp [Flow.world, hb], by simp⟩
              · exact ⟨[], by simp [Flow.world, hb], by simp⟩
            · simp only [Except.ok.injEq] at h
              subst h
              by_cases hb : bm > 0
              · exact ⟨[Call.bm_FreeBitmap bm], by simp [Flow.world, hb], by simp⟩
              · exact ⟨[], by simp [Flow.world, hb], by simp⟩

theorem level_log {σ : Type} (env : Env σ) (pathname : Name) (fp : CFILE) (w : World σ)
    (flow : Flow Unit σ) (h : LoadGameState_level env pathname fp w = .ok flow) :
    ∃ n16 p fp1 fp2 loaded started music,
      cf_ReadShort fp = .ok (n16, fp1) ∧
      cf_ReadString env.rd env.PSPATHNAME_LEN fp1 = .ok (p, fp2) ∧
      flow.world.log = w.log ++ (LGSMission_calls (missionPath (toUShort n16) p)
        (toUShort n16) loaded started ++ music) ∧
      (∀ e ∈ music, ∃ region, e = Call.D3MusicSetRegion region) := by
  unfold LoadGameState_level at h
  split at h
  · simp at h
  · rename_i cl fp1 hcl
    dsimp only at h
    split at h
    · simp at h
    · rename_i p fp2 hp
      obtain ⟨loaded, started, hm, _⟩ :=
        LGSMission_log env (missionPath (toUShort cl) p) (toUShort cl) w
      refine ⟨cl, p, fp1, fp2, loaded, started, ?_⟩
      split at h
      · simp only [Except.ok.injEq] at h
        subst h
        exact ⟨[], hcl, hp, by simp [Flow.world, hm], by simp⟩
      · split at h
        · simp at h
        · split at h
          · simp at h
          · rename_i w2 hinc
            obtain ⟨hlog, _⟩ := IncreaseRestoreCount_log _ _ _ _ hinc
            simp only at hlog
            split at h
            · simp at h
            · split at h
              · simp at h
              · split at h
                · simp at h
                · split at h
                  · simp at h
                  · rename_i region fp7 hreg
                    split at h
                    · simp at h
                    · split at h
                      · simp only [Except.ok.injEq] at h
                        subst h
                        exact ⟨[Call.D3MusicSetRegion region], hcl, hp,
                          by simp [Flow.world, hlog, hm], by simp⟩
                      · split at h
                        · simp at h
                        · split at h
                          · simp at h
                          · split at h
                            · simp at h
                            · split at h
                              · simp at h
                              · simp only [Except.ok.injEq] at h
                                subst h
                                exact ⟨[Call.D3MusicSetRegion region], hcl, hp,
                                  by simp [Flow.world, hlog, hm], by simp⟩

theorem restoreSection_ok {σ : Type} (s : Section) (r : Restorer σ) (gs : gs_tables)
    (fp fp1 : CFILE) (w w1 : World σ) (ret : LGS)
    (h : restoreSection s r gs fp w = .ok (ret, fp1, w1)) :
    ∃ ext1, w1 = { w with ext := ext1, log := w.log ++ [Call.restore s (.code ret)] } := by
  unfold restoreSection at h
  split at h
  · simp at h
  · simp only [Except.ok.injEq, Prod.mk.injEq] at h
    obtain ⟨rfl, rfl, rfl⟩ := h
    exact ⟨_, rfl⟩

theorem mem_okSections (n : Nat) (s : Section) (o : Outcome)
    (h : Call.restore s o ∈ okSections n) : o = .code LGS.OK ∧ s.rank < n := by
  simp only [okSections, List.mem_map, List.mem_filter, decide_eq_true_eq] at h
  obtain ⟨s1, ⟨_, hr⟩, he⟩ := h
  simp only [Call.restore.injEq] at he
  obtain ⟨rfl, rfl⟩ := he
  exact ⟨rfl, hr⟩

set_option maxHeartbeats 4000000 in
/-- What the third stage of `LoadGameState` adds to the log: only section restores; and
when one of the first four sections returned a code other than `LGS_OK`, that code is
the stage's `retval` and no later section was restored; when the script host rejected
its blob, `retval` is `LGS_OK`. -/
theorem sections_log {σ : Type} (env : Env σ) (version : Int) (gs : gs_tables)
    (fp fp1 : CFILE) (w w1 : World σ) (ret : LGS)
    (h : LoadGameState_sections env version gs fp w = .ok (ret, fp1, w1)) :
    ∃ tr, w1.log = w.log ++ tr ∧
      (∀ e ∈ tr, ∃ s o, e = Call.restore s o) ∧
      (∀ s c, s.rank ≤ 3 → Call.restore s (.code c) ∈ tr → c ≠ LGS.OK →
        ret = c ∧ ∀ s2 o, Call.restore s2 o ∈ tr → s2.rank ≤ s.rank) ∧
      (Call.restore .osiris (.flag false) ∈ tr → ret = LGS.OK) ∧
      w1.g = w.g := by
  unfold LoadGameState_sections at h
  split at h
  · simp at h
  · rename_i r0 f0 w0 h0
    obtain ⟨e0, rfl⟩ := restoreSection_ok _ _ _ _ _ _ _ _ h0
    clear h0
    split at h
    · rename_i hne0
      simp only [Except.ok.injEq, Prod.mk.injEq] at h
      obtain ⟨rfl, rfl, rfl⟩ := h
      refine ⟨okSections 0 ++
          [Call.restore .rooms (.code r0)],
        by simp [okSections, Section.rank], ?_, ?_, ?_, rfl⟩
      · intro e he
        rcases List.mem_append.1 he with he | he
        · simp only [okSections, List.mem_map] at he
          obtain ⟨s, _, rfl⟩ := he
          exact ⟨_, _, rfl⟩
        · simp only [List.mem_cons, List.mem_singleton, List.not_mem_nil, or_false] at he
          subst he
          exact ⟨_, _, rfl⟩
      · intro s c hs hm hc
        rcases List.mem_append.1 hm with hm | hm
        · have := (mem_okSections _ _ _ hm).1
          simp only [Outcome.code.injEq] at this
          exact absurd this hc
        · simp only [List.mem_singleton, Call.restore.injEq, Outcome.code.injEq] at hm
          obtain ⟨rfl, rfl⟩ := hm
          refine ⟨rfl, fun s2 o h2 => ?_⟩
          rcases List.mem_append.1 h2 with h2 | h2
          · exact Nat.le_of_lt (mem_okSections _ _ _ h2).2
          · simp only [List.mem_singleton, Call.restore.injEq] at h2
            rw [h2.1]
      · intro hm
        rcases List.mem_append.1 hm with hm | hm
        · have := (mem_okSections _ _ _ hm).1
          simp at this
        · simp at hm
    · rename_i hr0
      simp only [ne_eq, not_not] at hr0
      subst hr0
      split at h
      · simp at h
      · rename_i r1 f1 w1 h1
        obtain ⟨e1, rfl⟩ := restoreSection_ok _ _ _ _ _ _ _ _ h1
        clear h1
        split at h
        · rename_i hne1
          simp only [Except.ok.injEq, Prod.mk.injEq] at h
          obtain ⟨rfl, rfl, rfl⟩ := h
          refine ⟨okSections 1 ++
              [Call.restore .triggers (.code r1)],
            by simp [okSections, Section.rank], ?_, ?_, ?_, rfl⟩
          · intro e he
            rcases List.mem_append.1 he with he | he
            · simp only [okSections, List.mem_map] at he
              obtain ⟨s, _, rfl⟩ := he
              exact ⟨_, _, rfl⟩
            · simp only [List.mem_cons, List.mem_singleton, List.not_mem_nil, or_false] at he
              subst he
              exact ⟨_, _, rfl⟩
          · intro s c hs hm hc
            rcases List.mem_append.1 hm with hm | hm
            · have := (mem_okSections _ _ _ hm).1
              simp only [Outcome.code.injEq] at this
              exact absurd this hc
            · simp only [List.mem_singleton, Call.restore.injEq, Outcome.code.injEq] at hm
              obtain ⟨rfl, rfl⟩ := hm
              refine ⟨rfl, fun s2 o h2 => ?_⟩
              rcases List.mem_append.1 h2 with h2 | h2
              · exact Nat.le_of_lt (mem_okSections _ _ _ h2).2
              · simp only [List.mem_singleton, Call.restore.injEq] at h2
                rw [h2.1]
          · intro hm
            rcases List.mem_append.1 hm with hm | hm
            · have := (mem_okSections _ _ _ hm).1
              simp at this
            · simp at hm
        · rename_i hr1
          simp only [ne_eq, not_not] at hr1
          subst hr1
          split at h
          · simp at h
          · rename_i r2 f2 w2 h2
            obtain ⟨e2, rfl⟩ := restoreSection_ok _ _ _ _ _ _ _ _ h2
            clear h2
            split at h
            · rename_i hne2
              simp only [Except.ok.injEq, Prod.mk.injEq] at h
              obtain ⟨rfl, rfl, rfl⟩ := h
              refine ⟨okSections 2 ++
                  [Call.restore .objects (.code r2)],
                by simp [okSections, Section.rank], ?_, ?_, ?_, rfl⟩
              · intro e he
                rcases List.mem_append.1 he with he | he
                · simp only [okSections, List.mem_map] at he
                  obtain ⟨s, _, rfl⟩ := he
                  exact ⟨_, _, rfl⟩
                · simp only [List.mem_cons, List.mem_singleton, List.not_mem_nil, or_false] at he
                  subst he
                  exact ⟨_, _, rfl⟩
              · intro s c hs hm hc
                rcases List.mem_append.1 hm with hm | hm
                · have := (mem_okSections _ _ _ hm).1
                  simp only [Outcome.code.injEq] at this
                  exact absurd this hc
                · simp only [List.mem_singleton, Call.restore.injEq, Outcome.code.injEq] at hm
                  obtain ⟨rfl, rfl⟩ := hm
                  refine ⟨rfl, fun s2 o h2 => ?_⟩
                  rcases List.mem_append.1 h2 with h2 | h2
                  · exact Nat.le_of_lt (mem_okSections _ _ _ h2).2
                  · simp only [List.mem_singleton, Call.restore.injEq] at h2
                    rw [h2.1]
              · intro hm
                rcases List.mem_append.1 hm with hm | hm
                · have := (mem_okSections _ _ _ hm).1
                  simp at this
                · simp at hm
            · rename_i hr2
              simp only [ne_eq, not_not] at hr2
              subst hr2
              split at h
              · simp at h
              · rename_i r3 f3 w3 h3
                obtain ⟨e3, rfl⟩ := restoreSection_ok _ _ _ _ _ _ _ _ h3
                clear h3
                split at h
                · rename_i hne3
                  simp only [Except.ok.injEq, Prod.mk.injEq] at h
                  obtain ⟨rfl, rfl, rfl⟩ := h
                  refine ⟨okSections 3 ++
                      [Call.restore .players (.code r3)],
                    by simp [okSections, Section.rank], ?_, ?_, ?_, rfl⟩
                  · intro e he
                    rcases List.mem_append.1 he with he | he
                    · simp only [okSections, List.mem_map] at he
                      obtain ⟨s, _, rfl⟩ := he
                      exact ⟨_, _, rfl⟩
                    · simp only [List.mem_cons, List.mem_singleton, List.not_mem_nil, or_false] at he
                      subst he
                      exact ⟨_, _, rfl⟩
                  · intro s c hs hm hc
                    rcases List.mem_append.1 hm with hm | hm
                    · have := (mem_okSections _ _ _ hm).1
                      simp only [Outcome.code.injEq] at this
                      exact absurd this hc
                    · simp only [List.mem_singleton, Call.restore.injEq, Outcome.code.injEq] at hm
                      obtain ⟨rfl, rfl⟩ := hm
                      refine ⟨rfl, fun s2 o h2 => ?_⟩
                      rcases List.mem_append.1 h2 with h2 | h2
                      · exact Nat.le_of_lt (mem_okSections _ _ _ h2).2
                      · simp only [List.mem_singleton, Call.restore.injEq] at h2
                        rw [h2.1]
                  · intro hm
                    rcases List.mem_append.1 hm with hm | hm
                    · have := (mem_okSections _ _ _ hm).1
                      simp at this
                    · simp at hm
                · rename_i hr3
                  simp only [ne_eq, not_not] at hr3
                  subst hr3
                  split at h
                  · simp at h
                  · rename_i r4 f4 w4 h4
                    obtain ⟨e4, rfl⟩ := restoreSection_ok _ _ _ _ _ _ _ _ h4
                    clear h4
                    split at h
                    · rename_i hne4
                      simp only [Except.ok.injEq, Prod.mk.injEq] at h
                      obtain ⟨rfl, rfl, rfl⟩ := h
                      refine ⟨okSections 4 ++
                          [Call.restore .matcens (.code r4)],
                        by simp [okSections, Section.rank], ?_, ?_, ?_, rfl⟩
                      · intro e he
                        rcases List.mem_append.1 he with he | he
                        · simp only [okSections, List.mem_map] at he
                          obtain ⟨s, _, rfl⟩ := he
                          exact ⟨_, _, rfl⟩
                        · simp only [List.mem_cons, List.mem_singleton, List.not_mem_nil, or_false] at he
                          subst he
                          exact ⟨_, _, rfl⟩
                      · intro s c hs hm hc
                        rcases List.mem_append.1 hm with hm | hm
                        · have := (mem_okSections _ _ _ hm).1
                          simp only [Outcome.code.injEq] at this
                          exact absurd this hc
                        · simp only [List.mem_singleton, Call.restore.injEq, Outcome.code.injEq] at hm
                          obtain ⟨rfl, rfl⟩ := hm
                          simp [Section.rank] at hs
                      · intro hm
                        rcases List.mem_append.1 hm with hm | hm
                        · have := (mem_okSections _ _ _ hm).1
                          simp at this
                        · simp at hm
                    · rename_i hr4
                      simp only [ne_eq, not_not] at hr4
                      subst hr4
                      split at h
                      · simp at h
                      · rename_i r5 f5 w5 h5
                        obtain ⟨e5, rfl⟩ := restoreSection_ok _ _ _ _ _ _ _ _ h5
                        clear h5
                        split at h
                        · rename_i hne5
                          simp only [Except.ok.injEq, Prod.mk.injEq] at h
                          obtain ⟨rfl, rfl, rfl⟩ := h
                          refine ⟨okSections 5 ++
                              [Call.restore .viseffects (.code r5)],
                            by simp [okSections, Section.rank], ?_, ?_, ?_, rfl⟩
                          · intro e he
                            rcases List.mem_append.1 he with he | he
                            · simp only [okSections, List.mem_map] at he
                              obtain ⟨s, _, rfl⟩ := he
                              exact ⟨_, _, rfl⟩
                            · simp only [List.mem_cons, List.mem_singleton, List.not_mem_nil, or_false] at he
                              subst he
                              exact ⟨_, _, rfl⟩
                          · intro s c hs hm hc
                            rcases List.mem_append.1 hm with hm | hm
                            · have := (mem_okSections _ _ _ hm).1
                              simp only [Outcome.code.injEq] at this
                              exact absurd this hc
                            · simp only [List.mem_singleton, Call.restore.injEq, Outcome.code.injEq] at hm
                              obtain ⟨rfl, rfl⟩ := hm
                              simp [Section.rank] at hs
                          · intro hm
                            rcases List.mem_append.1 hm with hm | hm
                            · have := (mem_okSections _ _ _ hm).1
                              simp at this
                            · simp at hm
                        · rename_i hr5
                          simp only [ne_eq, not_not] at hr5
                          subst hr5
                          split at h
                          · simp at h
                          · rename_i r6 f6 w6 h6
                            obtain ⟨e6, rfl⟩ := restoreSection_ok _ _ _ _ _ _ _ _ h6
                            clear h6
                            split at h
                            · rename_i hne6
                              simp only [Except.ok.injEq, Prod.mk.injEq] at h
                              obtain ⟨rfl, rfl, rfl⟩ := h
                              refine ⟨okSections 6 ++
                                  [Call.restore .spew (.code r6)],
                                by simp [okSections, Section.rank], ?_, ?_, ?_, rfl⟩
                              · intro e he
                                rcases List.mem_append.1 he with he | he
                                · simp only [okSections, List.mem_map] at he
                                  obtain ⟨s, _, rfl⟩ := he
                                  exact ⟨_, _, rfl⟩
                                · simp only [List.mem_cons, List.mem_singleton, List.not_mem_nil, or_false] at he
                                  subst he
                                  exact ⟨_, _, rfl⟩
                              · intro s c hs hm hc
                                rcases List.mem_append.1 hm with hm | hm
                                · have := (mem_okSections _ _ _ hm).1
                                  simp only [Outcome.code.injEq] at this
                                  exact absurd this hc
                                · simp only [List.mem_singleton, Call.restore.injEq, Outcome.code.injEq] at hm
                                  obtain ⟨rfl, rfl⟩ := hm
                                  simp [Section.rank] at hs
                              · intro hm
                                rcases List.mem_append.1 hm with hm | hm
                                · have := (mem_okSections _ _ _ hm).1
                                  simp at this
                                · simp at hm
                            · rename_i hr6
                              simp only [ne_eq, not_not] at hr6
                              subst hr6
                              split at h
                              · simp at h
                              · rename_i b7 f7 e7 h7
                                clear h7
                                try dsimp only at h
                                split at h
                                · rename_i hb7
                                  simp only [Except.ok.injEq, Prod.mk.injEq] at h
                                  obtain ⟨rfl, rfl, rfl⟩ := h
                                  refine ⟨okSections 7 ++
                                      [Call.restore .osiris (.flag b7)],
                                    by simp [okSections, Section.rank], ?_, ?_, ?_, rfl⟩
                                  · intro e he
                                    rcases List.mem_append.1 he with he | he
                                    · simp only [okSections, List.mem_map] at he
                                      obtain ⟨s, _, rfl⟩ := he
                                      exact ⟨_, _, rfl⟩
                                    · simp only [List.mem_cons, List.mem_singleton, List.not_mem_nil, or_false] at he
                                      subst he
                                      exact ⟨_, _, rfl⟩
                                  · intro s c hs hm hc
                                    rcases List.mem_append.1 hm with hm | hm
                                    · have := (mem_okSections _ _ _ hm).1
                                      simp only [Outcome.code.injEq] at this
                                      exact absurd this hc
                                    · simp at hm
                                  · intro hm
                                    rfl
                                · rename_i hb7
                                  split at h
                                  · simp at h
                                  · rename_i f8 e8 h8
                                    clear h8
                                    split at h
                                    · simp at h
                                    · rename_i f9 e9 h9
                                      clear h9
                                      split at h
                                      · simp at h
                                      · rename_i b10 f10 e10 h10
                                        clear h10
                                        try dsimp only at h
                                        split at h
                                        · rename_i hb10
                                          simp only [Except.ok.injEq, Prod.mk.injEq] at h
                                          obtain ⟨rfl, rfl, rfl⟩ := h
                                          refine ⟨okSections 7 ++
                                              [Call.restore .osiris (.flag b7), Call.restore .levelgoals .void,
                                                Call.restore .gamemessages .void, Call.restore .hud (.flag b10)],
                                            by simp [okSections, Section.rank], ?_, ?_, ?_, rfl⟩
                                          · intro e he
                                            rcases List.mem_append.1 he with he | he
                                            · simp only [okSections, List.mem_map] at he
                                              obtain ⟨s, _, rfl⟩ := he
                                              exact ⟨_, _, rfl⟩
                                            · simp only [List.mem_cons, List.mem_singleton, List.not_mem_nil, or_false] at he
                                              rcases he with rfl | rfl | rfl | rfl <;> exact ⟨_, _, rfl⟩
                                          · intro s c hs hm hc
                                            rcases List.mem_append.1 hm with hm | hm
                                            · have := (mem_okSections _ _ _ hm).1
                                              simp only [Outcome.code.injEq] at this
                                              exact absurd this hc
                                            · simp at hm
                                          · intro hm
                                            rcases List.mem_append.1 hm with hm | hm
                                            · have := (mem_okSections _ _ _ hm).1
                                              simp at this
                                            · simp at hm
                                              simp [hm] at hb7
                                        · rename_i hb10
                                          simp only [Except.ok.injEq, Prod.mk.injEq] at h
                                          obtain ⟨rfl, rfl, rfl⟩ := h
                                          refine ⟨okSections 7 ++
                                              [Call.restore .osiris (.flag b7), Call.restore .levelgoals .void,
                                                Call.restore .gamemessages .void, Call.restore .hud (.flag b10)],
                                            by simp [okSections, Section.rank], ?_, ?_, ?_, rfl⟩
                                          · intro e he
                                            rcases List.mem_append.1 he with he | he
                                            · simp only [okSections, List.mem_map] at he
                                              obtain ⟨s, _, rfl⟩ := he
                                              exact ⟨_, _, rfl⟩
                                            · simp only [List.mem_cons, List.mem_singleton, List.not_mem_nil, or_false] at he
                                              rcases he with rfl | rfl | rfl | rfl <;> exact ⟨_, _, rfl⟩
                                          · intro s c hs hm hc
                                            rcases List.mem_append.1 hm with hm | hm
                                            · have := (mem_okSections _ _ _ hm).1
                                              simp only [Outcome.code.injEq] at this
                                              exact absurd this hc
                                            · simp at hm
                                          · intro hm
                                            rcases List.mem_append.1 hm with hm | hm
                                            · have := (mem_okSections _ _ _ hm).1
                                              simp at this
                                            · simp at hm
                                              simp [hm] at hb7

theorem restore_not_mission (msnname : Name) (level : Int) (loaded started : Bool)
    (s : Section) (o : Outcome) :
    Call.restore s o ∉ LGSMission_calls msnname level loaded started := by
  cases loaded <;> simp [LGSMission_calls]

theorem newCalls_ok {σ : Type} (w w1 : World σ) (ret : LGS) (fpo : Option CFILE)
    (tr : List Call) (h : w1.log = w.log ++ tr) :
    newCalls w (.ok (ret, fpo, w1)) = tr := by
  simp [newCalls, h]

/-- What a run of `LoadGameState` that opened its file and returned has done: the tables
are freed, the cursor is closed, and the calls it made are those of the header stage
(`hdr`), of the level stage (`lvl`), of the section stage (`sec`), then `PageInAllData`
and `IncrementPilotRestoredGamesForMission`. -/
theorem LoadGameState_opened {σ : Type} (env : Env σ) (pathname : Name) (w w1 : World σ)
    (fp0 : CFILE) (ret : LGS) (fpo : Option CFILE)
    (hopen : env.cfopen pathname = some fp0)
    (hrun : LoadGameState env pathname w = .ok (ret, fpo, w1)) :
    w1.g.gs_Xlates = none ∧ (∃ f, fpo = some f ∧ f.closed = true) ∧
    ∃ hdr lvl sec,
      w1.log = w.log ++ (hdr ++ lvl ++ sec
        ++ [Call.PageInAllData, Call.IncrementPilotRestoredGamesForMission]) ∧
      (∀ e ∈ hdr, ∃ handle, e = Call.bm_FreeBitmap handle) ∧
      (∀ e ∈ sec, ∃ s o, e = Call.restore s o) ∧
      (∀ s c, s.rank ≤ 3 → Call.restore s (.code c) ∈ sec → c ≠ LGS.OK →
        ret = c ∧ ∀ s2 o, Call.restore s2 o ∈ sec → s2.rank ≤ s.rank) ∧
      (Call.restore .osiris (.flag false) ∈ sec → ret = LGS.OK) ∧
      ((lvl = [] ∧ sec = [] ∧ selectorCursor env pathname w = none) ∨
       (∃ fpS n16 p fp1 fp2 loaded started music,
          selectorCursor env pathname w = some fpS ∧
          cf_ReadShort fpS = .ok (n16, fp1) ∧
          cf_ReadString env.rd env.PSPATHNAME_LEN fp1 = .ok (p, fp2) ∧
          lvl = LGSMission_calls (missionPath (toUShort n16) p) (toUShort n16) loaded started
            ++ music ∧
          (∀ e ∈ music, ∃ region, e = Call.D3MusicSetRegion region))) := by
  unfold LoadGameState at hrun
  simp only [hopen] at hrun
  unfold LoadGameState_body at hrun
  cases hh : LoadGameState_header env fp0 { w with g.IsRestoredGame := true } with
  | error e => simp [hh] at hrun
  | ok flow =>
    obtain ⟨hdr, hlog, hhdr⟩ := header_log env fp0 _ flow hh
    simp only at hlog
    cases flow with
    | exit r1 f1 wA =>
      simp only [hh, loadsg_error, Except.ok.injEq, Prod.mk.injEq] at hrun
      obtain ⟨rfl, rfl, rfl⟩ := hrun
      simp only [Flow.world] at hlog
      refine ⟨rfl, ⟨_, rfl, rfl⟩, hdr, [], [], by simp [hlog], hhdr, by simp, by simp,
        by simp, Or.inl ⟨rfl, rfl, by simp [selectorCursor, hopen, hh]⟩⟩
    | next locals f1 wA =>
      obtain ⟨version, gs⟩ := locals
      simp only [Flow.world] at hlog
      simp only [hh] at hrun
      cases hl : LoadGameState_level env pathname f1 wA with
      | error e => simp [hl] at hrun
      | ok flow2 =>
        obtain ⟨n16, p, fpa, fpb, loaded, started, music, hr1, hr2, hlog2, hmusic⟩ :=
          level_log env pathname f1 wA flow2 hl
        have hsel : selectorCursor env pathname w = some f1 := by
          simp [selectorCursor, hopen, hh]
        cases flow2 with
        | exit r2 f2 wB =>
          simp only [hl, loadsg_error, Except.ok.injEq, Prod.mk.injEq] at hrun
          obtain ⟨rfl, rfl, rfl⟩ := hrun
          simp only [Flow.world] at hlog2
          refine ⟨rfl, ⟨_, rfl, rfl⟩, hdr, _, [], by simp [hlog, hlog2], hhdr, by simp,
            by simp, by simp, Or.inr ⟨f1, n16, p, fpa, fpb, loaded, started, music, hsel, hr1, hr2,
              rfl, hmusic⟩⟩
        | next u f2 wB =>
          simp only [Flow.world] at hlog2
          simp only [hl] at hrun
          cases hs : LoadGameState_sections env version gs f2 wB with
          | error e => simp [hs] at hrun
          | ok res =>
            obtain ⟨r3, f3, wC⟩ := res
            obtain ⟨sec, hlog3, hsec, hstop, hosi, _⟩ :=
              sections_log env version gs f2 f3 wB wC r3 hs
            simp only [hs, loadsg_error, Except.ok.injEq, Prod.mk.injEq] at hrun
            obtain ⟨rfl, rfl, rfl⟩ := hrun
            refine ⟨rfl, ⟨_, rfl, rfl⟩, hdr, _, sec, by simp [hlog, hlog2, hlog3], hhdr,
              hsec, hstop, hosi, Or.inr ⟨f1, n16, p, fpa, fpb, loaded, started, music, hsel, hr1,
                hr2, rfl, hmusic⟩⟩

theorem LoadGameState_notfound {σ : Type} (env : Env σ) (pathname : Name) (w : World σ)
    (hopen : env.cfopen pathname = none) :
    LoadGameState env pathname w
      = .ok (LGS.FILENOTFOUND, none, { w with g.IsRestoredGame := true }) := by
  unfold LoadGameState
  simp [hopen]

theorem strcmpi_eq_zero : ∀ (a b : Name), strcmpi a b = 0 ↔ a.map tolower = b.map tolower := by
  intro a
  induction a with
  | nil =>
    intro b
    cases b <;> simp [strcmpi]
  | cons x xs ih =>
    intro b
    cases b with
    | nil => simp [strcmpi]
    | cons y ys =>
      simp only [strcmpi, List.map_cons, List.cons.injEq]
      by_cases hxy : tolower x = tolower y
      · simp [hxy, ih ys]
      · simp only [hxy, if_false, false_and, iff_false]
        intro h
        apply hxy
        have : (Int.ofNat (tolower x)) = Int.ofNat (tolower y) := by omega
        exact Int.ofNat.inj this

theorem missionPath_eq (n : Int) (p : Name) :
    missionPath n p = if n > 4 ∧ p.map tolower = d3_mn3 then d3_2_mn3 else p := by
  unfold missionPath
  have : d3_mn3.map tolower = d3_mn3 := by decide
  simp only [strcmpi_eq_zero, this]

/-- The calls of a returned run that are section restores are those of the section
stage. -/
theorem restore_mem_newCalls {σ : Type} (env : Env σ) (pathname : Name) (w : World σ)
    (s : Section) (o : Outcome)
    (hm : Call.restore s o ∈ newCalls w (LoadGameState env pathname w)) :
    ∃ fp0 ret fpo w1 hdr lvl sec, env.cfopen pathname = some fp0 ∧
      LoadGameState env pathname w = .ok (ret, fpo, w1) ∧
      newCalls w (LoadGameState env pathname w) = hdr ++ lvl ++ sec
        ++ [Call.PageInAllData, Call.IncrementPilotRestoredGamesForMission] ∧
      Call.restore s o ∈ sec ∧
      (∀ s2 o2, Call.restore s2 o2 ∈ newCalls w (LoadGameState env pathname w) →
        Call.restore s2 o2 ∈ sec) ∧
      (∀ s1 c, s1.rank ≤ 3 → Call.restore s1 (.code c) ∈ sec → c ≠ LGS.OK →
        ret = c ∧ ∀ s2 o2, Call.restore s2 o2 ∈ sec → s2.rank ≤ s1.rank) ∧
      (Call.restore .osiris (.flag false) ∈ sec → ret = LGS.OK) := by
  cases hopen : env.cfopen pathname with
  | none =>
    rw [LoadGameState_notfound env pathname w hopen] at hm
    simp [newCalls] at hm
  | some fp0 =>
    cases hrun : LoadGameState env pathname w with
    | error e =>
      rw [hrun] at hm
      simp [newCalls] at hm
    | ok res =>
      obtain ⟨ret, fpo, w1⟩ := res
      obtain ⟨_, _, hdr, lvl, sec, hlog, hhdr, hsec, hstop, hosi, hlvl⟩ :=
        LoadGameState_opened env pathname w w1 fp0 ret fpo hopen hrun
      rw [hrun] at hm
      rw [newCalls_ok w w1 ret fpo _ hlog] at hm ⊢
      have hmem : ∀ s2 o2, Call.restore s2 o2 ∈ hdr ++ lvl ++ sec
          ++ [Call.PageInAllData, Call.IncrementPilotRestoredGamesForMission] →
          Call.restore s2 o2 ∈ sec := by
        intro s2 o2 hm2
        simp only [List.mem_append, List.mem_cons, List.mem_singleton, List.not_mem_nil,
          or_false, reduceCtorEq] at hm2
        rcases hm2 with (hm2 | hm2) | hm2
        · obtain ⟨handle, he⟩ := hhdr _ hm2
          simp at he
        · rcases hlvl with ⟨rfl, _, _⟩ |
            ⟨_, _, _, _, _, loaded, started, music, _, _, _, rfl, hmus⟩
          · simp at hm2
          · simp only [List.mem_append] at hm2
            rcases hm2 with hm2 | hm2
            · exact absurd hm2 (restore_not_mission _ _ _ _ _ _)
            · obtain ⟨region, he⟩ := hmus _ hm2
              simp at he
        · exact hm2
      exact ⟨fp0, ret, fpo, w1, hdr, lvl, sec, rfl, rfl, rfl, hmem s o hm, hmem, hstop, hosi⟩

/-- Whatever the environment: a run of `LoadGameState` in which the script host rejected
its blob returns `LGS_OK`. -/
theorem osiris_rejection_returns_ok {σ : Type} (env : Env σ) (pathname : Name) (w : World σ)
    (hm : Call.restore .osiris (.flag false) ∈ newCalls w (LoadGameState env pathname w)) :
    returned (LoadGameState env pathname w) = some LGS.OK := by
  obtain ⟨fp0, ret, fpo, w1, hdr, lvl, sec, _, hrun, _, hsec, _, _, hosi⟩ :=
    restore_mem_newCalls env pathname w _ _ hm
  rw [hrun]
  simp [returned, hosi hsec]

/-! ### `LoadGameState` as a whole -/

theorem loadMission_mem_calls (m m0 : Name) (l0 : Int) (b loaded started : Bool) :
    Call.LoadMission m b ∈ LGSMission_calls m0 l0 loaded started ↔ m = m0 ∧ b = loaded := by
  cases loaded <;> simp [LGSMission_calls]

theorem setCurrentLevel_mem_calls (l l0 : Int) (m0 : Name) (loaded started : Bool) :
    Call.SetCurrentLevel l ∈ LGSMission_calls m0 l0 loaded started ↔
      loaded = true ∧ l = l0 := by
  cases loaded <;> simp [LGSMission_calls]

/-- C1 (the code departs from the claim). A save that is valid through the spew table and
whose script-host blob `Osiris_RestoreSystemState` rejects: `LoadGameState` reaches
`loadsg_error` with `retval` still `LGS_OK` from `LGSSpew`, returns `LGS_OK`, and the
level goals, the game messages and the HUD have not been restored. -/
theorem osiris_failure_returns_ok :
    Call.restore .osiris (.flag false) ∈
      newCalls demoWorld (LoadGameState (demoEnvOsirisFails (demoSave 2 5 d3_mn3)) [] demoWorld) ∧
    returned (LoadGameState (demoEnvOsirisFails (demoSave 2 5 d3_mn3)) [] demoWorld)
      = some LGS.OK ∧
    (newCalls demoWorld
      (LoadGameState (demoEnvOsirisFails (demoSave 2 5 d3_mn3)) [] demoWorld)).filter
        (fun e => e = Call.restore .levelgoals .void ∨ e = Call.restore .gamemessages .void
          ∨ e = Call.restore .hud (.flag true) ∨ e = Call.restore .hud (.flag false)) = [] := by
  decide

/-- C2. When the room, trigger, object or player restorer returns a code `c` other than
`LGS_OK`, `LoadGameState` returns exactly `c`, and it has restored no section that
follows in the fixed order. -/
theorem first_failure_stops {σ : Type} (env : Env σ) (pathname : Name) (w : World σ)
    (s : Section) (c : LGS)
    (hs : s = .rooms ∨ s = .triggers ∨ s = .objects ∨ s = .players)
    (hc : c ≠ LGS.OK)
    (hfail : Call.restore s (.code c) ∈ newCalls w (LoadGameState env pathname w)) :
    returned (LoadGameState env pathname w) = some c ∧
    ∀ s2 o, Call.restore s2 o ∈ newCalls w (LoadGameState env pathname w) →
      s2.rank ≤ s.rank := by
  have hrank : s.rank ≤ 3 := by
    rcases hs with rfl | rfl | rfl | rfl <;> simp [Section.rank]
  obtain ⟨fp0, ret, fpo, w1, hdr, lvl, sec, _, hrun, _, hsec, hmem, hstop, _⟩ :=
    restore_mem_newCalls env pathname w _ _ hfail
  obtain ⟨hret, hle⟩ := hstop s c hrank hsec hc
  refine ⟨by rw [hrun]; simp [returned, hret], fun s2 o hm => hle s2 o (hmem s2 o hm)⟩

/-- Witness of C2: the object restorer reports `LGS_OBJECTSCORRUPT`; `LoadGameState`
returns it and restores nothing after the objects. -/
theorem first_failure_stops_witness :
    returned (LoadGameState (demoEnvObjectsFail (demoSave 2 5 d3_mn3)) [] demoWorld)
      = some LGS.OBJECTSCORRUPT ∧
    ∀ s2 o, Call.restore s2 o ∈ newCalls demoWorld
        (LoadGameState (demoEnvObjectsFail (demoSave 2 5 d3_mn3)) [] demoWorld) →
      s2.rank ≤ Section.objects.rank :=
  first_failure_stops (demoEnvObjectsFail (demoSave 2 5 d3_mn3)) [] demoWorld .objects
    LGS.OBJECTSCORRUPT (by decide) (by decide) (by decide)

/-- C3. A snapshot whose version field is below `GAMESAVE_OLDVER`: `LoadGameState`
returns `LGS_OUTDATEDVER`; the cursor it closes stands right after the version field,
and nothing of the snapshot has been applied: the world on return is the world at entry
but for `IsRestoredGame`, the freed tables and the two calls of the teardown. -/
theorem outdated_version_rejected {σ : Type} (env : Env σ) (pathname : Name) (w : World σ)
    (fp0 fp1 fp2 : CFILE) (desc : List Nat) (v : Int)
    (hopen : env.cfopen pathname = some fp0)
    (hdesc : cf_ReadBytes (env.GAMESAVE_DESCLEN + 1) fp0 = .ok (desc, fp1))
    (hver : cf_ReadShort fp1 = .ok (v, fp2))
    (hold : toUShort v < env.GAMESAVE_OLDVER) :
    LoadGameState env pathname w =
      .ok (LGS.OUTDATEDVER, some (cfclose fp2),
        { g := { w.g with IsRestoredGame := true, gs_Xlates := none }
          log := w.log ++ [Call.PageInAllData, Call.IncrementPilotRestoredGamesForMission]
          ext := env.effect .IncrementPilotRestoredGamesForMission
            (env.effect .PageInAllData w.ext) }) ∧
    fp2.pos = fp0.pos + (env.GAMESAVE_DESCLEN + 1) + 2 := by
  constructor
  · simp [LoadGameState, LoadGameState_body, LoadGameState_header, hopen, hdesc, hver, hold,
      loadsg_error, call]
  · have h1 : fp1.pos = fp0.pos + (env.GAMESAVE_DESCLEN + 1) := by
      unfold cf_ReadBytes at hdesc
      split at hdesc
      · simp only [Except.ok.injEq, Prod.mk.injEq] at hdesc
        obtain ⟨_, rfl⟩ := hdesc
        rfl
      · simp at hdesc
    have h2 : fp2.pos = fp1.pos + 2 := by
      unfold cf_ReadShort at hver
      cases hb : cf_ReadBytes 2 fp1 with
      | error e => simp [hb] at hver
      | ok a =>
        obtain ⟨bs, fpa⟩ := a
        simp only [hb, Except.ok.injEq, Prod.mk.injEq] at hver
        obtain ⟨_, rfl⟩ := hver
        unfold cf_ReadBytes at hb
        split at hb
        · simp only [Except.ok.injEq, Prod.mk.injEq] at hb
          obtain ⟨_, rfl⟩ := hb
          rfl
        · simp at hb
    omega

/-- Witness of C3: a demo save of version 0 where `GAMESAVE_OLDVER` is 1. -/
theorem outdated_version_rejected_witness :
    returned (LoadGameState (demoEnvWith (demoSave 0 5 d3_mn3)) [] demoWorld)
      = some LGS.OUTDATEDVER ∧
    finalCursor (LoadGameState (demoEnvWith (demoSave 0 5 d3_mn3)) [] demoWorld)
      = some { data := (demoSave 0 5 d3_mn3).data.drop 6, pos := 6, closed := true } := by
  have h := (outdated_version_rejected (demoEnvWith (demoSave 0 5 d3_mn3)) [] demoWorld
    (demoSave 0 5 d3_mn3)
    { data := (demoSave 0 5 d3_mn3).data.drop 4, pos := 4, closed := false }
    { data := (demoSave 0 5 d3_mn3).data.drop 6, pos := 6, closed := false }
    [0, 0, 0, 0] 0 (by rfl) (by rfl) (by rfl) (by decide)).1
  rw [h]
  exact ⟨rfl, rfl⟩

/-- Counterexample to C10 as stated: the saved path "D3.MN3" is not the string "d3.mn3",
yet at level 5 `LoadGameState` loads "d3_2.mn3" and not the saved path. -/
theorem uppercase_path_is_rewritten :
    D3_MN3_upper ≠ d3_mn3 ∧
    Call.LoadMission d3_2_mn3 true ∈
      newCalls demoWorld (LoadGameState (demoEnvWith (demoSave 2 5 D3_MN3_upper)) [] demoWorld) ∧
    Call.LoadMission D3_MN3_upper true ∉
      newCalls demoWorld (LoadGameState (demoEnvWith (demoSave 2 5 D3_MN3_upper)) [] demoWorld) := by
  decide

/-- C10, as amended. Campaign continuity rewrite: with `n` the saved level number and `p`
the saved mission path, the mission `LoadGameState` loads is "d3_2.mn3" when `n > 4` and
`p` is "d3.mn3" up to ASCII letter case, and is `p` unchanged otherwise; the level it
sets is `n` in both cases. -/
theorem campaign_rewrite {σ : Type} (env : Env σ) (pathname : Name) (w : World σ)
    (fpS fp1 fp2 : CFILE) (n16 : Int) (p : Name)
    (hsel : selectorCursor env pathname w = some fpS)
    (hlevel : cf_ReadShort fpS = .ok (n16, fp1))
    (hpath : cf_ReadString env.rd env.PSPATHNAME_LEN fp1 = .ok (p, fp2)) :
    (∀ m b, Call.LoadMission m b ∈ newCalls w (LoadGameState env pathname w) →
      m = if toUShort n16 > 4 ∧ p.map tolower = d3_mn3 then d3_2_mn3 else p) ∧
    (∀ l, Call.SetCurrentLevel l ∈ newCalls w (LoadGameState env pathname w) →
      l = toUShort n16) ∧
    (∀ ret, returned (LoadGameState env pathname w) = some ret →
      ∃ b, Call.LoadMission (if toUShort n16 > 4 ∧ p.map tolower = d3_mn3 then d3_2_mn3 else p) b
          ∈ newCalls w (LoadGameState env pathname w) ∧
        (b = true → Call.SetCurrentLevel (toUShort n16)
          ∈ newCalls w (LoadGameState env pathname w))) := by
  cases hopen : env.cfopen pathname with
  | none => simp [selectorCursor, hopen] at hsel
  | some fp0 =>
    cases hrun : LoadGameState env pathname w with
    | error e => simp [newCalls, returned]
    | ok res =>
      obtain ⟨ret, fpo, w1⟩ := res
      obtain ⟨_, _, hdr, lvl, sec, hlog, hhdr, hsec, _, _, hlvl⟩ :=
        LoadGameState_opened env pathname w w1 fp0 ret fpo hopen hrun
      rw [newCalls_ok w w1 ret fpo _ hlog]
      rcases hlvl with ⟨_, _, hnone⟩ |
        ⟨fpS2, n2, p2, fpa, fpb, loaded, started, music, hsel2, hr1, hr2, rfl, hmus⟩
      · rw [hnone] at hsel
        simp at hsel
      · rw [hsel] at hsel2
        simp only [Option.some.injEq] at hsel2
        subst hsel2
        rw [hlevel] at hr1
        simp only [Except.ok.injEq, Prod.mk.injEq] at hr1
        obtain ⟨rfl, rfl⟩ := hr1
        rw [hpath] at hr2
        simp only [Except.ok.injEq, Prod.mk.injEq] at hr2
        obtain ⟨rfl, rfl⟩ := hr2
        rw [← missionPath_eq]
        have hmemL : ∀ e, (∀ handle, e ≠ Call.bm_FreeBitmap handle) →
            (∀ s o, e ≠ Call.restore s o) → (∀ region, e ≠ Call.D3MusicSetRegion region) →
            e ≠ Call.PageInAllData → e ≠ Call.IncrementPilotRestoredGamesForMission →
            (e ∈ hdr ++ (LGSMission_calls (missionPath (toUShort n16) p) (toUShort n16)
                loaded started ++ music) ++ sec
                ++ [Call.PageInAllData, Call.IncrementPilotRestoredGamesForMission] ↔
              e ∈ LGSMission_calls (missionPath (toUShort n16) p) (toUShort n16)
                loaded started) := by
          intro e h1 h2 h3 h4 h5
          constructor
          · intro hm
            simp only [List.mem_append, List.mem_cons, List.mem_singleton, List.not_mem_nil,
              or_false] at hm
            rcases hm with ((hm | hm | hm) | hm) | hm | hm
            · obtain ⟨handle, he⟩ := hhdr _ hm
              exact absurd he (h1 handle)
            · exact hm
            · obtain ⟨region, he⟩ := hmus _ hm
              exact absurd he (h3 region)
            · obtain ⟨s, o, he⟩ := hsec _ hm
              exact absurd he (h2 s o)
            · exact absurd hm h4
            · exact absurd hm h5
          · intro hm
            simp only [List.mem_append]
            exact Or.inl (Or.inl (Or.inr (Or.inl hm)))
        refine ⟨?_, ?_, ?_⟩
        · intro m b hm
          rw [hmemL _ (by simp) (by simp) (by simp) (by simp) (by simp)] at hm
          exact ((loadMission_mem_calls _ _ _ _ _ _).1 hm).1
        · intro l hm
          rw [hmemL _ (by simp) (by simp) (by simp) (by simp) (by simp)] at hm
          exact ((setCurrentLevel_mem_calls _ _ _ _ _).1 hm).2
        · intro _ _
          refine ⟨loaded, ?_, ?_⟩
          · rw [hmemL _ (by simp) (by simp) (by simp) (by simp) (by simp)]
            exact (loadMission_mem_calls _ _ _ _ _ _).2 ⟨rfl, rfl⟩
          · intro hb
            rw [hmemL _ (by simp) (by simp) (by simp) (by simp) (by simp)]
            exact (setCurrentLevel_mem_calls _ _ _ _ _).2 ⟨hb, rfl⟩

/-- Witness of the amended C10: level 5 with "d3.mn3" loads "d3_2.mn3" and sets level 5. -/
theorem campaign_rewrite_witness :
    ∃ b, Call.LoadMission d3_2_mn3 b
        ∈ newCalls demoWorld (LoadGameState (demoEnvWith (demoSave 2 5 d3_mn3)) [] demoWorld) ∧
      (b = true → Call.SetCurrentLevel 5
        ∈ newCalls demoWorld (LoadGameState (demoEnvWith (demoSave 2 5 d3_mn3)) [] demoWorld)) :=
  (campaign_rewrite (demoEnvWith (demoSave 2 5 d3_mn3)) [] demoWorld
    { data := [5, 0, 6] ++ d3_mn3 ++ demoRest, pos := 34, closed := false }
    { data := [6] ++ d3_mn3 ++ demoRest, pos := 36, closed := false }
    { data := demoRest, pos := 43, closed := false }
    5 d3_mn3 (by rfl) (by rfl) (by rfl)).2.2 LGS.OK (by decide)

/-! ### Running statements -/

theorem run_bind {σ α β : Type} (m : Stmt σ α) (f : α → Stmt σ β) (fp : CFILE) (s : σ) :
    (m >>= f) fp s = match m fp s with
      | .error e => .error e
      | .ok (.exit l fp1 s1) => .ok (.exit l fp1 s1)
      | .ok (.next a fp1 s1) => f a fp1 s1 := rfl

theorem run_pure {σ α : Type} (a : α) (fp : CFILE) (s : σ) :
    (pure a : Stmt σ α) fp s = .ok (.next a fp s) := rfl

theorem run_exit {σ α : Type} (l : Label) (fp : CFILE) (s : σ) :
    (Stmt.exit l : Stmt σ α) fp s = .ok (.exit l fp s) := rfl

theorem run_fault {σ α : Type} (e : Fault) (fp : CFILE) (s : σ) :
    (Stmt.fault e : Stmt σ α) fp s = .error e := rfl

theorem run_get {σ : Type} (fp : CFILE) (s : σ) :
    (Stmt.get : Stmt σ σ) fp s = .ok (.next s fp s) := rfl

theorem run_modify {σ : Type} (f : σ → σ) (fp : CFILE) (s : σ) :
    Stmt.modify f fp s = .ok (.next () fp (f s)) := rfl

theorem run_read {σ α : Type} (r : CFILE → Except Fault (α × CFILE)) (fp : CFILE) (s : σ) :
    (Stmt.read r : Stmt σ α) fp s = match r fp with
      | .error e => .error e
      | .ok (v, fp1) => .ok (.next v fp1 s) := rfl

theorem run_lift {σ α : Type} (r : Except Fault α) (fp : CFILE) (s : σ) :
    (Stmt.lift r : Stmt σ α) fp s = match r with
      | .error e => .error e
      | .ok v => .ok (.next v fp s) := rfl

theorem run_ite {σ α : Type} (c : Prop) [Decidable c] (a b : Stmt σ α) (fp : CFILE) (s : σ) :
    (if c then a else b) fp s = if c then a fp s else b fp s := by
  split <;> rfl

/-- A sequence falls through exactly when both parts do. -/
theorem bind_next_iff {σ α β : Type} (m : Stmt σ α) (f : α → Stmt σ β) (fp fp2 : CFILE)
    (s s2 : σ) (b : β) :
    (m >>= f) fp s = .ok (.next b fp2 s2) ↔
      ∃ a fp1 s1, m fp s = .ok (.next a fp1 s1) ∧ f a fp1 s1 = .ok (.next b fp2 s2) := by
  rw [run_bind]
  cases h : m fp s with
  | error e => simp
  | ok st =>
    cases st with
    | next a fp1 s1 =>
      simp only [Except.ok.injEq, Step.next.injEq]
      constructor
      · intro hf; exact ⟨a, fp1, s1, ⟨rfl, rfl, rfl⟩, hf⟩
      · rintro ⟨_, _, _, ⟨rfl, rfl, rfl⟩, hf⟩; exact hf
    | exit l fp1 s1 => simp

/-- A sequence leaves through a label exactly when its first part does, or its first
part falls through and the second leaves. -/
theorem bind_exit_iff {σ α β : Type} (m : Stmt σ α) (f : α → Stmt σ β) (fp fp2 : CFILE)
    (s s2 : σ) (l : Label) :
    (m >>= f) fp s = (.ok (.exit l fp2 s2) : Except Fault (Step σ β)) ↔
      m fp s = .ok (.exit l fp2 s2) ∨
      ∃ a fp1 s1, m fp s = .ok (.next a fp1 s1) ∧ f a fp1 s1 = .ok (.exit l fp2 s2) := by
  rw [run_bind]
  cases h : m fp s with
  | error e => simp
  | ok st =>
    cases st with
    | next a fp1 s1 =>
      simp only [Except.ok.injEq, Step.next.injEq, false_or, reduceCtorEq]
      constructor
      · intro hf; exact ⟨a, fp1, s1, ⟨rfl, rfl, rfl⟩, hf⟩
      · rintro ⟨_, _, _, ⟨rfl, rfl, rfl⟩, hf⟩; exact hf
    | exit l1 fp1 s1 => simp

theorem bind_of_next {σ α β : Type} (m : Stmt σ α) (f : α → Stmt σ β) (fp fp1 : CFILE)
    (s s1 : σ) (a : α) (h : m fp s = .ok (.next a fp1 s1)) :
    (m >>= f) fp s = f a fp1 s1 := by
  rw [run_bind, h]

theorem bind_of_exit {σ α β : Type} (m : Stmt σ α) (f : α → Stmt σ β) (fp fp1 : CFILE)
    (s s1 : σ) (l : Label) (h : m fp s = .ok (.exit l fp1 s1)) :
    (m >>= f) fp s = .ok (.exit l fp1 s1) := by
  rw [run_bind, h]

theorem bind_of_error {σ α β : Type} (m : Stmt σ α) (f : α → Stmt σ β) (fp : CFILE)
    (s : σ) (e : Fault) (h : m fp s = .error e) :
    (m >>= f) fp s = .error e := by
  rw [run_bind, h]

/-! ### Relations that every completed run of a statement respects -/

theorem Rel_pure {σ α : Type} {R : σ → σ → Prop} (hr : ∀ s, R s s) (a : α) :
    Stmt.Rel R (pure a : Stmt σ α) := by
  intro fp s out h
  rw [run_pure] at h
  cases h
  exact hr s

theorem Rel_exit {σ α : Type} {R : σ → σ → Prop} (hr : ∀ s, R s s) (l : Label) :
    Stmt.Rel R (Stmt.exit l : Stmt σ α) := by
  intro fp s out h
  rw [run_exit] at h
  cases h
  exact hr s

theorem Rel_fault {σ α : Type} {R : σ → σ → Prop} (e : Fault) :
    Stmt.Rel R (Stmt.fault e : Stmt σ α) := by
  intro fp s out h
  rw [run_fault] at h
  cases h

theorem Rel_get {σ : Type} {R : σ → σ → Prop} (hr : ∀ s, R s s) :
    Stmt.Rel R (Stmt.get : Stmt σ σ) := by
  intro fp s out h
  rw [run_get] at h
  cases h
  exact hr s

theorem Rel_modify {σ : Type} {R : σ → σ → Prop} (f : σ → σ) (h : ∀ s, R s (f s)) :
    Stmt.Rel R (Stmt.modify f) := by
  intro fp s out h1
  rw [run_modify] at h1
  cases h1
  exact h s

theorem Rel_read {σ α : Type} {R : σ → σ → Prop} (hr : ∀ s, R s s)
    (r : CFILE → Except Fault (α × CFILE)) : Stmt.Rel R (Stmt.read r : Stmt σ α) := by
  intro fp s out h
  rw [run_read] at h
  cases hr1 : r fp with
  | error e => rw [hr1] at h; cases h
  | ok p =>
    obtain ⟨v, fp1⟩ := p
    rw [hr1] at h
    cases h
    exact hr s

theorem Rel_lift {σ α : Type} {R : σ → σ → Prop} (hr : ∀ s, R s s)
    (r : Except Fault α) : Stmt.Rel R (Stmt.lift r : Stmt σ α) := by
  intro fp s out h
  rw [run_lift] at h
  cases r with
  | error e => cases h
  | ok v =>
    cases h
    exact hr s

theorem Rel_bind {σ α β : Type} {R : σ → σ → Prop}
    (ht : ∀ a b c, R a b → R b c → R a c) (m : Stmt σ α) (f : α → Stmt σ β)
    (hm : Stmt.Rel R m) (hf : ∀ a, Stmt.Rel R (f a)) : Stmt.Rel R (m >>= f) := by
  intro fp s out h
  rw [run_bind] at h
  cases h1 : m fp s with
  | error e => rw [h1] at h; cases h
  | ok st =>
    cases st with
    | next a fp1 s1 =>
      rw [h1] at h
      exact ht _ _ _ (hm fp s _ h1) (hf a fp1 s1 out h)
    | exit l fp1 s1 =>
      rw [h1] at h
      cases h
      exact hm fp s _ h1

theorem Rel_ite {σ α : Type} {R : σ → σ → Prop} (c : Prop) [Decidable c] (a b : Stmt σ α)
    (ha : Stmt.Rel R a) (hb : Stmt.Rel R b) : Stmt.Rel R (if c then a else b) := by
  split
  · exact ha
  · exact hb

/-! ### Statements that leave through a label only in a state of a given kind -/

theorem ExitPost_pure {σ α : Type} {E : σ → Prop} (a : α) :
    Stmt.ExitPost E (pure a : Stmt σ α) := by
  intro fp s l fp1 s1 h
  rw [run_pure] at h
  cases h

theorem ExitPost_fault {σ α : Type} {E : σ → Prop} (e : Fault) :
    Stmt.ExitPost E (Stmt.fault e : Stmt σ α) := by
  intro fp s l fp1 s1 h
  rw [run_fault] at h
  cases h

theorem ExitPost_get {σ : Type} {E : σ → Prop} : Stmt.ExitPost E (Stmt.get : Stmt σ σ) := by
  intro fp s l fp1 s1 h
  rw [run_get] at h
  cases h

theorem ExitPost_modify {σ : Type} {E : σ → Prop} (f : σ → σ) :
    Stmt.ExitPost E (Stmt.modify f) := by
  intro fp s l fp1 s1 h
  rw [run_modify] at h
  cases h

theorem ExitPost_read {σ α : Type} {E : σ → Prop} (r : CFILE → Except Fault (α × CFILE)) :
    Stmt.ExitPost E (Stmt.read r : Stmt σ α) := by
  intro fp s l fp1 s1 h
  rw [run_read] at h
  cases hr1 : r fp with
  | error e => rw [hr1] at h; cases h
  | ok p =>
    obtain ⟨v, fp2⟩ := p
    rw [hr1] at h
    cases h

theorem ExitPost_lift {σ α : Type} {E : σ → Prop} (r : Except Fault α) :
    Stmt.ExitPost E (Stmt.lift r : Stmt σ α) := by
  intro fp s l fp1 s1 h
  rw [run_lift] at h
  cases r with
  | error e => cases h
  | ok v => cases h

theorem ExitPost_bind {σ α β : Type} {E : σ → Prop} (m : Stmt σ α) (f : α → Stmt σ β)
    (hm : Stmt.ExitPost E m) (hf : ∀ a, Stmt.ExitPost E (f a)) :
    Stmt.ExitPost E (m >>= f) := by
  intro fp s l fp1 s1 h
  rcases (bind_exit_iff m f fp fp1 s s1 l).1 h with h1 | ⟨a, fp2, s2, _, h2⟩
  · exact hm _ _ _ _ _ h1
  · exact hf a _ _ _ _ _ h2

theorem ExitPost_ite {σ α : Type} {E : σ → Prop} (c : Prop) [Decidable c] (a b : Stmt σ α)
    (ha : Stmt.ExitPost E a) (hb : Stmt.ExitPost E b) :
    Stmt.ExitPost E (if c then a else b) := by
  split
  · exact ha
  · exact hb

/-! ### Cursor arithmetic -/

theorem advance_advance (fp : CFILE) (a b : Nat) :
    (fp.advance a).advance b = fp.advance (a + b) := by
  simp only [CFILE.advance, List.drop_drop, Nat.add_assoc]

theorem advance_zero (fp : CFILE) : fp.advance 0 = fp := by
  simp [CFILE.advance]

theorem advance_data (fp : CFILE) (a : Nat) : (fp.advance a).data = fp.data.drop a := rfl

theorem advance_pos (fp : CFILE) (a : Nat) : (fp.advance a).pos = fp.pos + a := rfl

theorem advance_length (fp : CFILE) (a : Nat) :
    (fp.advance a).data.length = fp.data.length - a := by
  simp [CFILE.advance]

theorem shortAt_drop (data : List Nat) (a k : Nat) :
    shortAt (data.drop a) k = shortAt data (a + k) := by
  simp [shortAt, List.drop_drop, Nat.add_comm]

theorem intAt_drop (data : List Nat) (a k : Nat) :
    intAt (data.drop a) k = intAt data (a + k) := by
  simp [intAt, List.drop_drop, Nat.add_comm]

theorem cf_ReadBytes_ok (n : Nat) (fp : CFILE) (h : n ≤ fp.data.length) :
    cf_ReadBytes n fp = .ok ((fp.data.take n).map (fun b => b % 256), fp.advance n) := by
  unfold cf_ReadBytes CFILE.advance
  simp [h]

theorem cf_ReadBytes_advance (n : Nat) (fp fp1 : CFILE) (bs : List Nat)
    (h : cf_ReadBytes n fp = .ok (bs, fp1)) : fp1 = fp.advance n ∧ n ≤ fp.data.length := by
  unfold cf_ReadBytes at h
  split at h
  · simp only [Except.ok.injEq, Prod.mk.injEq] at h
    exact ⟨h.2.symm, by assumption⟩
  · cases h

theorem cf_ReadShort_ok (fp : CFILE) (h : 2 ≤ fp.data.length) :
    cf_ReadShort fp = .ok (shortAt fp.data 0, fp.advance 2) := by
  unfold cf_ReadShort
  rw [cf_ReadBytes_ok 2 fp h]
  simp [shortAt]

theorem cf_ReadInt_ok (fp : CFILE) (h : 4 ≤ fp.data.length) :
    cf_ReadInt fp = .ok (intAt fp.data 0, fp.advance 4) := by
  unfold cf_ReadInt
  rw [cf_ReadBytes_ok 4 fp h]
  simp [intAt]

theorem cf_ReadFloat_ok (fp : CFILE) (h : 4 ≤ fp.data.length) :
    cf_ReadFloat fp = .ok (floatAt fp.data 0, fp.advance 4) := by
  unfold cf_ReadFloat
  rw [cf_ReadBytes_ok 4 fp h]
  simp [floatAt]

theorem cf_ReadByte_ok (fp : CFILE) (h : 1 ≤ fp.data.length) :
    ∃ v, cf_ReadByte fp = .ok (v, fp.advance 1) := by
  unfold cf_ReadByte
  rw [cf_ReadBytes_ok 1 fp h]
  exact ⟨_, rfl⟩

theorem cf_ReadShort_advance (fp fp1 : CFILE) (v : Int) (h : cf_ReadShort fp = .ok (v, fp1)) :
    fp1 = fp.advance 2 ∧ 2 ≤ fp.data.length := by
  unfold cf_ReadShort at h
  cases hb : cf_ReadBytes 2 fp with
  | error e => rw [hb] at h; cases h
  | ok p =>
    obtain ⟨bs, fp2⟩ := p
    rw [hb] at h
    simp only [Except.ok.injEq, Prod.mk.injEq] at h
    have := cf_ReadBytes_advance 2 fp fp2 bs hb
    exact ⟨h.2 ▸ this.1, this.2⟩

theorem cf_ReadInt_advance (fp fp1 : CFILE) (v : Int) (h : cf_ReadInt fp = .ok (v, fp1)) :
    fp1 = fp.advance 4 ∧ 4 ≤ fp.data.length := by
  unfold cf_ReadInt at h
  cases hb : cf_ReadBytes 4 fp with
  | error e => rw [hb] at h; cases h
  | ok p =>
    obtain ⟨bs, fp2⟩ := p
    rw [hb] at h
    simp only [Except.ok.injEq, Prod.mk.injEq] at h
    have := cf_ReadBytes_advance 4 fp fp2 bs hb
    exact ⟨h.2 ▸ this.1, this.2⟩

/-! ### Arrays -/

theorem arrayRead_ok {α : Type} (a : List α) (i : Nat) (v : α) (h : a[i]? = some v) :
    arrayRead a i = .ok v := by
  unfold arrayRead
  simp [h]

theorem arrayModify_ok {α : Type} (a : List α) (i : Nat) (v : α) (f : α → α)
    (h : a[i]? = some v) :
    arrayModify a i f = .ok (a.set i (f v)) := by
  unfold arrayModify
  simp [h]

theorem arrayModify_inv {α : Type} (a a1 : List α) (i : Nat) (f : α → α)
    (h : arrayModify a i f = .ok a1) :
    ∃ v, a[i]? = some v ∧ a1 = a.set i (f v) := by
  unfold arrayModify at h
  cases hv : a[i]? with
  | none => rw [hv] at h; cases h
  | some v =>
    rw [hv] at h
    simp only [Except.ok.injEq] at h
    exact ⟨v, rfl, h.symm⟩

/-! ### What the stages of a record keep -/

theorem Keep_refl {σ β : Type} (f : σ → β) : ∀ s, Keep f s s := fun _ => rfl

theorem Keep_trans {σ β : Type} (f : σ → β) :
    ∀ a b c, Keep f a b → Keep f b c → Keep f a c :=
  fun _ _ _ h1 h2 => h2.trans h1

theorem common_keeps_blocks (env : ObjEnv) (gs : gs_tables) (version : Int) (i type l_rend_type : Nat) :
    Stmt.Rel (Keep Slot.blocks) (LGSObjects_common env gs version i type l_rend_type) := by
  repeat' first
    | refine Rel_bind (Keep_trans _) _ _ ?_ ?_
    | exact Rel_read (Keep_refl _) _
    | exact Rel_pure (Keep_refl _) _
    | exact Rel_get (Keep_refl _)
    | exact Rel_lift (Keep_refl _) _
    | exact Rel_exit (Keep_refl _) _
    | exact Rel_fault _
    | refine Rel_ite _ _ _ ?_ ?_
    | (refine Rel_modify _ ?_; intro s; rfl)
    | (refine Rel_modify _ ?_; intro s; dsimp only; split <;> rfl)
    | intro _

theorem toControl_keeps_later (env : ObjEnv) (gs : gs_tables) (version : Int) (i type l_rend_type : Nat) :
    Stmt.Rel (Keep (fun s : Slot => (s.op.ctype, s.op.rtype))) (LGSObjects_toControl env gs version i type l_rend_type) := by
  repeat' first
    | refine Rel_bind (Keep_trans _) _ _ ?_ ?_
    | exact Rel_read (Keep_refl _) _
    | exact Rel_pure (Keep_refl _) _
    | exact Rel_get (Keep_refl _)
    | exact Rel_lift (Keep_refl _) _
    | exact Rel_exit (Keep_refl _) _
    | exact Rel_fault _
    | refine Rel_ite _ _ _ ?_ ?_
    | (refine Rel_modify _ ?_; intro s; rfl)
    | (refine Rel_modify _ ?_; intro s; dsimp only; split <;> rfl)
    | intro _

theorem toAI_keeps_rtype (env : ObjEnv) (gs : gs_tables) (version : Int) (i type l_rend_type : Nat) :
    Stmt.Rel (Keep (fun s : Slot => s.op.rtype)) (LGSObjects_toAI env gs version i type l_rend_type) := by
  repeat' first
    | refine Rel_bind (Keep_trans _) _ _ ?_ ?_
    | exact Rel_read (Keep_refl _) _
    | exact Rel_pure (Keep_refl _) _
    | exact Rel_get (Keep_refl _)
    | exact Rel_lift (Keep_refl _) _
    | exact Rel_exit (Keep_refl _) _
    | exact Rel_fault _
    | refine Rel_ite _ _ _ ?_ ?_
    | (refine Rel_modify _ ?_; intro s; rfl)
    | (refine Rel_modify _ ?_; intro s; dsimp only; split <;> rfl)
    | intro _

theorem toRender_keeps_rtype (env : ObjEnv) (gs : gs_tables) (version : Int) (i type l_rend_type : Nat) :
    Stmt.Rel (Keep (fun s : Slot => s.op.rtype)) (LGSObjects_toRender env gs version i type l_rend_type) := by
  repeat' first
    | refine Rel_bind (Keep_trans _) _ _ ?_ ?_
    | exact Rel_read (Keep_refl _) _
    | exact Rel_pure (Keep_refl _) _
    | exact Rel_get (Keep_refl _)
    | exact Rel_lift (Keep_refl _) _
    | exact Rel_exit (Keep_refl _) _
    | exact Rel_fault _
    | refine Rel_ite _ _ _ ?_ ?_
    | (refine Rel_modify _ ?_; intro s; rfl)
    | (refine Rel_modify _ ?_; intro s; dsimp only; split <;> rfl)
    | intro _

theorem id_keeps_placed (env : ObjEnv) (gs : gs_tables) (type : Nat) :
    Stmt.Rel (Keep (fun s : Slot => (s.core, s.op.roomnum))) (LGSObjects_id env gs type) := by
  repeat' first
    | refine Rel_bind (Keep_trans _) _ _ ?_ ?_
    | exact Rel_read (Keep_refl _) _
    | exact Rel_pure (Keep_refl _) _
    | exact Rel_get (Keep_refl _)
    | exact Rel_lift (Keep_refl _) _
    | exact Rel_exit (Keep_refl _) _
    | exact Rel_fault _
    | refine Rel_ite _ _ _ ?_ ?_
    | (refine Rel_modify _ ?_; intro s; rfl)
    | (refine Rel_modify _ ?_; intro s; dsimp only; split <;> rfl)
    | intro _

theorem scalars_keeps_restored (env : ObjEnv) :
    Stmt.Rel (Keep Slot.restored) (LGSObjects_scalars env) := by
  repeat' first
    | refine Rel_bind (Keep_trans _) _ _ ?_ ?_
    | exact Rel_read (Keep_refl _) _
    | exact Rel_pure (Keep_refl _) _
    | exact Rel_get (Keep_refl _)
    | exact Rel_lift (Keep_refl _) _
    | exact Rel_exit (Keep_refl _) _
    | exact Rel_fault _
    | refine Rel_ite _ _ _ ?_ ?_
    | (refine Rel_modify _ ?_; intro s; rfl)
    | (refine Rel_modify _ ?_; intro s; dsimp only; split <;> rfl)
    | intro _

theorem attach_keeps_restored (version : Int) :
    Stmt.Rel (Keep Slot.restored) (LGSObjects_attach version) := by
  repeat' first
    | refine Rel_bind (Keep_trans _) _ _ ?_ ?_
    | exact Rel_read (Keep_refl _) _
    | exact Rel_pure (Keep_refl _) _
    | exact Rel_get (Keep_refl _)
    | exact Rel_lift (Keep_refl _) _
    | exact Rel_exit (Keep_refl _) _
    | exact Rel_fault _
    | refine Rel_ite _ _ _ ?_ ?_
    | (refine Rel_modify _ ?_; intro s; rfl)
    | (refine Rel_modify _ ?_; intro s; dsimp only; split <;> rfl)
    | intro _

theorem extras_keeps_restored (env : ObjEnv) :
    Stmt.Rel (Keep Slot.restored) (LGSObjects_extras env) := by
  repeat' first
    | refine Rel_bind (Keep_trans _) _ _ ?_ ?_
    | exact Rel_read (Keep_refl _) _
    | exact Rel_pure (Keep_refl _) _
    | exact Rel_get (Keep_refl _)
    | exact Rel_lift (Keep_refl _) _
    | exact Rel_exit (Keep_refl _) _
    | exact Rel_fault _
    | refine Rel_ite _ _ _ ?_ ?_
    | (refine Rel_modify _ ?_; intro s; rfl)
    | (refine Rel_modify _ ?_; intro s; dsimp only; split <;> rfl)
    | intro _

theorem mtype_keeps_restored (env : ObjEnv) :
    Stmt.Rel (Keep Slot.restored) (LGSObjects_mtype env) := by
  repeat' first
    | refine Rel_bind (Keep_trans _) _ _ ?_ ?_
    | exact Rel_read (Keep_refl _) _
    | exact Rel_pure (Keep_refl _) _
    | exact Rel_get (Keep_refl _)
    | exact Rel_lift (Keep_refl _) _
    | exact Rel_exit (Keep_refl _) _
    | exact Rel_fault _
    | refine Rel_ite _ _ _ ?_ ?_
    | (refine Rel_modify _ ?_; intro s; rfl)
    | (refine Rel_modify _ ?_; intro s; dsimp only; split <;> rfl)
    | intro _

theorem ctype_keeps_restored (env : ObjEnv) (gs : gs_tables) (type : Nat) :
    Stmt.Rel (Keep Slot.restored) (LGSObjects_ctype env gs type) := by
  repeat' first
    | refine Rel_bind (Keep_trans _) _ _ ?_ ?_
    | exact Rel_read (Keep_refl _) _
    | exact Rel_pure (Keep_refl _) _
    | exact Rel_get (Keep_refl _)
    | exact Rel_lift (Keep_refl _) _
    | exact Rel_exit (Keep_refl _) _
    | exact Rel_fault _
    | refine Rel_ite _ _ _ ?_ ?_
    | (refine Rel_modify _ ?_; intro s; rfl)
    | (refine Rel_modify _ ?_; intro s; dsimp only; split <;> rfl)
    | intro _

theorem ai_keeps_restored (env : ObjEnv) :
    Stmt.Rel (Keep Slot.restored) (LGSObjects_ai env) := by
  repeat' first
    | refine Rel_bind (Keep_trans _) _ _ ?_ ?_
    | exact Rel_read (Keep_refl _) _
    | exact Rel_pure (Keep_refl _) _
    | exact Rel_get (Keep_refl _)
    | exact Rel_lift (Keep_refl _) _
    | exact Rel_exit (Keep_refl _) _
    | exact Rel_fault _
    | refine Rel_ite _ _ _ ?_ ?_
    | (refine Rel_modify _ ?_; intro s; rfl)
    | (refine Rel_modify _ ?_; intro s; dsimp only; split <;> rfl)
    | intro _

theorem rtype_keeps_restored (env : ObjEnv) :
    Stmt.Rel (Keep Slot.restored) (LGSObjects_rtype env) := by
  repeat' first
    | refine Rel_bind (Keep_trans _) _ _ ?_ ?_
    | exact Rel_read (Keep_refl _) _
    | exact Rel_pure (Keep_refl _) _
    | exact Rel_get (Keep_refl _)
    | exact Rel_lift (Keep_refl _) _
    | exact Rel_exit (Keep_refl _) _
    | exact Rel_fault _
    | refine Rel_ite _ _ _ ?_ ?_
    | (refine Rel_modify _ ?_; intro s; rfl)
    | (refine Rel_modify _ ?_; intro s; dsimp only; split <;> rfl)
    | intro _

theorem render_keeps_restored (env : ObjEnv) (gs : gs_tables) (i type : Nat) :
    Stmt.Rel (Keep Slot.restored) (LGSObjects_render env gs i type) := by
  repeat' first
    | refine Rel_bind (Keep_trans _) _ _ ?_ ?_
    | exact Rel_read (Keep_refl _) _
    | exact Rel_pure (Keep_refl _) _
    | exact Rel_get (Keep_refl _)
    | exact Rel_lift (Keep_refl _) _
    | exact Rel_exit (Keep_refl _) _
    | exact Rel_fault _
    | refine Rel_ite _ _ _ ?_ ?_
    | (refine Rel_modify _ ?_; intro s; rfl)
    | (refine Rel_modify _ ?_; intro s; dsimp only; split <;> rfl)
    | intro _

theorem wb_keeps_restored (env : ObjEnv) :
    Stmt.Rel (Keep Slot.restored) (LGSObjects_wb env) := by
  repeat' first
    | refine Rel_bind (Keep_trans _) _ _ ?_ ?_
    | exact Rel_read (Keep_refl _) _
    | exact Rel_pure (Keep_refl _) _
    | exact Rel_get (Keep_refl _)
    | exact Rel_lift (Keep_refl _) _
    | exact Rel_exit (Keep_refl _) _
    | exact Rel_fault _
    | refine Rel_ite _ _ _ ?_ ?_
    | (refine Rel_modify _ ?_; intro s; rfl)
    | (refine Rel_modify _ ?_; intro s; dsimp only; split <;> rfl)
    | intro _

theorem effects_keeps_restored (env : ObjEnv) :
    Stmt.Rel (Keep Slot.restored) (LGSObjects_effects env) := by
  repeat' first
    | refine Rel_bind (Keep_trans _) _ _ ?_ ?_
    | exact Rel_read (Keep_refl _) _
    | exact Rel_pure (Keep_refl _) _
    | exact Rel_get (Keep_refl _)
    | exact Rel_lift (Keep_refl _) _
    | exact Rel_exit (Keep_refl _) _
    | exact Rel_fault _
    | refine Rel_ite _ _ _ ?_ ?_
    | (refine Rel_modify _ ?_; intro s; rfl)
    | (refine Rel_modify _ ?_; intro s; dsimp only; split <;> rfl)
    | intro _

theorem finish_keeps_ident (env : ObjEnv) (i : Nat) (roomnum : Int) :
    Stmt.Rel (Keep (fun s : Slot => (s.core, s.op.id))) (LGSObjects_finish env i roomnum) := by
  repeat' first
    | refine Rel_bind (Keep_trans _) _ _ ?_ ?_
    | exact Rel_read (Keep_refl _) _
    | exact Rel_pure (Keep_refl _) _
    | exact Rel_get (Keep_refl _)
    | exact Rel_lift (Keep_refl _) _
    | exact Rel_exit (Keep_refl _) _
    | exact Rel_fault _
    | refine Rel_ite _ _ _ ?_ ?_
    | (refine Rel_modify _ ?_; intro s; rfl)
    | (refine Rel_modify _ ?_; intro s; dsimp only; split <;> rfl)
    | intro _

/-! ### The calls a record makes -/

theorem logged_refl (P : ObjCall → Prop) : ∀ s, Slot.logged P s s :=
  fun s => ⟨[], (List.append_nil _).symm, by simp⟩

theorem logged_trans (P : ObjCall → Prop) :
    ∀ a b c, Slot.logged P a b → Slot.logged P b c → Slot.logged P a c := by
  rintro a b c ⟨L1, h1, p1⟩ ⟨L2, h2, p2⟩
  refine ⟨L1 ++ L2, by rw [h2, h1, List.append_assoc], ?_⟩
  intro x hx
  rcases List.mem_append.1 hx with h | h
  · exact p1 x h
  · exact p2 x h

theorem Rel_slotCall (P : ObjCall → Prop) (c : ObjCall) (h : P c) :
    Stmt.Rel (Slot.logged P) (slotCall c) := by
  apply Rel_modify
  intro s
  exact ⟨[c], rfl, by simpa using h⟩

theorem record_logged (env : ObjEnv) (gs : gs_tables) (version : Int)
    (i type l_rend_type : Nat) :
    Stmt.Rel (Slot.logged fun c => c.quiet = true)
      (LGSObjects_record env gs version i type l_rend_type) := by
  repeat' first
    | refine Rel_bind (logged_trans _) _ _ ?_ ?_
    | exact Rel_read (logged_refl _) _
    | exact Rel_pure (logged_refl _) _
    | exact Rel_get (logged_refl _)
    | exact Rel_lift (logged_refl _) _
    | exact Rel_exit (logged_refl _) _
    | exact Rel_fault _
    | refine Rel_ite _ _ _ ?_ ?_
    | exact Rel_slotCall _ _ rfl
    | (refine Rel_modify _ ?_; intro s; exact ⟨[], (List.append_nil _).symm, by simp⟩)
    | intro _

theorem empty_logged (env : ObjEnv) (i : Nat) :
    Stmt.Rel (Slot.logged fun c => c.quiet = true) (LGSObjects_empty env i) := by
  repeat' first
    | refine Rel_bind (logged_trans _) _ _ ?_ ?_
    | exact Rel_read (logged_refl _) _
    | exact Rel_pure (logged_refl _) _
    | exact Rel_get (logged_refl _)
    | exact Rel_lift (logged_refl _) _
    | exact Rel_exit (logged_refl _) _
    | exact Rel_fault _
    | refine Rel_ite _ _ _ ?_ ?_
    | exact Rel_slotCall _ _ rfl
    | (refine Rel_modify _ ?_; intro s; exact ⟨[], (List.append_nil _).symm, by simp⟩)
    | intro _

/-! ### A record leaves `LGSObjects` only with a failure in `retval` -/

theorem ExitPost_leave {α : Type} (r : LGS) (l : Label) (h : r ≠ LGS.OK) :
    Stmt.ExitPost Slot.failed
      (setRetval r >>= fun _ => (Stmt.exit l : Stmt Slot α)) := by
  intro fp s l1 fp1 s1 hrun
  simp only [run_bind, setRetval, run_modify, run_exit, Except.ok.injEq, Step.exit.injEq] at hrun
  obtain ⟨_, _, rfl⟩ := hrun
  exact h

theorem ExitPost_check (r : LGS) (l : Label) (m : Stmt Slot Unit)
    (hm : Stmt.ExitPost Slot.failed m) :
    Stmt.ExitPost Slot.failed
      (setRetval r >>= fun _ => if r ≠ LGS.OK then Stmt.exit l else m) := by
  intro fp s l1 fp1 s1 hrun
  simp only [run_bind, setRetval, run_modify] at hrun
  by_cases h : r = LGS.OK
  · rw [if_neg (by simpa using h)] at hrun
    exact hm _ _ _ _ _ hrun
  · rw [if_pos h, run_exit] at hrun
    simp only [Except.ok.injEq, Step.exit.injEq] at hrun
    obtain ⟨_, _, rfl⟩ := hrun
    exact h

theorem place_no_exit {E : Slot → Prop} (env : ObjEnv) (i type : Nat) (handle : Int) :
    Stmt.ExitPost E (LGSObjects_place env i type handle) := by
  repeat' first
    | refine ExitPost_bind _ _ ?_ ?_
    | exact ExitPost_read _
    | exact ExitPost_pure _
    | exact ExitPost_get
    | exact ExitPost_lift _
    | exact ExitPost_modify _
    | exact ExitPost_fault _
    | refine ExitPost_ite _ _ _ ?_ ?_
    | intro _

theorem id_no_exit {E : Slot → Prop} (env : ObjEnv) (gs : gs_tables) (type : Nat) :
    Stmt.ExitPost E (LGSObjects_id env gs type) := by
  repeat' first
    | refine ExitPost_bind _ _ ?_ ?_
    | exact ExitPost_read _
    | exact ExitPost_pure _
    | exact ExitPost_get
    | exact ExitPost_lift _
    | exact ExitPost_modify _
    | exact ExitPost_fault _
    | refine ExitPost_ite _ _ _ ?_ ?_
    | intro _

theorem scalars_no_exit {E : Slot → Prop} (env : ObjEnv) :
    Stmt.ExitPost E (LGSObjects_scalars env) := by
  repeat' first
    | refine ExitPost_bind _ _ ?_ ?_
    | exact ExitPost_read _
    | exact ExitPost_pure _
    | exact ExitPost_get
    | exact ExitPost_lift _
    | exact ExitPost_modify _
    | exact ExitPost_fault _
    | refine ExitPost_ite _ _ _ ?_ ?_
    | intro _

theorem attach_no_exit {E : Slot → Prop} (version : Int) :
    Stmt.ExitPost E (LGSObjects_attach version) := by
  repeat' first
    | refine ExitPost_bind _ _ ?_ ?_
    | exact ExitPost_read _
    | exact ExitPost_pure _
    | exact ExitPost_get
    | exact ExitPost_lift _
    | exact ExitPost_modify _
    | exact ExitPost_fault _
    | refine ExitPost_ite _ _ _ ?_ ?_
    | intro _

theorem extras_no_exit {E : Slot → Prop} (env : ObjEnv) :
    Stmt.ExitPost E (LGSObjects_extras env) := by
  repeat' first
    | refine ExitPost_bind _ _ ?_ ?_
    | exact ExitPost_read _
    | exact ExitPost_pure _
    | exact ExitPost_get
    | exact ExitPost_lift _
    | exact ExitPost_modify _
    | exact ExitPost_fault _
    | refine ExitPost_ite _ _ _ ?_ ?_
    | intro _

theorem render_no_exit {E : Slot → Prop} (env : ObjEnv) (gs : gs_tables) (i type : Nat) :
    Stmt.ExitPost E (LGSObjects_render env gs i type) := by
  repeat' first
    | refine ExitPost_bind _ _ ?_ ?_
    | exact ExitPost_read _
    | exact ExitPost_pure _
    | exact ExitPost_get
    | exact ExitPost_lift _
    | exact ExitPost_modify _
    | exact ExitPost_fault _
    | refine ExitPost_ite _ _ _ ?_ ?_
    | intro _

theorem LGSObjAI_no_exit {E : Slot → Prop} (env : ObjEnv) :
    Stmt.ExitPost E (LGSObjAI env) := by
  repeat' first
    | refine ExitPost_bind _ _ ?_ ?_
    | exact ExitPost_read _
    | exact ExitPost_pure _
    | exact ExitPost_get
    | exact ExitPost_lift _
    | exact ExitPost_modify _
    | exact ExitPost_fault _
    | refine ExitPost_ite _ _ _ ?_ ?_
    | intro _

theorem LGSObjWB_no_exit {E : Slot → Prop} (env : ObjEnv) :
    Stmt.ExitPost E (LGSObjWB env) := by
  repeat' first
    | refine ExitPost_bind _ _ ?_ ?_
    | exact ExitPost_read _
    | exact ExitPost_pure _
    | exact ExitPost_get
    | exact ExitPost_lift _
    | exact ExitPost_modify _
    | exact ExitPost_fault _
    | refine ExitPost_ite _ _ _ ?_ ?_
    | intro _

theorem LGSObjEffects_no_exit {E : Slot → Prop} (env : ObjEnv) :
    Stmt.ExitPost E (LGSObjEffects env) := by
  repeat' first
    | refine ExitPost_bind _ _ ?_ ?_
    | exact ExitPost_read _
    | exact ExitPost_pure _
    | exact ExitPost_get
    | exact ExitPost_lift _
    | exact ExitPost_modify _
    | exact ExitPost_fault _
    | refine ExitPost_ite _ _ _ ?_ ?_
    | intro _

theorem empty_no_exit {E : Slot → Prop} (env : ObjEnv) (i : Nat) :
    Stmt.ExitPost E (LGSObjects_empty env i) := by
  repeat' first
    | refine ExitPost_bind _ _ ?_ ?_
    | exact ExitPost_read _
    | exact ExitPost_pure _
    | exact ExitPost_get
    | exact ExitPost_lift _
    | exact ExitPost_modify _
    | exact ExitPost_fault _
    | refine ExitPost_ite _ _ _ ?_ ?_
    | intro _

theorem head_exit_failed (env : ObjEnv) (i l_rend_type : Nat) :
    Stmt.ExitPost Slot.failed (LGSObjects_head env i l_rend_type) := by
  unfold LGSObjects_head
  refine ExitPost_bind _ _ ExitPost_get ?_
  intro s
  refine ExitPost_bind _ _ ?_ ?_
  · repeat' first
      | refine ExitPost_bind _ _ ?_ ?_
      | exact ExitPost_modify _
      | exact ExitPost_pure _
      | refine ExitPost_ite _ _ _ ?_ ?_
      | intro _
  intro _
  refine ExitPost_bind _ _ (ExitPost_modify _) ?_
  intro _
  refine ExitPost_bind _ _ (ExitPost_read _) ?_
  intro _
  refine ExitPost_bind _ _ ?_ ?_
  · repeat' first
      | refine ExitPost_bind _ _ ?_ ?_
      | exact ExitPost_modify _
      | exact ExitPost_read _
      | exact ExitPost_pure _
      | refine ExitPost_ite _ _ _ ?_ ?_
      | intro _
  intro _
  refine ExitPost_bind _ _ (ExitPost_read _) ?_
  intro handle
  refine ExitPost_ite _ _ _ ?_ ?_
  · refine ExitPost_leave _ _ ?_
    decide
  · exact ExitPost_pure _

theorem mtype_exit_failed (env : ObjEnv) :
    Stmt.ExitPost Slot.failed (LGSObjects_mtype env) := by
  unfold LGSObjects_mtype
  refine ExitPost_bind _ _ (ExitPost_read _) ?_
  intro size
  refine ExitPost_ite _ _ _ ?_ ?_
  · refine ExitPost_leave _ _ ?_
    decide
  · exact ExitPost_bind _ _ (ExitPost_read _) fun _ => ExitPost_modify _

theorem ctype_exit_failed (env : ObjEnv) (gs : gs_tables) (type : Nat) :
    Stmt.ExitPost Slot.failed (LGSObjects_ctype env gs type) := by
  unfold LGSObjects_ctype
  refine ExitPost_bind _ _ (ExitPost_read _) ?_
  intro size
  refine ExitPost_ite _ _ _ ?_ ?_
  · refine ExitPost_leave _ _ ?_
    decide
  · repeat' first
      | refine ExitPost_bind _ _ ?_ ?_
      | exact ExitPost_modify _
      | exact ExitPost_read _
      | exact ExitPost_get
      | exact ExitPost_lift _
      | exact ExitPost_pure _
      | refine ExitPost_ite _ _ _ ?_ ?_
      | intro _

theorem rtype_exit_failed (env : ObjEnv) :
    Stmt.ExitPost Slot.failed (LGSObjects_rtype env) := by
  unfold LGSObjects_rtype
  refine ExitPost_bind _ _ (ExitPost_read _) ?_
  intro size
  refine ExitPost_ite _ _ _ ?_ ?_
  · refine ExitPost_leave _ _ ?_
    decide
  · repeat' first
      | refine ExitPost_bind _ _ ?_ ?_
      | exact ExitPost_modify _
      | exact ExitPost_read _
      | exact ExitPost_pure _
      | intro _

theorem ai_exit_failed (env : ObjEnv) : Stmt.ExitPost Slot.failed (LGSObjects_ai env) := by
  unfold LGSObjects_ai
  refine ExitPost_bind _ _ (LGSObjAI_no_exit env) ?_
  intro r
  exact ExitPost_check r _ _ (ExitPost_pure _)

theorem wb_exit_failed (env : ObjEnv) : Stmt.ExitPost Slot.failed (LGSObjects_wb env) := by
  unfold LGSObjects_wb
  refine ExitPost_bind _ _ (LGSObjWB_no_exit env) ?_
  intro r
  exact ExitPost_check r _ _ (ExitPost_pure _)

theorem effects_exit_failed (env : ObjEnv) :
    Stmt.ExitPost Slot.failed (LGSObjects_effects env) := by
  unfold LGSObjects_effects
  refine ExitPost_bind _ _ (LGSObjEffects_no_exit env) ?_
  intro r
  exact ExitPost_check r _ _ (ExitPost_pure _)

theorem finish_exit_failed (env : ObjEnv) (i : Nat) (roomnum : Int) :
    Stmt.ExitPost Slot.failed (LGSObjects_finish env i roomnum) := by
  unfold LGSObjects_finish
  refine ExitPost_bind _ _ ExitPost_get ?_
  intro s
  refine ExitPost_bind _ _ ?_ ?_
  · exact ExitPost_ite _ _ _ (ExitPost_modify _) (ExitPost_pure _)
  intro _
  refine ExitPost_bind _ _ ?_ ?_
  · exact ExitPost_pure _
  intro r
  refine ExitPost_check _ _ _ ?_
  exact ExitPost_bind _ _ (ExitPost_modify _) fun _ => ExitPost_modify _

theorem record_exit_failed (env : ObjEnv) (gs : gs_tables) (version : Int)
    (i type l_rend_type : Nat) :
    Stmt.ExitPost Slot.failed (LGSObjects_record env gs version i type l_rend_type) := by
  unfold LGSObjects_record LGSObjects_toEffects LGSObjects_toRender LGSObjects_toAI
    LGSObjects_toControl LGSObjects_common
  repeat' first
    | exact head_exit_failed _ _ _
    | exact place_no_exit _ _ _ _
    | exact id_no_exit _ _ _
    | exact scalars_no_exit _
    | exact attach_no_exit _
    | exact extras_no_exit _
    | exact mtype_exit_failed _
    | exact ctype_exit_failed _ _ _
    | exact ai_exit_failed _
    | exact rtype_exit_failed _
    | exact render_no_exit _ _ _ _
    | exact wb_exit_failed _
    | exact effects_exit_failed _
    | exact finish_exit_failed _ _ _
    | exact ExitPost_pure _
    | refine ExitPost_bind _ _ ?_ ?_
    | intro _

/-! ### Statements that only work on the state -/

theorem Total_pure {σ α : Type} (a : α) : Stmt.Total (pure a : Stmt σ α) :=
  fun _ s => ⟨a, s, rfl⟩

theorem Total_get {σ : Type} : Stmt.Total (Stmt.get : Stmt σ σ) :=
  fun _ s => ⟨s, s, rfl⟩

theorem Total_modify {σ : Type} (f : σ → σ) : Stmt.Total (Stmt.modify f) :=
  fun _ s => ⟨(), f s, rfl⟩

theorem Total_bind {σ α β : Type} (m : Stmt σ α) (f : α → Stmt σ β)
    (hm : Stmt.Total m) (hf : ∀ a, Stmt.Total (f a)) : Stmt.Total (m >>= f) := by
  intro fp s
  obtain ⟨a, s1, h1⟩ := hm fp s
  obtain ⟨b, s2, h2⟩ := hf a fp s1
  exact ⟨b, s2, by rw [run_bind, h1]; exact h2⟩

theorem Total_ite {σ α : Type} (c : Prop) [Decidable c] (a b : Stmt σ α)
    (ha : Stmt.Total a) (hb : Stmt.Total b) : Stmt.Total (if c then a else b) := by
  split
  · exact ha
  · exact hb

theorem pure_next_iff {σ α : Type} (a b : α) (fp fp1 : CFILE) (s s1 : σ) :
    (pure a : Stmt σ α) fp s = .ok (.next b fp1 s1) ↔ a = b ∧ fp = fp1 ∧ s = s1 := by
  rw [run_pure]
  simp

theorem get_next_iff {σ : Type} (a : σ) (fp fp1 : CFILE) (s s1 : σ) :
    (Stmt.get : Stmt σ σ) fp s = .ok (.next a fp1 s1) ↔ s = a ∧ fp = fp1 ∧ s = s1 := by
  rw [run_get]
  simp

theorem modify_next_iff {σ : Type} (f : σ → σ) (fp fp1 : CFILE) (s s1 : σ) (u : Unit) :
    Stmt.modify f fp s = .ok (.next u fp1 s1) ↔ fp = fp1 ∧ f s = s1 := by
  rw [run_modify]
  simp

theorem read_next_iff {σ α : Type} (r : CFILE → Except Fault (α × CFILE)) (a : α)
    (fp fp1 : CFILE) (s s1 : σ) :
    (Stmt.read r : Stmt σ α) fp s = .ok (.next a fp1 s1) ↔ r fp = .ok (a, fp1) ∧ s = s1 := by
  rw [run_read]
  cases h : r fp with
  | error e => simp
  | ok p =>
    obtain ⟨v, fp2⟩ := p
    simp only [Except.ok.injEq, Step.next.injEq, Prod.mk.injEq]
    constructor
    · rintro ⟨rfl, rfl, rfl⟩; exact ⟨⟨rfl, rfl⟩, rfl⟩
    · rintro ⟨⟨rfl, rfl⟩, rfl⟩; exact ⟨rfl, rfl, rfl⟩

theorem lift_next_iff {σ α : Type} (r : Except Fault α) (a : α)
    (fp fp1 : CFILE) (s s1 : σ) :
    (Stmt.lift r : Stmt σ α) fp s = .ok (.next a fp1 s1) ↔ r = .ok a ∧ fp = fp1 ∧ s = s1 := by
  rw [run_lift]
  cases r with
  | error e => simp
  | ok v => simp

/-! ### The head of a record: the handle and its validation -/

theorem head_lightmap_total (env : ObjEnv) (i l_rend_type : Nat) (s : Slot) :
    Stmt.Total (if s.op.type ≠ env.OBJ_NONE ∧ s.op.lighting_render_type = env.LRT_LIGHTMAPS
        ∧ l_rend_type ≠ env.LRT_LIGHTMAPS then do
      slotCall (.Osiris_DisableEvents env.OEM_mask)
      ObjDelete env i
      slotCall (.Osiris_EnableEvents env.OEM_mask)
    else pure ()) := by
  repeat' first
    | refine Total_bind _ _ ?_ ?_
    | exact Total_modify _
    | exact Total_pure _
    | refine Total_ite _ _ _ ?_ ?_
    | intro _

theorem head_lightinfo_run (env : ObjEnv) (has_lightinfo : Nat) (fp fp1 : CFILE) (s s1 : Slot)
    (h : (if has_lightinfo ≠ 0 then do
        let bytes ← Stmt.read (cf_ReadBytes env.sizeof_light_info)
        setOp fun op => { op with lighting_info := some bytes }
      else pure ()) fp s = .ok (.next () fp1 s1)) :
    ∃ bs, (if has_lightinfo ≠ 0 then cf_ReadBytes env.sizeof_light_info fp
      else .ok ([], fp)) = .ok (bs, fp1) := by
  by_cases hc : has_lightinfo ≠ 0
  · rw [if_pos hc] at h
    rw [if_pos hc]
    rw [bind_next_iff] at h
    obtain ⟨bytes, fp2, s2, hr, hs⟩ := h
    rw [read_next_iff] at hr
    rw [setOp, modify_next_iff] at hs
    exact ⟨bytes, by rw [hr.1, hs.1]⟩
  · rw [if_neg hc] at h
    rw [if_neg hc]
    rw [pure_next_iff] at h
    exact ⟨[], by rw [h.2.1]⟩

/-- When the head of a record falls through, the handle it hands on is the one the
stream holds, and its slot bits are the slot index. -/
theorem head_next (env : ObjEnv) (i l_rend_type : Nat) (fp fp1 : CFILE) (s s1 : Slot)
    (handle : Int)
    (h : LGSObjects_head env i l_rend_type fp s = .ok (.next handle fp1 s1)) :
    savedHandle env fp = .ok (handle, fp1) ∧
      and32 handle env.HANDLE_OBJNUM_MASK = Int.ofNat i := by
  unfold LGSObjects_head at h
  rw [bind_next_iff] at h
  obtain ⟨s0, fpa, sa, hget, h⟩ := h
  rw [get_next_iff] at hget
  obtain ⟨rfl, rfl, rfl⟩ := hget
  rw [bind_next_iff] at h
  obtain ⟨_, fpb, sb, hA, h⟩ := h
  obtain ⟨_, sb1, hA1⟩ := head_lightmap_total env i l_rend_type s fp s
  rw [hA1] at hA
  simp only [Except.ok.injEq, Step.next.injEq] at hA
  obtain ⟨_, rfl, rfl⟩ := hA
  rw [bind_next_iff] at h
  obtain ⟨_, fpc, sc, hset, h⟩ := h
  rw [setOp, modify_next_iff] at hset
  obtain ⟨rfl, rfl⟩ := hset
  rw [bind_next_iff] at h
  obtain ⟨flag, fpd, sd, hflag, h⟩ := h
  rw [read_next_iff] at hflag
  obtain ⟨hflag, rfl⟩ := hflag
  rw [bind_next_iff] at h
  obtain ⟨_, fpe, se, hL, h⟩ := h
  obtain ⟨bs, hL1⟩ := head_lightinfo_run env flag fpd fpe _ se hL
  rw [bind_next_iff] at h
  obtain ⟨hd, fpf, sf, hh, h⟩ := h
  rw [read_next_iff] at hh
  obtain ⟨hh, rfl⟩ := hh
  by_cases hm : and32 hd env.HANDLE_OBJNUM_MASK ≠ Int.ofNat i
  · rw [run_ite, if_pos hm] at h
    simp only [run_bind, setRetval, run_modify, run_exit] at h
    cases h
  · rw [run_ite, if_neg hm, pure_next_iff] at h
    obtain ⟨rfl, rfl, rfl⟩ := h
    refine ⟨?_, by simpa using hm⟩
    unfold savedHandle
    rw [hflag]
    simp only []
    rw [hL1]
    simp only []
    exact hh

/-- When the slot bits of the handle the stream holds differ from the slot index, the
head of the record leaves through `done` with `LGS_OBJECTSCORRUPT` in `retval`, right
after reading the handle. -/
theorem head_mismatch (env : ObjEnv) (i l_rend_type : Nat) (fp fp1 : CFILE) (s : Slot)
    (handle : Int) (hs : savedHandle env fp = .ok (handle, fp1))
    (hm : and32 handle env.HANDLE_OBJNUM_MASK ≠ Int.ofNat i) :
    ∃ s1, LGSObjects_head env i l_rend_type fp s = .ok (.exit .done fp1 s1) ∧
      s1.retval = LGS.OBJECTSCORRUPT := by
  unfold savedHandle at hs
  cases hflag : cf_ReadByte fp with
  | error e => rw [hflag] at hs; cases hs
  | ok p =>
    obtain ⟨flag, fp2⟩ := p
    rw [hflag] at hs
    simp only [] at hs
    obtain ⟨_, sb, hA⟩ := head_lightmap_total env i l_rend_type s fp s
    unfold LGSObjects_head
    simp only [run_bind, run_get, hA, setOp, run_modify, run_read, hflag]
    by_cases hc : flag ≠ 0
    · rw [if_pos hc] at hs
      cases hbytes : cf_ReadBytes env.sizeof_light_info fp2 with
      | error e => rw [hbytes] at hs; cases hs
      | ok q =>
        obtain ⟨bytes, fp3⟩ := q
        rw [hbytes] at hs
        simp only [] at hs
        simp only [run_ite, if_pos hc, run_bind, run_read, hbytes, run_modify, hs, if_pos hm,
          setRetval, run_exit]
        exact ⟨_, rfl, rfl⟩
    · rw [if_neg hc] at hs
      simp only [] at hs
      simp only [run_ite, if_neg hc, run_pure, hs, if_pos hm, run_bind, setRetval, run_modify,
        run_exit]
      exact ⟨_, rfl, rfl⟩

/-! ### The placement, the id and the end of a record -/

theorem readName_state (env : ObjEnv) (fp fp1 : CFILE) (s s1 : Slot) (n : Option (List Nat))
    (h : readName env fp s = .ok (.next n fp1 s1)) : s1 = s := by
  have : Stmt.Rel (Keep fun s : Slot => s) (readName env) := by
    repeat' first
      | refine Rel_bind (Keep_trans _) _ _ ?_ ?_
      | exact Rel_read (Keep_refl _) _
      | exact Rel_pure (Keep_refl _) _
      | refine Rel_ite _ _ _ ?_ ?_
      | intro _
  exact this fp s _ h

theorem readName_next (env : ObjEnv) (fp fp1 : CFILE) (s s1 : Slot) (n : Option (List Nat))
    (h : readName env fp s = .ok (.next n fp1 s1)) : savedName env fp = .ok (n, fp1) := by
  unfold readName at h
  unfold savedName
  rw [bind_next_iff] at h
  obtain ⟨b, fpa, sa, hb, h⟩ := h
  rw [read_next_iff] at hb
  obtain ⟨hb, rfl⟩ := hb
  rw [hb]
  simp only []
  rw [run_ite] at h
  split
  · rename_i hpos
    rw [if_pos hpos, bind_next_iff] at h
    obtain ⟨bytes, fpb, sb, hr, h⟩ := h
    rw [read_next_iff] at hr
    obtain ⟨hr, rfl⟩ := hr
    rw [pure_next_iff] at h
    obtain ⟨rfl, rfl, rfl⟩ := h
    rw [hr]
  · rename_i hpos
    rw [if_neg hpos, pure_next_iff] at h
    obtain ⟨rfl, rfl, rfl⟩ := h
    rfl

theorem release_keeps_placement (env : ObjEnv) (i : Nat) :
    Stmt.Rel (Keep fun s : Slot => s.objmat) (LGSObjects_release env i) := by
  repeat' first
    | refine Rel_bind (Keep_trans _) _ _ ?_ ?_
    | exact Rel_pure (Keep_refl _) _
    | exact Rel_get (Keep_refl _)
    | refine Rel_ite _ _ _ ?_ ?_
    | (refine Rel_modify _ ?_; intro s; rfl)
    | intro _

theorem release_total (env : ObjEnv) (i : Nat) : Stmt.Total (LGSObjects_release env i) := by
  unfold LGSObjects_release slotCall setOp
  repeat' first
    | refine Total_bind _ _ ?_ ?_
    | exact Total_modify _
    | exact Total_pure _
    | exact Total_get
    | refine Total_ite _ _ _ ?_ ?_
    | intro _

/-- When the placement of a record falls through, the object holds the kind and the
handle handed to it, and the dummy type and the room number the stream holds; the
orientation the stream holds is in the side table; the room number is handed on. -/
theorem place_next (env : ObjEnv) (i type : Nat) (handle roomnum : Int) (fp fp1 : CFILE)
    (s s1 : Slot)
    (h : LGSObjects_place env i type handle fp s = .ok (.next roomnum fp1 s1)) :
    ∃ dummy fpP, savedPlacement fp = .ok ((dummy, roomnum, s1.objmat), fpP) ∧
      s1.op.type = type ∧ s1.op.handle = handle ∧ s1.op.dummy_type = dummy ∧
      s1.op.roomnum = roomnum ∧ ∃ name, savedName env fpP = .ok (name, fp1) := by
  unfold LGSObjects_place at h
  rw [bind_next_iff] at h
  obtain ⟨dummy, fpa, sa, hd, h⟩ := h
  rw [read_next_iff] at hd
  obtain ⟨hd, rfl⟩ := hd
  rw [bind_next_iff] at h
  obtain ⟨rn, fpb, sb, hr, h⟩ := h
  rw [read_next_iff] at hr
  obtain ⟨hr, rfl⟩ := hr
  rw [bind_next_iff] at h
  obtain ⟨pos, fpc, sc, hp, h⟩ := h
  rw [read_next_iff] at hp
  obtain ⟨hp, rfl⟩ := hp
  rw [bind_next_iff] at h
  obtain ⟨last_pos, fpd, sd, hlp, h⟩ := h
  rw [read_next_iff] at hlp
  obtain ⟨hlp, rfl⟩ := hlp
  rw [bind_next_iff] at h
  obtain ⟨m, fpe, se, hm, h⟩ := h
  rw [read_next_iff] at hm
  obtain ⟨hm, rfl⟩ := hm
  rw [bind_next_iff] at h
  obtain ⟨_, fpf, sf, hmod, h⟩ := h
  rw [modify_next_iff] at hmod
  obtain ⟨rfl, rfl⟩ := hmod
  rw [bind_next_iff] at h
  obtain ⟨name, fpg, sg, hname, h⟩ := h
  have hsaved := readName_next env _ _ _ _ _ hname
  have hsg := readName_state env _ _ _ _ _ hname
  subst hsg
  rw [bind_next_iff] at h
  obtain ⟨_, fph, sh, hset, h⟩ := h
  rw [setOp, modify_next_iff] at hset
  obtain ⟨rfl, rfl⟩ := hset
  rw [bind_next_iff] at h
  obtain ⟨_, fpi, si, hrel, h⟩ := h
  have hkeep := release_keeps_placement env i _ _ _ hrel
  have hcur : fpi = fpg := by
    obtain ⟨a, t, ht⟩ := release_total env i fpg _
    rw [ht] at hrel
    simp only [Except.ok.injEq, Step.next.injEq] at hrel
    exact hrel.2.1.symm
  subst hcur
  rw [bind_next_iff] at h
  obtain ⟨_, fpj, sj, hset2, h⟩ := h
  rw [setOp, modify_next_iff] at hset2
  obtain ⟨rfl, rfl⟩ := hset2
  rw [pure_next_iff] at h
  obtain ⟨rfl, rfl, rfl⟩ := h
  refine ⟨dummy, fpe, ?_, rfl, rfl, rfl, rfl, name, hsaved⟩
  unfold savedPlacement
  rw [hd]
  simp only []
  rw [hr]
  simp only []
  rw [hp]
  simp only []
  rw [hlp]
  simp only []
  rw [hm]
  simp only [Except.ok.injEq, Prod.mk.injEq, and_true, true_and]
  exact hkeep.symm

/-- When the id stage of a record falls through, the id of the object is the remap of
the saved id for the kind handed on, which is the dummy type of a dummy and the kind
tag of every other record. -/
theorem id_next (env : ObjEnv) (gs : gs_tables) (type kind : Nat) (fp fp1 : CFILE)
    (s s1 : Slot) (h : LGSObjects_id env gs type fp s = .ok (.next kind fp1 s1)) :
    ∃ saved, cf_ReadShort fp = .ok (saved, fp1) ∧
      kind = (if type = env.OBJ_DUMMY then s.op.dummy_type else type) ∧
      LGSObjects_xlateId env gs kind saved = .ok s1.op.id := by
  unfold LGSObjects_id at h
  rw [bind_next_iff] at h
  obtain ⟨saved, fpa, sa, hr, h⟩ := h
  rw [read_next_iff] at hr
  obtain ⟨hr, rfl⟩ := hr
  rw [bind_next_iff] at h
  obtain ⟨_, fpb, sb, hset, h⟩ := h
  rw [setOp, modify_next_iff] at hset
  obtain ⟨rfl, rfl⟩ := hset
  rw [bind_next_iff] at h
  obtain ⟨s2, fpc, sc, hget, h⟩ := h
  rw [get_next_iff] at hget
  obtain ⟨rfl, rfl, rfl⟩ := hget
  rw [bind_next_iff] at h
  obtain ⟨v, fpd, sd, hl, h⟩ := h
  rw [lift_next_iff] at hl
  obtain ⟨hl, rfl, rfl⟩ := hl
  rw [bind_next_iff] at h
  obtain ⟨_, fpe, se, hset2, h⟩ := h
  rw [setOp, modify_next_iff] at hset2
  obtain ⟨rfl, rfl⟩ := hset2
  rw [pure_next_iff] at h
  obtain ⟨rfl, rfl, rfl⟩ := h
  exact ⟨saved, hr, rfl, hl⟩

/-- When the last stage of a record falls through, the object is in the room handed to
it and `retval` is `LGS_OK`. -/
theorem finish_next (env : ObjEnv) (i : Nat) (roomnum : Int) (fp fp1 : CFILE) (s s1 : Slot)
    (h : LGSObjects_finish env i roomnum fp s = .ok (.next () fp1 s1)) :
    s1.op.roomnum = roomnum ∧ s1.retval = LGS.OK := by
  unfold LGSObjects_finish at h
  rw [bind_next_iff] at h
  obtain ⟨s0, fpa, sa, hget, h⟩ := h
  rw [bind_next_iff] at h
  obtain ⟨_, fpb, sb, _, h⟩ := h
  rw [bind_next_iff] at h
  obtain ⟨r, fpc, sc, hsp, h⟩ := h
  rw [LGSObjSpecial, pure_next_iff] at hsp
  obtain ⟨rfl, rfl, rfl⟩ := hsp
  rw [bind_next_iff] at h
  obtain ⟨_, fpd, sd, hset, h⟩ := h
  rw [setRetval, modify_next_iff] at hset
  obtain ⟨rfl, rfl⟩ := hset
  rw [run_ite, if_neg (by simp), bind_next_iff] at h
  obtain ⟨_, fpe, se, hset2, h⟩ := h
  rw [setOp, modify_next_iff] at hset2
  obtain ⟨rfl, rfl⟩ := hset2
  rw [setOp, modify_next_iff] at h
  obtain ⟨rfl, rfl⟩ := h
  exact ⟨rfl, rfl⟩

/-! ### A record that falls through -/

theorem restored_eq (s s1 : Slot) (h : s1.restored = s.restored) :
    s1.op.type = s.op.type ∧ s1.op.handle = s.op.handle ∧ s1.op.dummy_type = s.op.dummy_type ∧
      s1.objmat = s.objmat ∧ s1.op.id = s.op.id ∧ s1.op.roomnum = s.op.roomnum := by
  simp only [Slot.restored, Slot.core, Prod.mk.injEq] at h
  obtain ⟨⟨h1, h2, h3, h4⟩, h5, h6⟩ := h
  exact ⟨h1, h2, h3, h4, h5, h6⟩

/-- When the record falls through to its movement block, its handle names the slot, and
the object holds the kind tag, the handle, the dummy type and the room number the stream
holds, and the remap of the saved id for its kind; the orientation is in the side
table. -/
theorem common_next (env : ObjEnv) (gs : gs_tables) (version : Int) (i type l : Nat)
    (fp fp1 : CFILE) (s s1 : Slot) (r : Int × Nat)
    (h : LGSObjects_common env gs version i type l fp s = .ok (.next r fp1 s1)) :
    ∃ handle fpH dummy fpP fpJ saved,
      savedHandle env fp = .ok (handle, fpH) ∧
      and32 handle env.HANDLE_OBJNUM_MASK = Int.ofNat i ∧
      savedPlacement fpH = .ok ((dummy, r.1, s1.objmat), fpP) ∧
      savedId env fpP = .ok (saved, fpJ) ∧
      r.2 = (if type = env.OBJ_DUMMY then dummy else type) ∧
      LGSObjects_xlateId env gs r.2 saved = .ok s1.op.id ∧
      s1.op.type = type ∧ s1.op.handle = handle ∧ s1.op.dummy_type = dummy ∧
      s1.op.roomnum = r.1 := by
  unfold LGSObjects_common at h
  rw [bind_next_iff] at h
  obtain ⟨handle, fpa, sa, h1, h⟩ := h
  rw [bind_next_iff] at h
  obtain ⟨roomnum, fpb, sb, h2, h⟩ := h
  rw [bind_next_iff] at h
  obtain ⟨kind, fpc, sc, h3, h⟩ := h
  rw [bind_next_iff] at h
  obtain ⟨_, fpd, sd, h4, h⟩ := h
  rw [bind_next_iff] at h
  obtain ⟨_, fpe, se, h5, h⟩ := h
  rw [bind_next_iff] at h
  obtain ⟨_, fpf, sf, h6, h⟩ := h
  rw [pure_next_iff] at h
  obtain ⟨rfl, rfl, rfl⟩ := h
  obtain ⟨hH, hmask⟩ := head_next _ _ _ _ _ _ _ _ h1
  obtain ⟨dummy, fpP, hP, ht, hh, hd, hr, name, hname⟩ := place_next _ _ _ _ _ _ _ _ _ h2
  obtain ⟨saved, hS, hkind, hid⟩ := id_next _ _ _ _ _ _ _ _ h3
  have k3 := id_keeps_placed env gs type _ _ _ h3
  have k4 := restored_eq _ _ (scalars_keeps_restored env _ _ _ h4)
  have k5 := restored_eq _ _ (attach_keeps_restored version _ _ _ h5)
  have k6 := restored_eq _ _ (extras_keeps_restored env _ _ _ h6)
  simp only [Keep, Step.state, Slot.core, Prod.mk.injEq] at k3
  obtain ⟨⟨c1, c2, c3, c4⟩, c5⟩ := k3
  simp only [Step.state] at k4 k5 k6
  obtain ⟨d1, d2, d3, d4, d5, d6⟩ := k4
  obtain ⟨e1, e2, e3, e4, e5, e6⟩ := k5
  obtain ⟨f1, f2, f3, f4, f5, f6⟩ := k6
  have hS2 : savedId env fpP = .ok (saved, fpc) := by
    unfold savedId
    rw [hname]
    exact hS
  refine ⟨handle, fpa, dummy, fpP, fpc, saved, hH, hmask, ?_, hS2, ?_, ?_, ?_, ?_, ?_, ?_⟩
  · rw [f4, e4, d4, c4]; exact hP
  · rw [hkind, hd]
  · rw [f5, e5, d5]; exact hid
  · rw [f1, e1, d1, c1, ht]
  · rw [f2, e2, d2, c2, hh]
  · rw [f3, e3, d3, c3, hd]
  · rw [f6, e6, d6, c5, hr]

/-- When the whole record falls through, its handle names the slot, the object holds the
kind tag, the handle, the dummy type and the room number the stream holds and the remap
of the saved id for its kind, the orientation is in the side table, and `retval` is
`LGS_OK`. -/
theorem record_next (env : ObjEnv) (gs : gs_tables) (version : Int) (i type l : Nat)
    (fp fp1 : CFILE) (s s1 : Slot)
    (h : LGSObjects_record env gs version i type l fp s = .ok (.next () fp1 s1)) :
    ∃ handle fpH dummy roomnum fpP fpJ saved,
      savedHandle env fp = .ok (handle, fpH) ∧
      and32 handle env.HANDLE_OBJNUM_MASK = Int.ofNat i ∧
      savedPlacement fpH = .ok ((dummy, roomnum, s1.objmat), fpP) ∧
      savedId env fpP = .ok (saved, fpJ) ∧
      LGSObjects_xlateId env gs (if type = env.OBJ_DUMMY then dummy else type) saved
        = .ok s1.op.id ∧
      s1.op.type = type ∧ s1.op.handle = handle ∧ s1.op.dummy_type = dummy ∧
      s1.op.roomnum = roomnum ∧ s1.retval = LGS.OK := by
  unfold LGSObjects_record LGSObjects_toEffects LGSObjects_toRender LGSObjects_toAI
    LGSObjects_toControl at h
  rw [bind_next_iff] at h
  obtain ⟨r, fpa, sa, h, hfx⟩ := h
  rw [bind_next_iff] at hfx
  obtain ⟨_, fpz, sz, hfx, hfin⟩ := hfx
  rw [bind_next_iff] at h
  obtain ⟨r1, fpb, sb, h, hrest⟩ := h
  rw [bind_next_iff] at hrest
  obtain ⟨_, fpy, sy, hrt, hrest⟩ := hrest
  rw [bind_next_iff] at hrest
  obtain ⟨_, fpx, sx, hrn, hrest⟩ := hrest
  rw [bind_next_iff] at hrest
  obtain ⟨_, fpw, sw, hwb, hrest⟩ := hrest
  rw [pure_next_iff] at hrest
  obtain ⟨rfl, rfl, rfl⟩ := hrest
  rw [bind_next_iff] at h
  obtain ⟨r2, fpc, sc, h, hrest⟩ := h
  rw [bind_next_iff] at hrest
  obtain ⟨_, fpv, sv, hai, hrest⟩ := hrest
  rw [pure_next_iff] at hrest
  obtain ⟨rfl, rfl, rfl⟩ := hrest
  rw [bind_next_iff] at h
  obtain ⟨r3, fpd, sd, h, hrest⟩ := h
  rw [bind_next_iff] at hrest
  obtain ⟨_, fpu, su, hct, hrest⟩ := hrest
  rw [pure_next_iff] at hrest
  obtain ⟨rfl, rfl, rfl⟩ := hrest
  rw [bind_next_iff] at h
  obtain ⟨r4, fpe, se, h, hrest⟩ := h
  rw [bind_next_iff] at hrest
  obtain ⟨_, fpt, st, hmt, hrest⟩ := hrest
  rw [pure_next_iff] at hrest
  obtain ⟨rfl, rfl, rfl⟩ := hrest
  obtain ⟨handle, fpH, dummy, fpP, fpJ, saved, hH, hmask, hP, hS, hkind, hid, ht, hh,
    hd, hr⟩ := common_next _ _ _ _ _ _ _ _ _ _ _ h
  obtain ⟨a1, a2, a3, a4, a5, a6⟩ := restored_eq _ _ (mtype_keeps_restored env _ _ _ hmt)
  obtain ⟨b1, b2, b3, b4, b5, b6⟩ := restored_eq _ _ (ctype_keeps_restored env gs _ _ _ _ hct)
  obtain ⟨c1, c2, c3, c4, c5, c6⟩ := restored_eq _ _ (ai_keeps_restored env _ _ _ hai)
  obtain ⟨d1, d2, d3, d4, d5, d6⟩ := restored_eq _ _ (rtype_keeps_restored env _ _ _ hrt)
  obtain ⟨e1, e2, e3, e4, e5, e6⟩ :=
    restored_eq _ _ (render_keeps_restored env gs i _ _ _ _ hrn)
  obtain ⟨f1, f2, f3, f4, f5, f6⟩ := restored_eq _ _ (wb_keeps_restored env _ _ _ hwb)
  obtain ⟨g1, g2, g3, g4, g5, g6⟩ := restored_eq _ _ (effects_keeps_restored env _ _ _ hfx)
  have kf := finish_keeps_ident env i _ _ _ _ hfin
  simp only [Keep, Step.state, Slot.core, Prod.mk.injEq] at kf
  obtain ⟨⟨k1, k2, k3, k4⟩, k5⟩ := kf
  obtain ⟨hroom, hret⟩ := finish_next _ _ _ _ _ _ _ hfin
  simp only [Step.state] at a1 a2 a3 a4 a5 a6 b1 b2 b3 b4 b5 b6 c1 c2 c3 c4 c5 c6
  simp only [Step.state] at d1 d2 d3 d4 d5 d6 e1 e2 e3 e4 e5 e6 f1 f2 f3 f4 f5 f6
  simp only [Step.state] at g1 g2 g3 g4 g5 g6
  refine ⟨handle, fpH, dummy, r4.1, fpP, fpJ, saved, hH, hmask, ?_, hS, ?_, ?_, ?_, ?_,
    hroom, hret⟩
  · rw [k4, g4, f4, e4, d4, c4, b4, a4]; exact hP
  · rw [k5, g5, f5, e5, d5, c5, b5, a5, ← hkind]; exact hid
  · rw [k1, g1, f1, e1, d1, c1, b1, a1, ht]
  · rw [k2, g2, f2, e2, d2, c2, b2, a2, hh]
  · rw [k3, g3, f3, e3, d3, c3, b3, a3, hd]

/-! ### Statements on one slot, run in the whole state -/

theorem atSlot_next_iff {α : Type} (i : Nat) (m : Stmt Slot α) (fp fp1 : CFILE)
    (s s1 : ObjState) (a : α) :
    atSlot i m fp s = .ok (.next a fp1 s1) ↔
      ∃ sl r, s.slot i = some sl ∧ m fp sl = .ok (.next a fp1 r) ∧ s1 = s.store i r := by
  unfold atSlot
  cases hs : s.slot i with
  | none => simp
  | some sl =>
    simp only [Option.some.injEq, exists_and_left, exists_eq_left']
    cases hm : m fp sl with
    | error e => simp
    | ok out =>
      cases out with
      | next b fp2 r =>
        simp only [Except.ok.injEq, Step.next.injEq]
        constructor
        · rintro ⟨rfl, rfl, rfl⟩
          exact ⟨r, ⟨rfl, rfl, rfl⟩, rfl⟩
        · rintro ⟨r1, ⟨rfl, rfl, rfl⟩, rfl⟩
          exact ⟨rfl, rfl, rfl⟩
      | exit l fp2 r => simp

theorem atSlot_exit_iff {α : Type} (i : Nat) (m : Stmt Slot α) (fp fp1 : CFILE)
    (s s1 : ObjState) (l : Label) :
    atSlot i m fp s = .ok (.exit l fp1 s1) ↔
      ∃ sl r, s.slot i = some sl ∧ m fp sl = .ok (.exit l fp1 r) ∧ s1 = s.store i r := by
  unfold atSlot
  cases hs : s.slot i with
  | none => simp
  | some sl =>
    simp only [Option.some.injEq, exists_and_left, exists_eq_left']
    cases hm : m fp sl with
    | error e => simp
    | ok out =>
      cases out with
      | next b fp2 r => simp
      | exit l2 fp2 r =>
        simp only [Except.ok.injEq, Step.exit.injEq]
        constructor
        · rintro ⟨rfl, rfl, rfl⟩
          exact ⟨r, ⟨rfl, rfl, rfl⟩, rfl⟩
        · rintro ⟨r1, ⟨rfl, rfl, rfl⟩, rfl⟩
          exact ⟨rfl, rfl, rfl⟩

theorem slot_some_iff (s : ObjState) (i : Nat) (sl : Slot) :
    s.slot i = some sl ↔
      s.Objects[i]? = some sl.op ∧ s.objmat[i]? = some sl.objmat ∧ sl.retval = s.retval ∧
        sl.log = s.log := by
  unfold ObjState.slot
  cases h1 : s.Objects[i]? with
  | none => simp
  | some op =>
    cases h2 : s.objmat[i]? with
    | none => simp
    | some mat =>
      cases sl
      simp only [Option.some.injEq, Slot.mk.injEq]
      constructor
      · rintro ⟨rfl, rfl, rfl, rfl⟩
        exact ⟨rfl, rfl, rfl, rfl⟩
      · rintro ⟨rfl, rfl, rfl, rfl⟩
        exact ⟨rfl, rfl, rfl, rfl⟩

theorem store_Objects_self (s : ObjState) (i : Nat) (sl r : Slot) (h : s.slot i = some sl) :
    (s.store i r).Objects[i]? = some r.op := by
  rw [slot_some_iff] at h
  have hlt : i < s.Objects.length := by
    by_contra hc
    have h1 := h.1
    rw [List.getElem?_eq_none (by omega)] at h1
    simp at h1
  simp [ObjState.store, List.getElem?_set, hlt]

theorem store_objmat_self (s : ObjState) (i : Nat) (sl r : Slot) (h : s.slot i = some sl) :
    (s.store i r).objmat[i]? = some r.objmat := by
  rw [slot_some_iff] at h
  have hlt : i < s.objmat.length := by
    by_contra hc
    have h2 := h.2.1
    rw [List.getElem?_eq_none (by omega)] at h2
    simp at h2
  simp [ObjState.store, List.getElem?_set, hlt]

theorem store_Objects_other (s : ObjState) (i j : Nat) (r : Slot) (h : j ≠ i) :
    (s.store i r).Objects[j]? = s.Objects[j]? := by
  simp [ObjState.store, List.getElem?_set, Ne.symm h]

theorem store_objmat_other (s : ObjState) (i j : Nat) (r : Slot) (h : j ≠ i) :
    (s.store i r).objmat[j]? = s.objmat[j]? := by
  simp [ObjState.store, List.getElem?_set, Ne.symm h]

theorem store_g (s : ObjState) (i : Nat) (r : Slot) : (s.store i r).g = s.g := rfl

theorem store_log (s : ObjState) (i : Nat) (r : Slot) : (s.store i r).log = r.log := rfl

theorem store_retval (s : ObjState) (i : Nat) (r : Slot) : (s.store i r).retval = r.retval :=
  rfl

theorem store_lengths (s : ObjState) (i : Nat) (r : Slot) :
    (s.store i r).Objects.length = s.Objects.length ∧
      (s.store i r).objmat.length = s.objmat.length := by
  simp [ObjState.store]

/-! ### One iteration of the record loop -/

theorem slot_filled (env : ObjEnv) (gs : gs_tables) (version : Int) (i type l : Nat)
    (fp fpK fp3 : CFILE) (s : ObjState) (hkind : savedKind fp = .ok (type, fpK))
    (hne : type ≠ env.OBJ_NONE) (hlight : savedLighting fpK = .ok (l, fp3)) :
    LGSObjects_slot env gs version i fp s
      = atSlot i (LGSObjects_record env gs version i type l) fp3 s := by
  unfold savedKind at hkind
  unfold savedLighting at hlight
  cases hsig : cf_ReadInt fp with
  | error e => rw [hsig] at hkind; cases hkind
  | ok p =>
    obtain ⟨sig, fp1⟩ := p
    rw [hsig] at hkind
    simp only [] at hkind
    simp only [LGSObjects_slot, run_bind, run_read, hsig, hkind, run_ite, if_neg hne, hlight]

theorem slot_empty (env : ObjEnv) (gs : gs_tables) (version : Int) (i : Nat)
    (fp fpK : CFILE) (s : ObjState) (hkind : savedKind fp = .ok (env.OBJ_NONE, fpK)) :
    LGSObjects_slot env gs version i fp s = atSlot i (LGSObjects_empty env i) fpK s := by
  unfold savedKind at hkind
  cases hsig : cf_ReadInt fp with
  | error e => rw [hsig] at hkind; cases hkind
  | ok p =>
    obtain ⟨sig, fp1⟩ := p
    rw [hsig] at hkind
    simp only [] at hkind
    simp only [LGSObjects_slot, run_bind, run_read, hsig, hkind, run_ite, if_true]

/-- A completed iteration of the record loop has read the kind tag of a record, and the
lighting render type of a record that is not empty. -/
theorem slot_reads (env : ObjEnv) (gs : gs_tables) (version : Int) (i : Nat)
    (fp : CFILE) (s : ObjState) (out : Step ObjState Unit)
    (h : LGSObjects_slot env gs version i fp s = .ok out) :
    ∃ type fpK, savedKind fp = .ok (type, fpK) ∧
      (type ≠ env.OBJ_NONE → ∃ l fp3, savedLighting fpK = .ok (l, fp3)) := by
  unfold LGSObjects_slot at h
  unfold savedKind savedLighting
  rw [run_bind, run_read] at h
  cases hsig : cf_ReadInt fp with
  | error e => rw [hsig] at h; cases h
  | ok p =>
    obtain ⟨sig, fp1⟩ := p
    rw [hsig] at h
    simp only [] at h
    rw [run_bind, run_read] at h
    cases hty : cf_ReadByte fp1 with
    | error e => rw [hty] at h; cases h
    | ok q =>
      obtain ⟨type, fpK⟩ := q
      rw [hty] at h
      simp only [] at h
      refine ⟨type, fpK, hty, ?_⟩
      intro hne
      rw [run_ite, if_neg hne, run_bind, run_read] at h
      cases hl : cf_ReadByte fpK with
      | error e => rw [hl] at h; cases h
      | ok q2 =>
        obtain ⟨l, fp3⟩ := q2
        exact ⟨l, fp3, rfl⟩

theorem empty_next (env : ObjEnv) (i : Nat) (fp fp1 : CFILE) (s s1 : Slot)
    (h : LGSObjects_empty env i fp s = .ok (.next () fp1 s1)) :
    s1.op.type = env.OBJ_NONE ∧ s1.retval = s.retval ∧ fp1 = fp := by
  unfold LGSObjects_empty slotCall at h
  rw [bind_next_iff] at h
  obtain ⟨_, fpa, sa, h1, h⟩ := h
  rw [modify_next_iff] at h1
  obtain ⟨rfl, rfl⟩ := h1
  rw [bind_next_iff] at h
  obtain ⟨s0, fpb, sb, h2, h⟩ := h
  rw [get_next_iff] at h2
  obtain ⟨rfl, rfl, rfl⟩ := h2
  rw [bind_next_iff] at h
  obtain ⟨_, fpc, sc, h3, h⟩ := h
  rw [modify_next_iff] at h
  obtain ⟨rfl, rfl⟩ := h
  rw [run_ite] at h3
  split at h3
  · unfold ObjDelete slotCall setOp at h3
    rw [bind_next_iff] at h3
    obtain ⟨_, fpd, sd, h4, h3⟩ := h3
    rw [modify_next_iff] at h4
    obtain ⟨rfl, rfl⟩ := h4
    rw [modify_next_iff] at h3
    obtain ⟨rfl, rfl⟩ := h3
    exact ⟨rfl, rfl, rfl⟩
  · rename_i hc
    rw [pure_next_iff] at h3
    obtain ⟨_, rfl, rfl⟩ := h3
    exact ⟨not_not.mp hc, rfl, rfl⟩

/-! ### The record loop -/

theorem records_zero (env : ObjEnv) (gs : gs_tables) (version : Int) (j : Nat) :
    LGSObjects_records env gs version 0 j = pure () := rfl

theorem records_succ (env : ObjEnv) (gs : gs_tables) (version : Int) (k j : Nat) :
    LGSObjects_records env gs version (k + 1) j
      = (LGSObjects_slot env gs version j >>= fun _ =>
          LGSObjects_records env gs version k (j + 1)) := rfl

theorem records_split (env : ObjEnv) (gs : gs_tables) (version : Int) (b : Nat) :
    ∀ (a j : Nat) (fp fp1 : CFILE) (s s1 : ObjState),
      LGSObjects_records env gs version a j fp s = .ok (.next () fp1 s1) →
      LGSObjects_records env gs version (a + b) j fp s
        = LGSObjects_records env gs version b (j + a) fp1 s1 := by
  intro a
  induction a with
  | zero =>
    intro j fp fp1 s s1 h
    rw [records_zero, pure_next_iff] at h
    obtain ⟨_, rfl, rfl⟩ := h
    simp
  | succ a ih =>
    intro j fp fp1 s s1 h
    rw [records_succ, bind_next_iff] at h
    obtain ⟨_, fpa, sa, h1, h2⟩ := h
    rw [Nat.add_right_comm a 1 b, records_succ, bind_of_next _ _ _ _ _ _ _ h1,
      ih _ _ _ _ _ h2, Nat.add_assoc j 1 a, Nat.add_comm 1 a]

theorem records_snoc (env : ObjEnv) (gs : gs_tables) (version : Int) :
    ∀ (k j : Nat) (fp fp2 : CFILE) (s s2 : ObjState),
      LGSObjects_records env gs version (k + 1) j fp s = .ok (.next () fp2 s2) ↔
        ∃ fp1 s1, LGSObjects_records env gs version k j fp s = .ok (.next () fp1 s1) ∧
          LGSObjects_slot env gs version (j + k) fp1 s1 = .ok (.next () fp2 s2) := by
  intro k
  induction k with
  | zero =>
    intro j fp fp2 s s2
    rw [records_succ, bind_next_iff]
    constructor
    · rintro ⟨_, fp1, s1, h, h2⟩
      rw [records_zero, pure_next_iff] at h2
      obtain ⟨_, rfl, rfl⟩ := h2
      exact ⟨fp, s, rfl, h⟩
    · rintro ⟨fp1, s1, h1, h⟩
      rw [records_zero, pure_next_iff] at h1
      obtain ⟨_, rfl, rfl⟩ := h1
      exact ⟨(), fp2, s2, h, rfl⟩
  | succ k ih =>
    intro j fp fp2 s s2
    rw [records_succ, bind_next_iff]
    constructor
    · rintro ⟨_, fpa, sa, h1, h2⟩
      rw [ih] at h2
      obtain ⟨fp1, s1, h3, h4⟩ := h2
      refine ⟨fp1, s1, ?_, ?_⟩
      · rw [records_succ, bind_of_next _ _ _ _ _ _ _ h1]
        exact h3
      · rw [Nat.add_assoc j 1 k, Nat.add_comm 1 k] at h4
        exact h4
    · rintro ⟨fp1, s1, h3, h4⟩
      rw [records_succ, bind_next_iff] at h3
      obtain ⟨_, fpa, sa, h1, h3⟩ := h3
      refine ⟨(), fpa, sa, h1, ?_⟩
      rw [ih]
      refine ⟨fp1, s1, h3, ?_⟩
      rw [Nat.add_assoc j 1 k, Nat.add_comm 1 k]
      exact h4

/-- The record loop leaves through a label exactly when one of its iterations does,
after the iterations before it have fallen through. -/
theorem records_exit (env : ObjEnv) (gs : gs_tables) (version : Int) :
    ∀ (k j : Nat) (fp fpE : CFILE) (s sE : ObjState) (l : Label),
      LGSObjects_records env gs version k j fp s = .ok (.exit l fpE sE) →
        ∃ a fp1 s1, a < k ∧
          LGSObjects_records env gs version a j fp s = .ok (.next () fp1 s1) ∧
          LGSObjects_slot env gs version (j + a) fp1 s1 = .ok (.exit l fpE sE) := by
  intro k
  induction k with
  | zero =>
    intro j fp fpE s sE l h
    rw [records_zero, run_pure] at h
    cases h
  | succ k ih =>
    intro j fp fpE s sE l h
    rw [records_succ, bind_exit_iff] at h
    rcases h with h | ⟨_, fpa, sa, h1, h2⟩
    · exact ⟨0, fp, s, Nat.succ_pos k, rfl, h⟩
    · obtain ⟨a, fp1, s1, ha, h3, h4⟩ := ih _ _ _ _ _ _ h2
      refine ⟨a + 1, fp1, s1, Nat.succ_lt_succ ha, ?_, ?_⟩
      · rw [records_succ, bind_of_next _ _ _ _ _ _ _ h1]
        exact h3
      · rw [Nat.add_assoc j 1 a, Nat.add_comm 1 a] at h4
        exact h4

/-- An iteration of the record loop that leaves through a label does so at one of the
failure tests of a record: `retval` holds a failure code. -/
theorem slot_exit_failed (env : ObjEnv) (gs : gs_tables) (version : Int) (i : Nat)
    (fp fpE : CFILE) (s sE : ObjState) (l : Label)
    (h : LGSObjects_slot env gs version i fp s = .ok (.exit l fpE sE)) :
    sE.retval ≠ LGS.OK := by
  obtain ⟨type, fpK, hkind, hl⟩ := slot_reads _ _ _ _ _ _ _ h
  by_cases hne : type = env.OBJ_NONE
  · subst hne
    rw [slot_empty _ _ _ _ _ _ _ hkind, atSlot_exit_iff] at h
    obtain ⟨sl, r, _, h, _⟩ := h
    exact ((empty_no_exit env i : Stmt.ExitPost (fun _ => False) _) _ _ _ _ _ h).elim
  · obtain ⟨lr, fp3, hlight⟩ := hl hne
    rw [slot_filled _ _ _ _ _ _ _ _ _ _ hkind hne hlight, atSlot_exit_iff] at h
    obtain ⟨sl, r, _, h, rfl⟩ := h
    exact record_exit_failed _ _ _ _ _ _ _ _ _ _ _ h

/-! ### From an iteration of the record loop to the return of `LGSObjects` -/

theorem arrive_next_iff (env : ObjEnv) (gs : gs_tables) (version : Int) (i : Nat)
    (fp fpi : CFILE) (s si : ObjState) (highest : Int) :
    LGSObjects_arrive env gs version i fp s = .ok (.next highest fpi si) ↔
      ∃ fp0 s0, LGSObjects_enter env fp s = .ok (.next highest fp0 s0) ∧
        LGSObjects_records env gs version i 0 fp0 s0 = .ok (.next () fpi si) := by
  unfold LGSObjects_arrive
  rw [bind_next_iff]
  constructor
  · rintro ⟨h0, fp0, s0, h1, h2⟩
    rw [bind_next_iff] at h2
    obtain ⟨_, fpa, sa, h2, h3⟩ := h2
    rw [pure_next_iff] at h3
    obtain ⟨rfl, rfl, rfl⟩ := h3
    exact ⟨fp0, s0, h1, h2⟩
  · rintro ⟨fp0, s0, h1, h2⟩
    refine ⟨highest, fp0, s0, h1, ?_⟩
    rw [bind_of_next _ _ _ _ _ _ _ h2]
    rfl

/-- When the run arrives at the record of a slot within the declared range and the
iteration for it leaves through a label, so does the body of `LGSObjects`. -/
theorem body_of_slot_exit (env : ObjEnv) (gs : gs_tables) (version : Int) (i : Nat)
    (fp fpi fpE : CFILE) (s si sE : ObjState) (highest : Int) (l : Label)
    (harrive : LGSObjects_arrive env gs version i fp s = .ok (.next highest fpi si))
    (hi : (i : Int) ≤ highest)
    (hexit : LGSObjects_slot env gs version i fpi si = .ok (.exit l fpE sE)) :
    LGSObjects_body env gs version fp s = .ok (.exit l fpE sE) := by
  rw [arrive_next_iff] at harrive
  obtain ⟨fp0, s0, h1, h2⟩ := harrive
  unfold LGSObjects_body
  rw [bind_of_next _ _ _ _ _ _ _ h1]
  have hk : (highest + 1).toNat = i + ((highest + 1).toNat - i - 1 + 1) := by omega
  rw [hk]
  apply bind_of_exit
  rw [records_split _ _ _ _ _ _ _ _ _ _ h2, records_succ, Nat.zero_add]
  exact bind_of_exit _ _ _ _ _ _ _ hexit

/-- The return of `LGSObjects` when its body leaves through a label: `retval`, the
cursor where it stands, and the objects as they are. -/
theorem LGSObjects_of_body_exit (env : ObjEnv) (gs : gs_tables) (version : Int)
    (fp fpE : CFILE) (s sE : ObjState) (l : Label)
    (h : LGSObjects_body env gs version fp s = .ok (.exit l fpE sE)) :
    ∃ sR, LGSObjects env gs version fp s = .ok (sE.retval, fpE, sR) ∧
      sR.Objects = sE.Objects ∧ sR.objmat = sE.objmat ∧ sR.g = sE.g ∧
      ∃ L, sR.log = sE.log ++ L ∧ ∀ c ∈ L, c = ObjCall.Osiris_EnableCreateEvents := by
  unfold LGSObjects
  rw [h]
  cases l with
  | done => exact ⟨sE, rfl, rfl, rfl, rfl, [], by simp, by simp⟩
  | lgsobjs_fail => exact ⟨_, rfl, rfl, rfl, rfl, [_], rfl, by simp⟩

/-! ### A record that leaves at one of its tests -/

theorem record_of_toEffects_exit (env : ObjEnv) (gs : gs_tables) (version : Int)
    (i type l : Nat) (fp fpE : CFILE) (s sE : Slot) (lab : Label)
    (h : LGSObjects_toEffects env gs version i type l fp s = .ok (.exit lab fpE sE)) :
    LGSObjects_record env gs version i type l fp s = .ok (.exit lab fpE sE) := by
  unfold LGSObjects_record
  exact bind_of_exit _ _ _ _ _ _ _ h

theorem toEffects_of_toRender_exit (env : ObjEnv) (gs : gs_tables) (version : Int)
    (i type l : Nat) (fp fpE : CFILE) (s sE : Slot) (lab : Label)
    (h : LGSObjects_toRender env gs version i type l fp s = .ok (.exit lab fpE sE)) :
    LGSObjects_toEffects env gs version i type l fp s = .ok (.exit lab fpE sE) := by
  unfold LGSObjects_toEffects
  exact bind_of_exit _ _ _ _ _ _ _ h

theorem toRender_of_toAI_exit (env : ObjEnv) (gs : gs_tables) (version : Int)
    (i type l : Nat) (fp fpE : CFILE) (s sE : Slot) (lab : Label)
    (h : LGSObjects_toAI env gs version i type l fp s = .ok (.exit lab fpE sE)) :
    LGSObjects_toRender env gs version i type l fp s = .ok (.exit lab fpE sE) := by
  unfold LGSObjects_toRender
  exact bind_of_exit _ _ _ _ _ _ _ h

theorem toAI_of_toControl_exit (env : ObjEnv) (gs : gs_tables) (version : Int)
    (i type l : Nat) (fp fpE : CFILE) (s sE : Slot) (lab : Label)
    (h : LGSObjects_toControl env gs version i type l fp s = .ok (.exit lab fpE sE)) :
    LGSObjects_toAI env gs version i type l fp s = .ok (.exit lab fpE sE) := by
  unfold LGSObjects_toAI
  exact bind_of_exit _ _ _ _ _ _ _ h

theorem toControl_of_common_exit (env : ObjEnv) (gs : gs_tables) (version : Int)
    (i type l : Nat) (fp fpE : CFILE) (s sE : Slot) (lab : Label)
    (h : LGSObjects_common env gs version i type l fp s = .ok (.exit lab fpE sE)) :
    LGSObjects_toControl env gs version i type l fp s = .ok (.exit lab fpE sE) := by
  unfold LGSObjects_toControl
  exact bind_of_exit _ _ _ _ _ _ _ h

/-- A record whose handle does not name the slot leaves for `done` right after the
handle, with `retval` set to `LGS_OBJECTSCORRUPT`. -/
theorem record_handle_mismatch (env : ObjEnv) (gs : gs_tables) (version : Int)
    (i type l : Nat) (fp fpH : CFILE) (s : Slot) (handle : Int)
    (hs : savedHandle env fp = .ok (handle, fpH))
    (hm : and32 handle env.HANDLE_OBJNUM_MASK ≠ Int.ofNat i) :
    ∃ sE, LGSObjects_record env gs version i type l fp s = .ok (.exit .done fpH sE) ∧
      sE.retval = LGS.OBJECTSCORRUPT := by
  obtain ⟨sE, h, hr⟩ := head_mismatch env i l fp fpH s handle hs hm
  refine ⟨sE, ?_, hr⟩
  apply record_of_toEffects_exit
  apply toEffects_of_toRender_exit
  apply toRender_of_toAI_exit
  apply toAI_of_toControl_exit
  apply toControl_of_common_exit
  unfold LGSObjects_common
  exact bind_of_exit _ _ _ _ _ _ _ h

/-- A movement block whose declared size is not the size of the live block: the record
leaves for `done` right after the size, with `retval` set to `LGS_OUTDATEDVER` and the
object as the statements before the block left it. -/
theorem record_mtype_mismatch (env : ObjEnv) (gs : gs_tables) (version : Int)
    (i type l : Nat) (fp fpB fpS : CFILE) (s sB : Slot) (r : Int × Nat) (size : Int)
    (hpre : LGSObjects_common env gs version i type l fp s = .ok (.next r fpB sB))
    (hsize : cf_ReadShort fpB = .ok (size, fpS))
    (hne : size ≠ Int.ofNat env.sizeof_mtype) :
    LGSObjects_record env gs version i type l fp s
        = .ok (.exit .done fpS { sB with retval := LGS.OUTDATEDVER }) ∧
      sB.op.mtype = s.op.mtype := by
  constructor
  · apply record_of_toEffects_exit
    apply toEffects_of_toRender_exit
    apply toRender_of_toAI_exit
    apply toAI_of_toControl_exit
    unfold LGSObjects_toControl
    rw [bind_of_next _ _ _ _ _ _ _ hpre]
    apply bind_of_exit
    simp only [LGSObjects_mtype, run_bind, run_read, hsize, run_ite, if_pos hne, setRetval,
      run_modify, run_exit]
  · have k := common_keeps_blocks env gs version i type l _ _ _ hpre
    simp only [Keep, Step.state, Slot.blocks, Prod.mk.injEq] at k
    exact k.1

/-- A control block whose declared size is not the size of the live block. -/
theorem record_ctype_mismatch (env : ObjEnv) (gs : gs_tables) (version : Int)
    (i type l : Nat) (fp fpB fpS : CFILE) (s sB : Slot) (r : Int × Nat) (size : Int)
    (hpre : LGSObjects_toControl env gs version i type l fp s = .ok (.next r fpB sB))
    (hsize : cf_ReadShort fpB = .ok (size, fpS))
    (hne : size ≠ Int.ofNat env.sizeof_ctype) :
    LGSObjects_record env gs version i type l fp s
        = .ok (.exit .done fpS { sB with retval := LGS.OUTDATEDVER }) ∧
      sB.op.ctype = s.op.ctype := by
  constructor
  · apply record_of_toEffects_exit
    apply toEffects_of_toRender_exit
    apply toRender_of_toAI_exit
    unfold LGSObjects_toAI
    rw [bind_of_next _ _ _ _ _ _ _ hpre]
    apply bind_of_exit
    simp only [LGSObjects_ctype, run_bind, run_read, hsize, run_ite, if_pos hne, setRetval,
      run_modify, run_exit]
  · have k := toControl_keeps_later env gs version i type l _ _ _ hpre
    simp only [Keep, Step.state, Prod.mk.injEq] at k
    exact k.1

/-- A render block whose declared size is not the size of the live block. -/
theorem record_rtype_mismatch (env : ObjEnv) (gs : gs_tables) (version : Int)
    (i type l : Nat) (fp fpB fpS : CFILE) (s sB : Slot) (r : Int × Nat) (size : Int)
    (hpre : LGSObjects_toRender env gs version i type l fp s = .ok (.next r fpB sB))
    (hsize : cf_ReadShort fpB = .ok (size, fpS))
    (hne : size ≠ Int.ofNat env.sizeof_rtype) :
    LGSObjects_record env gs version i type l fp s
        = .ok (.exit .done fpS { sB with retval := LGS.OUTDATEDVER }) ∧
      sB.op.rtype = s.op.rtype := by
  constructor
  · apply record_of_toEffects_exit
    unfold LGSObjects_toEffects
    rw [bind_of_next _ _ _ _ _ _ _ hpre]
    apply bind_of_exit
    simp only [LGSObjects_rtype, run_bind, run_read, hsize, run_ite, if_pos hne, setRetval,
      run_modify, run_exit]
  · have k := toRender_keeps_rtype env gs version i type l _ _ _ hpre
    simp only [Keep, Step.state] at k
    exact k

/-- An AI frame whose declared size is not the size of the live frame: `LGSObjAI` returns
`LGS_OUTDATEDVER` right after the size and the object has no AI frame. -/
theorem LGSObjAI_mismatch (env : ObjEnv) (fp fpA fpS : CFILE) (s : Slot) (read_ai : Nat)
    (size : Int) (hflag : cf_ReadByte fp = .ok (read_ai, fpA)) (hset : read_ai ≠ 0)
    (hsize : cf_ReadShort fpA = .ok (size, fpS))
    (hne : size ≠ Int.ofNat env.sizeof_ai_frame) :
    LGSObjAI env fp s
      = .ok (.next LGS.OUTDATEDVER fpS { s with op := { s.op with ai_info := none } }) := by
  simp only [LGSObjAI, setOp, run_bind, run_modify, run_read, hflag, run_ite, if_neg hset,
    hsize, if_pos hne, run_pure]

/-- An effect info whose declared size is not the size of the live structure:
`LGSObjEffects` returns `LGS_OUTDATEDVER` right after the size and the object has no
effect info. -/
theorem LGSObjEffects_mismatch (env : ObjEnv) (fp fpA fpS : CFILE) (s : Slot)
    (do_read : Nat) (size : Int) (hflag : cf_ReadByte fp = .ok (do_read, fpA))
    (hset : do_read ≠ 0) (hsize : cf_ReadShort fpA = .ok (size, fpS))
    (hne : size ≠ Int.ofNat env.sizeof_effect_info) :
    LGSObjEffects env fp s
      = .ok (.next LGS.OUTDATEDVER fpS { s with op := { s.op with effect_info := none } }) := by
  simp only [LGSObjEffects, setOp, run_bind, run_modify, run_read, hflag, run_ite,
    if_pos hset, hsize, if_pos hne, run_pure]

theorem record_ai_mismatch (env : ObjEnv) (gs : gs_tables) (version : Int)
    (i type l : Nat) (fp fpB fpA fpS : CFILE) (s sB : Slot) (r : Int × Nat)
    (read_ai : Nat) (size : Int)
    (hpre : LGSObjects_toAI env gs version i type l fp s = .ok (.next r fpB sB))
    (hflag : cf_ReadByte fpB = .ok (read_ai, fpA)) (hset : read_ai ≠ 0)
    (hsize : cf_ReadShort fpA = .ok (size, fpS))
    (hne : size ≠ Int.ofNat env.sizeof_ai_frame) :
    LGSObjects_record env gs version i type l fp s
        = .ok (.exit .lgsobjs_fail fpS
            { sB with op := { sB.op with ai_info := none }, retval := LGS.OUTDATEDVER }) := by
  apply record_of_toEffects_exit
  apply toEffects_of_toRender_exit
  unfold LGSObjects_toRender
  rw [bind_of_next _ _ _ _ _ _ _ hpre]
  apply bind_of_exit
  unfold LGSObjects_ai
  rw [bind_of_next _ _ _ _ _ _ _ (LGSObjAI_mismatch env _ _ _ _ _ _ hflag hset hsize hne)]
  simp only [setRetval, run_bind, run_modify, run_ite, run_exit]
  rfl

theorem record_effects_mismatch (env : ObjEnv) (gs : gs_tables) (version : Int)
    (i type l : Nat) (fp fpB fpA fpS : CFILE) (s sB : Slot) (r : Int × Nat)
    (do_read : Nat) (size : Int)
    (hpre : LGSObjects_toEffects env gs version i type l fp s = .ok (.next r fpB sB))
    (hflag : cf_ReadByte fpB = .ok (do_read, fpA)) (hset : do_read ≠ 0)
    (hsize : cf_ReadShort fpA = .ok (size, fpS))
    (hne : size ≠ Int.ofNat env.sizeof_effect_info) :
    LGSObjects_record env gs version i type l fp s
        = .ok (.exit .lgsobjs_fail fpS
            { sB with op := { sB.op with effect_info := none },
                      retval := LGS.OUTDATEDVER }) := by
  unfold LGSObjects_record
  rw [bind_of_next _ _ _ _ _ _ _ hpre]
  apply bind_of_exit
  unfold LGSObjects_effects
  rw [bind_of_next _ _ _ _ _ _ _
    (LGSObjEffects_mismatch env _ _ _ _ _ _ hflag hset hsize hne)]
  simp only [setRetval, run_bind, run_modify, run_ite, run_exit]
  rfl

/-- When the run of `LGSObjects` arrives at a record that is not empty, within the
declared range, and the record leaves through a label in state `sE`, `LGSObjects`
returns the `retval` of `sE` with the cursor where the record left it, and slot `i`
holds the object of `sE`. -/
theorem LGSObjects_of_record_exit (env : ObjEnv) (gs : gs_tables) (version : Int) (i : Nat)
    (fp fpi fpK fp3 fpE : CFILE) (s si : ObjState) (sl sE : Slot) (highest : Int)
    (type l : Nat) (lab : Label)
    (harrive : LGSObjects_arrive env gs version i fp s = .ok (.next highest fpi si))
    (hi : (i : Int) ≤ highest) (hslot : si.slot i = some sl)
    (hkind : savedKind fpi = .ok (type, fpK)) (hne : type ≠ env.OBJ_NONE)
    (hlight : savedLighting fpK = .ok (l, fp3))
    (hexit : LGSObjects_record env gs version i type l fp3 sl = .ok (.exit lab fpE sE)) :
    ∃ sR, LGSObjects env gs version fp s = .ok (sE.retval, fpE, sR) ∧
      sR.Objects[i]? = some sE.op := by
  have hs : LGSObjects_slot env gs version i fpi si = .ok (.exit lab fpE (si.store i sE)) := by
    rw [slot_filled _ _ _ _ _ _ _ _ _ _ hkind hne hlight, atSlot_exit_iff]
    exact ⟨sl, sE, hslot, hexit, rfl⟩
  obtain ⟨sR, hR, hO, _⟩ :=
    LGSObjects_of_body_exit _ _ _ _ _ _ _ _ (body_of_slot_exit _ _ _ _ _ _ _ _ _ _ _ _
      harrive hi hs)
  refine ⟨sR, hR, ?_⟩
  rw [hO]
  exact store_Objects_self _ _ _ _ hslot

/-! ### The weather block of `LoadGameState` and the player record -/

theorem LGSMission_weather {σ : Type} (env : Env σ) (msnname : Name) (level : Int)
    (w : World σ) : (LGSMission env msnname level w).2.g.Weather = w.g.Weather := by
  unfold LGSMission
  dsimp only
  generalize env.LoadMission msnname _ = loaded
  generalize env.LoadAndStartCurrentLevel _ = started
  cases loaded <;> cases started <;> rfl

/-- The restore count is written whenever the count file, if it opens, holds an
integer; the weather is not touched. -/
theorem IncreaseRestoreCount_ok {σ : Type} (env : Env σ) (file : Name) (w : World σ)
    (hcount : ∀ cfp, env.cfopen (file ++ dot_cnt) = some cfp →
      ∃ n cfp1, cf_ReadInt cfp = .ok (n, cfp1)) :
    ∃ w1, IncreaseRestoreCount env file w = .ok w1 ∧ w1.g.Weather = w.g.Weather := by
  unfold IncreaseRestoreCount
  dsimp only
  cases ho : env.cfopen (file ++ dot_cnt) with
  | none =>
    dsimp only
    split
    · exact ⟨_, rfl, rfl⟩
    · exact ⟨_, rfl, rfl⟩
  | some cfp =>
    obtain ⟨n, cfp1, hn⟩ := hcount cfp ho
    simp only [hn]
    split
    · exact ⟨_, rfl, rfl⟩
    · exact ⟨_, rfl, rfl⟩

theorem header_weather {σ : Type} (env : Env σ) (fp : CFILE) (w : World σ)
    (flow : Flow (Int × gs_tables) σ) (h : LoadGameState_header env fp w = .ok flow) :
    flow.world.g.Weather = w.g.Weather := by
  unfold LoadGameState_header at h
  dsimp only at h
  split at h
  · simp at h
  · split at h
    · simp at h
    · split at h
      · simp only [Except.ok.injEq] at h
        subst h
        rfl
      · split at h
        · simp at h
        · rename_i bm fp3 ext3 hsnap
          split at h
          · simp at h
          · split at h
            · simp only [Except.ok.injEq] at h
              subst h
              by_cases hb : bm > 0
              · simp [Flow.world, hb, call]
              · simp [Flow.world, hb]
            · simp only [Except.ok.injEq] at h
              subst h
              by_cases hb : bm > 0
              · simp [Flow.world, hb, call]
              · simp [Flow.world, hb]

/-- A weather block whose declared size is not the size of the live block: the second
stage of `LoadGameState` leaves for `loadsg_error` right after the size, with `retval`
set to `LGS_OUTDATEDVER` and the weather as it was. -/
theorem level_weather_mismatch {σ : Type} (env : Env σ) (pathname : Name) (fp fp8 : CFILE)
    (w : World σ) (curlevel : Int) (path : Name) (size : Int)
    (hsaved : savedWeatherSize env.rd env.PSPATHNAME_LEN fp = .ok ((curlevel, path, size), fp8))
    (hmission : (LGSMission env path curlevel w).1 = LGS.OK)
    (hcount : ∀ cfp, env.cfopen (pathname ++ dot_cnt) = some cfp →
      ∃ n cfp1, cf_ReadInt cfp = .ok (n, cfp1))
    (hne : size ≠ Int.ofNat env.sizeof_Weather) :
    ∃ wE, LoadGameState_level env pathname fp w = .ok (.exit LGS.OUTDATEDVER fp8 wE) ∧
      wE.g.Weather = w.g.Weather := by
  unfold savedWeatherSize at hsaved
  split at hsaved
  · cases hsaved
  rename_i cl fp1 h1
  split at hsaved
  · cases hsaved
  rename_i path0 fp2 h2
  split at hsaved
  · cases hsaved
  rename_i flags fp3 h3
  split at hsaved
  · cases hsaved
  rename_i gametime fp4 h4
  split at hsaved
  · cases hsaved
  rename_i framecount fp5 h5
  split at hsaved
  · cases hsaved
  rename_i waypoint fp6 h6
  split at hsaved
  · cases hsaved
  rename_i music fp7 h7
  split at hsaved
  · cases hsaved
  rename_i size0 fp80 h8
  simp only [Except.ok.injEq, Prod.mk.injEq] at hsaved
  obtain ⟨⟨rfl, rfl, rfl⟩, rfl⟩ := hsaved
  obtain ⟨w1, hinc, hw1⟩ := IncreaseRestoreCount_ok env pathname
    { (LGSMission env (missionPath (toUShort cl) path0) (toUShort cl) w).2 with
      g.game_state_flags := flags } hcount
  refine ⟨call env (.D3MusicSetRegion music)
    { w1 with g.Gametime := gametime, g.FrameCount := framecount,
              g.Current_waypoint := waypoint }, ?_, ?_⟩
  · unfold LoadGameState_level
    simp only [h1, h2, hmission, ne_eq, not_true_eq_false, if_false, h3, hinc, h4, h5, h6, h7,
      h8, hne, not_false_eq_true, if_true]
  · show w1.g.Weather = w.g.Weather
    rw [hw1]
    exact LGSMission_weather env _ _ w

/-! ### Naming the state a run ended in -/

theorem next_of_arrival {σ α : Type} (r : Except Fault (Step σ α)) (a : α) (fp1 : CFILE)
    (d : σ) (h : arrival r = some (a, fp1)) : r = .ok (.next a fp1 (endState r d)) := by
  cases r with
  | error e => cases h
  | ok out =>
    cases out with
    | next b fp2 s =>
      simp only [arrival, Option.some.injEq, Prod.mk.injEq] at h
      obtain ⟨rfl, rfl⟩ := h
      rfl
    | exit l fp2 s => cases h

theorem slot_of_isSome (s : ObjState) (i : Nat) (d : Slot) (h : (s.slot i).isSome = true) :
    s.slot i = some (s.slotAt i d) := by
  unfold ObjState.slotAt
  cases hs : s.slot i with
  | none => rw [hs] at h; cases h
  | some sl => rfl

/-! ### The calls and the ways out of the statements around the record loop -/

theorem ologged_refl (P : ObjCall → Prop) : ∀ s, ObjState.logged P s s :=
  fun s => ⟨[], (List.append_nil _).symm, by simp⟩

theorem ologged_trans (P : ObjCall → Prop) :
    ∀ a b c, ObjState.logged P a b → ObjState.logged P b c → ObjState.logged P a c := by
  rintro a b c ⟨L1, h1, p1⟩ ⟨L2, h2, p2⟩
  refine ⟨L1 ++ L2, by rw [h2, h1, List.append_assoc], ?_⟩
  intro x hx
  rcases List.mem_append.1 hx with h | h
  · exact p1 x h
  · exact p2 x h

theorem Rel_atSlot_logged {α : Type} (P : ObjCall → Prop) (i : Nat) (m : Stmt Slot α)
    (hm : Stmt.Rel (Slot.logged P) m) : Stmt.Rel (ObjState.logged P) (atSlot i m) := by
  intro fp s out h
  unfold atSlot at h
  cases hs : s.slot i with
  | none => rw [hs] at h; cases h
  | some sl =>
    rw [hs] at h
    simp only [] at h
    have hlog : sl.log = s.log := ((slot_some_iff _ _ _).1 hs).2.2.2
    cases hr : m fp sl with
    | error e => rw [hr] at h; cases h
    | ok st =>
      have hrel := hm fp sl st hr
      rw [hr] at h
      cases st with
      | next a fp1 r =>
        cases h
        obtain ⟨L, hL, hP⟩ := hrel
        exact ⟨L, by simp only [Step.state, store_log] at hL ⊢; rw [hL, hlog], hP⟩
      | exit l fp1 r =>
        cases h
        obtain ⟨L, hL, hP⟩ := hrel
        exact ⟨L, by simp only [Step.state, store_log] at hL ⊢; rw [hL, hlog], hP⟩

theorem Rel_objCall (P : ObjCall → Prop) (c : ObjCall) (h : P c) :
    Stmt.Rel (ObjState.logged P) (objCall c) := by
  apply Rel_modify
  intro s
  exact ⟨[c], rfl, by simpa using h⟩

theorem Rel_setGlobals (P : ObjCall → Prop) (f : ObjGlobals → ObjGlobals) :
    Stmt.Rel (ObjState.logged P) (setGlobals f) := by
  apply Rel_modify
  intro s
  exact ⟨[], (List.append_nil _).symm, by simp⟩

theorem Rel_zoom_logged {τ α : Type} (P : ObjCall → Prop) (get : ObjState → τ)
    (set : ObjState → τ → ObjState) (m : Stmt τ α) (hset : ∀ s t, (set s t).log = s.log) :
    Stmt.Rel (ObjState.logged P) (Stmt.zoom get set m) := by
  intro fp s out h
  unfold Stmt.zoom at h
  cases hr : m fp (get s) with
  | error e => rw [hr] at h; cases h
  | ok st =>
    rw [hr] at h
    cases st with
    | next a fp1 t =>
      cases h
      exact ⟨[], by simp [Step.state, hset], by simp⟩
    | exit l fp1 t =>
      cases h
      exact ⟨[], by simp [Step.state, hset], by simp⟩

theorem ExitPost_atSlot {α : Type} {E : ObjState → Prop} (i : Nat) (m : Stmt Slot α)
    (hm : Stmt.ExitPost (fun _ => False) m) : Stmt.ExitPost E (atSlot i m) := by
  intro fp s l fp1 s1 h
  rw [atSlot_exit_iff] at h
  obtain ⟨sl, r, _, h, _⟩ := h
  exact (hm _ _ _ _ _ h).elim

theorem ExitPost_zoom {σ τ α : Type} {E : σ → Prop} (get : σ → τ) (set : σ → τ → σ)
    (m : Stmt τ α) (hm : Stmt.ExitPost (fun _ => False) m) :
    Stmt.ExitPost E (Stmt.zoom get set m) := by
  intro fp s l fp1 s1 h
  unfold Stmt.zoom at h
  cases hr : m fp (get s) with
  | error e => rw [hr] at h; cases h
  | ok st =>
    rw [hr] at h
    cases st with
    | next a fp2 t => cases h
    | exit l2 fp2 t => exact (hm _ _ _ _ _ hr).elim

theorem ExitPost_objCall {E : ObjState → Prop} (c : ObjCall) :
    Stmt.ExitPost E (objCall c) := ExitPost_modify _

theorem ExitPost_setGlobals {E : ObjState → Prop} (f : ObjGlobals → ObjGlobals) :
    Stmt.ExitPost E (setGlobals f) := ExitPost_modify _

/-! #### The loops before the record loop -/

theorem markers_logged (P : ObjCall → Prop) (env : ObjEnv) :
    ∀ k i, Stmt.Rel (ObjState.logged P) (LGSObjects_markers env k i) := by
  intro k
  induction k with
  | zero => intro i; exact Rel_pure (ologged_refl _) _
  | succ k ih =>
    intro i
    unfold LGSObjects_markers
    repeat' first
      | exact ih _
      | refine Rel_bind (ologged_trans _) _ _ ?_ ?_
      | exact Rel_read (ologged_refl _) _
      | exact Rel_pure (ologged_refl _) _
      | exact Rel_get (ologged_refl _)
      | exact Rel_lift (ologged_refl _) _
      | exact Rel_setGlobals _ _
      | intro _

theorem markers_no_exit {E : ObjState → Prop} (env : ObjEnv) :
    ∀ k i, Stmt.ExitPost E (LGSObjects_markers env k i) := by
  intro k
  induction k with
  | zero => intro i; exact ExitPost_pure _
  | succ k ih =>
    intro i
    unfold LGSObjects_markers
    repeat' first
      | exact ih _
      | refine ExitPost_bind _ _ ?_ ?_
      | exact ExitPost_read _
      | exact ExitPost_pure _
      | exact ExitPost_get
      | exact ExitPost_lift _
      | exact ExitPost_setGlobals _
      | intro _

theorem clearSlot_logged (env : ObjEnv) (i : Nat) :
    Stmt.Rel (Slot.logged fun c => c.quiet = true) (LGSObjects_clearSlot env i) := by
  repeat' first
    | refine Rel_bind (logged_trans _) _ _ ?_ ?_
    | exact Rel_pure (logged_refl _) _
    | exact Rel_get (logged_refl _)
    | refine Rel_ite _ _ _ ?_ ?_
    | exact Rel_slotCall _ _ rfl
    | (refine Rel_modify _ ?_; intro s; exact ⟨[], (List.append_nil _).symm, by simp⟩)
    | intro _

theorem clearSlot_no_exit {E : Slot → Prop} (env : ObjEnv) (i : Nat) :
    Stmt.ExitPost E (LGSObjects_clearSlot env i) := by
  repeat' first
    | refine ExitPost_bind _ _ ?_ ?_
    | exact ExitPost_pure _
    | exact ExitPost_get
    | exact ExitPost_modify _
    | refine ExitPost_ite _ _ _ ?_ ?_
    | intro _

theorem clear_logged (env : ObjEnv) :
    ∀ k i, Stmt.Rel (ObjState.logged fun c => c.quiet = true) (LGSObjects_clear env k i) := by
  intro k
  induction k with
  | zero => intro i; exact Rel_pure (ologged_refl _) _
  | succ k ih =>
    intro i
    unfold LGSObjects_clear
    refine Rel_bind (ologged_trans _) _ _ ?_ ?_
    · exact Rel_atSlot_logged _ _ _ (clearSlot_logged env i)
    · intro _; exact ih _

theorem clear_no_exit {E : ObjState → Prop} (env : ObjEnv) :
    ∀ k i, Stmt.ExitPost E (LGSObjects_clear env k i) := by
  intro k
  induction k with
  | zero => intro i; exact ExitPost_pure _
  | succ k ih =>
    intro i
    unfold LGSObjects_clear
    refine ExitPost_bind _ _ ?_ ?_
    · exact ExitPost_atSlot _ _ (clearSlot_no_exit env i)
    · intro _; exact ih _

theorem skipNodes_no_exit {σ : Type} {E : σ → Prop} :
    ∀ k, Stmt.ExitPost E (LGSObjects_skipNodes k : Stmt σ Unit) := by
  intro k
  induction k with
  | zero => exact ExitPost_pure _
  | succ k ih =>
    unfold LGSObjects_skipNodes
    repeat' first
      | exact ih
      | refine ExitPost_bind _ _ ?_ ?_
      | exact ExitPost_read _
      | intro _

theorem setPath_no_exit {E : List ai_dynamic_path → Prop} (i : Nat)
    (f : ai_dynamic_path → ai_dynamic_path) : Stmt.ExitPost E (setPath i f) := by
  repeat' first
    | refine ExitPost_bind _ _ ?_ ?_
    | exact ExitPost_get
    | exact ExitPost_lift _
    | exact ExitPost_modify _
    | intro _

theorem pathNodes_no_exit {E : List ai_dynamic_path → Prop} (i : Nat) :
    ∀ k s, Stmt.ExitPost E (LGSObjects_pathNodes i k s) := by
  intro k
  induction k with
  | zero => intro s; exact ExitPost_pure _
  | succ k ih =>
    intro s
    unfold LGSObjects_pathNodes
    repeat' first
      | exact ih _
      | exact setPath_no_exit _ _
      | refine ExitPost_bind _ _ ?_ ?_
      | exact ExitPost_read _
      | exact ExitPost_get
      | exact ExitPost_lift _
      | intro _

theorem pathsRead_no_exit {E : List ai_dynamic_path → Prop} (nr ns : Nat) :
    ∀ k i, Stmt.ExitPost E (LGSObjects_pathsRead nr ns k i) := by
  intro k
  induction k with
  | zero => intro i; exact ExitPost_pure _
  | succ k ih =>
    intro i
    unfold LGSObjects_pathsRead
    repeat' first
      | exact ih _
      | exact setPath_no_exit _ _
      | exact pathNodes_no_exit _ _ _
      | exact skipNodes_no_exit _
      | refine ExitPost_bind _ _ ?_ ?_
      | exact ExitPost_read _
      | intro _

theorem pathsSkip_no_exit {σ : Type} {E : σ → Prop} (nr ns : Nat) :
    ∀ k, Stmt.ExitPost E (LGSObjects_pathsSkip nr ns k : Stmt σ Unit) := by
  intro k
  induction k with
  | zero => exact ExitPost_pure _
  | succ k ih =>
    unfold LGSObjects_pathsSkip
    repeat' first
      | exact ih
      | exact skipNodes_no_exit _
      | refine ExitPost_bind _ _ ?_ ?_
      | exact ExitPost_read _
      | intro _

theorem paths_no_exit {E : List ai_dynamic_path → Prop} (env : ObjEnv) :
    Stmt.ExitPost E (LGSObjects_paths env) := by
  unfold LGSObjects_paths LGSObjects_pathLoops
  repeat' first
    | exact pathsRead_no_exit _ _ _ _
    | exact pathsSkip_no_exit _ _ _
    | refine ExitPost_bind _ _ ?_ ?_
    | exact ExitPost_read _
    | intro _

theorem prelude_logged (P : ObjCall → Prop) (env : ObjEnv) :
    Stmt.Rel (ObjState.logged P) (LGSObjects_prelude env) := by
  unfold LGSObjects_prelude
  repeat' first
    | exact markers_logged _ _ _ _
    | refine Rel_bind (ologged_trans _) _ _ ?_ ?_
    | exact Rel_read (ologged_refl _) _
    | exact Rel_pure (ologged_refl _) _
    | exact Rel_get (ologged_refl _)
    | exact Rel_setGlobals _ _
    | intro _

theorem prelude_no_exit {E : ObjState → Prop} (env : ObjEnv) :
    Stmt.ExitPost E (LGSObjects_prelude env) := by
  unfold LGSObjects_prelude
  repeat' first
    | exact markers_no_exit _ _ _
    | refine ExitPost_bind _ _ ?_ ?_
    | exact ExitPost_read _
    | exact ExitPost_pure _
    | exact ExitPost_get
    | exact ExitPost_setGlobals _
    | intro _

theorem altPath_logged (P : ObjCall → Prop) (env : ObjEnv) :
    Stmt.Rel (ObjState.logged P) (LGSObjects_altPath env) := by
  unfold LGSObjects_altPath
  repeat' first
    | refine Rel_bind (ologged_trans _) _ _ ?_ ?_
    | exact Rel_read (ologged_refl _) _
    | exact Rel_pure (ologged_refl _) _
    | exact Rel_get (ologged_refl _)
    | exact Rel_setGlobals _ _
    | intro _

theorem altPath_no_exit {E : ObjState → Prop} (env : ObjEnv) :
    Stmt.ExitPost E (LGSObjects_altPath env) := by
  unfold LGSObjects_altPath
  repeat' first
    | refine ExitPost_bind _ _ ?_ ?_
    | exact ExitPost_read _
    | exact ExitPost_pure _
    | exact ExitPost_get
    | exact ExitPost_setGlobals _
    | intro _

/-- The statements of `LGSObjects` before the record loop make no call that links an
object or sets its orientation. -/
theorem enter_logged (env : ObjEnv) :
    Stmt.Rel (ObjState.logged fun c => c.quiet = true) (LGSObjects_enter env) := by
  unfold LGSObjects_enter
  repeat' first
    | exact prelude_logged _ _
    | exact altPath_logged _ _
    | exact clear_logged _ _ _
    | exact Rel_zoom_logged _ _ _ _ (fun _ _ => rfl)
    | exact Rel_objCall _ _ rfl
    | exact Rel_setGlobals _ _
    | refine Rel_bind (ologged_trans _) _ _ ?_ ?_
    | exact Rel_pure (ologged_refl _) _
    | (refine Rel_modify _ ?_; intro s; exact ⟨[], (List.append_nil _).symm, by simp⟩)
    | intro _

/-- The statements of `LGSObjects` before the record loop do not leave through a
label. -/
theorem enter_no_exit {E : ObjState → Prop} (env : ObjEnv) :
    Stmt.ExitPost E (LGSObjects_enter env) := by
  unfold LGSObjects_enter
  repeat' first
    | exact prelude_no_exit _
    | exact altPath_no_exit _
    | exact clear_no_exit _ _ _
    | exact ExitPost_zoom _ _ _ (paths_no_exit _)
    | exact ExitPost_objCall _
    | exact ExitPost_setGlobals _
    | exact ExitPost_modify _
    | refine ExitPost_bind _ _ ?_ ?_
    | exact ExitPost_pure _
    | intro _

/-! ### Loops that run a statement on each slot of a range -/

theorem forSlots_next (body : Nat → Stmt Slot Unit) (P : ObjCall → Prop)
    (Q : Nat → object → matrix → object → matrix → List ObjCall → Prop)
    (hbody : ∀ i fp sl fp1 r, body i fp sl = .ok (.next () fp1 r) →
      fp1 = fp ∧ r.retval = sl.retval ∧
        ∃ L, r.log = sl.log ++ L ∧ (∀ c ∈ L, P c) ∧ Q i sl.op sl.objmat r.op r.objmat L) :
    ∀ (k j : Nat) (fp fp1 : CFILE) (s s1 : ObjState),
      forSlots body k j fp s = .ok (.next () fp1 s1) →
      fp1 = fp ∧ s1.retval = s.retval ∧ s1.g = s.g ∧
        (∀ i, i < j ∨ j + k ≤ i →
          s1.Objects[i]? = s.Objects[i]? ∧ s1.objmat[i]? = s.objmat[i]?) ∧
        ∃ L, s1.log = s.log ++ L ∧ (∀ c ∈ L, P c) ∧
          ∀ i, j ≤ i → i < j + k → ∃ op mat op1 mat1 Li,
            s.Objects[i]? = some op ∧ s.objmat[i]? = some mat ∧
            s1.Objects[i]? = some op1 ∧ s1.objmat[i]? = some mat1 ∧
            Q i op mat op1 mat1 Li ∧ ∀ c ∈ Li, c ∈ L := by
  intro k
  induction k with
  | zero =>
    intro j fp fp1 s s1 h
    have h' : (pure () : Stmt ObjState Unit) fp s = .ok (.next () fp1 s1) := h
    rw [pure_next_iff] at h'
    obtain ⟨_, rfl, rfl⟩ := h'
    refine ⟨rfl, rfl, rfl, fun _ _ => ⟨rfl, rfl⟩, [], by simp, by simp, ?_⟩
    intro i h1 h2
    omega
  | succ k ih =>
    intro j fp fp1 s s1 h
    have h' : (atSlot j (body j) >>= fun _ => forSlots body k (j + 1)) fp s
        = .ok (.next () fp1 s1) := h
    rw [bind_next_iff] at h'
    obtain ⟨_, fpa, sa, h1, h2⟩ := h'
    rw [atSlot_next_iff] at h1
    obtain ⟨sl, r, hsl, hb, rfl⟩ := h1
    obtain ⟨rfl, hret, Lj, hlog, hP, hQ⟩ := hbody _ _ _ _ _ hb
    obtain ⟨rfl, hret2, hg2, hout2, L2, hlog2, hP2, hin2⟩ := ih _ _ _ _ _ h2
    obtain ⟨ho, hm, hr, hl⟩ := (slot_some_iff _ _ _).1 hsl
    refine ⟨rfl, ?_, ?_, ?_, Lj ++ L2, ?_, ?_, ?_⟩
    · rw [hret2, store_retval, hret, hr]
    · rw [hg2, store_g]
    · intro i hi
      obtain ⟨e1, e2⟩ := hout2 i (by omega)
      rw [e1, e2, store_Objects_other _ _ _ _ (by omega), store_objmat_other _ _ _ _ (by omega)]
      exact ⟨rfl, rfl⟩
    · rw [hlog2, store_log, hlog, hl, List.append_assoc]
    · intro c hc
      rcases List.mem_append.1 hc with h | h
      · exact hP c h
      · exact hP2 c h
    · intro i hi1 hi2
      by_cases hij : i = j
      · subst hij
        obtain ⟨e1, e2⟩ := hout2 i (by omega)
        refine ⟨sl.op, sl.objmat, r.op, r.objmat, Lj, ho, hm, ?_, ?_, hQ, ?_⟩
        · rw [e1]; exact store_Objects_self _ _ _ _ hsl
        · rw [e2]; exact store_objmat_self _ _ _ _ hsl
        · intro c hc; exact List.mem_append.2 (Or.inl hc)
      · obtain ⟨op, mat, op1, mat1, Li, a1, a2, a3, a4, a5, a6⟩ :=
          hin2 i (by omega) (by omega)
        rw [store_Objects_other _ _ _ _ hij] at a1
        rw [store_objmat_other _ _ _ _ hij] at a2
        exact ⟨op, mat, op1, mat1, Li, a1, a2, a3, a4, a5,
          fun c hc => List.mem_append.2 (Or.inr (a6 c hc))⟩

theorem forSlots_no_exit {E : ObjState → Prop} (body : Nat → Stmt Slot Unit)
    (hbody : ∀ i, Stmt.ExitPost (fun _ => False) (body i)) :
    ∀ k j, Stmt.ExitPost E (forSlots body k j) := by
  intro k
  induction k with
  | zero => intro j; exact ExitPost_pure _
  | succ k ih =>
    intro j
    unfold forSlots
    refine ExitPost_bind _ _ ?_ ?_
    · exact ExitPost_atSlot _ _ (hbody j)
    · intro _; exact ih _

theorem beyond_eq (env : ObjEnv) :
    ∀ k j, LGSObjects_beyond env k j = forSlots (LGSObjects_beyondSlot env) k j := by
  intro k
  induction k with
  | zero => intro j; rfl
  | succ k ih => intro j; unfold LGSObjects_beyond forSlots; rw [ih]

theorem unlist_eq :
    ∀ k j, LGSObjects_unlist k j
      = forSlots (fun _ => setOp fun op => { op with next := -1, prev := -1 }) k j := by
  intro k
  induction k with
  | zero => intro j; rfl
  | succ k ih => intro j; unfold LGSObjects_unlist forSlots; rw [ih]

theorem link_eq (env : ObjEnv) :
    ∀ k j, LGSObjects_link env k j = forSlots (LGSObjects_linkSlot env) k j := by
  intro k
  induction k with
  | zero => intro j; rfl
  | succ k ih => intro j; unfold LGSObjects_link forSlots; rw [ih]

/-! ### The statements after the record loop -/

theorem beyondSlot_next (env : ObjEnv) (i : Nat) (fp fp1 : CFILE) (sl r : Slot)
    (h : LGSObjects_beyondSlot env i fp sl = .ok (.next () fp1 r)) :
    fp1 = fp ∧ r.retval = sl.retval ∧
      ∃ L, r.log = sl.log ++ L ∧ (∀ c ∈ L, c.isLink = false) ∧ True := by
  simp only [LGSObjects_beyondSlot, ObjDelete, slotCall, setOp, run_bind, run_get, run_modify,
    run_ite, run_pure] at h
  split at h
  · simp only [Except.ok.injEq, Step.next.injEq, true_and] at h
    obtain ⟨rfl, rfl⟩ := h
    refine ⟨rfl, rfl, [.Osiris_DisableEvents env.OEM_mask, .ObjDelete i,
      .Osiris_EnableEvents env.OEM_mask], by simp, ?_, trivial⟩
    intro c hc
    simp only [List.mem_cons, List.mem_singleton, List.not_mem_nil, or_false] at hc
    rcases hc with rfl | rfl | rfl <;> rfl
  · simp only [Except.ok.injEq, Step.next.injEq, true_and] at h
    obtain ⟨rfl, rfl⟩ := h
    exact ⟨rfl, rfl, [], by simp, by simp, trivial⟩

theorem unlistSlot_next (fp fp1 : CFILE) (sl r : Slot)
    (h : (setOp fun op => { op with next := -1, prev := -1 }) fp sl = .ok (.next () fp1 r)) :
    fp1 = fp ∧ r.retval = sl.retval ∧
      ∃ L, r.log = sl.log ++ L ∧ (∀ c ∈ L, c.isLink = false) ∧
        (r.objmat = sl.objmat ∧ r.op.type = sl.op.type ∧ r.op.handle = sl.op.handle ∧
          r.op.id = sl.op.id ∧ r.op.roomnum = sl.op.roomnum) := by
  simp only [setOp, run_modify, Except.ok.injEq, Step.next.injEq, true_and] at h
  obtain ⟨rfl, rfl⟩ := h
  exact ⟨rfl, rfl, [], by simp, by simp, rfl, rfl, rfl, rfl, rfl⟩

/-- The body of the link loop keeps the kind, the handle and the id of the object; an
object that is not empty is linked into the room its `roomnum` names and given the
orientation of the side table, by the calls `ObjLink` and `ObjSetOrient` with these
values. -/
theorem linkSlot_next (env : ObjEnv) (i : Nat) (fp fp1 : CFILE) (sl r : Slot)
    (h : LGSObjects_linkSlot env i fp sl = .ok (.next () fp1 r)) :
    fp1 = fp ∧ r.retval = sl.retval ∧
      ∃ L, r.log = sl.log ++ L ∧ (∀ c ∈ L, True) ∧
        (r.objmat = sl.objmat ∧ r.op.type = sl.op.type ∧ r.op.handle = sl.op.handle ∧
          r.op.id = sl.op.id ∧
          (sl.op.type ≠ env.OBJ_NONE → r.op.roomnum = sl.op.roomnum ∧
            r.op.orient = sl.objmat ∧ ObjCall.ObjLink i sl.op.roomnum ∈ L ∧
            ObjCall.ObjSetOrient i sl.objmat ∈ L)) := by
  by_cases hne : sl.op.type ≠ env.OBJ_NONE
  · by_cases hroom : sl.op.type = env.OBJ_ROOM
    · by_cases hbig : env.size_is_big sl.op.size = true ∧
          and32 (env.linked_flags sl.op.roomnum sl.op.flags) env.OF_BIG_OBJECT = 0
      · simp only [LGSObjects_linkSlot, ObjLink, ObjSetOrient, slotCall, setOp, run_bind,
          run_get, run_modify, run_ite, run_pure, if_pos hne, if_pos hroom, if_pos hbig,
          Except.ok.injEq, Step.next.injEq, true_and] at h
        obtain ⟨rfl, rfl⟩ := h
        refine ⟨rfl, rfl, [.ObjLink i sl.op.roomnum, .ObjSetOrient i sl.objmat, .BigObjAdd i,
          .ObjSetAABB i], by simp, fun _ _ => trivial, rfl, rfl, rfl, rfl, ?_⟩
        intro _
        exact ⟨rfl, rfl, by simp, by simp⟩
      · simp only [LGSObjects_linkSlot, ObjLink, ObjSetOrient, slotCall, setOp, run_bind,
          run_get, run_modify, run_ite, run_pure, if_pos hne, if_pos hroom, if_neg hbig,
          Except.ok.injEq, Step.next.injEq, true_and] at h
        obtain ⟨rfl, rfl⟩ := h
        refine ⟨rfl, rfl, [.ObjLink i sl.op.roomnum, .ObjSetOrient i sl.objmat,
          .ObjSetAABB i], by simp, fun _ _ => trivial, rfl, rfl, rfl, rfl, ?_⟩
        intro _
        exact ⟨rfl, rfl, by simp, by simp⟩
    · simp only [LGSObjects_linkSlot, ObjLink, ObjSetOrient, slotCall, setOp, run_bind,
        run_get, run_modify, run_ite, run_pure, if_pos hne, if_neg hroom,
        Except.ok.injEq, Step.next.injEq, true_and] at h
      obtain ⟨rfl, rfl⟩ := h
      refine ⟨rfl, rfl, [.ObjLink i sl.op.roomnum, .ObjSetOrient i sl.objmat], by simp,
        fun _ _ => trivial, rfl, rfl, rfl, rfl, ?_⟩
      intro _
      exact ⟨rfl, rfl, by simp, by simp⟩
  · simp only [LGSObjects_linkSlot, run_bind, run_get, run_ite, run_pure, if_neg hne,
      Except.ok.injEq, Step.next.injEq, true_and] at h
    obtain ⟨rfl, rfl⟩ := h
    exact ⟨rfl, rfl, [], by simp, fun _ _ => trivial, rfl, rfl, rfl, rfl,
      fun hc => (hne hc).elim⟩

/-- What the statements after the record loop do: they read nothing, keep `retval`, set
`Highest_object_index`, and for every slot up to the highest index keep the kind, the
handle and the id of the object; an object that is not empty ends in the room its
`roomnum` named after the record loop, with the orientation the side table held for its
slot, by calls `ObjLink` and `ObjSetOrient` with these values. -/
theorem leave_next (env : ObjEnv) (highest : Int) (fpL fpR : CFILE) (sL s2 : ObjState)
    (h : LGSObjects_leave env highest fpL sL = .ok (.next () fpR s2)) :
    fpR = fpL ∧ s2.retval = sL.retval ∧ s2.g.Highest_object_index = highest ∧
      ∃ L2, s2.log = sL.log ++ L2 ∧
        ∀ (i : Nat) (op : object), (i : Int) ≤ highest → s2.Objects[i]? = some op →
          ∃ op0 mat, sL.Objects[i]? = some op0 ∧ sL.objmat[i]? = some mat ∧
            op.type = op0.type ∧ op.handle = op0.handle ∧ op.id = op0.id ∧
            (op0.type ≠ env.OBJ_NONE → op.roomnum = op0.roomnum ∧ op.orient = mat ∧
              ObjCall.ObjLink i op0.roomnum ∈ L2 ∧ ObjCall.ObjSetOrient i mat ∈ L2) := by
  unfold LGSObjects_leave at h
  rw [bind_next_iff] at h
  obtain ⟨_, fpa, sa, h1, h⟩ := h
  rw [bind_next_iff] at h
  obtain ⟨_, fpb, sb, h2, h⟩ := h
  rw [bind_next_iff] at h
  obtain ⟨_, fpc, sc, h3, h⟩ := h
  rw [bind_next_iff] at h
  obtain ⟨_, fpd, sd, h4, h⟩ := h
  rw [bind_next_iff] at h
  obtain ⟨_, fpe, se, h5, h6⟩ := h
  rw [beyond_eq] at h1
  obtain ⟨rfl, r1, g1, out1, La, l1, _, _⟩ :=
    forSlots_next _ (fun c => c.isLink = false) (fun _ _ _ _ _ _ => True)
      (fun i fp sl fp1 r => beyondSlot_next env i fp fp1 sl r) _ _ _ _ _ _ h1
  rw [unlist_eq] at h2
  obtain ⟨rfl, r2, g2, out2, Lb, l2, _, in2⟩ :=
    forSlots_next _ (fun c => c.isLink = false)
      (fun _ op mat op1 mat1 _ => mat1 = mat ∧ op1.type = op.type ∧ op1.handle = op.handle ∧
        op1.id = op.id ∧ op1.roomnum = op.roomnum)
      (fun _ fp sl fp1 r => unlistSlot_next fp fp1 sl r) _ _ _ _ _ _ h2
  rw [setGlobals, modify_next_iff] at h3
  obtain ⟨rfl, rfl⟩ := h3
  rw [link_eq] at h4
  obtain ⟨rfl, r4, g4, out4, Ld, l4, _, in4⟩ :=
    forSlots_next _ (fun _ => True)
      (fun i op mat op1 mat1 L => mat1 = mat ∧ op1.type = op.type ∧ op1.handle = op.handle ∧
        op1.id = op.id ∧
        (op.type ≠ env.OBJ_NONE → op1.roomnum = op.roomnum ∧ op1.orient = mat ∧
          ObjCall.ObjLink i op.roomnum ∈ L ∧ ObjCall.ObjSetOrient i mat ∈ L))
      (fun i fp sl fp1 r => linkSlot_next env i fp fp1 sl r) _ _ _ _ _ _ h4
  rw [objCall, modify_next_iff] at h5
  obtain ⟨rfl, rfl⟩ := h5
  rw [objCall, modify_next_iff] at h6
  obtain ⟨rfl, rfl⟩ := h6
  refine ⟨rfl, ?_, ?_, La ++ Lb ++ Ld ++ [.ResetFreeObjects, .ObjReInitPositionHistory], ?_,
    ?_⟩
  · show sd.retval = sL.retval
    rw [r4]
    show sb.retval = sL.retval
    rw [r2, r1]
  · show sd.g.Highest_object_index = highest
    rw [g4]
  · show sd.log ++ [ObjCall.ResetFreeObjects] ++ [ObjCall.ObjReInitPositionHistory] = _
    rw [l4]
    show sb.log ++ Ld ++ _ ++ _ = _
    rw [l2, l1]
    simp only [List.append_assoc, List.singleton_append]
  · intro i op hi hop
    have hi2 : i < 0 + (highest + 1).toNat := by omega
    obtain ⟨opc, matc, op1, mat1, Li, c1, c2, c3, _, ⟨_, q1, q2, q3, q4⟩, c6⟩ :=
      in4 i (Nat.zero_le _) hi2
    have hop1 : op1 = op := by
      have : sd.Objects[i]? = some op := hop
      rw [c3] at this
      exact Option.some.inj this
    subst hop1
    have c1b : sb.Objects[i]? = some opc := c1
    have c2b : sb.objmat[i]? = some matc := c2
    obtain ⟨o1, o2⟩ := out1 i (Or.inl (by omega))
    have hsa : ∃ opa, sa.Objects[i]? = some opa ∧ sa.objmat[i]? = some matc ∧
        opc.type = opa.type ∧ opc.handle = opa.handle ∧ opc.id = opa.id ∧
        opc.roomnum = opa.roomnum := by
      by_cases hm : i < env.MAX_OBJECTS
      · obtain ⟨opa, mata, opb, matb, _, b1, b2, b3, b4, ⟨e0, e1, e2, e3, e4⟩, _⟩ :=
          in2 i (Nat.zero_le _) (by omega)
        rw [c1b] at b3
        rw [c2b] at b4
        obtain rfl := Option.some.inj b3
        obtain rfl := Option.some.inj b4
        exact ⟨opa, b1, by rw [b2, e0], e1, e2, e3, e4⟩
      · obtain ⟨u1, u2⟩ := out2 i (Or.inr (by omega))
        exact ⟨opc, by rw [← u1]; exact c1b, by rw [← u2]; exact c2b, rfl, rfl, rfl, rfl⟩
    obtain ⟨opa, a1, a2, a3, a4, a5, a6⟩ := hsa
    refine ⟨opa, matc, by rw [← o1]; exact a1, by rw [← o2]; exact a2, by rw [q1, a3],
      by rw [q2, a4], by rw [q3, a5], ?_⟩
    intro hne
    obtain ⟨w1, w2, w3, w4⟩ := q4 (by rw [a3]; exact hne)
    refine ⟨by rw [w1, a6], w2, ?_, ?_⟩
    · rw [← a6]
      simp only [List.mem_append]
      exact Or.inl (Or.inr (c6 _ w3))
    · simp only [List.mem_append]
      exact Or.inl (Or.inr (c6 _ w4))

/-! ### The whole body of `LGSObjects` -/

theorem beyondSlot_no_exit {E : Slot → Prop} (env : ObjEnv) (i : Nat) :
    Stmt.ExitPost E (LGSObjects_beyondSlot env i) := by
  repeat' first
    | refine ExitPost_bind _ _ ?_ ?_
    | exact ExitPost_pure _
    | exact ExitPost_get
    | exact ExitPost_modify _
    | refine ExitPost_ite _ _ _ ?_ ?_
    | intro _

theorem linkSlot_no_exit {E : Slot → Prop} (env : ObjEnv) (i : Nat) :
    Stmt.ExitPost E (LGSObjects_linkSlot env i) := by
  repeat' first
    | refine ExitPost_bind _ _ ?_ ?_
    | exact ExitPost_pure _
    | exact ExitPost_get
    | exact ExitPost_modify _
    | refine ExitPost_ite _ _ _ ?_ ?_
    | intro _

/-- The statements after the record loop do not leave through a label. -/
theorem leave_no_exit {E : ObjState → Prop} (env : ObjEnv) (highest : Int) :
    Stmt.ExitPost E (LGSObjects_leave env highest) := by
  unfold LGSObjects_leave
  rw [beyond_eq, unlist_eq, link_eq]
  repeat' first
    | exact forSlots_no_exit _ (fun i => beyondSlot_no_exit env i) _ _
    | exact forSlots_no_exit _ (fun i => linkSlot_no_exit env i) _ _
    | exact forSlots_no_exit _ (fun _ => ExitPost_modify _) _ _
    | exact ExitPost_objCall _
    | exact ExitPost_setGlobals _
    | refine ExitPost_bind _ _ ?_ ?_
    | intro _

/-- The record loop makes no call that links an object or sets its orientation. -/
theorem records_logged (env : ObjEnv) (gs : gs_tables) (version : Int) :
    ∀ k i, Stmt.Rel (ObjState.logged fun c => c.quiet = true)
      (LGSObjects_records env gs version k i) := by
  intro k
  induction k with
  | zero => intro i; exact Rel_pure (ologged_refl _) _
  | succ k ih =>
    intro i
    rw [records_succ]
    refine Rel_bind (ologged_trans _) _ _ ?_ ?_
    · unfold LGSObjects_slot
      repeat' first
        | exact Rel_atSlot_logged _ _ _ (empty_logged env i)
        | exact Rel_atSlot_logged _ _ _ (record_logged env gs version i _ _)
        | refine Rel_bind (ologged_trans _) _ _ ?_ ?_
        | exact Rel_read (ologged_refl _) _
        | refine Rel_ite _ _ _ ?_ ?_
        | intro _
    · intro _; exact ih _

/-- The body of `LGSObjects` leaves through a label only with a failure code in
`retval`. -/
theorem body_exit_failed (env : ObjEnv) (gs : gs_tables) (version : Int)
    (fp fpE : CFILE) (s sE : ObjState) (l : Label)
    (h : LGSObjects_body env gs version fp s = .ok (.exit l fpE sE)) :
    sE.retval ≠ LGS.OK := by
  unfold LGSObjects_body at h
  rw [bind_exit_iff] at h
  rcases h with h | ⟨highest, fp0, s0, _, h⟩
  · exact ((enter_no_exit env : Stmt.ExitPost (fun _ => False) _) _ _ _ _ _ h).elim
  · rw [bind_exit_iff] at h
    rcases h with h | ⟨_, fpL, sL, _, h⟩
    · obtain ⟨a, fp1, s1, _, _, hs⟩ := records_exit _ _ _ _ _ _ _ _ _ _ h
      exact slot_exit_failed _ _ _ _ _ _ _ _ _ hs
    · exact ((leave_no_exit env highest : Stmt.ExitPost (fun _ => False) _) _ _ _ _ _ h).elim

/-- A run of `LGSObjects` that returns `LGS_OK` went through the three parts of the body
to the end. -/
theorem LGSObjects_ok (env : ObjEnv) (gs : gs_tables) (version : Int)
    (fp fpR : CFILE) (s sR : ObjState)
    (h : LGSObjects env gs version fp s = .ok (LGS.OK, fpR, sR)) :
    ∃ highest fp0 s0 fpL sL s2,
      LGSObjects_enter env fp s = .ok (.next highest fp0 s0) ∧
      LGSObjects_records env gs version (highest + 1).toNat 0 fp0 s0 = .ok (.next () fpL sL) ∧
      LGSObjects_leave env highest fpL sL = .ok (.next () fpR s2) ∧
      sR = { s2 with log := s2.log ++ [ObjCall.Osiris_EnableCreateEvents] } := by
  unfold LGSObjects at h
  cases hb : LGSObjects_body env gs version fp s with
  | error e => rw [hb] at h; cases h
  | ok out =>
    rw [hb] at h
    cases out with
    | exit l fpE sE =>
      have hf := body_exit_failed _ _ _ _ _ _ _ _ hb
      cases l
      · simp only [Except.ok.injEq, Prod.mk.injEq] at h
        exact (hf h.1).elim
      · simp only [Except.ok.injEq, Prod.mk.injEq] at h
        exact (hf h.1).elim
    | next u fp2 s2 =>
      simp only [Except.ok.injEq, Prod.mk.injEq] at h
      obtain ⟨_, rfl, rfl⟩ := h
      unfold LGSObjects_body at hb
      rw [bind_next_iff] at hb
      obtain ⟨highest, fp0, s0, h1, hb⟩ := hb
      rw [bind_next_iff] at hb
      obtain ⟨_, fpL, sL, h2, h3⟩ := hb
      exact ⟨highest, fp0, s0, fpL, sL, s2, h1, h2, h3, rfl⟩

theorem savedAt_eq (env : ObjEnv) (gs : gs_tables) (version : Int) (i : Nat)
    (fp fpi fpK fp3 fpH fpP : CFILE) (s si : ObjState) (highest : Int) (type l dummy : Nat)
    (handle roomnum : Int) (m : matrix)
    (harrive : LGSObjects_arrive env gs version i fp s = .ok (.next highest fpi si))
    (hkind : savedKind fpi = .ok (type, fpK)) (hlight : savedLighting fpK = .ok (l, fp3))
    (hhandle : savedHandle env fp3 = .ok (handle, fpH))
    (hplace : savedPlacement fpH = .ok ((dummy, roomnum, m), fpP)) :
    savedAt env gs version i fp s = some (type, handle, roomnum, m) := by
  simp only [savedAt, harrive, arrival, hkind, hlight, hhandle, hplace]

/-- After the records of the slots below `k`, every slot below `k` that is not empty
holds the kind tag, the handle and the room number its own record held, the side table
holds the orientation of that record, and the slot bits of the handle are the slot. -/
theorem records_inv (env : ObjEnv) (gs : gs_tables) (version : Int) (fp fp0 : CFILE)
    (s s0 : ObjState) (highest : Int)
    (henter : LGSObjects_enter env fp s = .ok (.next highest fp0 s0)) :
    ∀ (k : Nat) (fpk : CFILE) (sk : ObjState),
      LGSObjects_records env gs version k 0 fp0 s0 = .ok (.next () fpk sk) →
      ∀ (i : Nat) (op : object), i < k → sk.Objects[i]? = some op → op.type ≠ env.OBJ_NONE →
        ∃ m, sk.objmat[i]? = some m ∧
          savedAt env gs version i fp s = some (op.type, op.handle, op.roomnum, m) ∧
          and32 op.handle env.HANDLE_OBJNUM_MASK = Int.ofNat i := by
  intro k
  induction k with
  | zero => intro fpk sk _ i op hi; omega
  | succ k ih =>
    intro fp2 s2 h i op hi hop hne
    rw [records_snoc] at h
    obtain ⟨fp1, s1, hk, hs⟩ := h
    rw [Nat.zero_add] at hs
    obtain ⟨type, fpK, hkind, hl⟩ := slot_reads _ _ _ _ _ _ _ hs
    have harrive : LGSObjects_arrive env gs version k fp s = .ok (.next highest fp1 s1) :=
      (arrive_next_iff _ _ _ _ _ _ _ _ _).2 ⟨fp0, s0, henter, hk⟩
    by_cases hty : type = env.OBJ_NONE
    · subst hty
      rw [slot_empty _ _ _ _ _ _ _ hkind, atSlot_next_iff] at hs
      obtain ⟨sl, r, hsl, hrun, rfl⟩ := hs
      by_cases hik : i = k
      · subst hik
        rw [store_Objects_self _ _ _ _ hsl] at hop
        obtain rfl := Option.some.inj hop
        exact (hne (empty_next _ _ _ _ _ _ hrun).1).elim
      · rw [store_Objects_other _ _ _ _ hik] at hop
        obtain ⟨m, hm, hsaved, hmask⟩ := ih _ _ hk i op (by omega) hop hne
        exact ⟨m, by rw [store_objmat_other _ _ _ _ hik]; exact hm, hsaved, hmask⟩
    · obtain ⟨l, fp3, hlight⟩ := hl hty
      rw [slot_filled _ _ _ _ _ _ _ _ _ _ hkind hty hlight, atSlot_next_iff] at hs
      obtain ⟨sl, r, hsl, hrun, rfl⟩ := hs
      by_cases hik : i = k
      · subst hik
        rw [store_Objects_self _ _ _ _ hsl] at hop
        obtain rfl := Option.some.inj hop
        obtain ⟨handle, fpH, dummy, roomnum, fpP, fpJ, saved, hH, hmask, hP, _, _, ht, hh,
          _, hr, _⟩ := record_next _ _ _ _ _ _ _ _ _ _ hrun
        refine ⟨r.objmat, store_objmat_self _ _ _ _ hsl, ?_, ?_⟩
        · rw [ht, hh, hr]
          exact savedAt_eq _ _ _ _ _ _ _ _ _ _ _ _ _ _ _ _ _ _ _ harrive hkind hlight hH hP
        · rw [hh]; exact hmask
      · rw [store_Objects_other _ _ _ _ hik] at hop
        obtain ⟨m, hm, hsaved, hmask⟩ := ih _ _ hk i op (by omega) hop hne
        exact ⟨m, by rw [store_objmat_other _ _ _ _ hik]; exact hm, hsaved, hmask⟩

/-! ### `retval` when the body falls through -/

theorem markers_keeps_retval (env : ObjEnv) :
    ∀ k i, Stmt.Rel (Keep fun s : ObjState => s.retval) (LGSObjects_markers env k i) := by
  intro k
  induction k with
  | zero => intro i; exact Rel_pure (Keep_refl _) _
  | succ k ih =>
    intro i
    unfold LGSObjects_markers setGlobals
    repeat' first
      | exact ih _
      | refine Rel_bind (Keep_trans _) _ _ ?_ ?_
      | exact Rel_read (Keep_refl _) _
      | exact Rel_pure (Keep_refl _) _
      | exact Rel_get (Keep_refl _)
      | exact Rel_lift (Keep_refl _) _
      | (refine Rel_modify _ ?_; intro s; rfl)
      | intro _

theorem prelude_keeps_retval (env : ObjEnv) :
    Stmt.Rel (Keep fun s : ObjState => s.retval) (LGSObjects_prelude env) := by
  unfold LGSObjects_prelude setGlobals
  repeat' first
    | exact markers_keeps_retval _ _ _
    | refine Rel_bind (Keep_trans _) _ _ ?_ ?_
    | exact Rel_read (Keep_refl _) _
    | exact Rel_pure (Keep_refl _) _
    | exact Rel_get (Keep_refl _)
    | (refine Rel_modify _ ?_; intro s; rfl)
    | intro _

theorem altPath_keeps_retval (env : ObjEnv) :
    Stmt.Rel (Keep fun s : ObjState => s.retval) (LGSObjects_altPath env) := by
  unfold LGSObjects_altPath setGlobals
  repeat' first
    | refine Rel_bind (Keep_trans _) _ _ ?_ ?_
    | exact Rel_read (Keep_refl _) _
    | exact Rel_pure (Keep_refl _) _
    | exact Rel_get (Keep_refl _)
    | (refine Rel_modify _ ?_; intro s; rfl)
    | intro _

theorem clearSlot_keeps_retval (env : ObjEnv) (i : Nat) :
    Stmt.Rel (Keep fun s : Slot => s.retval) (LGSObjects_clearSlot env i) := by
  repeat' first
    | refine Rel_bind (Keep_trans _) _ _ ?_ ?_
    | exact Rel_pure (Keep_refl _) _
    | exact Rel_get (Keep_refl _)
    | refine Rel_ite _ _ _ ?_ ?_
    | (refine Rel_modify _ ?_; intro s; rfl)
    | intro _

theorem Rel_atSlot_retval {α : Type} (i : Nat) (m : Stmt Slot α)
    (hm : Stmt.Rel (Keep fun s : Slot => s.retval) m) :
    Stmt.Rel (Keep fun s : ObjState => s.retval) (atSlot i m) := by
  intro fp s out h
  unfold atSlot at h
  cases hs : s.slot i with
  | none => rw [hs] at h; cases h
  | some sl =>
    rw [hs] at h
    simp only [] at h
    have hret : sl.retval = s.retval := ((slot_some_iff _ _ _).1 hs).2.2.1
    cases hr : m fp sl with
    | error e => rw [hr] at h; cases h
    | ok st =>
      have hrel := hm fp sl st hr
      rw [hr] at h
      cases st with
      | next a fp1 r =>
        cases h
        exact hrel.trans hret
      | exit l fp1 r =>
        cases h
        exact hrel.trans hret

theorem clear_keeps_retval (env : ObjEnv) :
    ∀ k i, Stmt.Rel (Keep fun s : ObjState => s.retval) (LGSObjects_clear env k i) := by
  intro k
  induction k with
  | zero => intro i; exact Rel_pure (Keep_refl _) _
  | succ k ih =>
    intro i
    unfold LGSObjects_clear
    refine Rel_bind (Keep_trans _) _ _ ?_ ?_
    · exact Rel_atSlot_retval _ _ (clearSlot_keeps_retval env i)
    · intro _; exact ih _

theorem Rel_zoom_retval {τ α : Type} (get : ObjState → τ) (set : ObjState → τ → ObjState)
    (m : Stmt τ α) (hset : ∀ s t, (set s t).retval = s.retval) :
    Stmt.Rel (Keep fun s : ObjState => s.retval) (Stmt.zoom get set m) := by
  intro fp s out h
  unfold Stmt.zoom at h
  cases hr : m fp (get s) with
  | error e => rw [hr] at h; cases h
  | ok st =>
    rw [hr] at h
    cases st with
    | next a fp1 t => cases h; exact hset _ _
    | exit l fp1 t => cases h; exact hset _ _

/-- The record loop is entered with `retval` holding `LGS_OK`. -/
theorem enter_retval (env : ObjEnv) (fp fp0 : CFILE) (s s0 : ObjState) (highest : Int)
    (h : LGSObjects_enter env fp s = .ok (.next highest fp0 s0)) : s0.retval = LGS.OK := by
  unfold LGSObjects_enter at h
  rw [bind_next_iff] at h
  obtain ⟨_, fpa, sa, h1, h⟩ := h
  rw [bind_next_iff] at h
  obtain ⟨_, fpb, sb, h2, h⟩ := h
  rw [modify_next_iff] at h2
  obtain ⟨rfl, rfl⟩ := h2
  have hrest : Stmt.Rel (Keep fun s : ObjState => s.retval)
      (do
        objCall .Osiris_DisableCreateEvents
        objCall .InitBigObjects
        let highest_index ← LGSObjects_prelude env
        Stmt.zoom (fun s => s.g.AIDynamicPath) (fun s p => { s with g.AIDynamicPath := p })
          (LGSObjects_paths env)
        LGSObjects_altPath env
        objCall (.Osiris_DisableEvents env.OEM_mask)
        LGSObjects_clear env env.MAX_OBJECTS 0
        objCall (.Osiris_EnableEvents env.OEM_mask)
        pure highest_index) := by
    unfold objCall
    repeat' first
      | exact prelude_keeps_retval _
      | exact altPath_keeps_retval _
      | exact clear_keeps_retval _ _ _
      | exact Rel_zoom_retval _ _ _ (fun _ _ => rfl)
      | refine Rel_bind (Keep_trans _) _ _ ?_ ?_
      | exact Rel_pure (Keep_refl _) _
      | (refine Rel_modify _ ?_; intro s; rfl)
      | intro _
  exact hrest _ _ _ h

/-- The record loop falls through with `retval` holding `LGS_OK` when it is entered
so. -/
theorem records_retval (env : ObjEnv) (gs : gs_tables) (version : Int) :
    ∀ (k j : Nat) (fp fp1 : CFILE) (s s1 : ObjState),
      LGSObjects_records env gs version k j fp s = .ok (.next () fp1 s1) →
      s.retval = LGS.OK → s1.retval = LGS.OK := by
  intro k
  induction k with
  | zero =>
    intro j fp fp1 s s1 h hs
    rw [records_zero, pure_next_iff] at h
    obtain ⟨_, _, rfl⟩ := h
    exact hs
  | succ k ih =>
    intro j fp fp1 s s1 h hs
    rw [records_succ, bind_next_iff] at h
    obtain ⟨_, fpa, sa, h1, h2⟩ := h
    refine ih _ _ _ _ _ h2 ?_
    obtain ⟨type, fpK, hkind, hl⟩ := slot_reads _ _ _ _ _ _ _ h1
    by_cases hty : type = env.OBJ_NONE
    · subst hty
      rw [slot_empty _ _ _ _ _ _ _ hkind, atSlot_next_iff] at h1
      obtain ⟨sl, r, hsl, hrun, rfl⟩ := h1
      rw [store_retval, (empty_next _ _ _ _ _ _ hrun).2.1, ((slot_some_iff _ _ _).1 hsl).2.2.1]
      exact hs
    · obtain ⟨l, fp3, hlight⟩ := hl hty
      rw [slot_filled _ _ _ _ _ _ _ _ _ _ hkind hty hlight, atSlot_next_iff] at h1
      obtain ⟨sl, r, hsl, hrun, rfl⟩ := h1
      obtain ⟨_, _, _, _, _, _, _, _, _, _, _, _, _, _, _, _, hret⟩ :=
        record_next _ _ _ _ _ _ _ _ _ _ hrun
      exact hret

theorem quiet_not_link (c : ObjCall) (h : c.quiet = true) : c.isLink = false := by
  cases c <;> first | rfl | cases h

theorem quiet_not_enable (c : ObjCall) (h : c.quiet = true) :
    c ≠ ObjCall.Osiris_EnableCreateEvents := by
  intro hc
  subst hc
  cases h

/-- When the body of `LGSObjects` leaves through a label, no call that links an object
or sets its orientation has been made. -/
theorem body_exit_logged (env : ObjEnv) (gs : gs_tables) (version : Int)
    (fp fpE : CFILE) (s sE : ObjState) (l : Label)
    (h : LGSObjects_body env gs version fp s = .ok (.exit l fpE sE)) :
    ObjState.logged (fun c => c.quiet = true) s sE := by
  unfold LGSObjects_body at h
  rw [bind_exit_iff] at h
  rcases h with h | ⟨highest, fp0, s0, h0, h⟩
  · exact ((enter_no_exit env : Stmt.ExitPost (fun _ => False) _) _ _ _ _ _ h).elim
  · rw [bind_exit_iff] at h
    rcases h with h | ⟨_, fpL, sL, _, h⟩
    · exact ologged_trans _ _ _ _ (enter_logged env _ _ _ h0)
        (records_logged env gs version _ _ _ _ _ h)
    · exact ((leave_no_exit env highest : Stmt.ExitPost (fun _ => False) _) _ _ _ _ _ h).elim

/-- A run of `LGSObjects` that returns a failure code left its body through a label. -/
theorem LGSObjects_failed (env : ObjEnv) (gs : gs_tables) (version : Int)
    (fp fpR : CFILE) (s sR : ObjState) (code : LGS) (hcode : code ≠ LGS.OK)
    (h : LGSObjects env gs version fp s = .ok (code, fpR, sR)) :
    ∃ l sE, LGSObjects_body env gs version fp s = .ok (.exit l fpR sE) ∧
      ∃ L, sR.log = sE.log ++ L ∧ ∀ c ∈ L, c = ObjCall.Osiris_EnableCreateEvents := by
  unfold LGSObjects at h
  cases hb : LGSObjects_body env gs version fp s with
  | error e => rw [hb] at h; cases h
  | ok out =>
    rw [hb] at h
    cases out with
    | exit l fpE sE =>
      cases l with
      | lgsobjs_fail =>
        simp only [Except.ok.injEq, Prod.mk.injEq] at h
        obtain ⟨_, rfl, rfl⟩ := h
        exact ⟨_, sE, rfl, [_], rfl, by simp⟩
      | done =>
        simp only [Except.ok.injEq, Prod.mk.injEq] at h
        obtain ⟨_, rfl, rfl⟩ := h
        exact ⟨_, sE, rfl, [], by simp, by simp⟩
    | next u fp2 s2 =>
      simp only [Except.ok.injEq, Prod.mk.injEq] at h
      obtain ⟨hc, _, _⟩ := h
      unfold LGSObjects_body at hb
      rw [bind_next_iff] at hb
      obtain ⟨highest, fp0, s0, h1, hb⟩ := hb
      rw [bind_next_iff] at hb
      obtain ⟨_, fpL, sL, h2, h3⟩ := hb
      obtain ⟨_, hret, _⟩ := leave_next _ _ _ _ _ _ h3
      have := records_retval _ _ _ _ _ _ _ _ _ h2 (enter_retval _ _ _ _ _ _ h1)
      rw [hret, this] at hc
      exact (hcode hc.symm).elim

theorem returned_eq (r : Except Fault (LGS × CFILE × ObjState)) (c : LGS)
    (d : CFILE × ObjState) (h : objReturned r = some c) :
    r = .ok (c, (objEnd r d).1, (objEnd r d).2) := by
  cases r with
  | error e => cases h
  | ok p =>
    obtain ⟨c1, fp, s⟩ := p
    simp only [objReturned, Option.some.injEq] at h
    subst h
    rfl

/-! ### The create-events of the script host -/

/-- The statements before the record loop disable the create-events and do not enable
them again. -/
theorem enter_disables (env : ObjEnv) (fp fp0 : CFILE) (s s0 : ObjState) (highest : Int)
    (h : LGSObjects_enter env fp s = .ok (.next highest fp0 s0)) :
    ∃ L, s0.log = s.log ++ [ObjCall.Osiris_DisableCreateEvents] ++ L ∧
      ∀ c ∈ L, c.quiet = true := by
  unfold LGSObjects_enter at h
  rw [bind_next_iff] at h
  obtain ⟨_, fpa, sa, h1, h⟩ := h
  rw [setGlobals, modify_next_iff] at h1
  obtain ⟨rfl, rfl⟩ := h1
  rw [bind_next_iff] at h
  obtain ⟨_, fpb, sb, h2, h⟩ := h
  rw [modify_next_iff] at h2
  obtain ⟨rfl, rfl⟩ := h2
  rw [bind_next_iff] at h
  obtain ⟨_, fpc, sc, h3, h⟩ := h
  rw [objCall, modify_next_iff] at h3
  obtain ⟨rfl, rfl⟩ := h3
  have hrest : Stmt.Rel (ObjState.logged fun c => c.quiet = true)
      (do
        objCall .InitBigObjects
        let highest_index ← LGSObjects_prelude env
        Stmt.zoom (fun s => s.g.AIDynamicPath) (fun s p => { s with g.AIDynamicPath := p })
          (LGSObjects_paths env)
        LGSObjects_altPath env
        objCall (.Osiris_DisableEvents env.OEM_mask)
        LGSObjects_clear env env.MAX_OBJECTS 0
        objCall (.Osiris_EnableEvents env.OEM_mask)
        pure highest_index) := by
    repeat' first
      | exact prelude_logged _ _
      | exact altPath_logged _ _
      | exact clear_logged _ _ _
      | exact Rel_zoom_logged _ _ _ _ (fun _ _ => rfl)
      | exact Rel_objCall _ _ rfl
      | refine Rel_bind (ologged_trans _) _ _ ?_ ?_
      | exact Rel_pure (ologged_refl _) _
      | intro _
  obtain ⟨L, hL, hP⟩ := hrest _ _ _ h
  exact ⟨L, hL, hP⟩

/-- When the body of `LGSObjects` leaves for the label `done`, the function returns a
failure code with the create-events disabled at entry and not enabled again. -/
theorem done_skips_create_enable (env : ObjEnv) (gs : gs_tables) (version : Int)
    (fp fpE : CFILE) (s sE : ObjState)
    (hbody : LGSObjects_body env gs version fp s = .ok (.exit .done fpE sE)) :
    LGSObjects env gs version fp s = .ok (sE.retval, fpE, sE) ∧ sE.retval ≠ LGS.OK ∧
      ∃ L, sE.log = s.log ++ [ObjCall.Osiris_DisableCreateEvents] ++ L ∧
        ObjCall.Osiris_EnableCreateEvents ∉ L := by
  refine ⟨?_, body_exit_failed _ _ _ _ _ _ _ _ hbody, ?_⟩
  · unfold LGSObjects
    rw [hbody]
  · unfold LGSObjects_body at hbody
    rw [bind_exit_iff] at hbody
    rcases hbody with h | ⟨highest, fp0, s0, h0, h⟩
    · exact ((enter_no_exit env : Stmt.ExitPost (fun _ => False) _) _ _ _ _ _ h).elim
    · rw [bind_exit_iff] at h
      rcases h with h | ⟨_, fpL, sL, _, h⟩
      · obtain ⟨L0, hL0, hP0⟩ := enter_disables _ _ _ _ _ _ h0
        obtain ⟨L1, hL1, hP1⟩ := records_logged env gs version _ _ _ _ _ h
        refine ⟨L0 ++ L1, ?_, ?_⟩
        · show sE.log = _
          have : sE.log = s0.log ++ L1 := hL1
          rw [this, hL0, List.append_assoc]
        · intro hc
          rcases List.mem_append.1 hc with hm | hm
          · exact quiet_not_enable _ (hP0 _ hm) rfl
          · exact quiet_not_enable _ (hP1 _ hm) rfl
      · exact ((leave_no_exit env highest : Stmt.ExitPost (fun _ => False) _) _ _ _ _ _
          h).elim

/-! ### Which slots are live after the restore -/

theorem savedKindAt_eq (env : ObjEnv) (gs : gs_tables) (version : Int) (i : Nat)
    (fp fpi fpK : CFILE) (s si : ObjState) (highest : Int) (type : Nat)
    (harrive : LGSObjects_arrive env gs version i fp s = .ok (.next highest fpi si))
    (hkind : savedKind fpi = .ok (type, fpK)) :
    savedKindAt env gs version i fp s = some type := by
  simp only [savedKindAt, harrive, arrival, hkind]

/-- After the records of the slots below `k`, every slot below `k` holds the kind tag of
its own record. -/
theorem records_kind_inv (env : ObjEnv) (gs : gs_tables) (version : Int) (fp fp0 : CFILE)
    (s s0 : ObjState) (highest : Int)
    (henter : LGSObjects_enter env fp s = .ok (.next highest fp0 s0)) :
    ∀ (k : Nat) (fpk : CFILE) (sk : ObjState),
      LGSObjects_records env gs version k 0 fp0 s0 = .ok (.next () fpk sk) →
      ∀ (i : Nat) (op : object), i < k → sk.Objects[i]? = some op →
        savedKindAt env gs version i fp s = some op.type := by
  intro k
  induction k with
  | zero => intro fpk sk _ i op hi; omega
  | succ k ih =>
    intro fp2 s2 h i op hi hop
    rw [records_snoc] at h
    obtain ⟨fp1, s1, hk, hs⟩ := h
    rw [Nat.zero_add] at hs
    obtain ⟨type, fpK, hkind, hl⟩ := slot_reads _ _ _ _ _ _ _ hs
    have harrive : LGSObjects_arrive env gs version k fp s = .ok (.next highest fp1 s1) :=
      (arrive_next_iff _ _ _ _ _ _ _ _ _).2 ⟨fp0, s0, henter, hk⟩
    by_cases hty : type = env.OBJ_NONE
    · subst hty
      rw [slot_empty _ _ _ _ _ _ _ hkind, atSlot_next_iff] at hs
      obtain ⟨sl, r, hsl, hrun, rfl⟩ := hs
      by_cases hik : i = k
      · subst hik
        rw [store_Objects_self _ _ _ _ hsl] at hop
        obtain rfl := Option.some.inj hop
        rw [(empty_next _ _ _ _ _ _ hrun).1]
        exact savedKindAt_eq _ _ _ _ _ _ _ _ _ _ _ harrive hkind
      · rw [store_Objects_other _ _ _ _ hik] at hop
        exact ih _ _ hk i op (by omega) hop
    · obtain ⟨l, fp3, hlight⟩ := hl hty
      rw [slot_filled _ _ _ _ _ _ _ _ _ _ hkind hty hlight, atSlot_next_iff] at hs
      obtain ⟨sl, r, hsl, hrun, rfl⟩ := hs
      by_cases hik : i = k
      · subst hik
        rw [store_Objects_self _ _ _ _ hsl] at hop
        obtain rfl := Option.some.inj hop
        obtain ⟨_, _, _, _, _, _, _, _, _, _, _, _, ht, _⟩ :=
          record_next _ _ _ _ _ _ _ _ _ _ hrun
        rw [ht]
        exact savedKindAt_eq _ _ _ _ _ _ _ _ _ _ _ harrive hkind
      · rw [store_Objects_other _ _ _ _ hik] at hop
        exact ih _ _ hk i op (by omega) hop

theorem beyondSlot_empties (env : ObjEnv) (i : Nat) (fp fp1 : CFILE) (sl r : Slot)
    (h : LGSObjects_beyondSlot env i fp sl = .ok (.next () fp1 r)) :
    fp1 = fp ∧ r.retval = sl.retval ∧
      ∃ L, r.log = sl.log ++ L ∧ (∀ c ∈ L, True) ∧ r.op.type = env.OBJ_NONE := by
  by_cases hne : sl.op.type ≠ env.OBJ_NONE
  · simp only [LGSObjects_beyondSlot, ObjDelete, slotCall, setOp, run_bind, run_get,
      run_modify, run_ite, if_pos hne, Except.ok.injEq, Step.next.injEq, true_and] at h
    obtain ⟨rfl, rfl⟩ := h
    exact ⟨rfl, rfl, _, by simp only [List.append_assoc]; rfl, fun _ _ => trivial, rfl⟩
  · simp only [LGSObjects_beyondSlot, run_bind, run_get, run_ite, if_neg hne, run_pure,
      Except.ok.injEq, Step.next.injEq, true_and] at h
    obtain ⟨rfl, rfl⟩ := h
    exact ⟨rfl, rfl, [], by simp, fun _ _ => trivial, not_not.mp hne⟩

/-- After the statements that follow the record loop, every slot beyond the highest
index, up to `MAX_OBJECTS`, is empty. -/
theorem leave_beyond (env : ObjEnv) (highest : Int) (fpL fpR : CFILE) (sL s2 : ObjState)
    (h : LGSObjects_leave env highest fpL sL = .ok (.next () fpR s2)) :
    ∀ (i : Nat) (op : object), highest < (i : Int) → i < env.MAX_OBJECTS →
      s2.Objects[i]? = some op → op.type = env.OBJ_NONE := by
  intro i op hi hmax hop
  unfold LGSObjects_leave at h
  rw [bind_next_iff] at h
  obtain ⟨_, fpa, sa, h1, h⟩ := h
  rw [bind_next_iff] at h
  obtain ⟨_, fpb, sb, h2, h⟩ := h
  rw [bind_next_iff] at h
  obtain ⟨_, fpc, sc, h3, h⟩ := h
  rw [bind_next_iff] at h
  obtain ⟨_, fpd, sd, h4, h⟩ := h
  rw [bind_next_iff] at h
  obtain ⟨_, fpe, se, h5, h6⟩ := h
  rw [beyond_eq] at h1
  obtain ⟨_, _, _, _, La, _, _, in1⟩ :=
    forSlots_next _ (fun _ => True) (fun _ _ _ op1 _ _ => op1.type = env.OBJ_NONE)
      (fun i fp sl fp1 r => beyondSlot_empties env i fp fp1 sl r) _ _ _ _ _ _ h1
  rw [unlist_eq] at h2
  obtain ⟨_, _, _, _, Lb, _, _, in2⟩ :=
    forSlots_next _ (fun c => c.isLink = false)
      (fun _ op mat op1 mat1 _ => mat1 = mat ∧ op1.type = op.type ∧ op1.handle = op.handle ∧
        op1.id = op.id ∧ op1.roomnum = op.roomnum)
      (fun _ fp sl fp1 r => unlistSlot_next fp fp1 sl r) _ _ _ _ _ _ h2
  rw [setGlobals, modify_next_iff] at h3
  obtain ⟨rfl, rfl⟩ := h3
  rw [link_eq] at h4
  obtain ⟨_, _, _, out4, _, _, _, _⟩ :=
    forSlots_next _ (fun _ => True)
      (fun i op mat op1 mat1 L => mat1 = mat ∧ op1.type = op.type ∧ op1.handle = op.handle ∧
        op1.id = op.id ∧
        (op.type ≠ env.OBJ_NONE → op1.roomnum = op.roomnum ∧ op1.orient = mat ∧
          ObjCall.ObjLink i op.roomnum ∈ L ∧ ObjCall.ObjSetOrient i mat ∈ L))
      (fun i fp sl fp1 r => linkSlot_next env i fp fp1 sl r) _ _ _ _ _ _ h4
  rw [objCall, modify_next_iff] at h5
  obtain ⟨rfl, rfl⟩ := h5
  rw [objCall, modify_next_iff] at h6
  obtain ⟨rfl, rfl⟩ := h6
  have hop4 : sd.Objects[i]? = some op := hop
  rw [(out4 i (Or.inr (by omega))).1] at hop4
  have hopb : sb.Objects[i]? = some op := hop4
  obtain ⟨opa, _, opb, _, _, b1, _, b3, _, ⟨_, e1, _⟩, _⟩ := in2 i (Nat.zero_le _) (by omega)
  rw [hopb] at b3
  obtain rfl := Option.some.inj b3
  obtain ⟨_, _, op1, _, _, _, _, a3, _, a5, _⟩ := in1 i (by omega) (by omega)
  rw [b1] at a3
  obtain rfl := Option.some.inj a3
  rw [e1]
  exact a5

/-! ### The guarded remaps of the record loop -/

theorem xlateGuarded_neg (t : List Int) (s : Int) (h : s < 0) : xlateGuarded t s = .ok (-1) := by
  have hg : ¬ s > -1 := by omega
  simp only [xlateGuarded, if_neg hg]

theorem xlateGuarded_nonneg (t : List Int) (s : Int) (h : 0 ≤ s) :
    xlateGuarded t s = tableRead t s := by
  have hg : s > -1 := by omega
  simp only [xlateGuarded, if_pos hg]

theorem toShort_id (s : Int) (h0 : -32768 ≤ s) (h1 : s ≤ 32767) : toShort s = s := by
  unfold toShort
  omega

/-- The control block of a fireball: the block is copied whole and the bitmap handle in
it goes through the guarded remap. -/
theorem ctype_fireball_next (env : ObjEnv) (gs : gs_tables) (fp fp1 fp2 : CFILE) (sl : Slot)
    (bytes : List Nat) (bm : Int)
    (hsize : cf_ReadShort fp = .ok (Int.ofNat env.sizeof_ctype, fp1))
    (hbytes : readCount (Int.ofNat env.sizeof_ctype) fp1 = .ok (bytes, fp2))
    (hbm : xlateGuarded gs.bm_handles (env.blast_bm_handle.get bytes) = .ok bm) :
    LGSObjects_ctype env gs env.OBJ_FIREBALL fp sl
      = .ok (.next () fp2
          { sl with op := { sl.op with ctype := env.blast_bm_handle.set bytes bm } }) := by
  simp only [LGSObjects_ctype, run_bind, run_read, hsize, run_ite, ne_eq, not_true_eq_false,
    if_false, if_true, hbytes, setOp, run_modify, run_get, run_lift, hbm]

/-- The paging switch falls through where it started and leaves the render block
alone. -/
theorem pageModel_next (env : ObjEnv) (type : Nat) (new_model : Int) (fp : CFILE) (s : Slot) :
    ∃ s1, LGSObjects_pageModel env type new_model fp s = .ok (.next () fp s1) ∧
      s1.op.rtype = s.op.rtype := by
  simp only [LGSObjects_pageModel, run_bind, run_get, run_ite, slotCall, setOp, run_modify]
  split_ifs <;> exact ⟨_, rfl, rfl⟩

theorem run_setOp (f : object → object) (fp : CFILE) (s : Slot) :
    setOp f fp s = .ok (.next () fp { s with op := f s.op }) := rfl

/-- The paging condition answers when the element of `Poly_models` for the new model
number can be read. -/
theorem needsPaging_ok (env : ObjEnv) (m model_num : Int) (pm : poly_model)
    (h : Poly_models_at env m = .ok pm) :
    ∃ page, LGSObjects_needsPaging env m model_num = .ok page := by
  unfold LGSObjects_needsPaging
  by_cases hc : m ≠ model_num
  · rw [if_pos hc]
    exact ⟨true, rfl⟩
  · rw [if_neg hc, h]
    exact ⟨_, rfl⟩

/-- A model number below 0 is outside `Poly_models`. -/
theorem Poly_models_at_neg (env : ObjEnv) (n : Int) (h : n < 0) :
    Poly_models_at env n = .error .outOfRange := by
  have hn : ¬ 0 ≤ n := by omega
  simp only [Poly_models_at, arrayIndex, if_neg hn]
  rfl

/-- The polygon-object case: the model number, the dying model number and the texture
override go through the guarded remap, one after the other, and the case falls through
after the animation state, when the paging condition, the element of `Poly_models` for
the new model number and its turret count can be read. -/
theorem polyobj_next (env : ObjEnv) (gs : gs_tables) (i type : Nat) (fp fp1 : CFILE)
    (sl : Slot) (m d t : Int) (anim : List Nat) (page : Bool) (pm : poly_model) (count : Int)
    (hm : xlateGuarded gs.model_handles (toShort (env.pobj_model_num.get sl.op.rtype))
      = .ok m)
    (hpage : LGSObjects_needsPaging env m (env.pobj_model_num.get sl.op.rtype) = .ok page)
    (hd : xlateGuarded gs.model_handles
        (toShort (env.pobj_dying_model_num.get (env.pobj_model_num.set sl.op.rtype m)))
      = .ok d)
    (ht : xlateGuarded gs.tex_handles
        (env.pobj_tmap_override.get
          (env.pobj_dying_model_num.set (env.pobj_model_num.set sl.op.rtype m) d))
      = .ok t)
    (hpm : Poly_models_at env
        (env.pobj_model_num.get
          (env.memset_multi_turret
            (env.pobj_tmap_override.set
              (env.pobj_dying_model_num.set (env.pobj_model_num.set sl.op.rtype m) d) t)))
      = .ok pm)
    (hcount : LGSObjects_turrets pm pm.num_wbs.toNat 0 0 = .ok count)
    (hanim : cf_ReadBytes env.sizeof_custom_anim fp = .ok (anim, fp1)) :
    ∃ r mt, LGSObjects_polyobj env gs i type fp sl = .ok (.next () fp1 r) ∧
      mt.num_turrets = count ∧
      r.op.rtype = env.pobj_multi_turret_info.set
        (env.memset_multi_turret
          (env.pobj_tmap_override.set
            (env.pobj_dying_model_num.set (env.pobj_model_num.set sl.op.rtype m) d) t)) mt := by
  have hpaging : ∀ (c : Prop) [Decidable c] (s : Slot),
      ∃ s1, (if c then LGSObjects_pageModel env type m else pure ()) fp s
          = .ok (.next () fp s1) ∧ s1.op.rtype = s.op.rtype := by
    intro c _ s
    by_cases hc : c
    · rw [if_pos hc]
      exact pageModel_next env type m fp s
    · rw [if_neg hc]
      exact ⟨s, rfl, rfl⟩
  have hdying : ∀ (c : Prop) [Decidable c] (s0 s : Slot),
      ∃ s1, (if c then do
              slotCall (.PageInPolymodel d)
              setOp fun op => { op with size := env.paged_size type d s0.op.id }
            else pure () : Stmt Slot Unit) fp s
          = .ok (.next () fp s1) ∧ s1.op.rtype = s.op.rtype := by
    intro c _ s0 s
    by_cases hc : c
    · rw [if_pos hc]
      exact ⟨_, rfl, rfl⟩
    · rw [if_neg hc]
      exact ⟨s, rfl, rfl⟩
  unfold LGSObjects_polyobj
  rw [bind_of_next _ _ _ _ _ _ _ (run_get fp sl)]
  rw [bind_of_next _ _ fp fp sl sl m (by rw [run_lift, hm])]
  rw [bind_of_next _ _ fp fp sl sl page (by rw [run_lift, hpage])]
  obtain ⟨sa, ha, hra⟩ := hpaging (page = true) sl
  rw [bind_of_next _ _ _ _ _ _ _ ha]
  rw [bind_of_next _ _ _ _ _ _ _ (run_setOp _ fp sa)]
  rw [bind_of_next _ _ _ _ _ _ _ (run_get fp _)]
  simp only [hra]
  rw [bind_of_next _ _ fp fp _ _ d (by rw [run_lift, hd])]
  obtain ⟨sb, hb, hrb⟩ := hdying
    (d ≠ env.pobj_dying_model_num.get (env.pobj_model_num.set sl.op.rtype m)
      ∧ type = env.OBJ_PLAYER)
    { sa with op := { sa.op with rtype := env.pobj_model_num.set sl.op.rtype m } }
    { sa with op := { sa.op with rtype := env.pobj_model_num.set sl.op.rtype m } }
  rw [bind_of_next _ _ _ _ _ _ _ hb]
  rw [bind_of_next _ _ _ _ _ _ _ (run_setOp _ fp sb)]
  rw [bind_of_next _ _ _ _ _ _ _ (run_get fp _)]
  simp only [hrb]
  rw [bind_of_next _ _ fp fp _ _ t (by rw [run_lift, ht])]
  rw [bind_of_next _ _ _ _ _ _ _ (run_setOp _ fp _)]
  rw [bind_of_next _ _ _ _ _ _ _ (run_setOp _ fp _)]
  rw [bind_of_next _ _ _ _ _ _ _ (run_get fp _)]
  rw [bind_of_next _ _ fp fp _ _ pm (by rw [run_lift, hpm])]
  rw [bind_of_next _ _ fp fp _ _ count (by rw [run_lift, hcount])]
  simp only [setOp, run_bind, run_modify, run_get, run_read, hanim, slotCall]
  refine ⟨_, _, rfl, ?_, rfl⟩
  split <;> rfl

/-- A polygon object whose model number is -1: the guarded remap answers -1, which is
the model number the object has, so the paging condition reads `Poly_models[-1]`. -/
theorem polyobj_absent_model (env : ObjEnv) (gs : gs_tables) (i type : Nat) (fp : CFILE)
    (sl : Slot) (h : env.pobj_model_num.get sl.op.rtype = -1) :
    LGSObjects_polyobj env gs i type fp sl = .error .outOfRange := by
  have hm : xlateGuarded gs.model_handles (toShort (env.pobj_model_num.get sl.op.rtype))
      = .ok (-1) := by
    rw [h]
    exact xlateGuarded_neg _ _ (by decide)
  have hpage : LGSObjects_needsPaging env (-1) (env.pobj_model_num.get sl.op.rtype)
      = .error .outOfRange := by
    have hc : ¬ ((-1 : Int) ≠ env.pobj_model_num.get sl.op.rtype) := by
      rw [h]
      exact fun hne => hne rfl
    unfold LGSObjects_needsPaging
    rw [if_neg hc, Poly_models_at_neg env (-1) (by decide)]
    rfl
  unfold LGSObjects_polyobj
  rw [bind_of_next _ _ _ _ _ _ _ (run_get fp sl)]
  rw [bind_of_next _ _ fp fp sl sl (-1) (by rw [run_lift, hm])]
  rw [run_bind, run_lift, hpage]

/-- The polygon-object case of the render switch is `LGSObjects_polyobj`. -/
theorem render_polyobj (env : ObjEnv) (gs : gs_tables) (i type : Nat) (fp : CFILE) (sl : Slot)
    (hrt : [env.RT_NONE, env.RT_EDITOR_SPHERE, env.RT_FIREBALL, env.RT_LINE, env.RT_PARTICLE,
      env.RT_SPLINTER, env.RT_ROOM, env.RT_WEAPON, env.RT_POLYOBJ, env.RT_SHARD].Nodup)
    (h : sl.op.render_type = env.RT_POLYOBJ) :
    LGSObjects_render env gs i type fp sl = LGSObjects_polyobj env gs i type fp sl := by
  simp only [List.nodup_cons, List.mem_cons, List.mem_singleton, not_or, List.not_mem_nil,
    not_false_eq_true, List.nodup_nil, and_true] at hrt
  obtain ⟨⟨_, _, _, _, _, _, _, a1, _⟩, ⟨_, _, _, _, _, _, a2, _⟩, ⟨_, _, _, _, _, a3, _⟩,
    ⟨_, _, _, _, a4, _⟩, ⟨_, _, _, a5, _⟩, ⟨_, _, a6, _⟩, ⟨_, a7, _⟩, ⟨a8, _⟩, _⟩ := hrt
  have c1 : ¬ (env.RT_POLYOBJ = env.RT_NONE ∨ env.RT_POLYOBJ = env.RT_EDITOR_SPHERE
      ∨ env.RT_POLYOBJ = env.RT_FIREBALL ∨ env.RT_POLYOBJ = env.RT_LINE
      ∨ env.RT_POLYOBJ = env.RT_PARTICLE ∨ env.RT_POLYOBJ = env.RT_SPLINTER
      ∨ env.RT_POLYOBJ = env.RT_ROOM) := by
    rintro (e | e | e | e | e | e | e)
    · exact a1 e.symm
    · exact a2 e.symm
    · exact a3 e.symm
    · exact a4 e.symm
    · exact a5 e.symm
    · exact a6 e.symm
    · exact a7 e.symm
  have c2 : ¬ env.RT_POLYOBJ = env.RT_WEAPON := fun e => a8 e.symm
  simp only [LGSObjects_render, run_bind, run_get, h, run_ite, if_neg c1, if_neg c2, if_true]

/-- The shard case of the render switch: the texture of the shard goes through the
guarded remap. -/
theorem render_shard (env : ObjEnv) (gs : gs_tables) (i type : Nat) (fp : CFILE) (sl : Slot)
    (tmap : Int)
    (hrt : [env.RT_NONE, env.RT_EDITOR_SPHERE, env.RT_FIREBALL, env.RT_LINE, env.RT_PARTICLE,
      env.RT_SPLINTER, env.RT_ROOM, env.RT_WEAPON, env.RT_POLYOBJ, env.RT_SHARD].Nodup)
    (h : sl.op.render_type = env.RT_SHARD)
    (ht : xlateGuarded gs.tex_handles (toShort (env.shard_tmap.get sl.op.rtype)) = .ok tmap) :
    LGSObjects_render env gs i type fp sl
      = .ok (.next () fp
          { sl with op := { sl.op with rtype := env.shard_tmap.set sl.op.rtype tmap } }) := by
  simp only [List.nodup_cons, List.mem_cons, List.mem_singleton, not_or, List.not_mem_nil,
    not_false_eq_true, List.nodup_nil, and_true] at hrt
  obtain ⟨⟨_, _, _, _, _, _, _, _, a1⟩, ⟨_, _, _, _, _, _, _, a2⟩, ⟨_, _, _, _, _, _, a3⟩,
    ⟨_, _, _, _, _, a4⟩, ⟨_, _, _, _, a5⟩, ⟨_, _, _, a6⟩, ⟨_, _, a7⟩, ⟨_, a8⟩, a9⟩ := hrt
  have c1 : ¬ (env.RT_SHARD = env.RT_NONE ∨ env.RT_SHARD = env.RT_EDITOR_SPHERE
      ∨ env.RT_SHARD = env.RT_FIREBALL ∨ env.RT_SHARD = env.RT_LINE
      ∨ env.RT_SHARD = env.RT_PARTICLE ∨ env.RT_SHARD = env.RT_SPLINTER
      ∨ env.RT_SHARD = env.RT_ROOM) := by
    rintro (e | e | e | e | e | e | e)
    · exact a1 e.symm
    · exact a2 e.symm
    · exact a3 e.symm
    · exact a4 e.symm
    · exact a5 e.symm
    · exact a6 e.symm
    · exact a7 e.symm
  have c2 : ¬ env.RT_SHARD = env.RT_WEAPON := fun e => a8 e.symm
  have c3 : ¬ env.RT_SHARD = env.RT_POLYOBJ := fun e => a9 e.symm
  simp only [LGSObjects_render, run_bind, run_get, h, run_ite, if_neg c1, if_neg c2, if_neg c3,
    if_true, run_lift, ht, setOp, run_modify]

/-! ### Mission activation -/

/-- C11. `LGSMission` returns `LGS_MISSIONFAILED` exactly when `LoadMission` fails,
`LGS_STARTLVLFAILED` exactly when `LoadMission` succeeds and `LoadAndStartCurrentLevel`
fails, and `LGS_OK` otherwise; on each of the three ways out the calls it has made are
`FreeScriptsForLevel`, one `Osiris_DisableCreateEvents` right before the mission is
loaded, calls that neither disable nor enable the create-events, and one
`Osiris_EnableCreateEvents` as the last call before it returns. -/
theorem mission_exit_paths {σ : Type} (env : Env σ) (msnname : Name) (level : Int)
    (w : World σ) :
    ((LGSMission env msnname level w).1 = LGS.MISSIONFAILED
        ↔ LGSMission_loaded env msnname w = false) ∧
    ((LGSMission env msnname level w).1 = LGS.STARTLVLFAILED
        ↔ LGSMission_loaded env msnname w = true
          ∧ LGSMission_started env msnname level w = false) ∧
    ((LGSMission env msnname level w).1 = LGS.OK
        ↔ LGSMission_loaded env msnname w = true
          ∧ LGSMission_started env msnname level w = true) ∧
    ∃ mid, (LGSMission env msnname level w).2.log
        = w.log ++ [Call.FreeScriptsForLevel, Call.Osiris_DisableCreateEvents,
            Call.LoadMission msnname (LGSMission_loaded env msnname w)] ++ mid
          ++ [Call.Osiris_EnableCreateEvents] ∧
      Call.Osiris_DisableCreateEvents ∉ mid ∧ Call.Osiris_EnableCreateEvents ∉ mid ∧
      ∀ n b, Call.LoadMission n b ∉ mid := by
  unfold LGSMission LGSMission_started LGSMission_loaded
  dsimp only
  cases hl : env.LoadMission msnname
      (call env Call.Osiris_DisableCreateEvents (call env Call.FreeScriptsForLevel w)).ext
  · simp only [Bool.false_eq_true, if_false]
    refine ⟨by simp, by simp, by simp, [], ?_, by simp, by simp, by simp⟩
    simp [call]
  · simp only [if_true]
    cases hs : env.LoadAndStartCurrentLevel _
    · refine ⟨by simp, by simp [hs], by simp [hs], [Call.SetCurrentLevel level,
        Call.mng_LoadAddonPages, Call.InitPlayerNewShip, Call.InitCameraViews,
        Call.LoadAndStartCurrentLevel false], ?_, by simp, by simp, by simp⟩
      simp [call]
    · refine ⟨by simp, by simp [hs], by simp [hs], [Call.SetCurrentLevel level,
        Call.mng_LoadAddonPages, Call.InitPlayerNewShip, Call.InitCameraViews,
        Call.LoadAndStartCurrentLevel true], ?_, by simp, by simp, by simp⟩
      simp [call]

/-! ### Rooms and triggers -/

/-- C12. When the declared highest room index differs from the live
`Highest_room_index` (as a `short`), `LGSRooms` returns `LGS_CORRUPTLEVEL` right after
reading it, and the live state is the one it started with: no room, face, doorway or
automap-visibility entry has been modified. -/
theorem rooms_index_mismatch (c : RoomConsts) (gs : gs_tables) (fp fp1 : CFILE)
    (s : RoomState) (highest_index : Int)
    (hread : cf_ReadShort fp = .ok (highest_index, fp1))
    (hne : highest_index ≠ toShort s.Highest_room_index) :
    LGSRooms c gs fp s = .ok (.next LGS.CORRUPTLEVEL fp1 s) := by
  simp only [LGSRooms, run_bind, run_read, hread, run_get]
  rw [run_ite, if_pos hne, run_pure]

/-- Witness of C12: a snapshot that declares highest room index 5 for the demo level,
whose highest room index is 1. -/
theorem rooms_index_mismatch_witness :
    LGSRooms demoRoomConsts demoTablesBuilt (cursorOn [5, 0, 9, 9]) demoRoomState
      = .ok (.next LGS.CORRUPTLEVEL { data := [9, 9], pos := 2, closed := false }
          demoRoomState) :=
  rooms_index_mismatch demoRoomConsts demoTablesBuilt (cursorOn [5, 0, 9, 9])
    { data := [9, 9], pos := 2, closed := false } demoRoomState 5 (by rfl) (by decide)

theorem LGSTriggers_loop_spec (k : Nat) : ∀ (i : Nat) (fp : CFILE) (s : TriggerState),
    i + k ≤ s.Triggers.length → 4 * k ≤ fp.data.length →
    ∃ s1, LGSTriggers_loop k i fp s = .ok (.next () (fp.advance (4 * k)) s1) ∧
      s1.Num_triggers = s.Num_triggers ∧ s1.Triggers.length = s.Triggers.length ∧
      (∀ j, j < k → s1.Triggers[i + j]?
        = some { flags := shortAt fp.data (4 * j), activator := shortAt fp.data (4 * j + 2) }) ∧
      (∀ j, j < i ∨ i + k ≤ j → s1.Triggers[j]? = s.Triggers[j]?) ∧
      s1.log = s.log ++ (List.range k).map fun j =>
        TriggerCall.FreeTriggerScript (i + j) (s.Triggers.getD (i + j) ⟨0, 0⟩) := by
  induction k with
  | zero =>
    intro i fp s _ _
    refine ⟨s, ?_, rfl, rfl, ?_, ?_, ?_⟩
    · simp [LGSTriggers_loop, run_pure, CFILE.advance]
    · intro j hj; omega
    · intro j _; rfl
    · simp
  | succ k ih =>
    intro i fp s hlen hdata
    have hi : i < s.Triggers.length := by omega
    obtain ⟨t, ht⟩ : ∃ t, s.Triggers[i]? = some t := ⟨s.Triggers[i], by simp [hi]⟩
    have h2 : 2 ≤ fp.data.length := by omega
    have h2b : 2 ≤ (fp.advance 2).data.length := by rw [advance_length]; omega
    have ht2 : (s.Triggers.set i { t with flags := shortAt fp.data 0 })[i]?
        = some { t with flags := shortAt fp.data 0 } := by
      simp [hi]
    obtain ⟨s1, hrun, hnum, hlen1, hin, hout, hlog⟩ := ih (i + 1) ((fp.advance 2).advance 2)
      { Triggers := (s.Triggers.set i { t with flags := shortAt fp.data 0 }).set i
          { flags := shortAt fp.data 0, activator := shortAt (fp.advance 2).data 0 },
        Num_triggers := s.Num_triggers,
        log := s.log ++ [TriggerCall.FreeTriggerScript i t] }
      (by simp only [List.length_set]; omega)
      (by simp only [advance_length]; omega)
    refine ⟨s1, ?_, ?_, ?_, ?_, ?_, ?_⟩
    · simp only [LGSTriggers_loop, FreeTriggerScript, setTrigger, run_bind, run_get, run_lift,
        run_modify, run_read, arrayRead_ok _ _ _ ht, arrayModify_ok _ _ _ _ ht,
        cf_ReadShort_ok fp h2, cf_ReadShort_ok _ h2b, arrayModify_ok _ _ _ _ ht2]
      rw [hrun, advance_advance, advance_advance]
      congr 3
      omega
    · exact hnum
    · rw [hlen1]; simp
    · intro j hj
      cases j with
      | zero =>
        rw [Nat.add_zero, hout i (Or.inl (by omega))]
        simp [hi, advance_data, shortAt_drop]
      | succ j =>
        have := hin j (by omega)
        rw [show i + (j + 1) = i + 1 + j by omega, this]
        simp only [advance_data, List.drop_drop, shortAt_drop]
        rw [show 2 + 2 + 4 * j = 4 * (j + 1) by omega,
          show 2 + 2 + (4 * j + 2) = 4 * (j + 1) + 2 by omega]
    · intro j hj
      rw [hout j (by omega)]
      have : i ≠ j := by omega
      simp [this]
    · rw [hlog]
      simp only [List.range_succ_eq_map, List.map_cons, List.map_map, List.append_assoc,
        List.singleton_append, Nat.add_zero]
      congr 2
      · simp [List.getD, ht]
      · apply List.map_congr_left
        intro j _
        simp only [Function.comp, List.getD_eq_getElem?_getD]
        rw [List.getElem?_set_ne (by omega), List.getElem?_set_ne (by omega)]
        rw [show i + 1 + j = i + (j + 1) by omega]

/-- C13. Let `n` be the declared trigger count. When `n` differs from the live
`Num_triggers` (as a `short`), `LGSTriggers` returns `LGS_CORRUPTLEVEL` with the state it
started with: no script has been freed and no trigger modified. When the counts agree,
the triggers are in the array and the stream holds the `4 * n` bytes of their records,
it returns `LGS_OK` with the cursor past those bytes; triggers `0 .. n-1` hold the flags
and the activator saved for them and no other trigger has changed; and the calls made
are `FreeTriggerScript(&Triggers[j])` for `j = 0 .. n-1` in order, each made while
trigger `j` still held the flags and the activator it had before the restore. -/
theorem triggers_restore (s : TriggerState) (fp fp1 : CFILE) (n : Int)
    (hread : cf_ReadShort fp = .ok (n, fp1)) :
    (n ≠ toShort s.Num_triggers → LGSTriggers fp s = .ok (.next LGS.CORRUPTLEVEL fp1 s)) ∧
    (n = toShort s.Num_triggers → n.toNat ≤ s.Triggers.length →
      4 * n.toNat ≤ fp1.data.length →
      ∃ s1, LGSTriggers fp s = .ok (.next LGS.OK (fp1.advance (4 * n.toNat)) s1) ∧
        s1.Num_triggers = s.Num_triggers ∧ s1.Triggers.length = s.Triggers.length ∧
        (∀ j, j < n.toNat → s1.Triggers[j]?
          = some { flags := shortAt fp1.data (4 * j),
                   activator := shortAt fp1.data (4 * j + 2) }) ∧
        (∀ j, n.toNat ≤ j → s1.Triggers[j]? = s.Triggers[j]?) ∧
        s1.log = s.log ++ (List.range n.toNat).map fun j =>
          TriggerCall.FreeTriggerScript j (s.Triggers.getD j ⟨0, 0⟩)) := by
  constructor
  · intro hne
    simp only [LGSTriggers, run_bind, run_read, hread, run_get]
    rw [run_ite, if_pos hne, run_pure]
  · intro heq hlen hdata
    obtain ⟨s1, hrun, hnum, hlen1, hin, hout, hlog⟩ :=
      LGSTriggers_loop_spec n.toNat 0 fp1 s (by omega) hdata
    refine ⟨s1, ?_, hnum, hlen1, ?_, ?_, ?_⟩
    · simp only [LGSTriggers, run_bind, run_read, hread, run_get]
      rw [run_ite, if_neg (by simpa using heq)]
      simp only [run_bind, hrun, run_pure]
    · intro j hj
      have := hin j hj
      rwa [Nat.zero_add] at this
    · intro j hj
      exact hout j (Or.inr (by omega))
    · rw [hlog]
      simp

/-- Witness of C13: the demo level has two triggers and the snapshot declares two. -/
theorem triggers_restore_witness :
    ∃ s1, LGSTriggers (cursorOn [2, 0, 7, 0, 8, 0, 9, 0, 10, 0]) demoTriggerState
        = .ok (.next LGS.OK
            ((CFILE.mk [7, 0, 8, 0, 9, 0, 10, 0] 2 false).advance (4 * (2 : Int).toNat)) s1) ∧
      s1.Num_triggers = demoTriggerState.Num_triggers ∧
      s1.Triggers.length = demoTriggerState.Triggers.length ∧
      (∀ j, j < (2 : Int).toNat → s1.Triggers[j]?
        = some { flags := shortAt [7, 0, 8, 0, 9, 0, 10, 0] (4 * j),
                 activator := shortAt [7, 0, 8, 0, 9, 0, 10, 0] (4 * j + 2) }) ∧
      (∀ j, (2 : Int).toNat ≤ j → s1.Triggers[j]? = demoTriggerState.Triggers[j]?) ∧
      s1.log = demoTriggerState.log ++ (List.range (2 : Int).toNat).map fun j =>
        TriggerCall.FreeTriggerScript j (demoTriggerState.Triggers.getD j ⟨0, 0⟩) :=
  (triggers_restore demoTriggerState (cursorOn [2, 0, 7, 0, 8, 0, 9, 0, 10, 0])
    (CFILE.mk [7, 0, 8, 0, 9, 0, 10, 0] 2 false) 2 (by rfl)).2 (by decide) (by decide)
    (by decide)

/-! ### Visual effects -/

/-- C20. After `CopyVisStruct(v, o)` every member the two layouts share has in `v` the
value it has in `o`: type, id, pos, velocity, mass, drag, size, lifeleft, lifetime,
creation_time, roomnum, flags, phys_flags, movement_type, custom_handle,
lighting_color, the seven members of attach_info, billboard_info and end_pos; the list
links `next` and `prev` of `v` are not touched. -/
theorem copy_vis_struct_fields (vis : vis_effect) (old_vis : old_vis_effect) :
    (CopyVisStruct vis old_vis).type = old_vis.type ∧
    (CopyVisStruct vis old_vis).id = old_vis.id ∧
    (CopyVisStruct vis old_vis).pos = old_vis.pos ∧
    (CopyVisStruct vis old_vis).velocity = old_vis.velocity ∧
    (CopyVisStruct vis old_vis).mass = old_vis.mass ∧
    (CopyVisStruct vis old_vis).drag = old_vis.drag ∧
    (CopyVisStruct vis old_vis).size = old_vis.size ∧
    (CopyVisStruct vis old_vis).lifeleft = old_vis.lifeleft ∧
    (CopyVisStruct vis old_vis).lifetime = old_vis.lifetime ∧
    (CopyVisStruct vis old_vis).creation_time = old_vis.creation_time ∧
    (CopyVisStruct vis old_vis).roomnum = old_vis.roomnum ∧
    (CopyVisStruct vis old_vis).flags = old_vis.flags ∧
    (CopyVisStruct vis old_vis).phys_flags = old_vis.phys_flags ∧
    (CopyVisStruct vis old_vis).movement_type = old_vis.movement_type ∧
    (CopyVisStruct vis old_vis).custom_handle = old_vis.custom_handle ∧
    (CopyVisStruct vis old_vis).lighting_color = old_vis.lighting_color ∧
    (CopyVisStruct vis old_vis).attach_info.obj_handle = old_vis.attach_info.obj_handle ∧
    (CopyVisStruct vis old_vis).attach_info.dest_objhandle
      = old_vis.attach_info.dest_objhandle ∧
    (CopyVisStruct vis old_vis).attach_info.subnum = old_vis.attach_info.subnum ∧
    (CopyVisStruct vis old_vis).attach_info.subnum2 = old_vis.attach_info.subnum2 ∧
    (CopyVisStruct vis old_vis).attach_info.modelnum = old_vis.attach_info.modelnum ∧
    (CopyVisStruct vis old_vis).attach_info.vertnum = old_vis.attach_info.vertnum ∧
    (CopyVisStruct vis old_vis).attach_info.end_vertnum = old_vis.attach_info.end_vertnum ∧
    (CopyVisStruct vis old_vis).billboard_info = old_vis.billboard_info ∧
    (CopyVisStruct vis old_vis).end_pos = old_vis.end_pos ∧
    (CopyVisStruct vis old_vis).next = vis.next ∧
    (CopyVisStruct vis old_vis).prev = vis.prev := by
  refine ⟨rfl, rfl, rfl, rfl, rfl, rfl, rfl, rfl, rfl, rfl, rfl, rfl, rfl, rfl, rfl, rfl, rfl,
    rfl, rfl, rfl, rfl, rfl, rfl, rfl, rfl, rfl, rfl⟩

/-! ### The AI dynamic-path section -/

theorem skipNodes_spec {σ : Type} (k : Nat) : ∀ (fp : CFILE) (s : σ),
    16 * k ≤ fp.data.length →
    (LGSObjects_skipNodes k : Stmt σ Unit) fp s = .ok (.next () (fp.advance (16 * k)) s) := by
  induction k with
  | zero =>
    intro fp s _
    simp [LGSObjects_skipNodes, run_pure, advance_zero]
  | succ k ih =>
    intro fp s h
    have h1 : 4 ≤ fp.data.length := by omega
    have h2 : 4 ≤ (fp.advance 4).data.length := by rw [advance_length]; omega
    have h3 : 4 ≤ ((fp.advance 4).advance 4).data.length := by
      simp only [advance_length]; omega
    have h4 : 4 ≤ (((fp.advance 4).advance 4).advance 4).data.length := by
      simp only [advance_length]; omega
    simp only [LGSObjects_skipNodes, run_bind, run_read, cf_ReadFloat_ok _ h1,
      cf_ReadFloat_ok _ h2, cf_ReadFloat_ok _ h3, cf_ReadInt_ok _ h4]
    rw [ih _ _ (by simp only [advance_length]; omega)]
    simp only [advance_advance]
    congr 3
    omega

theorem pathNodes_spec (i : Nat) (k : Nat) : ∀ (s : Nat) (fp : CFILE)
    (paths : List ai_dynamic_path) (p : ai_dynamic_path),
    paths[i]? = some p → s + k ≤ p.pos.length → s + k ≤ p.roomnum.length →
    16 * k ≤ fp.data.length →
    ∃ paths1 p1, LGSObjects_pathNodes i k s fp paths
        = .ok (.next () (fp.advance (16 * k)) paths1) ∧
      paths1.length = paths.length ∧ (∀ j, j ≠ i → paths1[j]? = paths[j]?) ∧
      paths1[i]? = some p1 ∧ sameOutside s (s + k) p p1 := by
  induction k with
  | zero =>
    intro s fp paths p hp _ _ _
    refine ⟨paths, p, ?_, rfl, fun _ _ => rfl, hp, rfl, rfl, rfl, rfl, rfl, fun _ _ => ⟨rfl, rfl⟩⟩
    simp [LGSObjects_pathNodes, run_pure, advance_zero]
  | succ k ih =>
    intro s fp paths p hp hpos hroom hdata
    have h1 : 4 ≤ fp.data.length := by omega
    have h2 : 4 ≤ (fp.advance 4).data.length := by rw [advance_length]; omega
    have h3 : 4 ≤ ((fp.advance 4).advance 4).data.length := by
      simp only [advance_length]; omega
    have h4 : 4 ≤ (((fp.advance 4).advance 4).advance 4).data.length := by
      simp only [advance_length]; omega
    have hi : i < paths.length := by
      rcases Nat.lt_or_ge i paths.length with h | h
      · exact h
      · rw [List.getElem?_eq_none h] at hp; cases hp
    obtain ⟨v, hv⟩ : ∃ v, p.pos[s]? = some v := ⟨p.pos[s], by simp⟩
    obtain ⟨r, hr⟩ : ∃ r, p.roomnum[s]? = some r := ⟨p.roomnum[s], by simp⟩
    obtain ⟨paths1, p1, hrun, hlen, hother, hp1, hsame⟩ :=
      ih (s + 1) ((((fp.advance 4).advance 4).advance 4).advance 4)
        (paths.set i { p with
          pos := p.pos.set s
            { x := floatAt fp.data 0, y := floatAt (fp.advance 4).data 0,
              z := floatAt ((fp.advance 4).advance 4).data 0 },
          roomnum := p.roomnum.set s (intAt (((fp.advance 4).advance 4).advance 4).data 0) })
        { p with
          pos := p.pos.set s
            { x := floatAt fp.data 0, y := floatAt (fp.advance 4).data 0,
              z := floatAt ((fp.advance 4).advance 4).data 0 },
          roomnum := p.roomnum.set s (intAt (((fp.advance 4).advance 4).advance 4).data 0) }
        (by simp [hi]) (by simp only [List.length_set]; omega)
        (by simp only [List.length_set]; omega) (by simp only [advance_length]; omega)
    refine ⟨paths1, p1, ?_, ?_, ?_, hp1, ?_⟩
    · simp only [LGSObjects_pathNodes, setPath, run_bind, run_read, run_get, run_lift,
        run_modify, cf_ReadFloat_ok _ h1, cf_ReadFloat_ok _ h2, cf_ReadFloat_ok _ h3,
        cf_ReadInt_ok _ h4, arrayRead_ok _ _ _ hp, arrayModify_ok _ _ _ _ hv,
        arrayModify_ok _ _ _ _ hr, arrayModify_ok _ _ _ _ hp]
      rw [hrun]
      simp only [advance_advance]
      congr 3
      omega
    · rw [hlen]; simp
    · intro j hj
      rw [hother j hj, List.getElem?_set_ne (Ne.symm hj)]
    · obtain ⟨e1, e2, e3, e4, e5, e6⟩ := hsame
      refine ⟨e1, e2, e3, ?_, ?_, ?_⟩
      · rw [e4]; simp
      · rw [e5]; simp
      · intro t ht
        have := e6 t (by omega)
        rw [this.1, this.2]
        have hne : s ≠ t := by omega
        simp [hne]

theorem pathsSkip_spec {σ : Type} (nr ns : Nat) (k : Nat) : ∀ (fp : CFILE) (s : σ),
    k * (8 + 16 * (nr + ns)) ≤ fp.data.length →
    (LGSObjects_pathsSkip nr ns k : Stmt σ Unit) fp s
      = .ok (.next () (fp.advance (k * (8 + 16 * (nr + ns)))) s) := by
  induction k with
  | zero =>
    intro fp s _
    simp [LGSObjects_pathsSkip, run_pure, advance_zero]
  | succ k ih =>
    intro fp s h
    have hk : (k + 1) * (8 + 16 * (nr + ns)) = 8 + 16 * nr + 16 * ns + k * (8 + 16 * (nr + ns)) := by
      ring
    rw [hk] at h
    have h1 : 2 ≤ fp.data.length := by omega
    have h2 : 2 ≤ (fp.advance 2).data.length := by rw [advance_length]; omega
    have h3 : 4 ≤ ((fp.advance 2).advance 2).data.length := by
      simp only [advance_length]; omega
    simp only [LGSObjects_pathsSkip, run_bind, run_read, cf_ReadShort_ok _ h1,
      cf_ReadShort_ok _ h2, cf_ReadInt_ok _ h3]
    rw [skipNodes_spec nr _ _ (by simp only [advance_length]; omega)]
    simp only []
    rw [skipNodes_spec ns _ _ (by simp only [advance_length]; omega)]
    simp only []
    rw [ih _ _ (by simp only [advance_length]; omega)]
    simp only [advance_advance, hk]

theorem pathsRead_spec (nr ns : Nat) (k : Nat) : ∀ (i : Nat) (fp : CFILE)
    (paths : List ai_dynamic_path),
    i + k ≤ paths.length →
    (∀ p ∈ paths, nr ≤ p.pos.length ∧ nr ≤ p.roomnum.length) →
    k * (8 + 16 * (nr + ns)) ≤ fp.data.length →
    ∃ paths1, LGSObjects_pathsRead nr ns k i fp paths
        = .ok (.next () (fp.advance (k * (8 + 16 * (nr + ns)))) paths1) ∧
      paths1.length = paths.length ∧
      (∀ j, j < i ∨ i + k ≤ j → paths1[j]? = paths[j]?) ∧
      (∀ (j : Nat) p p1, paths[j]? = some p → paths1[j]? = some p1 →
        nodesKeptFrom nr p p1) := by
  induction k with
  | zero =>
    intro i fp paths _ _ _
    refine ⟨paths, ?_, rfl, fun _ _ => rfl, ?_⟩
    · simp [LGSObjects_pathsRead, run_pure, advance_zero]
    · intro j p p1 h1 h2
      rw [h1] at h2
      cases h2
      exact ⟨rfl, rfl, fun _ _ => ⟨rfl, rfl⟩⟩
  | succ k ih =>
    intro i fp paths hlen hsized hdata
    have hk : (k + 1) * (8 + 16 * (nr + ns)) = 8 + 16 * nr + 16 * ns + k * (8 + 16 * (nr + ns)) := by
      ring
    rw [hk] at hdata
    have h1 : 2 ≤ fp.data.length := by omega
    have h2 : 2 ≤ (fp.advance 2).data.length := by rw [advance_length]; omega
    have h3 : 4 ≤ ((fp.advance 2).advance 2).data.length := by
      simp only [advance_length]; omega
    have hi : i < paths.length := by omega
    obtain ⟨p, hp⟩ : ∃ p, paths[i]? = some p := ⟨paths[i], by simp [hi]⟩
    have hpmem : p ∈ paths := List.getElem?_mem hp
    obtain ⟨pathsA, pA, hrunA, hlenA, hotherA, hpA, hsameA⟩ :=
      pathNodes_spec i nr 0 (((fp.advance 2).advance 2).advance 4)
        (paths.set i { p with num_nodes := shortAt fp.data 0,
                              use_count := shortAt (fp.advance 2).data 0,
                              owner_handle := intAt ((fp.advance 2).advance 2).data 0 })
        { p with num_nodes := shortAt fp.data 0,
                 use_count := shortAt (fp.advance 2).data 0,
                 owner_handle := intAt ((fp.advance 2).advance 2).data 0 }
        (by simp [hi]) (by simpa using (hsized p hpmem).1) (by simpa using (hsized p hpmem).2)
        (by simp only [advance_length]; omega)
    have hsizedA : ∀ q ∈ pathsA, nr ≤ q.pos.length ∧ nr ≤ q.roomnum.length := by
      intro q hq
      obtain ⟨j, hj, hjq⟩ := List.getElem_of_mem hq
      have hq2 : pathsA[j]? = some q := by simp [hj, hjq]
      by_cases hji : j = i
      · subst hji
        rw [hpA] at hq2
        cases hq2
        obtain ⟨_, _, _, e4, e5, _⟩ := hsameA
        rw [e4, e5]
        exact hsized p hpmem
      · rw [hotherA j hji, List.getElem?_set_ne (Ne.symm hji)] at hq2
        exact hsized q (List.getElem?_mem hq2)
    obtain ⟨paths1, hrun, hlen1, hout, hkept⟩ :=
      ih (i + 1) (((((fp.advance 2).advance 2).advance 4).advance (16 * nr)).advance (16 * ns))
        pathsA (by rw [hlenA]; simp only [List.length_set]; omega) hsizedA
        (by simp only [advance_length]; omega)
    refine ⟨paths1, ?_, ?_, ?_, ?_⟩
    · simp only [LGSObjects_pathsRead, setPath, run_bind, run_read, run_get, run_lift,
        run_modify, cf_ReadShort_ok _ h1, cf_ReadShort_ok _ h2, cf_ReadInt_ok _ h3,
        arrayModify_ok _ _ _ _ hp, hrunA]
      rw [skipNodes_spec ns _ _ (by simp only [advance_length]; omega)]
      simp only []
      rw [hrun]
      simp only [advance_advance, hk]
    · rw [hlen1, hlenA]; simp
    · intro j hj
      rw [hout j (by omega), hotherA j (by omega), List.getElem?_set_ne (by omega)]
    · intro j q q1 hq hq1
      by_cases hji : j = i
      · subst hji
        rw [hp] at hq
        cases hq
        rw [hout j (Or.inl (by omega)), hpA] at hq1
        cases hq1
        obtain ⟨_, _, _, e4, e5, e6⟩ := hsameA
        refine ⟨by rw [e4], by rw [e5], ?_⟩
        intro t ht
        have := e6 t (Or.inr (by omega))
        exact this
      · obtain ⟨qA, hqA⟩ : ∃ qA, pathsA[j]? = some qA := by
          rw [hotherA j hji, List.getElem?_set_ne (Ne.symm hji)]
          exact ⟨q, hq⟩
        have hqq : qA = q := by
          rw [hotherA j hji, List.getElem?_set_ne (Ne.symm hji), hq] at hqA
          cases hqA
          rfl
        subst hqq
        exact hkept j qA q1 hqA hq1

/-- C17. Capacity skew tolerance: for declared counts `P >= 0` and `N >= 0`, whatever
the live `MAX_DYNAMIC_PATHS` and `MAX_NODES` are, when the stream holds the
`P * (8 + 16 * N)` bytes of the paths the AI dynamic-path section completes with the
cursor exactly that many bytes past the two counts; every path entry with an index from
`min(P, MAX_DYNAMIC_PATHS)` on is unchanged, and in every path entry the node entries
with an index from `min(N, MAX_NODES)` on are unchanged (and no array changes size). -/
theorem path_section_capacity_skew (env : ObjEnv) (fp0 fp1 fp : CFILE) (P N : Int)
    (paths : List ai_dynamic_path)
    (hP : cf_ReadInt fp0 = .ok (P, fp1)) (hN : cf_ReadInt fp1 = .ok (N, fp))
    (hPpos : 0 ≤ P) (hNpos : 0 ≤ N) (hsized : pathsSized env paths)
    (hdata : P.toNat * (8 + 16 * N.toNat) ≤ fp.data.length) :
    ∃ paths1, LGSObjects_paths env fp0 paths
        = .ok (.next () (fp.advance (P.toNat * (8 + 16 * N.toNat))) paths1) ∧
      paths1.length = paths.length ∧
      (∀ i, min P.toNat env.MAX_DYNAMIC_PATHS ≤ i → paths1[i]? = paths[i]?) ∧
      (∀ (i : Nat) p p1, paths[i]? = some p → paths1[i]? = some p1 →
        nodesKeptFrom (min N.toNat env.MAX_NODES) p p1) := by
  obtain ⟨hlen, hnodes⟩ := hsized
  -- the four loop bounds
  have hnr : (min (Int.ofNat env.MAX_NODES) N).toNat = min N.toNat env.MAX_NODES := by
    simp only [Int.ofNat_eq_coe]; omega
  have hdr : (min (Int.ofNat env.MAX_DYNAMIC_PATHS) P).toNat
      = min P.toNat env.MAX_DYNAMIC_PATHS := by
    simp only [Int.ofNat_eq_coe]; omega
  have hns : (min N.toNat env.MAX_NODES)
      + (if Int.ofNat env.MAX_NODES < N then N - Int.ofNat env.MAX_NODES else 0).toNat
      = N.toNat := by
    split <;> simp only [Int.ofNat_eq_coe] at * <;> omega
  have hds : (min P.toNat env.MAX_DYNAMIC_PATHS)
      + (if Int.ofNat env.MAX_DYNAMIC_PATHS < P then P - Int.ofNat env.MAX_DYNAMIC_PATHS
          else 0).toNat
      = P.toNat := by
    split <;> simp only [Int.ofNat_eq_coe] at * <;> omega
  generalize hnsd : (if Int.ofNat env.MAX_NODES < N then N - Int.ofNat env.MAX_NODES
    else 0).toNat = ns at hns
  generalize hdsd : (if Int.ofNat env.MAX_DYNAMIC_PATHS < P then
    P - Int.ofNat env.MAX_DYNAMIC_PATHS else 0).toNat = ds at hds
  have hsplit : P.toNat * (8 + 16 * N.toNat)
      = min P.toNat env.MAX_DYNAMIC_PATHS * (8 + 16 * (min N.toNat env.MAX_NODES + ns))
        + ds * (8 + 16 * (min N.toNat env.MAX_NODES + ns)) := by
    rw [hns, ← Nat.add_mul, hds]
  obtain ⟨paths1, hrun, hlen1, hout, hkept⟩ :=
    pathsRead_spec (min N.toNat env.MAX_NODES) ns (min P.toNat env.MAX_DYNAMIC_PATHS) 0 fp
      paths (by rw [hlen]; omega)
      (by
        intro p hp
        obtain ⟨e1, e2⟩ := hnodes p hp
        rw [e1, e2]
        exact ⟨Nat.min_le_right _ _, Nat.min_le_right _ _⟩)
      (by rw [hsplit] at hdata; omega)
  refine ⟨paths1, ?_, hlen1, ?_, hkept⟩
  · simp only [LGSObjects_paths, LGSObjects_pathLoops, run_bind, run_read, hP, hN, hnr, hdr,
      hnsd, hdsd, hrun]
    rw [pathsSkip_spec _ _ _ _ _ (by
      rw [advance_length]; rw [hsplit] at hdata; omega)]
    rw [advance_advance, hsplit]
  · intro i hi
    exact hout i (Or.inr (by omega))

/-- Witness of C17: a section that declares three paths of three nodes, read by a build
that holds two paths of two nodes. -/
theorem path_section_capacity_skew_witness :
    ∃ paths1, LGSObjects_paths demoObjEnv demoPathSection demoPaths
        = .ok (.next ()
            ((demoPathSection.advance 8).advance ((3 : Int).toNat * (8 + 16 * (3 : Int).toNat)))
            paths1) ∧
      paths1.length = demoPaths.length ∧
      (∀ i, min (3 : Int).toNat demoObjEnv.MAX_DYNAMIC_PATHS ≤ i
        → paths1[i]? = demoPaths[i]?) ∧
      (∀ (i : Nat) p p1, demoPaths[i]? = some p → paths1[i]? = some p1 →
        nodesKeptFrom (min (3 : Int).toNat demoObjEnv.MAX_NODES) p p1) :=
  path_section_capacity_skew demoObjEnv demoPathSection (demoPathSection.advance 4)
    (demoPathSection.advance 8) 3 3 demoPaths (by decide!) (by decide!) (by decide)
    (by decide) (by decide!) (by decide!)

/-- A method of a member of `Players[0]` changes that record and nothing else. -/
theorem playerMember_next (f : List Nat → List Nat) (fp : CFILE) (s : PlayerState)
    (plr : List Nat) (h : s.Players[0]? = some plr) :
    playerMember f fp s = .ok (.next () fp { s with Players := s.Players.set 0 (f plr) }) := by
  simp only [playerMember, run_bind, run_get, run_lift, arrayModify, h, run_modify]

theorem run_playerCall (c : PlayerCall) (fp : CFILE) (s : PlayerState) :
    playerCall c fp s = .ok (.next () fp { s with log := s.log ++ [c] }) := rfl

/-- C16: every size-tagged fixed record is a hard contract. (1) Weather block: when the
save opens, the first stage of `LoadGameState` falls through, the mission starts, the
count file (if it opens) holds an integer, and the declared weather size differs from
`sizeof(Weather)`, `LoadGameState` returns `LGS_OUTDATEDVER` with the cursor right after
the size and the weather as it was. (2) Player record: a declared size that differs from
`sizeof(player)` makes `LGSPlayers` return `LGS_OUTDATEDVER` right after the size; the
two resets of source lines 644-645 come before the size test, so `Players[0]` is then
the record from before the call with its inventory and its counter measures reset, no
byte of the save is in it, and the other records, the player number and the guided
object are as they were. (3) For a record of `LGSObjects` that the run arrives
at, within the declared range and not empty: a declared size of the movement, control or
render block that differs from the size of the live block makes `LGSObjects` return
`LGS_OUTDATEDVER` with the cursor right after the size and the block of the object as it
was; a declared size of the AI frame or of the effect info that differs makes `LGSObjAI`
or `LGSObjEffects`, and with it `LGSObjects`, return `LGS_OUTDATEDVER` with the cursor
right after the size, and the object has no AI frame or effect info. -/
theorem sized_records_hard_contract :
    (∀ {σ : Type} (env : Env σ) (pathname : Name) (w0 w : World σ) (fp0 fp fp8 : CFILE)
        (version : Int) (gs : gs_tables) (curlevel : Int) (path : Name) (size : Int),
      env.cfopen pathname = some fp0 →
      LoadGameState_header env fp0 { w0 with g.IsRestoredGame := true }
        = .ok (.next (version, gs) fp w) →
      savedWeatherSize env.rd env.PSPATHNAME_LEN fp = .ok ((curlevel, path, size), fp8) →
      (LGSMission env path curlevel w).1 = LGS.OK →
      (∀ cfp, env.cfopen (pathname ++ dot_cnt) = some cfp →
        ∃ n cfp1, cf_ReadInt cfp = .ok (n, cfp1)) →
      size ≠ Int.ofNat env.sizeof_Weather →
      ∃ wR, LoadGameState env pathname w0 = .ok (LGS.OUTDATEDVER, some (cfclose fp8), wR) ∧
        wR.g.Weather = w0.g.Weather) ∧
    (∀ (env : PlayerEnv) (fp fp1 : CFILE) (s : PlayerState) (plr : List Nat) (size : Int),
      s.Players[0]? = some plr →
      cf_ReadShort fp = .ok (size, fp1) → size ≠ Int.ofNat env.sizeof_player →
      ∃ s1, LGSPlayers env fp s = .ok (.next LGS.OUTDATEDVER fp1 s1) ∧
        s1.Players = s.Players.set 0 (env.counter_measures_Reset (env.inventory_Reset plr)) ∧
        s1.Player_num = s.Player_num ∧ s1.guided_obj = s.guided_obj) ∧
    (∀ (env : ObjEnv) (gs : gs_tables) (version : Int) (i : Nat) (fp fpi fpK fp3 : CFILE)
        (s si : ObjState) (sl : Slot) (highest : Int) (type l : Nat),
      LGSObjects_arrive env gs version i fp s = .ok (.next highest fpi si) →
      (i : Int) ≤ highest → si.slot i = some sl →
      savedKind fpi = .ok (type, fpK) → type ≠ env.OBJ_NONE →
      savedLighting fpK = .ok (l, fp3) →
      (∀ (r : Int × Nat) (fpB fpS : CFILE) (sB : Slot) (size : Int),
        LGSObjects_common env gs version i type l fp3 sl = .ok (.next r fpB sB) →
        cf_ReadShort fpB = .ok (size, fpS) → size ≠ Int.ofNat env.sizeof_mtype →
        ∃ sR op, LGSObjects env gs version fp s = .ok (LGS.OUTDATEDVER, fpS, sR) ∧
          sR.Objects[i]? = some op ∧ op.mtype = sl.op.mtype) ∧
      (∀ (r : Int × Nat) (fpB fpS : CFILE) (sB : Slot) (size : Int),
        LGSObjects_toControl env gs version i type l fp3 sl = .ok (.next r fpB sB) →
        cf_ReadShort fpB = .ok (size, fpS) → size ≠ Int.ofNat env.sizeof_ctype →
        ∃ sR op, LGSObjects env gs version fp s = .ok (LGS.OUTDATEDVER, fpS, sR) ∧
          sR.Objects[i]? = some op ∧ op.ctype = sl.op.ctype) ∧
      (∀ (r : Int × Nat) (fpB fpS : CFILE) (sB : Slot) (size : Int),
        LGSObjects_toRender env gs version i type l fp3 sl = .ok (.next r fpB sB) →
        cf_ReadShort fpB = .ok (size, fpS) → size ≠ Int.ofNat env.sizeof_rtype →
        ∃ sR op, LGSObjects env gs version fp s = .ok (LGS.OUTDATEDVER, fpS, sR) ∧
          sR.Objects[i]? = some op ∧ op.rtype = sl.op.rtype) ∧
      (∀ (r : Int × Nat) (fpB fpA fpS : CFILE) (sB : Slot) (read_ai : Nat) (size : Int),
        LGSObjects_toAI env gs version i type l fp3 sl = .ok (.next r fpB sB) →
        cf_ReadByte fpB = .ok (read_ai, fpA) → read_ai ≠ 0 →
        cf_ReadShort fpA = .ok (size, fpS) → size ≠ Int.ofNat env.sizeof_ai_frame →
        arrival (LGSObjAI env fpB sB) = some (LGS.OUTDATEDVER, fpS) ∧
        ∃ sR op, LGSObjects env gs version fp s = .ok (LGS.OUTDATEDVER, fpS, sR) ∧
          sR.Objects[i]? = some op ∧ op.ai_info = none) ∧
      (∀ (r : Int × Nat) (fpB fpA fpS : CFILE) (sB : Slot) (do_read : Nat) (size : Int),
        LGSObjects_toEffects env gs version i type l fp3 sl = .ok (.next r fpB sB) →
        cf_ReadByte fpB = .ok (do_read, fpA) → do_read ≠ 0 →
        cf_ReadShort fpA = .ok (size, fpS) → size ≠ Int.ofNat env.sizeof_effect_info →
        arrival (LGSObjEffects env fpB sB) = some (LGS.OUTDATEDVER, fpS) ∧
        ∃ sR op, LGSObjects env gs version fp s = .ok (LGS.OUTDATEDVER, fpS, sR) ∧
          sR.Objects[i]? = some op ∧ op.effect_info = none)) := by
  refine ⟨?_, ?_, ?_⟩
  · intro σ env pathname w0 w fp0 fp fp8 version gs curlevel path size hopen hheader hsaved
      hmission hcount hne
    obtain ⟨wE, hlevel, hwE⟩ :=
      level_weather_mismatch env pathname fp fp8 w curlevel path size hsaved hmission hcount hne
    have hw := header_weather env fp0 _ _ hheader
    refine ⟨(loadsg_error env LGS.OUTDATEDVER fp8 wE).2.2, ?_, ?_⟩
    · simp only [LoadGameState, hopen, LoadGameState_body, hheader, hlevel]
      rfl
    · show wE.g.Weather = w0.g.Weather
      rw [hwE]
      exact hw
  · intro env fp fp1 s plr size hplr hsize hne
    have hlen : 0 < s.Players.length := by
      rcases List.getElem?_eq_some_iff.1 hplr with ⟨h, _⟩
      exact h
    unfold LGSPlayers
    rw [bind_of_next _ _ _ _ _ _ _ (playerMember_next env.inventory_Reset fp s plr hplr)]
    rw [bind_of_next _ _ _ _ _ _ _ (run_playerCall _ fp _)]
    rw [bind_of_next _ _ _ _ _ _ _
      (playerMember_next env.counter_measures_Reset fp _ (env.inventory_Reset plr)
        (List.getElem?_set_self hlen))]
    rw [bind_of_next _ _ _ _ _ _ _ (run_playerCall _ fp _)]
    simp only [run_bind, run_read, hsize, run_ite, if_pos hne, run_pure, List.set_set]
    exact ⟨_, rfl, rfl, rfl, rfl⟩
  · intro env gs version i fp fpi fpK fp3 s si sl highest type l harrive hi hslot hkind hne
      hlight
    refine ⟨?_, ?_, ?_, ?_, ?_⟩
    · intro r fpB fpS sB size hpre hsize hsz
      obtain ⟨hexit, hkeep⟩ := record_mtype_mismatch env gs version i type l fp3 fpB fpS sl sB
        r size hpre hsize hsz
      obtain ⟨sR, hR, hO⟩ := LGSObjects_of_record_exit env gs version i fp fpi fpK fp3 fpS s
        si sl _ highest type l _ harrive hi hslot hkind hne hlight hexit
      exact ⟨sR, _, hR, hO, hkeep⟩
    · intro r fpB fpS sB size hpre hsize hsz
      obtain ⟨hexit, hkeep⟩ := record_ctype_mismatch env gs version i type l fp3 fpB fpS sl sB
        r size hpre hsize hsz
      obtain ⟨sR, hR, hO⟩ := LGSObjects_of_record_exit env gs version i fp fpi fpK fp3 fpS s
        si sl _ highest type l _ harrive hi hslot hkind hne hlight hexit
      exact ⟨sR, _, hR, hO, hkeep⟩
    · intro r fpB fpS sB size hpre hsize hsz
      obtain ⟨hexit, hkeep⟩ := record_rtype_mismatch env gs version i type l fp3 fpB fpS sl sB
        r size hpre hsize hsz
      obtain ⟨sR, hR, hO⟩ := LGSObjects_of_record_exit env gs version i fp fpi fpK fp3 fpS s
        si sl _ highest type l _ harrive hi hslot hkind hne hlight hexit
      exact ⟨sR, _, hR, hO, hkeep⟩
    · intro r fpB fpA fpS sB read_ai size hpre hflag hset hsize hsz
      have hexit := record_ai_mismatch env gs version i type l fp3 fpB fpA fpS sl sB
        r read_ai size hpre hflag hset hsize hsz
      obtain ⟨sR, hR, hO⟩ := LGSObjects_of_record_exit env gs version i fp fpi fpK fp3 fpS s
        si sl _ highest type l _ harrive hi hslot hkind hne hlight hexit
      refine ⟨?_, sR, _, hR, hO, rfl⟩
      rw [LGSObjAI_mismatch env _ _ _ _ _ _ hflag hset hsize hsz]
      rfl
    · intro r fpB fpA fpS sB do_read size hpre hflag hset hsize hsz
      have hexit := record_effects_mismatch env gs version i type l fp3 fpB fpA fpS sl sB
        r do_read size hpre hflag hset hsize hsz
      obtain ⟨sR, hR, hO⟩ := LGSObjects_of_record_exit env gs version i fp fpi fpK fp3 fpS s
        si sl _ highest type l _ harrive hi hslot hkind hne hlight hexit
      refine ⟨?_, sR, _, hR, hO, rfl⟩
      rw [LGSObjEffects_mismatch env _ _ _ _ _ _ hflag hset hsize hsz]
      rfl

/-- Witness of C16: a save whose weather block declares three bytes where the build holds
two, a player record that declares five bytes where the build holds four (the record
1, 2, 3, 4 is left as 1, 0, 0, 4: its two inventories reset, no 9 of the save in it),
and five saves
of one robot whose movement block, control block, render block, AI frame and effect info
declare one byte more than the build holds. -/
theorem sized_records_hard_contract_witness :
    (∃ wR, LoadGameState (demoEnvWith demoSaveOldWeather) [] demoWorld
        = .ok (LGS.OUTDATEDVER, some (cfclose (demoSaveOldWeather.advance 65)), wR) ∧
      wR.g.Weather = demoWorld.g.Weather) ∧
    (∃ s1, LGSPlayers demoPlayerEnv (cursorOn [5, 0, 9, 9, 9, 9, 9]) demoPlayerState
        = .ok (.next LGS.OUTDATEDVER ((cursorOn [5, 0, 9, 9, 9, 9, 9]).advance 2) s1) ∧
      s1.Players = [[1, 0, 0, 4]] ∧ s1.Player_num = 0 ∧ s1.guided_obj = none) ∧
    (∃ sR op, LGSObjects demoObjEnv demoObjTables 0 (demoObjSaveCut demoOldMovement) demoObjState
        = .ok (LGS.OUTDATEDVER, (demoObjSaveCut demoOldMovement).advance 216, sR) ∧
      sR.Objects[0]? = some op ∧ op.mtype = (demoArrivedSlot demoOldMovement).op.mtype) ∧
    (∃ sR op, LGSObjects demoObjEnv demoObjTables 0 (demoObjSaveCut demoOldControl) demoObjState
        = .ok (LGS.OUTDATEDVER, (demoObjSaveCut demoOldControl).advance 220, sR) ∧
      sR.Objects[0]? = some op ∧ op.ctype = (demoArrivedSlot demoOldControl).op.ctype) ∧
    (∃ sR op, LGSObjects demoObjEnv demoObjTables 0 (demoObjSaveCut demoOldRender) demoObjState
        = .ok (LGS.OUTDATEDVER, (demoObjSaveCut demoOldRender).advance 227, sR) ∧
      sR.Objects[0]? = some op ∧ op.rtype = (demoArrivedSlot demoOldRender).op.rtype) ∧
    (∃ sR op, LGSObjects demoObjEnv demoObjTables 0 (demoObjSaveCut demoOldAI) demoObjState
        = .ok (LGS.OUTDATEDVER, (demoObjSaveCut demoOldAI).advance 227, sR) ∧
      sR.Objects[0]? = some op ∧ op.ai_info = none) ∧
    (∃ sR op, LGSObjects demoObjEnv demoObjTables 0 (demoObjSaveCut demoOldEffects) demoObjState
        = .ok (LGS.OUTDATEDVER, (demoObjSaveCut demoOldEffects).advance 247, sR) ∧
      sR.Objects[0]? = some op ∧ op.effect_info = none) :=
  ⟨sized_records_hard_contract.1 (demoEnvWith demoSaveOldWeather) [] demoWorld
      demoWorldAfterHeader demoSaveOldWeather (demoSaveOldWeather.advance 34)
      (demoSaveOldWeather.advance 65) 1 demoTablesBuilt 5 (missionPath 5 d3_mn3) 3 rfl rfl
      (by decide!) (by decide)
      (fun cfp h => ⟨0, demoSaveOldWeather.advance 4, Option.some.inj h ▸ (by decide!)⟩)
      (by decide),
    sized_records_hard_contract.2.1 demoPlayerEnv (cursorOn [5, 0, 9, 9, 9, 9, 9])
      ((cursorOn [5, 0, 9, 9, 9, 9, 9]).advance 2) demoPlayerState [1, 2, 3, 4] 5 rfl
      (by decide!) (by decide),
    (sized_records_hard_contract.2.2 demoObjEnv demoObjTables 0 0 (demoObjSaveCut demoOldMovement)
      ((demoObjSaveCut demoOldMovement).advance 32) ((demoObjSaveCut demoOldMovement).advance 37)
      ((demoObjSaveCut demoOldMovement).advance 38) demoObjState (demoArrived demoOldMovement)
      (demoArrivedSlot demoOldMovement) 0 2 0
      (next_of_arrival _ _ _ demoObjState (by decide!)) (by decide)
      (slot_of_isSome _ _ demoSlot (by decide!)) (by decide!) (by decide) (by decide!)).1
      (1, 2) ((demoObjSaveCut demoOldMovement).advance 214) ((demoObjSaveCut demoOldMovement).advance 216)
      (endState (LGSObjects_common demoObjEnv demoObjTables 0 0 2 0
        ((demoObjSaveCut demoOldMovement).advance 38) (demoArrivedSlot demoOldMovement)) demoSlot) 3
      (next_of_arrival _ _ _ demoSlot (by decide!)) (by decide!) (by decide),
    (sized_records_hard_contract.2.2 demoObjEnv demoObjTables 0 0 (demoObjSaveCut demoOldControl)
      ((demoObjSaveCut demoOldControl).advance 32) ((demoObjSaveCut demoOldControl).advance 37)
      ((demoObjSaveCut demoOldControl).advance 38) demoObjState (demoArrived demoOldControl)
      (demoArrivedSlot demoOldControl) 0 2 0
      (next_of_arrival _ _ _ demoObjState (by decide!)) (by decide)
      (slot_of_isSome _ _ demoSlot (by decide!)) (by decide!) (by decide) (by decide!)).2.1
      (1, 2) ((demoObjSaveCut demoOldControl).advance 218) ((demoObjSaveCut demoOldControl).advance 220)
      (endState (LGSObjects_toControl demoObjEnv demoObjTables 0 0 2 0
        ((demoObjSaveCut demoOldControl).advance 38) (demoArrivedSlot demoOldControl)) demoSlot) 5
      (next_of_arrival _ _ _ demoSlot (by decide!)) (by decide!) (by decide),
    (sized_records_hard_contract.2.2 demoObjEnv demoObjTables 0 0 (demoObjSaveCut demoOldRender)
      ((demoObjSaveCut demoOldRender).advance 32) ((demoObjSaveCut demoOldRender).advance 37)
      ((demoObjSaveCut demoOldRender).advance 38) demoObjState (demoArrived demoOldRender)
      (demoArrivedSlot demoOldRender) 0 2 0
      (next_of_arrival _ _ _ demoObjState (by decide!)) (by decide)
      (slot_of_isSome _ _ demoSlot (by decide!)) (by decide!) (by decide) (by decide!)).2.2.1
      (1, 2) ((demoObjSaveCut demoOldRender).advance 225) ((demoObjSaveCut demoOldRender).advance 227)
      (endState (LGSObjects_toRender demoObjEnv demoObjTables 0 0 2 0
        ((demoObjSaveCut demoOldRender).advance 38) (demoArrivedSlot demoOldRender)) demoSlot) 13
      (next_of_arrival _ _ _ demoSlot (by decide!)) (by decide!) (by decide),
    ((sized_records_hard_contract.2.2 demoObjEnv demoObjTables 0 0 (demoObjSaveCut demoOldAI)
      ((demoObjSaveCut demoOldAI).advance 32) ((demoObjSaveCut demoOldAI).advance 37)
      ((demoObjSaveCut demoOldAI).advance 38) demoObjState (demoArrived demoOldAI)
      (demoArrivedSlot demoOldAI) 0 2 0
      (next_of_arrival _ _ _ demoObjState (by decide!)) (by decide)
      (slot_of_isSome _ _ demoSlot (by decide!)) (by decide!) (by decide) (by decide!)).2.2.2.1
      (1, 2) ((demoObjSaveCut demoOldAI).advance 224) ((demoObjSaveCut demoOldAI).advance 225)
      ((demoObjSaveCut demoOldAI).advance 227)
      (endState (LGSObjects_toAI demoObjEnv demoObjTables 0 0 2 0
        ((demoObjSaveCut demoOldAI).advance 38) (demoArrivedSlot demoOldAI)) demoSlot) 1 3
      (next_of_arrival _ _ _ demoSlot (by decide!)) (by decide!) (by decide) (by decide!)
      (by decide)).2,
    ((sized_records_hard_contract.2.2 demoObjEnv demoObjTables 0 0 (demoObjSaveCut demoOldEffects)
      ((demoObjSaveCut demoOldEffects).advance 32) ((demoObjSaveCut demoOldEffects).advance 37)
      ((demoObjSaveCut demoOldEffects).advance 38) demoObjState (demoArrived demoOldEffects)
      (demoArrivedSlot demoOldEffects) 0 2 0
      (next_of_arrival _ _ _ demoObjState (by decide!)) (by decide)
      (slot_of_isSome _ _ demoSlot (by decide!)) (by decide!) (by decide) (by decide!)).2.2.2.2
      (1, 2) ((demoObjSaveCut demoOldEffects).advance 244) ((demoObjSaveCut demoOldEffects).advance 245)
      ((demoObjSaveCut demoOldEffects).advance 247)
      (endState (LGSObjects_toEffects demoObjEnv demoObjTables 0 0 2 0
        ((demoObjSaveCut demoOldEffects).advance 38) (demoArrivedSlot demoOldEffects)) demoSlot) 1 3
      (next_of_arrival _ _ _ demoSlot (by decide!)) (by decide!) (by decide) (by decide!)
      (by decide)).2⟩

/-- C15 (code bug): a record whose sentinel is wrong is restored. The source states the
sentinel in `ASSERT(sig==0xBADB0B)` only, which sets no return code and is no statement
of a release build. In the demo save whose record of slot 0 begins with the bytes 1, 2,
3, 4 where the sentinel 0xBADB0B belongs, the run arrives at that record, reads the
integer 67305985 in the place of the sentinel, and goes on: `LGSObjects` returns
`LGS_OK`, not `LGS_OBJECTSCORRUPT`, and the robot of slot 0 and the powerup of slot 2 are
restored with their handles, rooms and remapped ids. -/
theorem wrong_sentinel_is_restored :
    arrival (LGSObjects_arrive demoObjEnv demoObjTables 0 0 demoObjSaveBadSentinel
        demoObjState) = some (2, demoObjSaveBadSentinel.advance 32) ∧
      cf_ReadInt (demoObjSaveBadSentinel.advance 32)
        = .ok (67305985, demoObjSaveBadSentinel.advance 36) ∧
      (67305985 : Int) ≠ 0xBADB0B ∧
      objReturned (LGSObjects demoObjEnv demoObjTables 0 demoObjSaveBadSentinel demoObjState)
        = some LGS.OK ∧
      objSlots (LGSObjects demoObjEnv demoObjTables 0 demoObjSaveBadSentinel demoObjState)
        = [(2, 2048, 1, 10), (255, 0, -1, 0), (7, 4098, 0, 11)] := by
  decide!

/-- The sentinel of a record is read and not used (the source compares it with 0xBADB0B
in an `ASSERT` only, which is left out here as it is out of a release build): from two
cursors that hold different values in the
place of the sentinel and the same bytes after it, the iteration of the record loop for
slot `i`, and the loop from slot `i` on, give the same result: the same return path, the
same cursor, the same state. -/
theorem sentinel_value_ignored (env : ObjEnv) (gs : gs_tables) (version : Int) (i k : Nat)
    (fp fp2 fp1 : CFILE) (sig sig2 : Int) (s : ObjState)
    (h1 : cf_ReadInt fp = .ok (sig, fp1)) (h2 : cf_ReadInt fp2 = .ok (sig2, fp1)) :
    LGSObjects_slot env gs version i fp s = LGSObjects_slot env gs version i fp2 s ∧
      LGSObjects_records env gs version (k + 1) i fp s
        = LGSObjects_records env gs version (k + 1) i fp2 s := by
  have hslot : LGSObjects_slot env gs version i fp s
      = LGSObjects_slot env gs version i fp2 s := by
    simp only [LGSObjects_slot, run_bind, run_read, h1, h2]
  refine ⟨hslot, ?_⟩
  rw [records_succ, run_bind, run_bind, hslot]

/-- The record of slot 0 of the demo save, with the sentinel and with the bytes 1, 2, 3,
4 in its place, in the state in which the run arrives at it, gives the same result. -/
theorem sentinel_value_ignored_witness :
    LGSObjects_slot demoObjEnv demoObjTables 0 0 (demoObjSave.advance 32)
        (endState (LGSObjects_arrive demoObjEnv demoObjTables 0 0 demoObjSave demoObjState)
          demoObjState)
      = LGSObjects_slot demoObjEnv demoObjTables 0 0 (demoObjSaveBadSentinel.advance 32)
        (endState (LGSObjects_arrive demoObjEnv demoObjTables 0 0 demoObjSave demoObjState)
          demoObjState) ∧
    LGSObjects_records demoObjEnv demoObjTables 0 (2 + 1) 0 (demoObjSave.advance 32)
        (endState (LGSObjects_arrive demoObjEnv demoObjTables 0 0 demoObjSave demoObjState)
          demoObjState)
      = LGSObjects_records demoObjEnv demoObjTables 0 (2 + 1) 0
        (demoObjSaveBadSentinel.advance 32)
        (endState (LGSObjects_arrive demoObjEnv demoObjTables 0 0 demoObjSave demoObjState)
          demoObjState) :=
  sentinel_value_ignored demoObjEnv demoObjTables 0 0 2 (demoObjSave.advance 32)
    (demoObjSaveBadSentinel.advance 32) (demoObjSave.advance 36) 12245771 67305985 _
    (by decide!) (by decide!)

/-- C14: slot monotonicity. (1) When a run of `LGSObjects` arrives at the record of a
slot `i` within the declared range, the record is not empty, and the slot bits of its
saved handle (`handle & HANDLE_OBJNUM_MASK`) differ from `i`, then `LGSObjects` returns
`LGS_OBJECTSCORRUPT`, with the cursor right after the handle. (2) After a run of
`LGSObjects` that returns `LGS_OK`, every object up to `Highest_object_index` that is
not empty holds the handle its own record saved, and the slot bits of that handle are
the array position of the object. -/
theorem handles_name_their_slots (env : ObjEnv) (gs : gs_tables) (version : Int)
    (fp : CFILE) (s : ObjState) :
    (∀ (i : Nat) (fpi fpK fp3 fpH : CFILE) (si : ObjState) (sl : Slot) (highest : Int)
        (type l : Nat) (handle : Int),
      LGSObjects_arrive env gs version i fp s = .ok (.next highest fpi si) →
      (i : Int) ≤ highest → si.slot i = some sl →
      savedKind fpi = .ok (type, fpK) → type ≠ env.OBJ_NONE →
      savedLighting fpK = .ok (l, fp3) → savedHandle env fp3 = .ok (handle, fpH) →
      and32 handle env.HANDLE_OBJNUM_MASK ≠ Int.ofNat i →
      ∃ sR, LGSObjects env gs version fp s = .ok (LGS.OBJECTSCORRUPT, fpH, sR)) ∧
    (∀ (fpR : CFILE) (sR : ObjState),
      LGSObjects env gs version fp s = .ok (LGS.OK, fpR, sR) →
      ∀ (i : Nat) (op : object), (i : Int) ≤ sR.g.Highest_object_index →
        sR.Objects[i]? = some op → op.type ≠ env.OBJ_NONE →
        and32 op.handle env.HANDLE_OBJNUM_MASK = Int.ofNat i ∧
          ∃ roomnum m, savedAt env gs version i fp s
            = some (op.type, op.handle, roomnum, m)) := by
  constructor
  · intro i fpi fpK fp3 fpH si sl highest type l handle harrive hi hslot hkind hne hlight
      hhandle hmis
    obtain ⟨sE, hexit, hret⟩ := record_handle_mismatch env gs version i type l fp3 fpH sl
      handle hhandle hmis
    obtain ⟨sR, hR, _⟩ := LGSObjects_of_record_exit env gs version i fp fpi fpK fp3 fpH s si
      sl sE highest type l _ harrive hi hslot hkind hne hlight hexit
    rw [hret] at hR
    exact ⟨sR, hR⟩
  · intro fpR sR hrun i op hi hop hne
    obtain ⟨highest, fp0, s0, fpL, sL, s2, henter, hrec, hleave, rfl⟩ :=
      LGSObjects_ok _ _ _ _ _ _ _ hrun
    obtain ⟨_, _, hhigh, L2, _, hslots⟩ := leave_next _ _ _ _ _ _ hleave
    have hi2 : (i : Int) ≤ highest := by
      have : (i : Int) ≤ s2.g.Highest_object_index := hi
      rw [hhigh] at this
      exact this
    obtain ⟨op0, mat, h0, _, ht, hh, _, _⟩ := hslots i op hi2 hop
    obtain ⟨m, _, hsaved, hmask⟩ := records_inv env gs version fp fp0 s s0 highest henter _ _ _
      hrec i op0 (by omega) h0 (by rw [← ht]; exact hne)
    rw [ht, hh]
    exact ⟨hmask, op0.roomnum, m, hsaved⟩

/-- C18: two-phase linking. For a run of `LGSObjects` that returns: (1) with a failure
code, the run has made no call of `ObjLink` or `ObjSetOrient` at all; (2) with `LGS_OK`,
the calls the run has logged split into the calls `L1` made until the records of all
slots `0..highest_index` have been read and stored (the run arrives past the last
record in the state `sL`, with the cursor it returns with), none of which is `ObjLink`
or `ObjSetOrient`, and the calls `L2` made afterwards; and every object up to the
highest index that is not empty ends with the room number and the orientation that the
record of its own slot saved, `ObjLink` and `ObjSetOrient` having been called for its
slot with these values among `L2`. -/
theorem two_phase_linking (env : ObjEnv) (gs : gs_tables) (version : Int)
    (fp fpR : CFILE) (s sR : ObjState) (code : LGS)
    (hrun : LGSObjects env gs version fp s = .ok (code, fpR, sR)) :
    (code ≠ LGS.OK → ∃ L, sR.log = s.log ++ L ∧ ∀ c ∈ L, c.isLink = false) ∧
    (code = LGS.OK → ∃ highest sL L1 L2,
      LGSObjects_arrive env gs version (highest + 1).toNat fp s = .ok (.next highest fpR sL) ∧
      sL.log = s.log ++ L1 ∧ (∀ c ∈ L1, c.isLink = false) ∧ sR.log = sL.log ++ L2 ∧
      ∀ (i : Nat) (op : object), (i : Int) ≤ highest → sR.Objects[i]? = some op →
        op.type ≠ env.OBJ_NONE →
        ∃ handle, savedAt env gs version i fp s
            = some (op.type, handle, op.roomnum, op.orient) ∧
          ObjCall.ObjLink i op.roomnum ∈ L2 ∧ ObjCall.ObjSetOrient i op.orient ∈ L2) := by
  constructor
  · intro hcode
    obtain ⟨l, sE, hbody, L, hL, hLP⟩ := LGSObjects_failed _ _ _ _ _ _ _ _ hcode hrun
    obtain ⟨L0, hL0, hP0⟩ := body_exit_logged _ _ _ _ _ _ _ _ hbody
    refine ⟨L0 ++ L, by rw [hL, hL0, List.append_assoc], ?_⟩
    intro c hc
    rcases List.mem_append.1 hc with h | h
    · exact quiet_not_link c (hP0 c h)
    · rw [hLP c h]; rfl
  · intro hcode
    subst hcode
    obtain ⟨highest, fp0, s0, fpL, sL, s2, henter, hrec, hleave, rfl⟩ :=
      LGSObjects_ok _ _ _ _ _ _ _ hrun
    obtain ⟨rfl, _, _, L2, hL2, hslots⟩ := leave_next _ _ _ _ _ _ hleave
    obtain ⟨L1, hL1, hP1⟩ := ologged_trans _ _ _ _ (enter_logged env _ _ _ henter)
      (records_logged env gs version _ _ _ _ _ hrec)
    refine ⟨highest, sL, L1, L2 ++ [.Osiris_EnableCreateEvents],
      (arrive_next_iff _ _ _ _ _ _ _ _ _).2 ⟨fp0, s0, henter, hrec⟩, hL1,
      fun c hc => quiet_not_link c (hP1 c hc), ?_, ?_⟩
    · show s2.log ++ _ = _
      rw [hL2, List.append_assoc]
    · intro i op hi hop hne
      obtain ⟨op0, mat, h0, hmat, ht, hh, _, hlink⟩ := hslots i op hi hop
      have hne0 : op0.type ≠ env.OBJ_NONE := by rw [← ht]; exact hne
      obtain ⟨hroom, horient, hc1, hc2⟩ := hlink hne0
      obtain ⟨m, hm, hsaved, _⟩ := records_inv env gs version fp fp0 s s0 highest henter _ _ _
        hrec i op0 (by omega) h0 hne0
      rw [hmat] at hm
      obtain rfl := Option.some.inj hm
      refine ⟨op0.handle, ?_, ?_, ?_⟩
      · rw [ht, hroom, horient]; exact hsaved
      · rw [hroom]; exact List.mem_append.2 (Or.inl hc1)
      · rw [horient]; exact List.mem_append.2 (Or.inl hc2)

/-- Witness of C14: the demo save with the records of slot 1 and slot 2 exchanged is
rejected at the handle of the record at slot 1, and the objects the demo save restores
hold handles that name their slots. -/
theorem handles_name_their_slots_witness :
    (∃ sR, LGSObjects demoObjEnv demoObjTables 0 demoObjSaveMisplaced demoObjState
        = .ok (LGS.OBJECTSCORRUPT, demoObjSaveMisplaced.advance 256, sR)) ∧
    (∀ (i : Nat) (op : object), (i : Int) ≤ demoRestored.2.g.Highest_object_index →
      demoRestored.2.Objects[i]? = some op → op.type ≠ demoObjEnv.OBJ_NONE →
      and32 op.handle demoObjEnv.HANDLE_OBJNUM_MASK = Int.ofNat i ∧
        ∃ roomnum m, savedAt demoObjEnv demoObjTables 0 i demoObjSave demoObjState
          = some (op.type, op.handle, roomnum, m)) :=
  ⟨(handles_name_their_slots demoObjEnv demoObjTables 0 demoObjSaveMisplaced demoObjState).1
      1 (demoObjSaveMisplaced.advance 245) (demoObjSaveMisplaced.advance 250)
      (demoObjSaveMisplaced.advance 251) (demoObjSaveMisplaced.advance 256)
      demoMisplacedArrived (demoMisplacedArrived.slotAt 1 demoSlot) 2 7 0 4098
      (next_of_arrival _ _ _ demoObjState (by decide!)) (by decide)
      (slot_of_isSome _ _ demoSlot (by decide!)) (by decide!) (by decide) (by decide!)
      (by decide!) (by decide!),
    (handles_name_their_slots demoObjEnv demoObjTables 0 demoObjSave demoObjState).2
      demoRestored.1 demoRestored.2 (returned_eq _ _ (demoObjSave, demoObjState) (by decide!))⟩

/-- Witness of C18: the run on the demo save of objects, which returns `LGS_OK`. -/
theorem two_phase_linking_witness :
    (LGS.OK ≠ LGS.OK → ∃ L, demoRestored.2.log = demoObjState.log ++ L ∧
      ∀ c ∈ L, c.isLink = false) ∧
    (LGS.OK = LGS.OK → ∃ highest sL L1 L2,
      LGSObjects_arrive demoObjEnv demoObjTables 0 (highest + 1).toNat demoObjSave demoObjState
        = .ok (.next highest demoRestored.1 sL) ∧
      sL.log = demoObjState.log ++ L1 ∧ (∀ c ∈ L1, c.isLink = false) ∧
      demoRestored.2.log = sL.log ++ L2 ∧
      ∀ (i : Nat) (op : object), (i : Int) ≤ highest → demoRestored.2.Objects[i]? = some op →
        op.type ≠ demoObjEnv.OBJ_NONE →
        ∃ handle, savedAt demoObjEnv demoObjTables 0 i demoObjSave demoObjState
            = some (op.type, handle, op.roomnum, op.orient) ∧
          ObjCall.ObjLink i op.roomnum ∈ L2 ∧ ObjCall.ObjSetOrient i op.orient ∈ L2) :=
  two_phase_linking demoObjEnv demoObjTables 0 demoObjSave demoRestored.1 demoObjState
    demoRestored.2 LGS.OK (returned_eq _ _ (demoObjSave, demoObjState) (by decide!))

/-- C19: the remap of the content identifier is a function of the kind, the saved
ordinal and the tables. With the kind tags of the `switch` pairwise distinct, the remap
`LGSObjects_xlateId` is the lookup `obji_indices[saved]` for robot, powerup, building and
clutter, `door_handles[saved]` for door, `wpn_handles[saved]` for weapon (a lookup
outside the table being outside the defined behaviour in both), and the saved value
unchanged for player and for every other kind; and the id an object holds when its
record has been read to the end is this remap of the 16-bit value saved after the name
of the record, for the kind tag of the record, or for the saved dummy type when the
kind tag is `OBJ_DUMMY`. -/
theorem id_remap_by_kind (env : ObjEnv) (gs : gs_tables)
    (hdistinct : [env.OBJ_ROBOT, env.OBJ_POWERUP, env.OBJ_BUILDING, env.OBJ_CLUTTER,
      env.OBJ_DOOR, env.OBJ_WEAPON, env.OBJ_PLAYER].Nodup) :
    (∀ (kind : Nat) (saved : Int),
      kind ∈ [env.OBJ_ROBOT, env.OBJ_POWERUP, env.OBJ_BUILDING, env.OBJ_CLUTTER] →
      LGSObjects_xlateId env gs kind saved = xlateDirect gs.obji_indices saved) ∧
    (∀ saved : Int,
      LGSObjects_xlateId env gs env.OBJ_DOOR saved = xlateDirect gs.door_handles saved) ∧
    (∀ saved : Int,
      LGSObjects_xlateId env gs env.OBJ_WEAPON saved = xlateDirect gs.wpn_handles saved) ∧
    (∀ saved : Int, LGSObjects_xlateId env gs env.OBJ_PLAYER saved = .ok saved) ∧
    (∀ (kind : Nat) (saved : Int),
      kind ∉ [env.OBJ_ROBOT, env.OBJ_POWERUP, env.OBJ_BUILDING, env.OBJ_CLUTTER,
        env.OBJ_DOOR, env.OBJ_WEAPON] →
      LGSObjects_xlateId env gs kind saved = .ok saved) ∧
    (∀ (version : Int) (i type l : Nat) (fp fp1 : CFILE) (s s1 : Slot),
      LGSObjects_record env gs version i type l fp s = .ok (.next () fp1 s1) →
      ∃ handle fpH dummy roomnum m fpP saved fpJ,
        savedHandle env fp = .ok (handle, fpH) ∧
        savedPlacement fpH = .ok ((dummy, roomnum, m), fpP) ∧
        savedId env fpP = .ok (saved, fpJ) ∧
        LGSObjects_xlateId env gs (if type = env.OBJ_DUMMY then dummy else type) saved
          = .ok s1.op.id) := by
  simp only [List.nodup_cons, List.mem_cons, List.mem_singleton, List.not_mem_nil, or_false,
    not_or, List.nodup_nil, and_true, not_false_eq_true] at hdistinct
  obtain ⟨⟨_, _, _, hrd, hrw, hrp⟩, ⟨_, _, hpd, hpw, hpp⟩, ⟨_, hbd, hbw, hbp⟩, ⟨hcd, hcw, hcp⟩,
    ⟨hdw, hdp⟩, hwp⟩ := hdistinct
  refine ⟨?_, ?_, ?_, ?_, ?_, ?_⟩
  · intro kind saved hk
    simp only [List.mem_cons, List.mem_singleton, List.not_mem_nil, or_false] at hk
    unfold LGSObjects_xlateId
    rw [if_pos hk]
  · intro saved
    unfold LGSObjects_xlateId
    rw [if_neg (by
      rintro (h | h | h | h)
      · exact hrd h.symm
      · exact hpd h.symm
      · exact hbd h.symm
      · exact hcd h.symm), if_pos rfl]
  · intro saved
    unfold LGSObjects_xlateId
    rw [if_neg (by
      rintro (h | h | h | h)
      · exact hrw h.symm
      · exact hpw h.symm
      · exact hbw h.symm
      · exact hcw h.symm), if_neg (fun h => hdw h.symm), if_pos rfl]
  · intro saved
    unfold LGSObjects_xlateId
    rw [if_neg (by
      rintro (h | h | h | h)
      · exact hrp h.symm
      · exact hpp h.symm
      · exact hbp h.symm
      · exact hcp h.symm), if_neg (fun h => hdp h.symm), if_neg (fun h => hwp h.symm)]
    split <;> rfl
  · intro kind saved hk
    simp only [List.mem_cons, List.mem_singleton, List.not_mem_nil, or_false, not_or] at hk
    obtain ⟨k1, k2, k3, k4, k5, k6⟩ := hk
    unfold LGSObjects_xlateId
    rw [if_neg (by
      rintro (h | h | h | h)
      · exact k1 h
      · exact k2 h
      · exact k3 h
      · exact k4 h), if_neg k5, if_neg k6]
    split <;> rfl
  · intro version i type l fp fp1 s s1 h
    obtain ⟨handle, fpH, dummy, roomnum, fpP, fpJ, saved, hH, _, hP, hS, hid, _⟩ :=
      record_next _ _ _ _ _ _ _ _ _ _ h
    exact ⟨handle, fpH, dummy, roomnum, _, fpP, saved, fpJ, hH, hP, hS, hid⟩

/-- Witness of C19: the kind tags of the demo environment are pairwise distinct. -/
theorem id_remap_by_kind_witness :
    (∀ (kind : Nat) (saved : Int),
      kind ∈ [demoObjEnv.OBJ_ROBOT, demoObjEnv.OBJ_POWERUP, demoObjEnv.OBJ_BUILDING,
        demoObjEnv.OBJ_CLUTTER] →
      LGSObjects_xlateId demoObjEnv demoObjTables kind saved
        = xlateDirect demoObjTables.obji_indices saved) ∧
    (∀ saved : Int, LGSObjects_xlateId demoObjEnv demoObjTables demoObjEnv.OBJ_DOOR saved
      = xlateDirect demoObjTables.door_handles saved) ∧
    (∀ saved : Int, LGSObjects_xlateId demoObjEnv demoObjTables demoObjEnv.OBJ_WEAPON saved
      = xlateDirect demoObjTables.wpn_handles saved) ∧
    (∀ saved : Int,
      LGSObjects_xlateId demoObjEnv demoObjTables demoObjEnv.OBJ_PLAYER saved = .ok saved) ∧
    (∀ (kind : Nat) (saved : Int),
      kind ∉ [demoObjEnv.OBJ_ROBOT, demoObjEnv.OBJ_POWERUP, demoObjEnv.OBJ_BUILDING,
        demoObjEnv.OBJ_CLUTTER, demoObjEnv.OBJ_DOOR, demoObjEnv.OBJ_WEAPON] →
      LGSObjects_xlateId demoObjEnv demoObjTables kind saved = .ok saved) ∧
    (∀ (version : Int) (i type l : Nat) (fp fp1 : CFILE) (s s1 : Slot),
      LGSObjects_record demoObjEnv demoObjTables version i type l fp s = .ok (.next () fp1 s1) →
      ∃ handle fpH dummy roomnum m fpP saved fpJ,
        savedHandle demoObjEnv fp = .ok (handle, fpH) ∧
        savedPlacement fpH = .ok ((dummy, roomnum, m), fpP) ∧
        savedId demoObjEnv fpP = .ok (saved, fpJ) ∧
        LGSObjects_xlateId demoObjEnv demoObjTables
            (if type = demoObjEnv.OBJ_DUMMY then dummy else type) saved
          = .ok s1.op.id) :=
  id_remap_by_kind demoObjEnv demoObjTables (by decide)

/-- C21 (the claim as stated fails): the weapon-battery array has no declared size. The
same save, whose record holds one battery, is restored with `LGS_OK` both by the demo
build, whose `dynamic_wb_info` has one byte, and by a build whose `dynamic_wb_info` has
three bytes: the first takes the byte 9 as the battery, the second the bytes 9, 0, 0, and
no check fails the restore. -/
theorem battery_size_is_not_checked :
    objReturned (LGSObjects demoObjEnv demoObjTables 0 (demoObjSaveCut demoOneBattery)
        demoObjState) = some LGS.OK ∧
      objReturned (LGSObjects demoObjEnvWide demoObjTables 0 (demoObjSaveCut demoOneBattery)
        demoObjState) = some LGS.OK ∧
      ((objEnd (LGSObjects demoObjEnv demoObjTables 0 (demoObjSaveCut demoOneBattery)
        demoObjState) (demoObjSave, demoObjState)).2.Objects.map fun o => o.dynamic_wb)
        = [some [[9]], none, none] ∧
      ((objEnd (LGSObjects demoObjEnvWide demoObjTables 0 (demoObjSaveCut demoOneBattery)
        demoObjState) (demoObjSave, demoObjState)).2.Objects.map fun o => o.dynamic_wb)
        = [some [[9, 0, 0]], none, none] := by
  decide!

/-- C21 (amended): of the four optional sub-records, the AI frame and the effect info
are behind a presence flag and a declared size: with the flag clear only the flag is
read and the object has no frame (info); with the flag set, a declared size that differs
from the live size gives `LGS_OUTDATEDVER` right after the size, and the live size makes
the function copy that many bytes and return `LGS_OK`. The weapon-battery array and the
attachment children are behind a count only: `LGSObjWB` reads `num_wbs` records of
`sizeof(dynamic_wb_info)` bytes when the count is not 0 and returns `LGS_OK` from every
run that completes, and the attachment children are read without any way out of the
record; a count of 0 leaves the object as it is. -/
theorem optional_subrecords (env : ObjEnv) :
    (∀ (fp fpA : CFILE) (s : Slot), cf_ReadByte fp = .ok (0, fpA) →
      LGSObjAI env fp s = .ok (.next LGS.OK fpA { s with op := { s.op with ai_info := none } })) ∧
    (∀ (fp fpA fpS : CFILE) (s : Slot) (flag : Nat) (size : Int),
      cf_ReadByte fp = .ok (flag, fpA) → flag ≠ 0 → cf_ReadShort fpA = .ok (size, fpS) →
      size ≠ Int.ofNat env.sizeof_ai_frame →
      LGSObjAI env fp s
        = .ok (.next LGS.OUTDATEDVER fpS { s with op := { s.op with ai_info := none } })) ∧
    (∀ (fp fpA fpS fpE : CFILE) (s : Slot) (flag : Nat) (bytes : List Nat),
      cf_ReadByte fp = .ok (flag, fpA) → flag ≠ 0 →
      cf_ReadShort fpA = .ok (Int.ofNat env.sizeof_ai_frame, fpS) →
      readCount (Int.ofNat env.sizeof_ai_frame) fpS = .ok (bytes, fpE) →
      LGSObjAI env fp s
        = .ok (.next LGS.OK fpE { s with op := { s.op with ai_info := some bytes } })) ∧
    (∀ (fp fpA : CFILE) (s : Slot), cf_ReadByte fp = .ok (0, fpA) →
      LGSObjEffects env fp s
        = .ok (.next LGS.OK fpA { s with op := { s.op with effect_info := none } })) ∧
    (∀ (fp fpA fpS : CFILE) (s : Slot) (flag : Nat) (size : Int),
      cf_ReadByte fp = .ok (flag, fpA) → flag ≠ 0 → cf_ReadShort fpA = .ok (size, fpS) →
      size ≠ Int.ofNat env.sizeof_effect_info →
      LGSObjEffects env fp s
        = .ok (.next LGS.OUTDATEDVER fpS { s with op := { s.op with effect_info := none } })) ∧
    (∀ (fp fpA fpS fpE : CFILE) (s : Slot) (flag : Nat) (bytes : List Nat),
      cf_ReadByte fp = .ok (flag, fpA) → flag ≠ 0 →
      cf_ReadShort fpA = .ok (Int.ofNat env.sizeof_effect_info, fpS) →
      readCount (Int.ofNat env.sizeof_effect_info) fpS = .ok (bytes, fpE) →
      LGSObjEffects env fp s
        = .ok (.next LGS.OK fpE { s with op := { s.op with effect_info := some bytes } })) ∧
    (∀ (fp : CFILE) (s : Slot) (out : Step Slot LGS), LGSObjWB env fp s = .ok out →
      ∃ fp1 s1, out = .next LGS.OK fp1 s1) ∧
    (∀ (fp fpA : CFILE) (s : Slot) (b : Nat), cf_ReadByte fp = .ok (b, fpA) → toSByte b = 0 →
      LGSObjWB env fp s = .ok (.next LGS.OK fpA s)) ∧
    (∀ (fp fpA fpE : CFILE) (s : Slot) (b : Nat) (dwba : List (List Nat)),
      cf_ReadByte fp = .ok (b, fpA) → toSByte b ≠ 0 →
      readBatteries env (toSByte b).toNat fpA = .ok (dwba, fpE) →
      LGSObjWB env fp s
        = .ok (.next LGS.OK fpE { s with op := { s.op with dynamic_wb := some dwba } })) ∧
    (∀ (version : Int) (fp : CFILE) (s : Slot) (out : Step Slot Unit),
      LGSObjects_attach version fp s = .ok out → ∃ fp1 s1, out = .next () fp1 s1) ∧
    (∀ (version : Int) (fp fpA : CFILE) (s : Slot), cf_ReadInt fp = .ok (0, fpA) →
      LGSObjects_attach version fp s = .ok (.next () fpA s)) := by
  refine ⟨?_, ?_, ?_, ?_, ?_, ?_, ?_, ?_, ?_, ?_, ?_⟩
  · intro fp fpA s hflag
    simp only [LGSObjAI, setOp, run_bind, run_modify, run_read, hflag, run_ite, if_true,
      run_pure]
  · intro fp fpA fpS s flag size hflag hset hsize hne
    exact LGSObjAI_mismatch env fp fpA fpS s flag size hflag hset hsize hne
  · intro fp fpA fpS fpE s flag bytes hflag hset hsize hbytes
    simp only [LGSObjAI, setOp, run_bind, run_modify, run_read, hflag, run_ite, if_neg hset,
      hsize, ne_eq, not_true_eq_false, if_false, hbytes, run_pure]
  · intro fp fpA s hflag
    simp only [LGSObjEffects, setOp, run_bind, run_modify, run_read, hflag, run_ite, ne_eq,
      not_true_eq_false, if_false, run_pure]
  · intro fp fpA fpS s flag size hflag hset hsize hne
    exact LGSObjEffects_mismatch env fp fpA fpS s flag size hflag hset hsize hne
  · intro fp fpA fpS fpE s flag bytes hflag hset hsize hbytes
    simp only [LGSObjEffects, setOp, run_bind, run_modify, run_read, hflag, run_ite,
      if_pos hset, hsize, ne_eq, not_true_eq_false, if_false, hbytes, run_pure]
  · intro fp s out h
    unfold LGSObjWB at h
    rw [run_bind, run_read] at h
    cases hb : cf_ReadByte fp with
    | error e => rw [hb] at h; cases h
    | ok p =>
      obtain ⟨b, fpA⟩ := p
      rw [hb] at h
      simp only [] at h
      rw [run_ite] at h
      split at h
      · rw [run_pure] at h
        cases h
        exact ⟨_, _, rfl⟩
      · rw [run_bind, run_read] at h
        cases hr : readBatteries env (toSByte b).toNat fpA with
        | error e => rw [hr] at h; cases h
        | ok q =>
          obtain ⟨dwba, fpE⟩ := q
          rw [hr] at h
          simp only [setOp, run_bind, run_modify, run_pure] at h
          cases h
          exact ⟨_, _, rfl⟩
  · intro fp fpA s b hb hz
    simp only [LGSObjWB, run_bind, run_read, hb, run_ite, hz, if_true, run_pure]
  · intro fp fpA fpE s b dwba hb hz hr
    simp only [LGSObjWB, setOp, run_bind, run_read, hb, run_ite, if_neg hz, hr, run_modify,
      run_pure]
  · intro version fp s out h
    cases out with
    | next u fp1 s1 => exact ⟨fp1, s1, rfl⟩
    | exit l fp1 s1 =>
      exact ((attach_no_exit version : Stmt.ExitPost (fun _ => False) _) _ _ _ _ _ h).elim
  · intro version fp fpA s hn
    simp only [LGSObjects_attach, run_bind, run_read, hn, run_ite, ne_eq, not_true_eq_false,
      if_false, run_pure]

/-- Witness of C21 (amended): the demo environment. -/
theorem optional_subrecords_witness :
    LGSObjAI demoObjEnv (cursorOn [1, 3, 0, 9]) demoSlot
        = .ok (.next LGS.OUTDATEDVER ((cursorOn [1, 3, 0, 9]).advance 3)
            { demoSlot with op := { demoSlot.op with ai_info := none } }) ∧
      LGSObjWB demoObjEnv (cursorOn [2, 7, 8]) demoSlot
        = .ok (.next LGS.OK ((cursorOn [2, 7, 8]).advance 3)
            { demoSlot with op := { demoSlot.op with dynamic_wb := some [[7], [8]] } }) :=
  ⟨(optional_subrecords demoObjEnv).2.1 (cursorOn [1, 3, 0, 9]) ((cursorOn [1, 3, 0, 9]).advance 1)
      ((cursorOn [1, 3, 0, 9]).advance 3) demoSlot 1 3 (by decide!) (by decide) (by decide!)
      (by decide),
    (optional_subrecords demoObjEnv).2.2.2.2.2.2.2.2.1 (cursorOn [2, 7, 8])
      ((cursorOn [2, 7, 8]).advance 1) ((cursorOn [2, 7, 8]).advance 3) demoSlot 2 [[7], [8]]
      (by decide!) (by decide) (by decide!)⟩

/-- C22 (code bug): on the paths that leave `LGSObjects` by `goto done` the script
create-events disabled at entry are not enabled again. In the demo save whose record at
slot 1 holds a handle of slot 2, `LGSObjects` returns `LGS_OBJECTSCORRUPT`, and in the
demo save whose movement block declares a wrong size it returns `LGS_OUTDATEDVER`; in
both runs the log holds `Osiris_DisableCreateEvents` once and
`Osiris_EnableCreateEvents` not at all. The failure of an AI frame, which leaves by
`goto lgsobjs_fail`, does enable them again. -/
theorem create_events_left_disabled :
    objReturned (LGSObjects demoObjEnv demoObjTables 0 demoObjSaveMisplaced demoObjState)
        = some LGS.OBJECTSCORRUPT ∧
      (objLog (LGSObjects demoObjEnv demoObjTables 0 demoObjSaveMisplaced demoObjState)).count
        ObjCall.Osiris_DisableCreateEvents = 1 ∧
      (objLog (LGSObjects demoObjEnv demoObjTables 0 demoObjSaveMisplaced demoObjState)).count
        ObjCall.Osiris_EnableCreateEvents = 0 ∧
      objReturned (LGSObjects demoObjEnv demoObjTables 0 demoObjSaveOldMovement demoObjState)
        = some LGS.OUTDATEDVER ∧
      (objLog (LGSObjects demoObjEnv demoObjTables 0 demoObjSaveOldMovement demoObjState)).count
        ObjCall.Osiris_DisableCreateEvents = 1 ∧
      (objLog (LGSObjects demoObjEnv demoObjTables 0 demoObjSaveOldMovement demoObjState)).count
        ObjCall.Osiris_EnableCreateEvents = 0 ∧
      objReturned (LGSObjects demoObjEnv demoObjTables 0 (demoObjSaveCut demoOldAI)
        demoObjState) = some LGS.OUTDATEDVER ∧
      (objLog (LGSObjects demoObjEnv demoObjTables 0 (demoObjSaveCut demoOldAI)
        demoObjState)).count ObjCall.Osiris_EnableCreateEvents = 1 := by
  decide!

/-! ### Lightmap objects -/

/-- The calls of the first part of a record: the object of the slot is deleted exactly
when it is live, of the lightmap kind, and the record is not of the lightmap kind. -/
theorem head_log (env : ObjEnv) (i l : Nat) (fp : CFILE) (s : Slot) (out : Step Slot Int)
    (h : LGSObjects_head env i l fp s = .ok out) :
    out.state.log = s.log ++
      (if s.op.type ≠ env.OBJ_NONE ∧ s.op.lighting_render_type = env.LRT_LIGHTMAPS
          ∧ l ≠ env.LRT_LIGHTMAPS then
        [ObjCall.Osiris_DisableEvents env.OEM_mask, ObjCall.ObjDelete i,
          ObjCall.Osiris_EnableEvents env.OEM_mask]
       else []) := by
  have hrest : ∀ (t : Slot) (out : Step Slot Int),
      (do
        setOp fun op => { op with lighting_render_type := l }
        let has_lightinfo ← Stmt.read cf_ReadByte
        (if has_lightinfo ≠ 0 then do
          let bytes ← Stmt.read (cf_ReadBytes env.sizeof_light_info)
          setOp fun op => { op with lighting_info := some bytes }
        else pure ())
        let handle ← Stmt.read cf_ReadInt
        if and32 handle env.HANDLE_OBJNUM_MASK ≠ Int.ofNat i then do
          setRetval LGS.OBJECTSCORRUPT
          Stmt.exit .done
        else pure handle : Stmt Slot Int) fp t = .ok out → out.state.log = t.log := by
    intro t out ht
    have hk : Stmt.Rel (Keep fun s : Slot => s.log)
        (do
          setOp fun op => { op with lighting_render_type := l }
          let has_lightinfo ← Stmt.read cf_ReadByte
          (if has_lightinfo ≠ 0 then do
            let bytes ← Stmt.read (cf_ReadBytes env.sizeof_light_info)
            setOp fun op => { op with lighting_info := some bytes }
          else pure ())
          let handle ← Stmt.read cf_ReadInt
          if and32 handle env.HANDLE_OBJNUM_MASK ≠ Int.ofNat i then do
            setRetval LGS.OBJECTSCORRUPT
            Stmt.exit .done
          else pure handle : Stmt Slot Int) := by
      unfold setOp setRetval
      repeat' first
        | refine Rel_bind (Keep_trans _) _ _ ?_ ?_
        | exact Rel_read (Keep_refl _) _
        | exact Rel_pure (Keep_refl _) _
        | exact Rel_exit (Keep_refl _) _
        | refine Rel_ite _ _ _ ?_ ?_
        | (refine Rel_modify _ ?_; intro s; rfl)
        | intro _
    exact hk _ _ _ ht
  unfold LGSObjects_head at h
  rw [bind_of_next _ _ _ _ _ _ _ (run_get fp s)] at h
  by_cases hc : s.op.type ≠ env.OBJ_NONE ∧ s.op.lighting_render_type = env.LRT_LIGHTMAPS
      ∧ l ≠ env.LRT_LIGHTMAPS
  · have hb : (if s.op.type ≠ env.OBJ_NONE ∧ s.op.lighting_render_type = env.LRT_LIGHTMAPS
          ∧ l ≠ env.LRT_LIGHTMAPS then do
          slotCall (.Osiris_DisableEvents env.OEM_mask)
          ObjDelete env i
          slotCall (.Osiris_EnableEvents env.OEM_mask)
        else pure () : Stmt Slot Unit) fp s
        = .ok (.next () fp
            { s with op := { s.op with type := env.OBJ_NONE },
                     log := s.log ++ [ObjCall.Osiris_DisableEvents env.OEM_mask]
                       ++ [ObjCall.ObjDelete i] ++ [ObjCall.Osiris_EnableEvents env.OEM_mask] }) := by
      rw [run_ite, if_pos hc]
      rfl
    rw [bind_of_next _ _ _ _ _ _ _ hb] at h
    rw [hrest _ out h, if_pos hc]
    simp
  · have hb : (if s.op.type ≠ env.OBJ_NONE ∧ s.op.lighting_render_type = env.LRT_LIGHTMAPS
          ∧ l ≠ env.LRT_LIGHTMAPS then do
          slotCall (.Osiris_DisableEvents env.OEM_mask)
          ObjDelete env i
          slotCall (.Osiris_EnableEvents env.OEM_mask)
        else pure () : Stmt Slot Unit) fp s = .ok (.next () fp s) := by
      rw [run_ite, if_neg hc]
      rfl
    rw [bind_of_next _ _ _ _ _ _ _ hb] at h
    rw [hrest _ out h, if_neg hc]
    simp

/-- C23 (the claim as stated fails): in the demo world whose slot 1 holds a live building
of the lightmap kind (`lighting_render_type` is `LRT_LIGHTMAPS`), the demo save, whose
record for slot 1 is empty, is restored with `LGS_OK`, and the run calls `ObjDelete(1)`. -/
theorem lightmap_object_is_deleted :
    (demoObjStateLightmap.Objects.map fun o => (o.type, o.lighting_render_type))
        = [(2, 0), (16, demoObjEnv.LRT_LIGHTMAPS), (demoObjEnv.OBJ_NONE, 0)] ∧
      objReturned (LGSObjects demoObjEnv demoObjTables 0 demoObjSave demoObjStateLightmap)
        = some LGS.OK ∧
      ObjCall.ObjDelete 1
        ∈ objLog (LGSObjects demoObjEnv demoObjTables 0 demoObjSave demoObjStateLightmap) := by
  decide!

/-- C23 (amended): which statements of `LGSObjects` delete the object of a slot. (1) The
loop before the records does not delete an object of the lightmap kind: it resets its
list links and calls `ObjUnlink` only, and the object keeps its kind. (2) The branch for
an empty record deletes the live object of the slot, whatever its lighting kind. (3) The
first part of a record that is not empty deletes the object of the slot exactly when it
is live, of the lightmap kind, and the record is not of the lightmap kind; it makes no
other call. (4) The loop after the records deletes every live object beyond the highest
index, whatever its lighting kind. -/
theorem lightmap_delete_cases (env : ObjEnv) (i : Nat) (fp : CFILE) (s : Slot) :
    (s.op.lighting_render_type = env.LRT_LIGHTMAPS →
      LGSObjects_clearSlot env i fp s
        = .ok (.next () fp { s with op := { s.op with next := -1, prev := -1 },
                                    log := s.log ++ [ObjCall.ObjUnlink i] })) ∧
    (s.op.type ≠ env.OBJ_NONE →
      LGSObjects_empty env i fp s
        = .ok (.next () fp
            { s with op := { s.op with type := env.OBJ_NONE },
                     log := s.log ++ [ObjCall.Osiris_DisableEvents env.OEM_mask]
                       ++ [ObjCall.ObjDelete i]
                       ++ [ObjCall.Osiris_EnableEvents env.OEM_mask] })) ∧
    (∀ (l : Nat) (out : Step Slot Int), LGSObjects_head env i l fp s = .ok out →
      out.state.log = s.log ++
        (if s.op.type ≠ env.OBJ_NONE ∧ s.op.lighting_render_type = env.LRT_LIGHTMAPS
            ∧ l ≠ env.LRT_LIGHTMAPS then
          [ObjCall.Osiris_DisableEvents env.OEM_mask, ObjCall.ObjDelete i,
            ObjCall.Osiris_EnableEvents env.OEM_mask]
         else [])) ∧
    (s.op.type ≠ env.OBJ_NONE →
      LGSObjects_beyondSlot env i fp s
        = .ok (.next () fp
            { s with op := { s.op with type := env.OBJ_NONE },
                     log := s.log ++ [ObjCall.Osiris_DisableEvents env.OEM_mask]
                       ++ [ObjCall.ObjDelete i]
                       ++ [ObjCall.Osiris_EnableEvents env.OEM_mask] })) := by
  refine ⟨?_, ?_, ?_, ?_⟩
  · intro hl
    simp only [LGSObjects_clearSlot, run_bind, run_get, run_ite, hl, ne_eq, not_true_eq_false,
      if_false, setOp, slotCall, run_modify]
  · intro hne
    simp only [LGSObjects_empty, ObjDelete, slotCall, setOp, run_bind, run_get, run_modify,
      run_ite, if_pos hne]
  · intro l out h
    exact head_log env i l fp s out h
  · intro hne
    simp only [LGSObjects_beyondSlot, ObjDelete, slotCall, setOp, run_bind, run_get,
      run_modify, run_ite, if_pos hne]

/-- Witness of C23 (amended): the building of the lightmap kind in slot 1 of the demo
world, in the loop before the records and at an empty record. -/
theorem lightmap_delete_cases_witness :
    LGSObjects_clearSlot demoObjEnv 1 demoObjSave demoLightmapSlot
        = .ok (.next () demoObjSave
            { demoLightmapSlot with
              op := { demoLightmapSlot.op with next := -1, prev := -1 },
              log := demoLightmapSlot.log ++ [ObjCall.ObjUnlink 1] }) ∧
      LGSObjects_empty demoObjEnv 1 demoObjSave demoLightmapSlot
        = .ok (.next () demoObjSave
            { demoLightmapSlot with
              op := { demoLightmapSlot.op with
                      type := demoObjEnv.OBJ_NONE },
              log := demoLightmapSlot.log
                ++ [ObjCall.Osiris_DisableEvents demoObjEnv.OEM_mask]
                ++ [ObjCall.ObjDelete 1]
                ++ [ObjCall.Osiris_EnableEvents demoObjEnv.OEM_mask] }) :=
  ⟨(lightmap_delete_cases demoObjEnv 1 demoObjSave
      demoLightmapSlot).1 (by decide),
    (lightmap_delete_cases demoObjEnv 1 demoObjSave
      demoLightmapSlot).2.1 (by decide)⟩

/-- C24: live slots after a restore. After a run of `LGSObjects` that returns `LGS_OK`,
with `highest` the highest index the stream declares (the value the opening statements of
the run read): `Highest_object_index` is `highest`; every object at a slot `i` below
`MAX_OBJECTS` is live (its type is not `OBJ_NONE`) exactly when `i ≤ highest` and the kind
tag of the record of slot `i` in the stream is not `OBJ_NONE`, and at a slot
`i ≤ highest` the object holds that very tag; and every object at a slot beyond `highest`
is empty. -/
theorem live_slots_match_snapshot (env : ObjEnv) (gs : gs_tables) (version : Int)
    (fp fpR : CFILE) (s sR : ObjState)
    (hrun : LGSObjects env gs version fp s = .ok (LGS.OK, fpR, sR)) :
    ∃ highest fp0, arrival (LGSObjects_enter env fp s) = some (highest, fp0) ∧
      sR.g.Highest_object_index = highest ∧
      (∀ (i : Nat) (op : object), i < env.MAX_OBJECTS → sR.Objects[i]? = some op →
        (op.type ≠ env.OBJ_NONE ↔
          ((i : Int) ≤ highest ∧
            ∃ t, savedKindAt env gs version i fp s = some t ∧ t ≠ env.OBJ_NONE))) ∧
      (∀ (i : Nat) (op : object), (i : Int) ≤ highest → sR.Objects[i]? = some op →
        savedKindAt env gs version i fp s = some op.type) ∧
      (∀ (i : Nat) (op : object), highest < (i : Int) → i < env.MAX_OBJECTS →
        sR.Objects[i]? = some op → op.type = env.OBJ_NONE) := by
  obtain ⟨highest, fp0, s0, fpL, sL, s2, henter, hrec, hleave, rfl⟩ :=
    LGSObjects_ok _ _ _ _ _ _ _ hrun
  obtain ⟨_, _, hhigh, L2, _, hslots⟩ := leave_next _ _ _ _ _ _ hleave
  have hbeyond := leave_beyond _ _ _ _ _ _ hleave
  have hkind : ∀ (i : Nat) (op : object), (i : Int) ≤ highest → s2.Objects[i]? = some op →
      savedKindAt env gs version i fp s = some op.type := by
    intro i op hi hop
    obtain ⟨op0, mat, h0, _, ht, _⟩ := hslots i op hi hop
    rw [ht]
    exact records_kind_inv env gs version fp fp0 s s0 highest henter _ _ _ hrec i op0
      (by omega) h0
  refine ⟨highest, fp0, by rw [henter]; rfl, hhigh, ?_, hkind, hbeyond⟩
  intro i op hmax hop
  by_cases hi : (i : Int) ≤ highest
  · have hk := hkind i op hi hop
    constructor
    · intro hne
      exact ⟨hi, op.type, hk, hne⟩
    · rintro ⟨_, t, ht, hne⟩
      rw [hk] at ht
      obtain rfl := Option.some.inj ht
      exact hne
  · constructor
    · intro hne
      exact (hne (hbeyond i op (by omega) hmax hop)).elim
    · rintro ⟨h, _⟩
      exact (hi h).elim

/-- Witness of C24: the run on the demo save of objects, which returns `LGS_OK`. -/
theorem live_slots_match_snapshot_witness :
    ∃ highest fp0, arrival (LGSObjects_enter demoObjEnv demoObjSave demoObjState)
        = some (highest, fp0) ∧
      demoRestored.2.g.Highest_object_index = highest ∧
      (∀ (i : Nat) (op : object), i < demoObjEnv.MAX_OBJECTS →
        demoRestored.2.Objects[i]? = some op →
        (op.type ≠ demoObjEnv.OBJ_NONE ↔
          ((i : Int) ≤ highest ∧
            ∃ t, savedKindAt demoObjEnv demoObjTables 0 i demoObjSave demoObjState = some t ∧
              t ≠ demoObjEnv.OBJ_NONE))) ∧
      (∀ (i : Nat) (op : object), (i : Int) ≤ highest →
        demoRestored.2.Objects[i]? = some op →
        savedKindAt demoObjEnv demoObjTables 0 i demoObjSave demoObjState = some op.type) ∧
      (∀ (i : Nat) (op : object), highest < (i : Int) → i < demoObjEnv.MAX_OBJECTS →
        demoRestored.2.Objects[i]? = some op → op.type = demoObjEnv.OBJ_NONE) :=
  live_slots_match_snapshot demoObjEnv demoObjTables 0 demoObjSave demoRestored.1 demoObjState
    demoRestored.2 (returned_eq _ _ (demoObjSave, demoObjState) (by decide!))

/-- C26: the room count of a save is not validated. On the level `demoRoomStateWide`
(two rooms, highest room index 1), for every declared count from 0 to 4 the save
`demoRoomSaveCount count` declares the highest room index of the level, and `LGSRooms`
returns `LGS_OK` at the end of the save, having written into `AutomapVisMap` the saved
byte of every index below the declared count and left the other entries alone; the
declared count 3, for one, is not the room count 2 of the level. -/
theorem room_count_not_validated :
    ∀ count : Fin 5,
      readValue (cf_ReadShort (demoRoomSaveCount count))
          = some (toShort demoRoomStateWide.Highest_room_index) ∧
        readValue (cf_ReadShort ((demoRoomSaveCount count).advance 2)) = some (count.val : Int) ∧
        arrival (LGSRooms demoRoomConsts demoTablesBuilt (demoRoomSaveCount count)
            demoRoomStateWide)
          = some (LGS.OK, (demoRoomSaveCount count).advance (count.val + 6)) ∧
        (endState (LGSRooms demoRoomConsts demoTablesBuilt (demoRoomSaveCount count)
            demoRoomStateWide) demoRoomStateWide).AutomapVisMap
          = demoAutomapBytes count ++ List.replicate (4 - count.val) 0 ∧
        ((3 : Fin 5).val : Int) ≠ demoRoomStateWide.Highest_room_index + 1 := by
  decide!

/-- The guarded remaps of the record loop. With the render tags of object.h distinct:
(1) the guarded remap of a saved value below 0 is -1, whatever the table; (2) the
guarded remap of a saved value `s >= 0` is the read of the table at `s`, the entry
`table[s]` for `s` below the size of the table; (3) the conversion to `short` that the
model, dying-model and shard sites apply leaves every value of a `short` as it is.
(4) The control block of a fireball is stored with its bitmap handle replaced by the
guarded remap, through the bitmap table, of the handle that was saved in it. (5) An
object whose render type is `RT_POLYOBJ` goes through the polygon-object case, and
(6) that case, once the three remaps answer, the new model number is the index of an
element of `Poly_models` whose batteries can be read, and the animation state is read,
falls through with the render block in which the model number, then the dying model
number, then the texture override have been replaced by their guarded remaps through the
model, model and texture tables. (7) An object whose render type is `RT_SHARD` ends with
its texture replaced by its guarded remap through the texture table. -/
theorem guarded_remaps (env : ObjEnv) (gs : gs_tables)
    (hrt : [env.RT_NONE, env.RT_EDITOR_SPHERE, env.RT_FIREBALL, env.RT_LINE, env.RT_PARTICLE,
      env.RT_SPLINTER, env.RT_ROOM, env.RT_WEAPON, env.RT_POLYOBJ, env.RT_SHARD].Nodup) :
    (∀ (t : List Int) (s : Int), s < 0 → xlateGuarded t s = .ok (-1)) ∧
    (∀ (t : List Int) (s : Int), 0 ≤ s →
      xlateGuarded t s = tableRead t s ∧
        (s < t.length → xlateGuarded t s = .ok (t.getD s.toNat 0))) ∧
    (∀ s : Int, -32768 ≤ s → s ≤ 32767 → toShort s = s) ∧
    (∀ (fp fp1 fp2 : CFILE) (sl : Slot) (bytes : List Nat) (bm : Int),
      cf_ReadShort fp = .ok (Int.ofNat env.sizeof_ctype, fp1) →
      readCount (Int.ofNat env.sizeof_ctype) fp1 = .ok (bytes, fp2) →
      xlateGuarded gs.bm_handles (env.blast_bm_handle.get bytes) = .ok bm →
      LGSObjects_ctype env gs env.OBJ_FIREBALL fp sl
        = .ok (.next () fp2
            { sl with op := { sl.op with ctype := env.blast_bm_handle.set bytes bm } })) ∧
    (∀ (i type : Nat) (fp : CFILE) (sl : Slot), sl.op.render_type = env.RT_POLYOBJ →
      LGSObjects_render env gs i type fp sl = LGSObjects_polyobj env gs i type fp sl) ∧
    (∀ (i type : Nat) (fp fp1 : CFILE) (sl : Slot) (m d t : Int) (anim : List Nat)
        (pm : poly_model) (count : Int),
      xlateGuarded gs.model_handles (toShort (env.pobj_model_num.get sl.op.rtype)) = .ok m →
      Poly_models_at env m = .ok pm →
      xlateGuarded gs.model_handles
          (toShort (env.pobj_dying_model_num.get (env.pobj_model_num.set sl.op.rtype m)))
        = .ok d →
      xlateGuarded gs.tex_handles
          (env.pobj_tmap_override.get
            (env.pobj_dying_model_num.set (env.pobj_model_num.set sl.op.rtype m) d))
        = .ok t →
      env.pobj_model_num.get
          (env.memset_multi_turret
            (env.pobj_tmap_override.set
              (env.pobj_dying_model_num.set (env.pobj_model_num.set sl.op.rtype m) d) t))
        = m →
      LGSObjects_turrets pm pm.num_wbs.toNat 0 0 = .ok count →
      cf_ReadBytes env.sizeof_custom_anim fp = .ok (anim, fp1) →
      ∃ r mt, LGSObjects_polyobj env gs i type fp sl = .ok (.next () fp1 r) ∧
        mt.num_turrets = count ∧
        r.op.rtype = env.pobj_multi_turret_info.set
          (env.memset_multi_turret
            (env.pobj_tmap_override.set
              (env.pobj_dying_model_num.set (env.pobj_model_num.set sl.op.rtype m) d) t))
          mt) ∧
    (∀ (i type : Nat) (fp : CFILE) (sl : Slot) (tmap : Int),
      sl.op.render_type = env.RT_SHARD →
      xlateGuarded gs.tex_handles (toShort (env.shard_tmap.get sl.op.rtype)) = .ok tmap →
      LGSObjects_render env gs i type fp sl
        = .ok (.next () fp
            { sl with op := { sl.op with rtype := env.shard_tmap.set sl.op.rtype tmap } })) := by
  refine ⟨xlateGuarded_neg, ?_, toShort_id, ?_, ?_, ?_, ?_⟩
  · intro t s h0
    refine ⟨xlateGuarded_nonneg t s h0, fun h1 => ?_⟩
    have hg : s > -1 := by omega
    simp [xlateGuarded, tableRead, h0, h1, hg]
  · intro fp fp1 fp2 sl bytes bm hsize hbytes hbm
    exact ctype_fireball_next env gs fp fp1 fp2 sl bytes bm hsize hbytes hbm
  · intro i type fp sl h
    exact render_polyobj env gs i type fp sl hrt h
  · intro i type fp fp1 sl m d t anim pm count hm hpm hd ht hget hcount hanim
    obtain ⟨page, hpage⟩ := needsPaging_ok env m (env.pobj_model_num.get sl.op.rtype) pm hpm
    exact polyobj_next env gs i type fp fp1 sl m d t anim page pm count hm hpage hd ht
      (by rw [hget]; exact hpm) hcount hanim
  · intro i type fp sl tmap h ht
    exact render_shard env gs i type fp sl tmap hrt h ht

/-- The guarded remaps in the demo world (bitmap table 60..63, model table 20, 21, texture
table 50, 51): a fireball with the saved bitmap handle 2 gets 62 and one with -1 keeps
-1; a polygon object with model 1, dying model -1 and texture override 0 gets 21, -1 and
50; a shard with texture 1 gets 51 and one with -1 keeps -1. -/
theorem guarded_remaps_witness :
    LGSObjects_ctype demoObjEnv demoObjTables demoObjEnv.OBJ_FIREBALL (demoControlBlock 2)
        demoSlot
      = .ok (.next () ((demoControlBlock 2).advance 6)
          { demoSlot with op := { demoSlot.op with ctype := le32 62 } }) ∧
    LGSObjects_ctype demoObjEnv demoObjTables demoObjEnv.OBJ_FIREBALL
        (demoControlBlock 4294967295) demoSlot
      = .ok (.next () ((demoControlBlock 4294967295).advance 6)
          { demoSlot with
            op := { demoSlot.op with
                    ctype := demoObjEnv.blast_bm_handle.set (le32 4294967295) (-1) } }) ∧
    demoObjEnv.blast_bm_handle.get (demoObjEnv.blast_bm_handle.set (le32 4294967295) (-1))
      = -1 ∧
    (∃ r mt, LGSObjects_render demoObjEnv demoObjTables 0 2 (cursorOn [9]) demoPolySlot
        = .ok (.next () ((cursorOn [9]).advance 1) r) ∧
      mt.num_turrets = 0 ∧
      r.op.rtype = demoObjEnv.pobj_multi_turret_info.set
        (demoObjEnv.memset_multi_turret (le32 21 ++ le32 4294967295 ++ le32 50)) mt) ∧
    LGSObjects_render demoObjEnv demoObjTables 0 2 (cursorOn []) (demoShardSlot 1)
      = .ok (.next () (cursorOn [])
          { demoShardSlot 1 with
            op := { (demoShardSlot 1).op with rtype := le32 51 ++ List.replicate 8 0 } }) ∧
    LGSObjects_render demoObjEnv demoObjTables 0 2 (cursorOn []) (demoShardSlot 4294967295)
      = .ok (.next () (cursorOn [])
          { demoShardSlot 4294967295 with
            op := { (demoShardSlot 4294967295).op with
                    rtype := demoObjEnv.shard_tmap.set (demoShardSlot 4294967295).op.rtype
                      (-1) } }) ∧
    demoObjEnv.shard_tmap.get
        (demoObjEnv.shard_tmap.set (demoShardSlot 4294967295).op.rtype (-1)) = -1 :=
  have h := guarded_remaps demoObjEnv demoObjTables (by decide)
  ⟨h.2.2.2.1 (demoControlBlock 2) ((demoControlBlock 2).advance 2)
      ((demoControlBlock 2).advance 6) demoSlot (le32 2) 62 (by decide!) (by decide!)
      (by decide!),
    h.2.2.2.1 (demoControlBlock 4294967295) ((demoControlBlock 4294967295).advance 2)
      ((demoControlBlock 4294967295).advance 6) demoSlot (le32 4294967295) (-1) (by decide!)
      (by decide!) (by decide!),
    by decide!,
    by
      rw [h.2.2.2.2.1 0 2 (cursorOn [9]) demoPolySlot (by decide)]
      exact h.2.2.2.2.2.1 0 2 (cursorOn [9]) ((cursorOn [9]).advance 1) demoPolySlot 21 (-1) 50
        [9] ⟨0, 0, 0, []⟩ 0 (by decide!) (by decide!) (by decide!) (by decide!) (by decide!)
        (by decide!) (by decide!),
    h.2.2.2.2.2.2 0 2 (cursorOn []) (demoShardSlot 1) 51 (by decide) (by decide!),
    h.2.2.2.2.2.2 0 2 (cursorOn []) (demoShardSlot 4294967295) (-1) (by decide)
      (by decide!),
    by decide!⟩

/-- C27 (code bug): for the model number of a polygon object an absent reference is not
left alone, it is used as an index. The save of one robot drawn as a polygon object
restores with `LGS_OK` when its model number is 1; with the model number -1, the value
the guarded remap keeps for an absent reference, the remap answers -1, which is the
number the object has, so the condition of source line 1157 reads
`Poly_models[-1].flags`: `LGSObjects` reads outside the array `Poly_models` and does not
return; with the model number -2 the remap stores -1 and source line 1194 takes
`Poly_models[-1]`, outside the array again. -/
theorem absent_model_indexes_Poly_models :
    objReturned (LGSObjects demoObjEnv demoObjTables 0 (demoObjSavePoly 1) demoObjState)
      = some LGS.OK ∧
    xlateGuarded demoObjTables.model_handles (toShort (-1)) = .ok (-1) ∧
    Poly_models_at demoObjEnv (-1) = .error .outOfRange ∧
    LGSObjects_render demoObjEnv demoObjTables 0 2 (cursorOn [9]) demoAbsentModelSlot
      = .error .outOfRange ∧
    faultOf (LGSObjects demoObjEnv demoObjTables 0 (demoObjSavePoly 4294967295) demoObjState)
      = some .outOfRange ∧
    objReturned (LGSObjects demoObjEnv demoObjTables 0 (demoObjSavePoly 4294967295)
      demoObjState) = none ∧
    faultOf (LGSObjects demoObjEnv demoObjTables 0 (demoObjSavePoly 4294967294) demoObjState)
      = some .outOfRange := by
  refine ⟨by decide!, by decide!, rfl, ?_, by decide!, by decide!, by decide!⟩
  rw [render_polyobj demoObjEnv demoObjTables 0 2 (cursorOn [9]) demoAbsentModelSlot
    (by decide) (by decide)]
  exact polyobj_absent_model demoObjEnv demoObjTables 0 2 (cursorOn [9]) demoAbsentModelSlot
    (by decide!)

/-! ### Visual effects -/

open newrender

theorem bind_ok_iff {α β : Type} (x : Except Fault α) (f : α → Except Fault β) (b : β) :
    (x >>= f) = .ok b ↔ ∃ a, x = .ok a ∧ f a = .ok b := by
  cases x with
  | error e => simp [bind, Except.bind]
  | ok a => simp [bind, Except.bind]

theorem bind_of_ok {α β : Type} (x : Except Fault α) (f : α → Except Fault β) (a : α)
    (h : x = .ok a) : (x >>= f) = f a := by
  rw [h]
  rfl

theorem bind_total {α β : Type} (x : Except Fault α) (f : α → Except Fault β)
    (hx : ∃ v, x = Except.ok v) (hf : ∀ v, x = Except.ok v → ∃ r, f v = Except.ok r) :
    ∃ r, (x >>= f) = Except.ok r := by
  rcases hx with ⟨v, hv⟩
  rw [bind_of_ok x f v hv]
  exact hf v hv

theorem pure_ok_iff {α : Type} (a b : α) : (pure a : Except Fault α) = .ok b ↔ a = b := by
  constructor
  · intro h
    cases h
    rfl
  · rintro rfl
    rfl

/-- An `int` expression whose value fits an `int` has that value. -/
theorem wrapInt_id (v : Int) (h0 : -2147483648 ≤ v) (h1 : v < 2147483648) : wrapInt v = v := by
  unfold wrapInt toSigned bits32
  have hm0 : 0 ≤ v % 4294967296 := Int.emod_nonneg _ (by norm_num)
  have hm1 : v % 4294967296 < 4294967296 := Int.emod_lt_of_pos _ (by norm_num)
  have hn : ((v % 4294967296).toNat : Int) = v % 4294967296 := Int.toNat_of_nonneg hm0
  have hlt : (v % 4294967296).toNat < 4294967296 := by omega
  have hmod : (v % 4294967296).toNat % 2 ^ 32 = (v % 4294967296).toNat := by
    norm_num
    exact hlt
  rw [hmod]
  norm_num
  split
  · omega
  · omega

/-- The triangle of the fan loop for the counter `i`. -/
theorem fanLoop_eq (b : Int) : ∀ (k : Nat) (i : Int) (mesh : MeshBuilder),
    fanLoop b k i mesh = mesh ++ (List.range k).map fun (j : Nat) =>
      MeshCall.SetIndicies 3 [b, wrapInt (b + (i + (j : Int)) - 1), wrapInt (b + (i + (j : Int)))] := by
  intro k
  induction k with
  | zero => intro i mesh; simp [fanLoop]
  | succ k ih =>
    intro i mesh
    rw [fanLoop, ih, List.range_succ_eq_map, List.map_cons, List.map_map, List.append_assoc]
    congr 1
    simp only [List.singleton_append, Nat.cast_zero, add_zero, List.cons.injEq, true_and]
    apply List.map_congr_left
    intro j _
    simp only [Function.comp, Nat.succ_eq_add_one, Nat.cast_add, Nat.cast_one]
    have e : i + 1 + (j : Int) = i + ((j : Int) + 1) := by ring
    rw [e]

/-- The vertex loop of `AddFacesToBuffer` adds one vertex per iteration and nothing
else. -/
theorem vertices_ok (env : RenderEnv) (rp : newrender.room) (fp : newrender.face) (alpha : Nat) :
    ∀ (k i : Nat) (vert : RendVertex) (mesh : MeshBuilder) (out : RendVertex × MeshBuilder),
      AddFacesToBuffer_vertices env rp fp alpha k i (vert, mesh) = .ok out →
      ∃ vs : List RendVertex, vs.length = k ∧ out.2 = mesh ++ vs.map MeshCall.AddVertex := by
  intro k
  induction k with
  | zero =>
    intro i vert mesh out h
    rw [AddFacesToBuffer_vertices, pure_ok_iff] at h
    subst h
    exact ⟨[], rfl, by simp⟩
  | succ k ih =>
    intro i vert mesh out h
    rw [AddFacesToBuffer_vertices, bind_ok_iff] at h
    obtain ⟨uvs, _, h⟩ := h
    rw [bind_ok_iff] at h
    obtain ⟨vi, _, h⟩ := h
    rw [bind_ok_iff] at h
    obtain ⟨position, _, h⟩ := h
    obtain ⟨vs, hlen, hout⟩ := ih _ _ _ _ h
    refine ⟨?vtx :: vs, ?_, ?_⟩
    pick_goal 3
    · rw [hout, List.map_cons, List.append_assoc]
      exact rfl
    · rw [List.length_cons, hlen]

/-- The vertex loops of `AddSpecFacesToBuffer` add one vertex per iteration and nothing
else. -/
theorem specVertices_ok (env : RenderEnv) (rp : newrender.room) (fp : newrender.face) (smooth : Bool) :
    ∀ (k i : Nat) (vert : RendVertex) (mesh : MeshBuilder) (out : RendVertex × MeshBuilder),
      AddSpecFacesToBuffer_vertices env rp fp smooth k i (vert, mesh) = .ok out →
      ∃ vs : List RendVertex, vs.length = k ∧ out.2 = mesh ++ vs.map MeshCall.AddVertex := by
  intro k
  induction k with
  | zero =>
    intro i vert mesh out h
    rw [AddSpecFacesToBuffer_vertices, pure_ok_iff] at h
    subst h
    exact ⟨[], rfl, by simp⟩
  | succ k ih =>
    intro i vert mesh out h
    rw [AddSpecFacesToBuffer_vertices, bind_ok_iff] at h
    obtain ⟨uvs, _, h⟩ := h
    rw [bind_ok_iff] at h
    obtain ⟨vi, _, h⟩ := h
    rw [bind_ok_iff] at h
    obtain ⟨position, _, h⟩ := h
    rw [bind_ok_iff] at h
    obtain ⟨normal, _, h⟩ := h
    obtain ⟨vs, hlen, hout⟩ := ih _ _ _ _ h
    refine ⟨?vtx :: vs, ?_, ?_⟩
    pick_goal 3
    · rw [hout, List.map_cons, List.append_assoc]
      exact rfl
    · rw [List.length_cons, hlen]

/-- The vertex loop of `AddFacesToBuffer` runs to its end when the face holds the
vertices it counts and every one of them is a vertex of the room. -/
theorem vertices_total (env : RenderEnv) (rp : newrender.room) (fp : newrender.face) (alpha : Nat)
    (hverts : ∀ vi ∈ fp.face_verts, 0 ≤ vi ∧ vi.toNat < rp.verts.length) :
    ∀ (k i : Nat) (vert : RendVertex) (mesh : MeshBuilder),
      i + k ≤ fp.face_uvls.length → i + k ≤ fp.face_verts.length →
      ∃ out, AddFacesToBuffer_vertices env rp fp alpha k i (vert, mesh) = .ok out := by
  intro k
  induction k with
  | zero =>
    intro i vert mesh _ _
    exact ⟨_, rfl⟩
  | succ k ih =>
    intro i vert mesh h1 h2
    have hu : fp.face_uvls[i]? = some (fp.face_uvls[i]) := List.getElem?_eq_getElem (by omega)
    have hv : fp.face_verts[i]? = some (fp.face_verts[i]) := List.getElem?_eq_getElem (by omega)
    obtain ⟨h0, hlt⟩ := hverts (fp.face_verts[i]) (List.getElem_mem _)
    have hp : rp.verts[(fp.face_verts[i]).toNat]? = some (rp.verts[(fp.face_verts[i]).toNat]) :=
      List.getElem?_eq_getElem hlt
    rw [AddFacesToBuffer_vertices]
    simp only [arrayRead, hu, hv, elemAt, arrayIndex, if_pos h0, hp, bind, Except.bind]
    exact ih _ _ _ (by omega) (by omega)

/-- What the body of the loop of `AddFacesToBuffer` adds to the mesh for one element:
calls that open or close a batch, then one vertex for each vertex of the face, then the
triangles of the fan, whose first index is the number of vertices the builder answers
before the first vertex of the face is added, moved by `indexOffset`. -/
theorem element_mesh (env : RenderEnv) (rp : newrender.room) (indexOffset firstIndex : Int)
    (element : SortableElement) (b b1 : FaceBatch)
    (h : AddFacesToBuffer_element env rp indexOffset firstIndex element b = .ok b1) :
    ∃ (fp : newrender.face) (pre : List MeshCall) (vs : List RendVertex),
      elemAt rp.faces element.element = .ok fp ∧ vs.length = fp.num_verts.toNat ∧
      (∀ c ∈ pre, c.isBatch = true) ∧
      b1.mesh = b.mesh ++ pre ++ vs.map MeshCall.AddVertex ++
        (List.range (fp.num_verts - 2).toNat).map fun (j : Nat) =>
          MeshCall.SetIndicies 3
            [wrapInt (env.NumVertices (b.mesh ++ pre) + indexOffset),
             wrapInt (wrapInt (env.NumVertices (b.mesh ++ pre) + indexOffset) + (2 + (j : Int)) - 1),
             wrapInt (wrapInt (env.NumVertices (b.mesh ++ pre) + indexOffset) + (2 + (j : Int)))] := by
  unfold AddFacesToBuffer_element at h
  rw [bind_ok_iff] at h
  obtain ⟨b0, h0, h⟩ := h
  rw [bind_ok_iff] at h
  obtain ⟨fp, hfp, h⟩ := h
  rw [bind_ok_iff] at h
  obtain ⟨st, hst, h⟩ := h
  rw [pure_ok_iff] at h
  subst h
  obtain ⟨vs, hlen, hmesh⟩ := vertices_ok env rp fp b0.alpha _ _ _ _ _ hst
  have hpre : ∃ pre : List MeshCall, b0.mesh = b.mesh ++ pre ∧ ∀ c ∈ pre, c.isBatch = true := by
    split at h0
    · rw [bind_ok_iff] at h0
      obtain ⟨t, _, h0⟩ := h0
      rw [pure_ok_iff] at h0
      rw [← h0]
      by_cases hf : b.firsttime = false
      · refine ⟨[MeshCall.EndVertices, MeshCall.EndIndices, MeshCall.BeginVertices,
          MeshCall.BeginIndices], ?_, ?_⟩
        · simp only [if_pos hf, endBatch, List.append_assoc, List.singleton_append,
            List.cons_append, List.nil_append]
        · intro c hc
          simp only [List.mem_cons, List.mem_singleton, List.not_mem_nil, or_false] at hc
          rcases hc with rfl | rfl | rfl | rfl <;> rfl
      · refine ⟨[MeshCall.BeginVertices, MeshCall.BeginIndices], ?_, ?_⟩
        · simp only [if_neg hf]
        · intro c hc
          simp only [List.mem_cons, List.mem_singleton, List.not_mem_nil, or_false] at hc
          rcases hc with rfl | rfl <;> rfl
    · rw [pure_ok_iff] at h0
      rw [← h0]
      exact ⟨[], by simp, by simp⟩
  obtain ⟨pre, hpre, hbatch⟩ := hpre
  refine ⟨fp, pre, vs, hfp, hlen, hbatch, ?_⟩
  simp only [fanLoop_eq, hmesh, hpre]

/-- The body of the loop of `AddFacesToBuffer` runs to its end for an element whose
texture and face exist, when the face holds the vertices it counts and every one of them
is a vertex of the room. -/
theorem element_total (env : RenderEnv) (rp : newrender.room) (indexOffset firstIndex : Int)
    (element : SortableElement) (b : FaceBatch) (t : texture) (fp : newrender.face)
    (ht : elemAt env.GameTextures element.texturehandle = .ok t)
    (hfp : elemAt rp.faces element.element = .ok fp)
    (hu : fp.num_verts.toNat ≤ fp.face_uvls.length)
    (hv : fp.num_verts.toNat ≤ fp.face_verts.length)
    (hverts : ∀ vi ∈ fp.face_verts, 0 ≤ vi ∧ vi.toNat < rp.verts.length) :
    ∃ b1, AddFacesToBuffer_element env rp indexOffset firstIndex element b = .ok b1 := by
  unfold AddFacesToBuffer_element
  refine bind_total _ _ ?_ ?_
  · by_cases hc : element.texturehandle ≠ b.lasttmap ∨ element.lmhandle ≠ b.lastlm
    · rw [if_pos hc, bind_of_ok _ _ _ ht]
      exact ⟨_, rfl⟩
    · rw [if_neg hc]
      exact ⟨_, rfl⟩
  · intro b0 _
    rw [bind_of_ok _ _ _ hfp]
    refine bind_total _ _ ?_ ?_
    · exact vertices_total env rp fp b0.alpha hverts fp.num_verts.toNat 0 b0.vert b0.mesh
        (by omega) (by omega)
    · intro st _
      exact ⟨_, rfl⟩

/-- What the body of the loop of `AddSpecFacesToBuffer` adds to the mesh for one element:
the calls that open the batch, then one vertex for each vertex of the face, then the
triangles of the fan, then the calls that close the batch. -/
theorem specElement_mesh (env : RenderEnv) (rp : newrender.room) (indexOffset firstIndex : Int)
    (element : SortableElement) (st st1 : RendVertex × MeshBuilder × List SpecularDrawElement)
    (h : AddSpecFacesToBuffer_element env rp indexOffset firstIndex element st = .ok st1) :
    ∃ (fp : newrender.face) (pre post : List MeshCall) (vs : List RendVertex),
      elemAt rp.faces element.element = .ok fp ∧ vs.length = fp.num_verts.toNat ∧
      (∀ c ∈ pre, c.isBatch = true) ∧ (∀ c ∈ post, c.isBatch = true) ∧
      st1.2.1 = st.2.1 ++ pre ++ vs.map MeshCall.AddVertex ++
        ((List.range (fp.num_verts - 2).toNat).map fun (j : Nat) =>
          MeshCall.SetIndicies 3
            [wrapInt (env.NumVertices (st.2.1 ++ pre) + indexOffset),
             wrapInt (wrapInt (env.NumVertices (st.2.1 ++ pre) + indexOffset) + (2 + (j : Int)) - 1),
             wrapInt (wrapInt (env.NumVertices (st.2.1 ++ pre) + indexOffset) + (2 + (j : Int)))])
        ++ post := by
  unfold AddSpecFacesToBuffer_element at h
  rw [bind_ok_iff] at h
  obtain ⟨t, _, h⟩ := h
  rw [bind_ok_iff] at h
  obtain ⟨fp, hfp, h⟩ := h
  rw [bind_ok_iff] at h
  obtain ⟨t1, _, h⟩ := h
  rw [bind_ok_iff] at h
  obtain ⟨vm, hvm, h⟩ := h
  rw [pure_ok_iff] at h
  subst h
  obtain ⟨vs, hlen, hmesh⟩ := specVertices_ok env rp fp _ _ _ _ _ _ hvm
  refine ⟨fp, [MeshCall.BeginVertices, MeshCall.BeginIndices],
    [MeshCall.EndVertices, MeshCall.EndIndices], vs, hfp, hlen, ?_, ?_, ?_⟩
  · intro c hc
    simp only [List.mem_cons, List.mem_singleton, List.not_mem_nil, or_false] at hc
    rcases hc with rfl | rfl <;> rfl
  · intro c hc
    simp only [List.mem_cons, List.mem_singleton, List.not_mem_nil, or_false] at hc
    rcases hc with rfl | rfl <;> rfl
  · simp only [endBatch, fanLoop_eq, hmesh, List.append_assoc, List.singleton_append,
      List.cons_append, List.nil_append]

/-- The fan loop adds its triangles after the calls made so far. -/
theorem fanLoop_append (b : Int) (k : Nat) (i : Int) (mesh : MeshBuilder) :
    fanLoop b k i mesh = mesh ++ fanLoop b k i [] := by
  rw [fanLoop_eq b k i mesh, fanLoop_eq b k i [], List.nil_append]

/-- The fan loop adds one triangle per iteration and no vertex. -/
theorem fanLoop_count (b : Int) (k : Nat) (i : Int) :
    (fanLoop b k i []).countP MeshCall.isTriangle = k ∧
      (fanLoop b k i []).countP MeshCall.isVertex = 0 := by
  rw [fanLoop_eq b k i [], List.nil_append, List.countP_map, List.countP_map]
  constructor
  · rw [List.countP_eq_length.2]
    · exact List.length_range k
    · intro j _
      rfl
  · rw [List.countP_eq_zero]
    intro j _
    simp [Function.comp, MeshCall.isVertex]

/-- Vertices are no triangles. -/
theorem vertices_count (vs : List RendVertex) :
    (vs.map MeshCall.AddVertex).countP MeshCall.isTriangle = 0 ∧
      (vs.map MeshCall.AddVertex).countP MeshCall.isVertex = vs.length := by
  rw [List.countP_map, List.countP_map]
  constructor
  · rw [List.countP_eq_zero]
    intro v _
    simp [Function.comp, MeshCall.isTriangle]
  · rw [List.countP_eq_length.2]
    intro v _
    rfl

/-- The calls that open or close a batch are neither triangles nor vertices. -/
theorem batch_count (l : List MeshCall) (h : ∀ c ∈ l, c.isBatch = true) :
    l.countP MeshCall.isTriangle = 0 ∧ l.countP MeshCall.isVertex = 0 := by
  constructor
  · rw [List.countP_eq_zero]
    intro c hc
    have hb := h c hc
    cases c <;> simp_all [MeshCall.isBatch, MeshCall.isTriangle]
  · rw [List.countP_eq_zero]
    intro c hc
    have hb := h c hc
    cases c <;> simp_all [MeshCall.isBatch, MeshCall.isVertex]

/-- A loop over elements whose body adds, for the face of its element, calls that open
or close a batch, the vertices of the face, the triangles of the fan and calls that close
the batch: what the loop adds to the mesh holds, for every element, the vertices of its
face followed by the triangles of its fan, whose first index is the number of vertices
the builder answers before the first of these vertices, moved by `indexOffset`; and it
holds no other vertex and no other triangle. -/
theorem segments_mesh {σ : Type} (env : RenderEnv) (rp : newrender.room) (indexOffset : Int)
    (step : SortableElement → σ → Except Fault σ) (meshOf : σ → MeshBuilder)
    (loop : List SortableElement → σ → Except Fault σ)
    (hnil : ∀ s, loop [] s = pure s)
    (hcons : ∀ e rest s, loop (e :: rest) s = step e s >>= loop rest)
    (hstep : ∀ e s s1, step e s = .ok s1 →
      ∃ (fp : newrender.face) (pre post : List MeshCall) (vs : List RendVertex),
        elemAt rp.faces e.element = .ok fp ∧ vs.length = fp.num_verts.toNat ∧
        (∀ c ∈ pre, c.isBatch = true) ∧ (∀ c ∈ post, c.isBatch = true) ∧
        meshOf s1 = meshOf s ++ pre ++ vs.map MeshCall.AddVertex ++
          fanLoop (wrapInt (env.NumVertices (meshOf s ++ pre) + indexOffset))
            (fp.num_verts - 2).toNat 2 [] ++ post) :
    ∀ (elements : List SortableElement) (s s1 : σ), loop elements s = .ok s1 →
      ∃ (fps : List newrender.face) (tail : List MeshCall),
        List.Forall₂ (fun e fp => elemAt rp.faces e.element = .ok fp) elements fps ∧
        meshOf s1 = meshOf s ++ tail ∧
        tail.countP MeshCall.isTriangle = (fps.map fun fp => (fp.num_verts - 2).toNat).sum ∧
        tail.countP MeshCall.isVertex = (fps.map fun fp => fp.num_verts.toNat).sum ∧
        ∀ p ∈ elements.zip fps, ∃ (before after : List MeshCall) (vs : List RendVertex),
          vs.length = p.2.num_verts.toNat ∧
          tail = before ++ vs.map MeshCall.AddVertex ++
            fanLoop (wrapInt (env.NumVertices (meshOf s ++ before) + indexOffset))
              (p.2.num_verts - 2).toNat 2 [] ++ after := by
  intro elements
  induction elements with
  | nil =>
    intro s s1 h
    rw [hnil, pure_ok_iff] at h
    subst h
    refine ⟨[], [], List.Forall₂.nil, by simp, rfl, rfl, ?_⟩
    intro p hp
    simp at hp
  | cons e rest ih =>
    intro s s1 h
    rw [hcons, bind_ok_iff] at h
    obtain ⟨s0, he, hrest⟩ := h
    obtain ⟨fp, pre, post, vs, hfp, hlen, hpre, hpost, hmesh⟩ := hstep e s s0 he
    obtain ⟨fps, tail, hall, htail, htri, hvtx, hseg⟩ := ih s0 s1 hrest
    obtain ⟨hpre1, hpre2⟩ := batch_count pre hpre
    obtain ⟨hpost1, hpost2⟩ := batch_count post hpost
    obtain ⟨hvs1, hvs2⟩ := vertices_count vs
    obtain ⟨hfan1, hfan2⟩ := fanLoop_count
      (wrapInt (env.NumVertices (meshOf s ++ pre) + indexOffset)) (fp.num_verts - 2).toNat 2
    refine ⟨fp :: fps, pre ++ vs.map MeshCall.AddVertex ++
      fanLoop (wrapInt (env.NumVertices (meshOf s ++ pre) + indexOffset))
        (fp.num_verts - 2).toNat 2 [] ++ post ++ tail, List.Forall₂.cons hfp hall, ?_, ?_, ?_, ?_⟩
    · rw [htail, hmesh]
      simp only [List.append_assoc]
    · simp only [List.countP_append, hpre1, hvs1, hfan1, hpost1, htri, List.map_cons,
        List.sum_cons]
      omega
    · simp only [List.countP_append, hpre2, hvs2, hfan2, hpost2, hvtx, List.map_cons,
        List.sum_cons, hlen]
      omega
    · intro p hp
      rw [List.zip_cons_cons, List.mem_cons] at hp
      rcases hp with rfl | hp
      · exact ⟨pre, post ++ tail, vs, hlen, by simp only [List.append_assoc]⟩
      · obtain ⟨before, after, vs1, hlen1, htail1⟩ := hseg p hp
        refine ⟨pre ++ vs.map MeshCall.AddVertex ++
          fanLoop (wrapInt (env.NumVertices (meshOf s ++ pre) + indexOffset))
            (fp.num_verts - 2).toNat 2 [] ++ post ++ before, after, vs1, hlen1, ?_⟩
        have hm : meshOf s ++ (pre ++ vs.map MeshCall.AddVertex ++
            fanLoop (wrapInt (env.NumVertices (meshOf s ++ pre) + indexOffset))
              (fp.num_verts - 2).toNat 2 [] ++ post ++ before) = meshOf s0 ++ before := by
          rw [hmesh]
          simp only [List.append_assoc]
        rw [hm, htail1]
        simp only [List.append_assoc]

/-- What `AddFacesToBuffer` adds to the mesh: for every element the vertices of its face
followed by the triangles of its fan, and no other vertex or triangle. -/
theorem AddFacesToBuffer_mesh (env : RenderEnv) (rp : newrender.room)
    (indexOffset firstIndex : Int) (mesh : MeshBuilder) (elements : List SortableElement)
    (interactions : List RoomDrawElement) (out : MeshBuilder × List RoomDrawElement)
    (h : AddFacesToBuffer env mesh elements interactions rp indexOffset firstIndex = .ok out) :
    ∃ (fps : List newrender.face) (tail : List MeshCall),
      List.Forall₂ (fun e fp => elemAt rp.faces e.element = .ok fp) elements fps ∧
      out.1 = mesh ++ tail ∧
      tail.countP MeshCall.isTriangle = (fps.map fun fp => (fp.num_verts - 2).toNat).sum ∧
      tail.countP MeshCall.isVertex = (fps.map fun fp => fp.num_verts.toNat).sum ∧
      ∀ p ∈ elements.zip fps, ∃ (before after : List MeshCall) (vs : List RendVertex),
        vs.length = p.2.num_verts.toNat ∧
        tail = before ++ vs.map MeshCall.AddVertex ++
          fanLoop (wrapInt (env.NumVertices (mesh ++ before) + indexOffset))
            (p.2.num_verts - 2).toNat 2 [] ++ after := by
  unfold AddFacesToBuffer at h
  by_cases hnil : elements = []
  · rw [if_pos hnil, pure_ok_iff] at h
    subst h
    subst hnil
    refine ⟨[], [], List.Forall₂.nil, by simp, rfl, rfl, ?_⟩
    intro p hp
    simp at hp
  · rw [if_neg hnil, bind_ok_iff] at h
    obtain ⟨b1, hloop, h⟩ := h
    rw [pure_ok_iff] at h
    obtain ⟨fps, tail, hall, htail, htri, hvtx, hseg⟩ :=
      segments_mesh env rp indexOffset
        (fun e b => AddFacesToBuffer_element env rp indexOffset firstIndex e b)
        FaceBatch.mesh (AddFacesToBuffer_loop env rp indexOffset firstIndex)
        (fun s => rfl) (fun e rest s => rfl)
        (fun e s s1 hs => by
          obtain ⟨fp, pre, vs, hfp, hlen, hpre, hmesh⟩ :=
            element_mesh env rp indexOffset firstIndex e s s1 hs
          refine ⟨fp, pre, [], vs, hfp, hlen, hpre, by simp, ?_⟩
          rw [hmesh, fanLoop_eq, List.nil_append, List.append_nil])
        elements _ b1 hloop
    refine ⟨fps, tail ++ [MeshCall.EndVertices, MeshCall.EndIndices], hall, ?_, ?_, ?_, ?_⟩
    · rw [← h]
      show (b1.mesh ++ [MeshCall.EndVertices]) ++ [MeshCall.EndIndices] = _
      rw [htail]
      simp only [List.append_assoc, List.singleton_append]
    · rw [List.countP_append, htri]
      rfl
    · rw [List.countP_append, hvtx]
      rfl
    · intro p hp
      obtain ⟨before, after, vs, hlen, ht⟩ := hseg p hp
      exact ⟨before, after ++ [MeshCall.EndVertices, MeshCall.EndIndices], vs, hlen, by
        rw [ht]
        simp only [List.append_assoc]⟩

/-- What `AddSpecFacesToBuffer` adds to the mesh: for every element the vertices of its
face followed by the triangles of its fan, and no other vertex or triangle. -/
theorem AddSpecFacesToBuffer_mesh (env : RenderEnv) (rp : newrender.room)
    (indexOffset firstIndex : Int) (mesh : MeshBuilder) (elements : List SortableElement)
    (interactions : List SpecularDrawElement) (out : MeshBuilder × List SpecularDrawElement)
    (h : AddSpecFacesToBuffer env mesh elements interactions rp indexOffset firstIndex
      = .ok out) :
    ∃ (fps : List newrender.face) (tail : List MeshCall),
      List.Forall₂ (fun e fp => elemAt rp.faces e.element = .ok fp) elements fps ∧
      out.1 = mesh ++ tail ∧
      tail.countP MeshCall.isTriangle = (fps.map fun fp => (fp.num_verts - 2).toNat).sum ∧
      tail.countP MeshCall.isVertex = (fps.map fun fp => fp.num_verts.toNat).sum ∧
      ∀ p ∈ elements.zip fps, ∃ (before after : List MeshCall) (vs : List RendVertex),
        vs.length = p.2.num_verts.toNat ∧
        tail = before ++ vs.map MeshCall.AddVertex ++
          fanLoop (wrapInt (env.NumVertices (mesh ++ before) + indexOffset))
            (p.2.num_verts - 2).toNat 2 [] ++ after := by
  unfold AddSpecFacesToBuffer at h
  by_cases hnil : elements = []
  · rw [if_pos hnil, pure_ok_iff] at h
    subst h
    subst hnil
    refine ⟨[], [], List.Forall₂.nil, by simp, rfl, rfl, ?_⟩
    intro p hp
    simp at hp
  · rw [if_neg hnil, bind_ok_iff] at h
    obtain ⟨st1, hloop, h⟩ := h
    rw [pure_ok_iff] at h
    obtain ⟨fps, tail, hall, htail, htri, hvtx, hseg⟩ :=
      segments_mesh env rp indexOffset
        (fun e st => AddSpecFacesToBuffer_element env rp indexOffset firstIndex e st)
        (fun st => st.2.1) (AddSpecFacesToBuffer_loop env rp indexOffset firstIndex)
        (fun s => rfl) (fun e rest s => rfl)
        (fun e s s1 hs => by
          obtain ⟨fp, pre, post, vs, hfp, hlen, hpre, hpost, hmesh⟩ :=
            specElement_mesh env rp indexOffset firstIndex e s s1 hs
          refine ⟨fp, pre, post, vs, hfp, hlen, hpre, hpost, ?_⟩
          show s1.2.1 = _
          rw [hmesh, fanLoop_eq, List.nil_append])
        elements _ st1 hloop
    refine ⟨fps, tail, hall, ?_, htri, hvtx, hseg⟩
    rw [← h]
    exact htail

/-- The loop of `AddFacesToBuffer` runs to its end when the texture and the face of every
element exist, the face holds the vertices it counts, and every one of them is a vertex
of the room. -/
theorem loop_total (env : RenderEnv) (rp : newrender.room) (indexOffset firstIndex : Int) :
    ∀ (elements : List SortableElement) (b : FaceBatch),
      (∀ e ∈ elements, ∃ (t : texture) (fp : newrender.face),
        elemAt env.GameTextures e.texturehandle = .ok t ∧
        elemAt rp.faces e.element = .ok fp ∧
        fp.num_verts.toNat ≤ fp.face_uvls.length ∧
        fp.num_verts.toNat ≤ fp.face_verts.length ∧
        ∀ vi ∈ fp.face_verts, 0 ≤ vi ∧ vi.toNat < rp.verts.length) →
      ∃ b1, AddFacesToBuffer_loop env rp indexOffset firstIndex elements b = .ok b1 := by
  intro elements
  induction elements with
  | nil =>
    intro b _
    exact ⟨b, rfl⟩
  | cons e rest ih =>
    intro b hall
    obtain ⟨t, fp, ht, hfp, hu, hv, hverts⟩ := hall e (List.mem_cons_self _ _)
    rw [AddFacesToBuffer_loop]
    refine bind_total _ _ ?_ ?_
    · exact element_total env rp indexOffset firstIndex e b t fp ht hfp hu hv hverts
    · intro b0 _
      exact ih b0 fun e1 he1 => hall e1 (List.mem_cons_of_mem _ he1)

/-- The function `AddFacesToBuffer` runs to its end under the same conditions. -/
theorem AddFacesToBuffer_total (env : RenderEnv) (rp : newrender.room)
    (indexOffset firstIndex : Int) (mesh : MeshBuilder) (elements : List SortableElement)
    (interactions : List RoomDrawElement)
    (hall : ∀ e ∈ elements, ∃ (t : texture) (fp : newrender.face),
      elemAt env.GameTextures e.texturehandle = .ok t ∧
      elemAt rp.faces e.element = .ok fp ∧
      fp.num_verts.toNat ≤ fp.face_uvls.length ∧
      fp.num_verts.toNat ≤ fp.face_verts.length ∧
      ∀ vi ∈ fp.face_verts, 0 ≤ vi ∧ vi.toNat < rp.verts.length) :
    ∃ out, AddFacesToBuffer env mesh elements interactions rp indexOffset firstIndex
      = .ok out := by
  unfold AddFacesToBuffer
  by_cases hnil : elements = []
  · rw [if_pos hnil]
    exact ⟨_, rfl⟩
  · rw [if_neg hnil]
    refine bind_total _ _ ?_ ?_
    · exact loop_total env rp indexOffset firstIndex elements _ hall
    · intro b _
      exact ⟨_, rfl⟩

/-- The vertex loops of `AddSpecFacesToBuffer` run to their end when the face holds the
vertices it counts, every one of them is a vertex of the room, and, where the normals
are taken from `SpecialFaces`, the entry of the face exists and holds a normal for every
vertex. -/
theorem specVertices_total (env : RenderEnv) (rp : newrender.room) (fp : newrender.face)
    (smooth : Bool)
    (hverts : ∀ vi ∈ fp.face_verts, 0 ≤ vi ∧ vi.toNat < rp.verts.length)
    (vn : List vector)
    (hsmooth : smooth = true → elemAt env.SpecialFaces fp.special_handle = .ok vn) :
    ∀ (k i : Nat) (vert : RendVertex) (mesh : MeshBuilder),
      i + k ≤ fp.face_uvls.length → i + k ≤ fp.face_verts.length →
      (smooth = true → i + k ≤ vn.length) →
      ∃ out, AddSpecFacesToBuffer_vertices env rp fp smooth k i (vert, mesh) = .ok out := by
  intro k
  induction k with
  | zero =>
    intro i vert mesh _ _ _
    exact ⟨_, rfl⟩
  | succ k ih =>
    intro i vert mesh h1 h2 h3
    have hu : fp.face_uvls[i]? = some (fp.face_uvls[i]) := List.getElem?_eq_getElem (by omega)
    have hv : fp.face_verts[i]? = some (fp.face_verts[i]) := List.getElem?_eq_getElem (by omega)
    obtain ⟨h0, hlt⟩ := hverts (fp.face_verts[i]) (List.getElem_mem _)
    have hp : rp.verts[(fp.face_verts[i]).toNat]? = some (rp.verts[(fp.face_verts[i]).toNat]) :=
      List.getElem?_eq_getElem hlt
    have hnormal : ∃ normal, (if smooth = true then do
          let vertnorms ← elemAt env.SpecialFaces fp.special_handle
          arrayRead vertnorms i
        else pure fp.normal : Except Fault vector) = .ok normal := by
      by_cases hs : smooth = true
      · have hi : i < vn.length := by
          have := h3 hs
          omega
        have hn : vn[i]? = some (vn[i]) := List.getElem?_eq_getElem hi
        rw [if_pos hs, bind_of_ok _ _ _ (hsmooth hs)]
        exact ⟨vn[i], by simp only [arrayRead, hn]⟩
      · rw [if_neg hs]
        exact ⟨_, rfl⟩
    obtain ⟨normal, hnormal⟩ := hnormal
    rw [AddSpecFacesToBuffer_vertices]
    have e1 : arrayRead fp.face_uvls i = .ok (fp.face_uvls[i]) := by simp only [arrayRead, hu]
    have e2 : arrayRead fp.face_verts i = .ok (fp.face_verts[i]) := by simp only [arrayRead, hv]
    have e3 : elemAt rp.verts (fp.face_verts[i]) = .ok (rp.verts[(fp.face_verts[i]).toNat]) := by
      simp only [elemAt, arrayIndex, if_pos h0, arrayRead, hp, bind, Except.bind]
    rw [bind_of_ok _ _ _ e1, bind_of_ok _ _ _ e2, bind_of_ok _ _ _ e3,
      bind_of_ok _ _ _ hnormal]
    exact ih _ _ _ (by omega) (by omega) (fun hs => by have := h3 hs; omega)

/-- The body of the loop of `AddSpecFacesToBuffer` runs to its end for an element whose
texture and face exist, when the face holds the vertices it counts, every one of them is
a vertex of the room, and, where the texture asks for smooth specular normals and the
face has a special face, that special face exists and holds a normal for every vertex. -/
theorem specElement_total (env : RenderEnv) (rp : newrender.room)
    (indexOffset firstIndex : Int) (element : SortableElement)
    (st : RendVertex × MeshBuilder × List SpecularDrawElement) (t : texture)
    (fp : newrender.face) (vn : List vector)
    (ht : elemAt env.GameTextures element.texturehandle = .ok t)
    (hfp : elemAt rp.faces element.element = .ok fp)
    (hu : fp.num_verts.toNat ≤ fp.face_uvls.length)
    (hv : fp.num_verts.toNat ≤ fp.face_verts.length)
    (hverts : ∀ vi ∈ fp.face_verts, 0 ≤ vi ∧ vi.toNat < rp.verts.length)
    (hsmooth : and32 t.flags env.TF_SMOOTH_SPECULAR ≠ 0
        ∧ fp.special_handle ≠ env.BAD_SPECIAL_FACE_INDEX →
      elemAt env.SpecialFaces fp.special_handle = .ok vn ∧ fp.num_verts.toNat ≤ vn.length) :
    ∃ st1, AddSpecFacesToBuffer_element env rp indexOffset firstIndex element st
      = .ok st1 := by
  unfold AddSpecFacesToBuffer_element
  rw [bind_of_ok _ _ _ ht, bind_of_ok _ _ _ hfp, bind_of_ok _ _ _ ht]
  refine bind_total _ _ ?_ ?_
  · refine specVertices_total env rp fp _ hverts vn ?_ fp.num_verts.toNat 0 _ _
      (by omega) (by omega) ?_
    · intro hs
      exact (hsmooth (of_decide_eq_true hs)).1
    · intro hs
      have := (hsmooth (of_decide_eq_true hs)).2
      omega
  · intro vm _
    exact ⟨_, rfl⟩

/-- The loop of `AddSpecFacesToBuffer` runs to its end when its body does for every
element. -/
theorem specLoop_total (env : RenderEnv) (rp : newrender.room) (indexOffset firstIndex : Int) :
    ∀ (elements : List SortableElement)
      (st : RendVertex × MeshBuilder × List SpecularDrawElement),
      (∀ e ∈ elements, ∃ (t : texture) (fp : newrender.face) (vn : List vector),
        elemAt env.GameTextures e.texturehandle = .ok t ∧
        elemAt rp.faces e.element = .ok fp ∧
        fp.num_verts.toNat ≤ fp.face_uvls.length ∧
        fp.num_verts.toNat ≤ fp.face_verts.length ∧
        (∀ vi ∈ fp.face_verts, 0 ≤ vi ∧ vi.toNat < rp.verts.length) ∧
        (and32 t.flags env.TF_SMOOTH_SPECULAR ≠ 0
            ∧ fp.special_handle ≠ env.BAD_SPECIAL_FACE_INDEX →
          elemAt env.SpecialFaces fp.special_handle = .ok vn
            ∧ fp.num_verts.toNat ≤ vn.length)) →
      ∃ st1, AddSpecFacesToBuffer_loop env rp indexOffset firstIndex elements st
        = .ok st1 := by
  intro elements
  induction elements with
  | nil =>
    intro st _
    exact ⟨st, rfl⟩
  | cons e rest ih =>
    intro st hall
    obtain ⟨t, fp, vn, ht, hfp, hu, hv, hverts, hsmooth⟩ := hall e (List.mem_cons_self _ _)
    rw [AddSpecFacesToBuffer_loop]
    refine bind_total _ _ ?_ ?_
    · exact specElement_total env rp indexOffset firstIndex e st t fp vn ht hfp hu hv hverts
        hsmooth
    · intro st0 _
      exact ih st0 fun e1 he1 => hall e1 (List.mem_cons_of_mem _ he1)

/-- The function `AddSpecFacesToBuffer` runs to its end under the same conditions. -/
theorem AddSpecFacesToBuffer_total (env : RenderEnv) (rp : newrender.room)
    (indexOffset firstIndex : Int) (mesh : MeshBuilder) (elements : List SortableElement)
    (interactions : List SpecularDrawElement)
    (hall : ∀ e ∈ elements, ∃ (t : texture) (fp : newrender.face) (vn : List vector),
      elemAt env.GameTextures e.texturehandle = .ok t ∧
      elemAt rp.faces e.element = .ok fp ∧
      fp.num_verts.toNat ≤ fp.face_uvls.length ∧
      fp.num_verts.toNat ≤ fp.face_verts.length ∧
      (∀ vi ∈ fp.face_verts, 0 ≤ vi ∧ vi.toNat < rp.verts.length) ∧
      (and32 t.flags env.TF_SMOOTH_SPECULAR ≠ 0
          ∧ fp.special_handle ≠ env.BAD_SPECIAL_FACE_INDEX →
        elemAt env.SpecialFaces fp.special_handle = .ok vn
          ∧ fp.num_verts.toNat ≤ vn.length)) :
    ∃ out, AddSpecFacesToBuffer env mesh elements interactions rp indexOffset firstIndex
      = .ok out := by
  unfold AddSpecFacesToBuffer
  by_cases hnil : elements = []
  · rw [if_pos hnil]
    exact ⟨_, rfl⟩
  · rw [if_neg hnil]
    refine bind_total _ _ ?_ ?_
    · exact specLoop_total env rp indexOffset firstIndex elements _ hall
    · intro st _
      exact ⟨_, rfl⟩

/-! ### The recorded state of the faces -/

open newrender

theorem arrayRead_iff {α : Type} (a : List α) (i : Nat) (v : α) :
    arrayRead a i = .ok v ↔ a[i]? = some v := by
  unfold arrayRead
  cases hv : a[i]? with
  | none => simp
  | some w => simp

theorem elemAt_ok {α : Type} (a : List α) (i : Int) (v : α) :
    elemAt a i = .ok v ↔ 0 ≤ i ∧ a[i.toNat]? = some v := by
  unfold elemAt arrayIndex
  by_cases h : 0 ≤ i
  · rw [if_pos h]
    show arrayRead a i.toNat = .ok v ↔ _
    rw [arrayRead_iff]
    simp [h]
  · rw [if_neg h]
    simp [bind, Except.bind, h]

/-- The body of the face loop of `UpdateRoomMesh` records the flags and the texture of
face `i` and leaves the other records alone. -/
theorem face_prev (env : RenderEnv) (rp : newrender.room) (m : Nat) (i : Nat)
    (l l1 : FaceLists) (h : UpdateRoomMesh_face env rp m i l = .ok l1) :
    ∃ f, rp.faces[i]? = some f ∧ l1.FacePrevStates.length = l.FacePrevStates.length ∧
      l1.FacePrevStates[i]? = some ⟨f.flags, f.tmap⟩ ∧
      ∀ j, j ≠ i → l1.FacePrevStates[j]? = l.FacePrevStates[j]? := by
  unfold UpdateRoomMesh_face at h
  rw [bind_ok_iff] at h
  obtain ⟨f, hf, h⟩ := h
  rw [bind_ok_iff] at h
  obtain ⟨p1, hp1, h⟩ := h
  rw [bind_ok_iff] at h
  obtain ⟨p2, hp2, h⟩ := h
  obtain ⟨v1, hv1, rfl⟩ := arrayModify_inv _ _ _ _ hp1
  obtain ⟨v2, hv2, rfl⟩ := arrayModify_inv _ _ _ _ hp2
  have hlt : i < l.FacePrevStates.length := by
    rcases Nat.lt_or_ge i l.FacePrevStates.length with h1 | h1
    · exact h1
    · rw [List.getElem?_eq_none h1] at hv1
      cases hv1
  have hkeep : l1.FacePrevStates
      = (l.FacePrevStates.set i { v1 with flags := f.flags }).set i { v2 with tmap := f.tmap } := by
    split at h
    · rw [pure_ok_iff] at h
      rw [← h]
    · rw [bind_ok_iff] at h
      obtain ⟨_, _, h⟩ := h
      rw [bind_ok_iff] at h
      obtain ⟨tmap, _, h⟩ := h
      split at h
      · rw [bind_ok_iff] at h
        obtain ⟨_, _, h⟩ := h
        rw [pure_ok_iff] at h
        rw [← h]
      · split at h
        · rw [bind_ok_iff] at h
          obtain ⟨_, _, h⟩ := h
          split at h
          · rw [bind_ok_iff] at h
            obtain ⟨_, _, h⟩ := h
            rw [pure_ok_iff] at h
            rw [← h]
          · rw [bind_ok_iff] at h
            obtain ⟨_, _, h⟩ := h
            rw [pure_ok_iff] at h
            rw [← h]
        · rw [pure_ok_iff] at h
          rw [← h]
  have hv2eq : v2 = { v1 with flags := f.flags } := by
    rw [List.getElem?_set_self hlt] at hv2
    exact (Option.some.inj hv2).symm
  refine ⟨f, (arrayRead_iff _ _ _).1 hf, ?_, ?_, ?_⟩
  · rw [hkeep, List.length_set, List.length_set]
  · rw [hkeep, List.getElem?_set_self (by rw [List.length_set]; exact hlt), hv2eq]
  · intro j hj
    rw [hkeep, List.getElem?_set_ne (Ne.symm hj), List.getElem?_set_ne (Ne.symm hj)]

/-- The face loop of `UpdateRoomMesh` records the flags and the texture of every face it
runs over and leaves the other records alone. -/
theorem faces_prev (env : RenderEnv) (rp : newrender.room) (m : Nat) :
    ∀ (k i : Nat) (l l1 : FaceLists), UpdateRoomMesh_faces env rp m k i l = .ok l1 →
      l1.FacePrevStates.length = l.FacePrevStates.length ∧
      (∀ j, i ≤ j → j < i + k →
        ∃ f, rp.faces[j]? = some f ∧ l1.FacePrevStates[j]? = some ⟨f.flags, f.tmap⟩) ∧
      (∀ j, j < i → l1.FacePrevStates[j]? = l.FacePrevStates[j]?) := by
  intro k
  induction k with
  | zero =>
    intro i l l1 h
    rw [UpdateRoomMesh_faces, pure_ok_iff] at h
    subst h
    exact ⟨rfl, fun j h1 h2 => by omega, fun j _ => rfl⟩
  | succ k ih =>
    intro i l l1 h
    rw [UpdateRoomMesh_faces, bind_ok_iff] at h
    obtain ⟨l0, h0, h⟩ := h
    obtain ⟨f, hf, hlen0, hi0, hother0⟩ := face_prev env rp m i l l0 h0
    obtain ⟨hlen, hin, hbelow⟩ := ih (i + 1) l0 l1 h
    refine ⟨by rw [hlen, hlen0], ?_, ?_⟩
    · intro j h1 h2
      by_cases hj : j = i
      · subst hj
        exact ⟨f, hf, by rw [hbelow j (by omega), hi0]⟩
      · exact hin j (by omega) (by omega)
    · intro j hj
      rw [hbelow j (by omega), hother0 j (by omega)]

theorem setMesh_ok (s s1 : RenderState) (roomnum : Int) (f : RoomMesh → RoomMesh)
    (h : setMesh s roomnum f = .ok s1) :
    s1.Rooms = s.Rooms ∧
      ∃ m, elemAt s.Room_meshes roomnum = .ok m ∧ elemAt s1.Room_meshes roomnum = .ok (f m) := by
  unfold setMesh at h
  rw [bind_ok_iff] at h
  obtain ⟨n, hn, h⟩ := h
  rw [bind_ok_iff] at h
  obtain ⟨ms, hms, h⟩ := h
  rw [pure_ok_iff] at h
  subst h
  obtain ⟨m, hm, rfl⟩ := arrayModify_inv _ _ _ _ hms
  have h0 : 0 ≤ roomnum ∧ n = roomnum.toNat := by
    unfold arrayIndex at hn
    split at hn
    · cases hn
      exact ⟨by assumption, rfl⟩
    · cases hn
  obtain ⟨h0, rfl⟩ := h0
  have hlt : roomnum.toNat < s.Room_meshes.length := by
    rcases Nat.lt_or_ge roomnum.toNat s.Room_meshes.length with h1 | h1
    · exact h1
    · rw [List.getElem?_eq_none h1] at hm
      cases hm
  refine ⟨rfl, m, (elemAt_ok _ _ _).2 ⟨h0, hm⟩, (elemAt_ok _ _ _).2 ⟨h0, ?_⟩⟩
  exact List.getElem?_set_self hlt

theorem resizePrev_length (v v1 : List FacePrevState) (n : Int)
    (h : resizePrev v n = .ok v1) : 0 ≤ n ∧ v1.length = n.toNat := by
  unfold resizePrev at h
  split at h
  · rw [pure_ok_iff] at h
    subst h
    refine ⟨by assumption, ?_⟩
    rw [List.length_append, List.length_take, List.length_replicate]
    omega
  · cases h

/-- After `UpdateRoomMesh` of a room in use, the rooms are as they were and the mesh of
the room records one state per face, with the flags and the texture of the face. -/
theorem update_prev (env : RenderEnv) (mesh mesh1 : MeshBuilder)
    (roomnum indexOffset firstIndex : Int) (s s1 : RenderState) (rp : newrender.room)
    (hrp : elemAt s.Rooms roomnum = .ok rp) (hused : rp.used ≠ 0)
    (h : UpdateRoomMesh env mesh roomnum indexOffset firstIndex s = .ok (mesh1, s1)) :
    s1.Rooms = s.Rooms ∧
      ∃ m, elemAt s1.Room_meshes roomnum = .ok m ∧
        m.FacePrevStates.length = rp.num_faces.toNat ∧
        ∀ j, j < rp.num_faces.toNat →
          ∃ f, rp.faces[j]? = some f ∧ m.FacePrevStates[j]? = some ⟨f.flags, f.tmap⟩ := by
  unfold UpdateRoomMesh at h
  rw [bind_of_ok _ _ _ hrp, if_neg hused] at h
  rw [bind_ok_iff] at h
  obtain ⟨roommesh, _, h⟩ := h
  rw [bind_ok_iff] at h
  obtain ⟨prev, hprev, h⟩ := h
  rw [bind_ok_iff] at h
  obtain ⟨sa, hsa, h⟩ := h
  rw [bind_ok_iff] at h
  obtain ⟨mirror, _, h⟩ := h
  rw [bind_ok_iff] at h
  obtain ⟨l, hl, h⟩ := h
  rw [bind_ok_iff] at h
  obtain ⟨sb, hsb, h⟩ := h
  rw [bind_ok_iff] at h
  obtain ⟨mb, _, h⟩ := h
  rw [bind_ok_iff] at h
  obtain ⟨lit, _, h⟩ := h
  rw [bind_ok_iff] at h
  obtain ⟨sc, hsc, h⟩ := h
  rw [bind_ok_iff] at h
  obtain ⟨mc, _, h⟩ := h
  rw [bind_ok_iff] at h
  obtain ⟨unlit, _, h⟩ := h
  rw [bind_ok_iff] at h
  obtain ⟨sd, hsd, h⟩ := h
  rw [bind_ok_iff] at h
  obtain ⟨md, _, h⟩ := h
  rw [bind_ok_iff] at h
  obtain ⟨mirr, _, h⟩ := h
  rw [bind_ok_iff] at h
  obtain ⟨se, hse, h⟩ := h
  rw [bind_ok_iff] at h
  obtain ⟨me, _, h⟩ := h
  rw [bind_ok_iff] at h
  obtain ⟨spec, _, h⟩ := h
  rw [bind_ok_iff] at h
  obtain ⟨sf, hsf, h⟩ := h
  rw [pure_ok_iff] at h
  simp only [Prod.mk.injEq] at h
  obtain ⟨_, rfl⟩ := h
  have hlenp : prev.length = rp.num_faces.toNat := by
    split at hprev
    · exact (resizePrev_length _ _ _ hprev).2
    · rename_i heq
      rw [pure_ok_iff] at hprev
      subst hprev
      have : Int.ofNat roommesh.FacePrevStates.length = rp.num_faces := not_not.mp heq
      rw [← this]
      rfl
  obtain ⟨hlen, hin, _⟩ := faces_prev env rp mirror _ _ _ _ hl
  obtain ⟨ra, _⟩ := setMesh_ok _ _ _ _ hsa
  obtain ⟨rb, m1, _, hb⟩ := setMesh_ok _ _ _ _ hsb
  obtain ⟨rc, m2, hc0, hc⟩ := setMesh_ok _ _ _ _ hsc
  obtain ⟨rd, m3, hd0, hd⟩ := setMesh_ok _ _ _ _ hsd
  obtain ⟨re, m4, he0, he⟩ := setMesh_ok _ _ _ _ hse
  obtain ⟨rf, m5, hf0, hf⟩ := setMesh_ok _ _ _ _ hsf
  rw [hb] at hc0
  obtain rfl := Except.ok.inj hc0
  rw [hc] at hd0
  obtain rfl := Except.ok.inj hd0
  rw [hd] at he0
  obtain rfl := Except.ok.inj he0
  rw [he] at hf0
  obtain rfl := Except.ok.inj hf0
  refine ⟨by rw [rf, re, rd, rc, rb]; exact ra, _, hf, ?_, ?_⟩
  · show l.FacePrevStates.length = _
    rw [hlen]
    exact hlenp
  · intro j hj
    exact hin j (Nat.zero_le _) (by omega)

/-- The loop of `RoomNeedRemesh` answers `false` exactly when every face it runs over has
the `FF_DESTROYED` bit and the texture of its recorded state. -/
theorem need_false_iff (env : RenderEnv) (rp : newrender.room) (mesh : RoomMesh) :
    ∀ (k i : Nat), RoomNeedRemesh_loop env rp mesh k i = .ok false ↔
      ∀ j, i ≤ j → j < i + k →
        ∃ f p, rp.faces[j]? = some f ∧ mesh.FacePrevStates[j]? = some p ∧
          and32 f.flags env.FF_DESTROYED = and32 p.flags env.FF_DESTROYED ∧ f.tmap = p.tmap := by
  intro k
  induction k with
  | zero =>
    intro i
    rw [RoomNeedRemesh_loop]
    constructor
    · intro _ j h1 h2
      omega
    · intro _
      rfl
  | succ k ih =>
    intro i
    rw [RoomNeedRemesh_loop]
    constructor
    · intro h
      rw [bind_ok_iff] at h
      obtain ⟨f, hf, h⟩ := h
      rw [bind_ok_iff] at h
      obtain ⟨p, hp, h⟩ := h
      split at h
      · cases h
      · rename_i hbit
        split at h
        · cases h
        · rename_i htmap
          intro j h1 h2
          by_cases hj : j = i
          · subst hj
            exact ⟨f, p, (arrayRead_iff _ _ _).1 hf, (arrayRead_iff _ _ _).1 hp,
              not_not.mp hbit, not_not.mp htmap⟩
          · exact (ih (i + 1)).1 h j (by omega) (by omega)
    · intro h
      obtain ⟨f, p, hf, hp, hbit, htmap⟩ := h i (Nat.le_refl _) (by omega)
      rw [bind_of_ok _ _ _ ((arrayRead_iff _ _ _).2 hf),
        bind_of_ok _ _ _ ((arrayRead_iff _ _ _).2 hp), if_neg (not_not.mpr hbit),
        if_neg (not_not.mpr htmap)]
      exact (ih (i + 1)).2 fun j h1 h2 => h j (by omega) (by omega)

/-- The loop of `RoomNeedRemesh` answers when the faces and their recorded states are
there. -/
theorem need_total (env : RenderEnv) (rp : newrender.room) (mesh : RoomMesh) :
    ∀ (k i : Nat), i + k ≤ rp.faces.length → i + k ≤ mesh.FacePrevStates.length →
      ∃ b, RoomNeedRemesh_loop env rp mesh k i = .ok b := by
  intro k
  induction k with
  | zero =>
    intro i _ _
    exact ⟨false, rfl⟩
  | succ k ih =>
    intro i h1 h2
    have hf : rp.faces[i]? = some (rp.faces[i]) := List.getElem?_eq_getElem (by omega)
    have hp : mesh.FacePrevStates[i]? = some (mesh.FacePrevStates[i]) :=
      List.getElem?_eq_getElem (by omega)
    rw [RoomNeedRemesh_loop, bind_of_ok _ _ _ ((arrayRead_iff _ _ _).2 hf),
      bind_of_ok _ _ _ ((arrayRead_iff _ _ _).2 hp)]
    split
    · exact ⟨true, rfl⟩
    · split
      · exact ⟨true, rfl⟩
      · exact ih (i + 1) (by omega) (by omega)

/-- The loop of `RoomNeedRemesh` answers `true` exactly when some face it runs over has
not the `FF_DESTROYED` bit or not the texture of its recorded state. -/
theorem need_true_iff (env : RenderEnv) (rp : newrender.room) (mesh : RoomMesh) (k i : Nat)
    (h1 : i + k ≤ rp.faces.length) (h2 : i + k ≤ mesh.FacePrevStates.length) :
    RoomNeedRemesh_loop env rp mesh k i = .ok true ↔
      ∃ j, i ≤ j ∧ j < i + k ∧
        ∃ f p, rp.faces[j]? = some f ∧ mesh.FacePrevStates[j]? = some p ∧
          (and32 f.flags env.FF_DESTROYED ≠ and32 p.flags env.FF_DESTROYED ∨ f.tmap ≠ p.tmap) := by
  obtain ⟨b, hb⟩ := need_total env rp mesh k i h1 h2
  have hfalse := need_false_iff env rp mesh k i
  constructor
  · intro h
    by_contra hno
    have hall : RoomNeedRemesh_loop env rp mesh k i = .ok false := by
      rw [hfalse]
      intro j hj1 hj2
      have hf : rp.faces[j]? = some (rp.faces[j]) := List.getElem?_eq_getElem (by omega)
      have hp : mesh.FacePrevStates[j]? = some (mesh.FacePrevStates[j]) :=
        List.getElem?_eq_getElem (by omega)
      refine ⟨_, _, hf, hp, ?_, ?_⟩
      · by_contra hne
        exact hno ⟨j, hj1, hj2, _, _, hf, hp, Or.inl hne⟩
      · by_contra hne
        exact hno ⟨j, hj1, hj2, _, _, hf, hp, Or.inr hne⟩
    rw [h] at hall
    cases hall
  · rintro ⟨j, hj1, hj2, f, p, hf, hp, hdiff⟩
    cases b with
    | true => exact hb
    | false =>
      exfalso
      obtain ⟨f1, p1, hf1, hp1, hbit, htmap⟩ := hfalse.1 hb j hj1 hj2
      rw [hf] at hf1
      rw [hp] at hp1
      obtain rfl := Option.some.inj hf1
      obtain rfl := Option.some.inj hp1
      rcases hdiff with hd | hd
      · exact hd hbit
      · exact hd htmap

open newrender

/-- C28: triangle-fan indexing. (1) For a face of `n` vertices and the first index `b`,
the fan loop of `AddFacesToBuffer` and `AddSpecFacesToBuffer` makes exactly
`max (n - 2) 0` calls of `SetIndicies`, the one for `i = 2 + j` with the three indices
`b`, `b + i - 1`, `b + i` as `int` expressions; (2) when `b .. b + n - 1` are values of an
`int`, these are the integers `b`, `b + i - 1`, `b + i`, and all of them lie in
`[b, b + n - 1]`. (3) What the body of the loop of `AddFacesToBuffer` adds to the mesh
for one element is: calls that open or close a batch, one `AddVertex` for each of the
`n` vertices of the face, and the triangles of the fan with `b` the number of vertices
the builder answers before the first of these vertices is added, moved by `indexOffset`;
(4) the same holds in `AddSpecFacesToBuffer`, where the calls that close the batch
follow; (5) the body of `AddFacesToBuffer` runs to its end whenever the texture and the
face of the element exist, the face holds the vertices it counts, and every one of them
is a vertex of the room. (6) A call of `AddFacesToBuffer` that returns has added to the
mesh, for every element of the list, the `n` vertices of the face of the element followed
by the triangles of its fan, with `b` the number of vertices the builder answers before
the first of these vertices, moved by `indexOffset`; and what it added holds as many
triangles as the sum of `max (n - 2) 0` over the faces and as many vertices as the sum
of `n`: no other triangle, no other vertex. (7) The same holds of `AddSpecFacesToBuffer`.
(8) `AddFacesToBuffer` returns whenever the texture and the face of every element exist,
every face holds the vertices it counts, and every one of them is a vertex of the room;
(9) so does `AddSpecFacesToBuffer` when moreover, where the texture asks for smooth
specular normals and the face has a special face, that special face exists and holds a
normal for every vertex. -/
theorem triangle_fan_indexing (env : RenderEnv) (rp : newrender.room)
    (indexOffset firstIndex : Int) :
    (∀ (b n : Int) (mesh : MeshBuilder),
      fanLoop b (n - 2).toNat 2 mesh = mesh ++ (List.range (n - 2).toNat).map
        (fun (j : Nat) => MeshCall.SetIndicies 3
          [b, wrapInt (b + (2 + (j : Int)) - 1), wrapInt (b + (2 + (j : Int)))]) ∧
      (((n - 2).toNat : Nat) : Int) = max (n - 2) 0) ∧
    (∀ (b n : Int) (j : Nat), -2147483648 ≤ b → b + n - 1 < 2147483648 → j < (n - 2).toNat →
      wrapInt (b + (2 + (j : Int)) - 1) = b + (2 + (j : Int)) - 1 ∧
      wrapInt (b + (2 + (j : Int))) = b + (2 + (j : Int)) ∧
      b ≤ b + (2 + (j : Int)) - 1 ∧ b + (2 + (j : Int)) ≤ b + n - 1) ∧
    (∀ (element : SortableElement) (b b1 : FaceBatch),
      AddFacesToBuffer_element env rp indexOffset firstIndex element b = .ok b1 →
      ∃ (fp : newrender.face) (pre : List MeshCall) (vs : List RendVertex),
        elemAt rp.faces element.element = .ok fp ∧ vs.length = fp.num_verts.toNat ∧
        (∀ c ∈ pre, c.isBatch = true) ∧
        b1.mesh = b.mesh ++ pre ++ vs.map MeshCall.AddVertex ++
          (List.range (fp.num_verts - 2).toNat).map fun (j : Nat) =>
            MeshCall.SetIndicies 3
              [wrapInt (env.NumVertices (b.mesh ++ pre) + indexOffset),
               wrapInt (wrapInt (env.NumVertices (b.mesh ++ pre) + indexOffset)
                 + (2 + (j : Int)) - 1),
               wrapInt (wrapInt (env.NumVertices (b.mesh ++ pre) + indexOffset)
                 + (2 + (j : Int)))]) ∧
    (∀ (element : SortableElement)
        (st st1 : RendVertex × MeshBuilder × List SpecularDrawElement),
      AddSpecFacesToBuffer_element env rp indexOffset firstIndex element st = .ok st1 →
      ∃ (fp : newrender.face) (pre post : List MeshCall) (vs : List RendVertex),
        elemAt rp.faces element.element = .ok fp ∧ vs.length = fp.num_verts.toNat ∧
        (∀ c ∈ pre, c.isBatch = true) ∧ (∀ c ∈ post, c.isBatch = true) ∧
        st1.2.1 = st.2.1 ++ pre ++ vs.map MeshCall.AddVertex ++
          ((List.range (fp.num_verts - 2).toNat).map fun (j : Nat) =>
            MeshCall.SetIndicies 3
              [wrapInt (env.NumVertices (st.2.1 ++ pre) + indexOffset),
               wrapInt (wrapInt (env.NumVertices (st.2.1 ++ pre) + indexOffset)
                 + (2 + (j : Int)) - 1),
               wrapInt (wrapInt (env.NumVertices (st.2.1 ++ pre) + indexOffset)
                 + (2 + (j : Int)))])
          ++ post) ∧
    (∀ (element : SortableElement) (b : FaceBatch) (t : texture) (fp : newrender.face),
      elemAt env.GameTextures element.texturehandle = .ok t →
      elemAt rp.faces element.element = .ok fp →
      fp.num_verts.toNat ≤ fp.face_uvls.length →
      fp.num_verts.toNat ≤ fp.face_verts.length →
      (∀ vi ∈ fp.face_verts, 0 ≤ vi ∧ vi.toNat < rp.verts.length) →
      ∃ b1, AddFacesToBuffer_element env rp indexOffset firstIndex element b = .ok b1) ∧
    (∀ (mesh : MeshBuilder) (elements : List SortableElement)
        (interactions : List RoomDrawElement) (out : MeshBuilder × List RoomDrawElement),
      AddFacesToBuffer env mesh elements interactions rp indexOffset firstIndex = .ok out →
      ∃ (fps : List newrender.face) (tail : List MeshCall),
        List.Forall₂ (fun e fp => elemAt rp.faces e.element = .ok fp) elements fps ∧
        out.1 = mesh ++ tail ∧
        tail.countP MeshCall.isTriangle = (fps.map fun fp => (fp.num_verts - 2).toNat).sum ∧
        tail.countP MeshCall.isVertex = (fps.map fun fp => fp.num_verts.toNat).sum ∧
        ∀ p ∈ elements.zip fps, ∃ (before after : List MeshCall) (vs : List RendVertex),
          vs.length = p.2.num_verts.toNat ∧
          tail = before ++ vs.map MeshCall.AddVertex ++
            fanLoop (wrapInt (env.NumVertices (mesh ++ before) + indexOffset))
              (p.2.num_verts - 2).toNat 2 [] ++ after) ∧
    (∀ (mesh : MeshBuilder) (elements : List SortableElement)
        (interactions : List SpecularDrawElement)
        (out : MeshBuilder × List SpecularDrawElement),
      AddSpecFacesToBuffer env mesh elements interactions rp indexOffset firstIndex
        = .ok out →
      ∃ (fps : List newrender.face) (tail : List MeshCall),
        List.Forall₂ (fun e fp => elemAt rp.faces e.element = .ok fp) elements fps ∧
        out.1 = mesh ++ tail ∧
        tail.countP MeshCall.isTriangle = (fps.map fun fp => (fp.num_verts - 2).toNat).sum ∧
        tail.countP MeshCall.isVertex = (fps.map fun fp => fp.num_verts.toNat).sum ∧
        ∀ p ∈ elements.zip fps, ∃ (before after : List MeshCall) (vs : List RendVertex),
          vs.length = p.2.num_verts.toNat ∧
          tail = before ++ vs.map MeshCall.AddVertex ++
            fanLoop (wrapInt (env.NumVertices (mesh ++ before) + indexOffset))
              (p.2.num_verts - 2).toNat 2 [] ++ after) ∧
    (∀ (mesh : MeshBuilder) (elements : List SortableElement)
        (interactions : List RoomDrawElement),
      (∀ e ∈ elements, ∃ (t : texture) (fp : newrender.face),
        elemAt env.GameTextures e.texturehandle = .ok t ∧
        elemAt rp.faces e.element = .ok fp ∧
        fp.num_verts.toNat ≤ fp.face_uvls.length ∧
        fp.num_verts.toNat ≤ fp.face_verts.length ∧
        ∀ vi ∈ fp.face_verts, 0 ≤ vi ∧ vi.toNat < rp.verts.length) →
      ∃ out, AddFacesToBuffer env mesh elements interactions rp indexOffset firstIndex
        = .ok out) ∧
    (∀ (mesh : MeshBuilder) (elements : List SortableElement)
        (interactions : List SpecularDrawElement),
      (∀ e ∈ elements, ∃ (t : texture) (fp : newrender.face) (vn : List vector),
        elemAt env.GameTextures e.texturehandle = .ok t ∧
        elemAt rp.faces e.element = .ok fp ∧
        fp.num_verts.toNat ≤ fp.face_uvls.length ∧
        fp.num_verts.toNat ≤ fp.face_verts.length ∧
        (∀ vi ∈ fp.face_verts, 0 ≤ vi ∧ vi.toNat < rp.verts.length) ∧
        (and32 t.flags env.TF_SMOOTH_SPECULAR ≠ 0
            ∧ fp.special_handle ≠ env.BAD_SPECIAL_FACE_INDEX →
          elemAt env.SpecialFaces fp.special_handle = .ok vn
            ∧ fp.num_verts.toNat ≤ vn.length)) →
      ∃ out, AddSpecFacesToBuffer env mesh elements interactions rp indexOffset firstIndex
        = .ok out) := by
  refine ⟨?_, ?_, ?_, ?_, ?_, ?_, ?_, ?_, ?_⟩
  · intro b n mesh
    refine ⟨fanLoop_eq b _ 2 mesh, ?_⟩
    omega
  · intro b n j hb hn hj
    have h1 : wrapInt (b + (2 + (j : Int)) - 1) = b + (2 + (j : Int)) - 1 :=
      wrapInt_id _ (by omega) (by omega)
    have h2 : wrapInt (b + (2 + (j : Int))) = b + (2 + (j : Int)) :=
      wrapInt_id _ (by omega) (by omega)
    exact ⟨h1, h2, by omega, by omega⟩
  · intro element b b1 h
    exact element_mesh env rp indexOffset firstIndex element b b1 h
  · intro element st st1 h
    exact specElement_mesh env rp indexOffset firstIndex element st st1 h
  · intro element b t fp ht hfp hu hv hverts
    exact element_total env rp indexOffset firstIndex element b t fp ht hfp hu hv hverts
  · intro mesh elements interactions out h
    exact AddFacesToBuffer_mesh env rp indexOffset firstIndex mesh elements interactions out h
  · intro mesh elements interactions out h
    exact AddSpecFacesToBuffer_mesh env rp indexOffset firstIndex mesh elements interactions
      out h
  · intro mesh elements interactions hall
    exact AddFacesToBuffer_total env rp indexOffset firstIndex mesh elements interactions hall
  · intro mesh elements interactions hall
    exact AddSpecFacesToBuffer_total env rp indexOffset firstIndex mesh elements interactions
      hall

/-- Witness of C28 on the demo room, with index offset 10 and an empty mesh: the body of
either loop runs to its end on the quad, and the mesh holds four vertices and the two
triangles (10, 11, 12) and (10, 12, 13); `AddFacesToBuffer` and `AddSpecFacesToBuffer`
return on the quad and the triangle of the room, and the triangles of the mesh are
(10, 11, 12), (10, 12, 13) for the quad, whose vertices are the vertices 10 to 13, and
(14, 15, 16) for the triangle, whose vertices are the vertices 14 to 16. -/
theorem triangle_fan_indexing_witness :
    (wrapInt (10 + (2 + ((1 : Nat) : Int)) - 1) = 10 + (2 + ((1 : Nat) : Int)) - 1 ∧
      wrapInt (10 + (2 + ((1 : Nat) : Int))) = 10 + (2 + ((1 : Nat) : Int)) ∧
      (10 : Int) ≤ 10 + (2 + ((1 : Nat) : Int)) - 1 ∧
      (10 : Int) + (2 + ((1 : Nat) : Int)) ≤ 10 + 4 - 1) ∧
    (∃ (fp : newrender.face) (pre : List MeshCall) (vs : List RendVertex),
      elemAt demoRenderRoom.faces 0 = .ok fp ∧ vs.length = fp.num_verts.toNat ∧
      (∀ c ∈ pre, c.isBatch = true) ∧
      demoBatchAfter.mesh = demoBatch.mesh ++ pre ++ vs.map MeshCall.AddVertex ++
        (List.range (fp.num_verts - 2).toNat).map fun (j : Nat) =>
          MeshCall.SetIndicies 3
            [wrapInt (demoRenderEnv.NumVertices (demoBatch.mesh ++ pre) + 10),
             wrapInt (wrapInt (demoRenderEnv.NumVertices (demoBatch.mesh ++ pre) + 10)
               + (2 + (j : Int)) - 1),
             wrapInt (wrapInt (demoRenderEnv.NumVertices (demoBatch.mesh ++ pre) + 10)
               + (2 + (j : Int)))]) ∧
    (∃ (fp : newrender.face) (pre post : List MeshCall) (vs : List RendVertex),
      elemAt demoRenderRoom.faces 0 = .ok fp ∧ vs.length = fp.num_verts.toNat ∧
      (∀ c ∈ pre, c.isBatch = true) ∧ (∀ c ∈ post, c.isBatch = true) ∧
      demoSpecAfter.2.1 = [] ++ pre ++ vs.map MeshCall.AddVertex ++
        ((List.range (fp.num_verts - 2).toNat).map fun (j : Nat) =>
          MeshCall.SetIndicies 3
            [wrapInt (demoRenderEnv.NumVertices ([] ++ pre) + 10),
             wrapInt (wrapInt (demoRenderEnv.NumVertices ([] ++ pre) + 10)
               + (2 + (j : Int)) - 1),
             wrapInt (wrapInt (demoRenderEnv.NumVertices ([] ++ pre) + 10)
               + (2 + (j : Int)))])
        ++ post) ∧
    (∃ b1, AddFacesToBuffer_element demoRenderEnv demoRenderRoom 10 0 ⟨0, 0, 5⟩ demoBatch
      = .ok b1) ∧
    demoBatchAfter.mesh.drop 6
      = [MeshCall.SetIndicies 3 [10, 11, 12], MeshCall.SetIndicies 3 [10, 12, 13]] ∧
    (∃ (fps : List newrender.face) (tail : List MeshCall),
      List.Forall₂ (fun e fp => elemAt demoRenderRoom.faces e.element = .ok fp)
        demoElements fps ∧
      demoBufferAfter.1 = [] ++ tail ∧
      tail.countP MeshCall.isTriangle = (fps.map fun fp => (fp.num_verts - 2).toNat).sum ∧
      tail.countP MeshCall.isVertex = (fps.map fun fp => fp.num_verts.toNat).sum ∧
      ∀ p ∈ demoElements.zip fps, ∃ (before after : List MeshCall) (vs : List RendVertex),
        vs.length = p.2.num_verts.toNat ∧
        tail = before ++ vs.map MeshCall.AddVertex ++
          fanLoop (wrapInt (demoRenderEnv.NumVertices ([] ++ before) + 10))
            (p.2.num_verts - 2).toNat 2 [] ++ after) ∧
    (∃ (fps : List newrender.face) (tail : List MeshCall),
      List.Forall₂ (fun e fp => elemAt demoRenderRoom.faces e.element = .ok fp)
        demoElements fps ∧
      demoSpecBufferAfter.1 = [] ++ tail ∧
      tail.countP MeshCall.isTriangle = (fps.map fun fp => (fp.num_verts - 2).toNat).sum ∧
      tail.countP MeshCall.isVertex = (fps.map fun fp => fp.num_verts.toNat).sum ∧
      ∀ p ∈ demoElements.zip fps, ∃ (before after : List MeshCall) (vs : List RendVertex),
        vs.length = p.2.num_verts.toNat ∧
        tail = before ++ vs.map MeshCall.AddVertex ++
          fanLoop (wrapInt (demoRenderEnv.NumVertices ([] ++ before) + 10))
            (p.2.num_verts - 2).toNat 2 [] ++ after) ∧
    (∃ out, AddFacesToBuffer demoRenderEnv [] demoElements [] demoRenderRoom 10 0
      = .ok out) ∧
    (∃ out, AddSpecFacesToBuffer demoRenderEnv [] demoElements [] demoRenderRoom 10 0
      = .ok out) ∧
    AddFacesToBuffer demoRenderEnv [] demoElements [] demoRenderRoom 10 0
      = .ok demoBufferAfter ∧
    AddSpecFacesToBuffer demoRenderEnv [] demoElements [] demoRenderRoom 10 0
      = .ok demoSpecBufferAfter ∧
    demoBufferAfter.1.filter MeshCall.isTriangle
      = [MeshCall.SetIndicies 3 [10, 11, 12], MeshCall.SetIndicies 3 [10, 12, 13],
         MeshCall.SetIndicies 3 [14, 15, 16]] ∧
    demoSpecBufferAfter.1.filter MeshCall.isTriangle
      = [MeshCall.SetIndicies 3 [10, 11, 12], MeshCall.SetIndicies 3 [10, 12, 13],
         MeshCall.SetIndicies 3 [14, 15, 16]] ∧
    (demoBufferAfter.1.filter MeshCall.isVertex).length = 7 ∧
    (demoSpecBufferAfter.1.filter MeshCall.isVertex).length = 7 :=
  have h := triangle_fan_indexing demoRenderEnv demoRenderRoom 10 0
  ⟨h.2.1 10 4 1 (by decide) (by decide) (by decide),
    h.2.2.1 ⟨0, 0, 5⟩ demoBatch demoBatchAfter (by decide!),
    h.2.2.2.1 ⟨0, 0, 5⟩ (demoRenderEnv.uninit_vertex, [], []) demoSpecAfter (by decide!),
    h.2.2.2.2.1 ⟨0, 0, 5⟩ demoBatch ⟨0, 1065353216, 0, 0, 1⟩ demoQuad (by decide!)
      (by decide!) (by decide) (by decide) (by decide),
    by decide!,
    h.2.2.2.2.2.1 [] demoElements [] demoBufferAfter (by decide!),
    h.2.2.2.2.2.2.1 [] demoElements [] demoSpecBufferAfter (by decide!),
    h.2.2.2.2.2.2.2.1 [] demoElements [] (by
      intro e he
      simp only [demoElements, List.mem_cons, List.mem_singleton, List.not_mem_nil,
        or_false] at he
      rcases he with rfl | rfl
      · exact ⟨⟨0, 1065353216, 0, 0, 1⟩, demoQuad, by decide!, by decide!, by decide,
          by decide, by decide⟩
      · exact ⟨⟨32, 1065353216, 3, 4, 0⟩, demoTriangle, by decide!, by decide!, by decide,
          by decide, by decide⟩),
    h.2.2.2.2.2.2.2.2 [] demoElements [] (by
      intro e he
      simp only [demoElements, List.mem_cons, List.mem_singleton, List.not_mem_nil,
        or_false] at he
      rcases he with rfl | rfl
      · exact ⟨⟨0, 1065353216, 0, 0, 1⟩, demoQuad, [], by decide!, by decide!, by decide,
          by decide, by decide, fun hs => absurd hs.2 (by decide)⟩
      · exact ⟨⟨32, 1065353216, 3, 4, 0⟩, demoTriangle, [], by decide!, by decide!,
          by decide, by decide, by decide, fun hs => absurd hs.2 (by decide)⟩),
    by decide!, by decide!, by decide!, by decide!, by decide!, by decide!⟩

open newrender

/-- C29: the remesh check after a mesh update. (1) For a room in use, after
`UpdateRoomMesh` of the room has run to its end the rooms are as they were, the
`FacePrevStates` of the mesh of the room has one entry per face (`num_faces` entries),
the entry of face `j` holding the flags and the texture of that face, and
`RoomNeedRemesh` of the room returns `false`. (2) `RoomNeedRemesh` returns `false`
exactly when every face of the room has the `FF_DESTROYED` bit and the texture of its
recorded state, and, the faces and their recorded states being there, it returns `true`
exactly when some face has not the `FF_DESTROYED` bit or not the texture of its recorded
state. -/
theorem remesh_fixed_point (env : RenderEnv) :
    (∀ (mesh mesh1 : MeshBuilder) (roomnum indexOffset firstIndex : Int) (s s1 : RenderState)
        (rp : newrender.room),
      elemAt s.Rooms roomnum = .ok rp → rp.used ≠ 0 →
      UpdateRoomMesh env mesh roomnum indexOffset firstIndex s = .ok (mesh1, s1) →
      s1.Rooms = s.Rooms ∧
      (∃ m, elemAt s1.Room_meshes roomnum = .ok m ∧
        m.FacePrevStates.length = rp.num_faces.toNat ∧
        ∀ j, j < rp.num_faces.toNat →
          ∃ f, rp.faces[j]? = some f ∧ m.FacePrevStates[j]? = some ⟨f.flags, f.tmap⟩) ∧
      RoomNeedRemesh env s1 roomnum = .ok false) ∧
    (∀ (s : RenderState) (roomnum : Int) (rp : newrender.room) (m : RoomMesh),
      elemAt s.Rooms roomnum = .ok rp → elemAt s.Room_meshes roomnum = .ok m →
      (RoomNeedRemesh env s roomnum = .ok false ↔
        ∀ j, j < rp.num_faces.toNat →
          ∃ f p, rp.faces[j]? = some f ∧ m.FacePrevStates[j]? = some p ∧
            and32 f.flags env.FF_DESTROYED = and32 p.flags env.FF_DESTROYED ∧
            f.tmap = p.tmap) ∧
      (rp.num_faces.toNat ≤ rp.faces.length → rp.num_faces.toNat ≤ m.FacePrevStates.length →
        (RoomNeedRemesh env s roomnum = .ok true ↔
          ∃ j, j < rp.num_faces.toNat ∧
            ∃ f p, rp.faces[j]? = some f ∧ m.FacePrevStates[j]? = some p ∧
              (and32 f.flags env.FF_DESTROYED ≠ and32 p.flags env.FF_DESTROYED
                ∨ f.tmap ≠ p.tmap)))) := by
  have hneed : ∀ (s : RenderState) (roomnum : Int) (rp : newrender.room) (m : RoomMesh),
      elemAt s.Rooms roomnum = .ok rp → elemAt s.Room_meshes roomnum = .ok m →
      RoomNeedRemesh env s roomnum = RoomNeedRemesh_loop env rp m rp.num_faces.toNat 0 := by
    intro s roomnum rp m hrp hm
    unfold RoomNeedRemesh
    rw [bind_of_ok _ _ _ hrp, bind_of_ok _ _ _ hm]
  constructor
  · intro mesh mesh1 roomnum indexOffset firstIndex s s1 rp hrp hused h
    obtain ⟨hrooms, m, hm, hlen, hin⟩ :=
      update_prev env mesh mesh1 roomnum indexOffset firstIndex s s1 rp hrp hused h
    refine ⟨hrooms, ⟨m, hm, hlen, hin⟩, ?_⟩
    rw [hneed s1 roomnum rp m (by rw [hrooms]; exact hrp) hm, need_false_iff]
    intro j _ hj
    obtain ⟨f, hf, hp⟩ := hin j (by omega)
    exact ⟨f, _, hf, hp, rfl, rfl⟩
  · intro s roomnum rp m hrp hm
    rw [hneed s roomnum rp m hrp hm]
    constructor
    · rw [need_false_iff]
      constructor
      · intro h j hj
        exact h j (Nat.zero_le _) (by omega)
      · intro h j _ hj
        exact h j (by omega)
    · intro h1 h2
      rw [need_true_iff env rp m _ 0 (by omega) (by omega)]
      constructor
      · rintro ⟨j, _, hj, hrest⟩
        exact ⟨j, by omega, hrest⟩
      · rintro ⟨j, hj, hrest⟩
        exact ⟨j, Nat.zero_le _, by omega, hrest⟩

/-- Witness of C29 on the demo level: after `UpdateRoomMesh` of room 0 the two faces are
recorded and `RoomNeedRemesh` returns `false`; once the texture of the triangle has
changed, `RoomNeedRemesh` returns `true` and a face differs from its recorded state. -/
theorem remesh_fixed_point_witness :
    (demoMeshed.2.Rooms = demoRenderState.Rooms ∧
      (∃ m, elemAt demoMeshed.2.Room_meshes 0 = .ok m ∧
        m.FacePrevStates.length = demoRenderRoom.num_faces.toNat ∧
        ∀ j, j < demoRenderRoom.num_faces.toNat →
          ∃ f, demoRenderRoom.faces[j]? = some f ∧
            m.FacePrevStates[j]? = some ⟨f.flags, f.tmap⟩) ∧
      RoomNeedRemesh demoRenderEnv demoMeshed.2 0 = .ok false) ∧
    RoomNeedRemesh demoRenderEnv demoRetextured 0 = .ok true ∧
    (∃ j, j < (answered (elemAt demoRetextured.Rooms 0) demoRenderRoom).num_faces.toNat ∧
      ∃ f p, (answered (elemAt demoRetextured.Rooms 0) demoRenderRoom).faces[j]? = some f ∧
        (answered (elemAt demoRetextured.Room_meshes 0)
          ⟨0, [], [], [], [], []⟩).FacePrevStates[j]? = some p ∧
        (and32 f.flags demoRenderEnv.FF_DESTROYED ≠ and32 p.flags demoRenderEnv.FF_DESTROYED
          ∨ f.tmap ≠ p.tmap)) :=
  have h := remesh_fixed_point demoRenderEnv
  ⟨h.1 [] demoMeshed.1 0 0 0 demoRenderState demoMeshed.2 demoRenderRoom (by decide!)
      (by decide) (by decide!),
    by decide!,
    ((h.2 demoRetextured 0 (answered (elemAt demoRetextured.Rooms 0) demoRenderRoom)
      (answered (elemAt demoRetextured.Room_meshes 0) ⟨0, [], [], [], [], []⟩)
      (by decide!) (by decide!)).2 (by decide!) (by decide!)).1 (by decide!)⟩

open newrender

/-- C30: the table of visited rooms is one entry short. In a level whose
`Highest_room_index` is `h`, a number that is not negative, `GatherVisible` sizes
`RoomChecked` to `h` entries, so that the entries are those of the rooms `0 .. h - 1`:
`AddRoom` marks the entry of every view room `r < h`, and for the view room `h`, the
room `Highest_room_index` itself, the entry that `AddRoom` marks lies outside of the
table, and so `GatherVisible` of that view room faults at its first call of `AddRoom`,
whatever the list held before and whatever rooms are pending. -/
theorem view_room_beyond_table (env : ListEnv) (h fuel : Nat) (l : RenderList) :
    resizeChecked (h : Int) = .ok (List.replicate h false) ∧
    (∀ r : Fin h,
      AddRoom { l with RoomChecked := List.replicate h false, VisibleRoomNums := [],
                       CurrentCheck := 0 } (r.val : Int)
        = .ok { RoomChecked := (List.replicate h false).set r.val true,
                VisibleRoomNums := [(r.val : Int)], CurrentCheck := 0 }) ∧
    AddRoom { l with RoomChecked := List.replicate h false, VisibleRoomNums := [],
                     CurrentCheck := 0 } (h : Int) = .error .outOfRange ∧
    GatherVisible env (h : Int) fuel l (h : Int) = .error .outOfRange := by
  have hresize : resizeChecked (h : Int) = .ok (List.replicate h false) := by
    unfold resizeChecked
    rw [if_pos (Int.ofNat_nonneg h)]
    rfl
  have hout :
      AddRoom { l with RoomChecked := List.replicate h false, VisibleRoomNums := [],
                       CurrentCheck := 0 } (h : Int) = .error .outOfRange := by
    unfold AddRoom arrayIndex
    rw [if_pos (Int.ofNat_nonneg h), bind_of_ok _ _ _ rfl]
    have hnone : (List.replicate h false)[((h : Int)).toNat]? = none := by
      rw [List.getElem?_eq_none]
      simp
    unfold arrayModify
    simp only [hnone]
    rfl
  refine ⟨hresize, ?_, hout, ?_⟩
  · intro r
    unfold AddRoom arrayIndex
    rw [if_pos (Int.ofNat_nonneg r.val), bind_of_ok _ _ _ rfl]
    have hsome : (List.replicate h false)[((r.val : Nat) : Int).toNat]? = some false := by
      simp [List.getElem?_replicate, r.isLt]
    unfold arrayModify
    simp only [hsome]
    simp [bind, Except.bind, pure, Except.pure]
  · unfold GatherVisible
    rw [bind_of_ok _ _ _ hresize]
    simp only [ge_iff_le, Int.ofNat_nonneg, Nat.cast_nonneg, if_true, hout]
    rfl

end Descent3
